import Mathlib

/-!
# uPNA flow accounting: a shallow embedding and its properties

The definitions below follow the C sources of the user-space PNA module
(`pna_domain_trie.c`, `pna_main.c`, `pna_flowmon.c`, `dump_table.c`,
`pna.h`).  Machine integers are natural numbers with explicit wrap-around;
pointers to heap nodes are an inductive type with a `null` constructor; global
variables are fields of an explicit state.  Where the C standard leaves a choice to the
platform, the model follows x86-64 Linux with GCC: `int` and `unsigned int`
are 32-bit, `long` and `time_t` are 64-bit, structures have natural alignment,
multi-byte loads are little-endian, and `malloc` is taken to succeed.
-/

namespace PNA

/-! ## Machine words -/

/-- Two to the 32: the number of values of an `unsigned int`. -/
def U32 : Nat := 4294967296

/-- Two to the 16: the number of values of an `unsigned short`. -/
def U16 : Nat := 65536

/-- MAX_DOMAIN of `pna.h`. -/
def MAX_DOMAIN : Nat := 0xFFFF

/-- Right shift of an `unsigned int` by an `unsigned int` amount.  C leaves a
shift by 32 or more undefined; the x86 `shr` instruction uses the low five
bits of the count, which is what is modelled here. -/
def shr32 (x n : Nat) : Nat := x >>> (n % 32)

/-- The `unsigned int` subtraction `a - b`. -/
def sub32 (a b : Nat) : Nat := (a + U32 - b % U32) % U32

/-! ## Domain trie (`pna_domain_trie.c`) -/

/-- A `struct pna_dtrie_entry *`: either NULL or a node with its `isprefix`
flag, its `domain_id` and `children[0]`, `children[1]`. -/
inductive pna_dtrie_entry where
  | null : pna_dtrie_entry
  | node ( isprefix : Nat) (domain_id : Nat) (child0 child1 : pna_dtrie_entry) :
      pna_dtrie_entry
  deriving DecidableEq, Repr

/-- Model of `pna_dtrie_entry_alloc`: a fresh node, `domain_id = MAX_DOMAIN`,
`isprefix = 0`, both children NULL (allocation is taken to succeed). -/
def pna_dtrie_entry_alloc : pna_dtrie_entry :=
  .node 0 MAX_DOMAIN .null .null

/-- Model of `pna_dtrie_init`: the head is a freshly allocated node. -/
def pna_dtrie_init : pna_dtrie_entry := pna_dtrie_entry_alloc

/-- The expression `(ip >> (31 - cur_bit_pos)) & 0x1` on `unsigned int`. -/
def cur_bit (ip cur_bit_pos : Nat) : Nat :=
  shr32 ip (sub32 31 cur_bit_pos) &&& 1

/-- The `while (next_entry)` loop of `pna_dtrie_lookup`: the first argument
is `next_entry`, then `cur_bit_pos` and `curdomain` on entry to the test. -/
def pna_dtrie_lookup_loop (ip : Nat) : pna_dtrie_entry → Nat → Nat → Nat
  | .null, _, curdomain => curdomain
  | .node isp dom c0 c1, cur_bit_pos, curdomain =>
      let curdomain1 := if isp ≠ 0 then dom else curdomain
      let pos1 := cur_bit_pos + 1
      if cur_bit ip pos1 = 0 then pna_dtrie_lookup_loop ip c0 pos1 curdomain1
      else pna_dtrie_lookup_loop ip c1 pos1 curdomain1

/-- Model of `pna_dtrie_lookup` on the trie rooted at `head`. -/
def pna_dtrie_lookup (head : pna_dtrie_entry) (ip : Nat) : Nat :=
  match head with
  | .null => MAX_DOMAIN
  | .node _ _ c0 c1 =>
      if cur_bit ip 0 = 0 then pna_dtrie_lookup_loop ip c0 0 MAX_DOMAIN
      else pna_dtrie_lookup_loop ip c1 0 MAX_DOMAIN

/-- The statement `if (!next) next = pna_dtrie_entry_alloc();`. -/
def alloc_if_null : pna_dtrie_entry → pna_dtrie_entry
  | .null => pna_dtrie_entry_alloc
  | t => t

/-- The two stores after the loop of `pna_dtrie_add`: `cur->isprefix = 1;
cur->domain_id = domain_id;` (`domain_id` is an `unsigned short` field). -/
def set_prefix (domain_id : Nat) : pna_dtrie_entry → pna_dtrie_entry
  | .null => .null
  | .node _ _ c0 c1 => .node 1 (domain_id % U16) c0 c1

/-- The `while (cur_bit_pos < max_bit_pos)` loop of `pna_dtrie_add` followed
by the two stores; the first argument counts the iterations that remain,
`max_bit_pos - cur_bit_pos`, and the result is the updated node `cur`. -/
def pna_dtrie_add_loop (pfx domain_id : Nat) : Nat → Nat → pna_dtrie_entry → pna_dtrie_entry
  | 0, _, cur => set_prefix domain_id cur
  | _ + 1, _, .null => .null
  | n + 1, cur_bit_pos, .node isp dom c0 c1 =>
      if cur_bit pfx cur_bit_pos = 0 then
        .node isp dom (pna_dtrie_add_loop pfx domain_id n (cur_bit_pos + 1) (alloc_if_null c0)) c1
      else
        .node isp dom c0 (pna_dtrie_add_loop pfx domain_id n (cur_bit_pos + 1) (alloc_if_null c1))

/-- The mask computed by `pna_dtrie_add`:
`0xffffffff - ((1 << (32 - max_bit_pos)) - 1)`. -/
def dtrie_mask (max_bit_pos : Nat) : Nat :=
  sub32 0xffffffff (sub32 ((1 <<< (32 - max_bit_pos)) % U32) 1)

/-- Model of `pna_dtrie_add`: returns the return code (0 or -1) and the new head. -/
def pna_dtrie_add (head : pna_dtrie_entry) (pfx max_bit_pos domain_id : Nat) :
    Int × pna_dtrie_entry :=
  if ¬ (0 < max_bit_pos ∧ max_bit_pos ≤ 32) then (-1, head)
  else
    let mask := dtrie_mask max_bit_pos
    let pfx1 := if pfx &&& mask ≠ pfx then pfx &&& mask else pfx
    (0, pna_dtrie_add_loop pfx1 domain_id max_bit_pos 0 head)

/-! ## Flow keys and localisation (`pna.h`, `pna_main.c`) -/

/-- The `struct pna_flowkey` of `pna.h`.  With natural alignment its fields
sit at byte offsets 0 (`l3_protocol`), 2 (`l4_protocol`), 4, 8 (the two
addresses), 12, 14 (the two ports), 16 and 18 (the two domains); byte 3 is
padding and the structure is 20 bytes long. -/
structure pna_flowkey where
  l3_protocol : Nat
  l4_protocol : Nat
  local_ip : Nat
  remote_ip : Nat
  local_port : Nat
  remote_port : Nat
  local_domain : Nat
  remote_domain : Nat
  deriving DecidableEq, Repr

/-- PNA_DIR_OUTBOUND of `pna.h`. -/
def PNA_DIR_OUTBOUND : Fin 2 := 0

/-- PNA_DIR_INBOUND of `pna.h`. -/
def PNA_DIR_INBOUND : Fin 2 := 1

/-- Model of `pna_session_swap`: exchanges local and remote address, port and domain. -/
def pna_session_swap (key : pna_flowkey) : pna_flowkey :=
  { key with
    local_ip := key.remote_ip, remote_ip := key.local_ip,
    local_port := key.remote_port, remote_port := key.local_port,
    local_domain := key.remote_domain, remote_domain := key.local_domain }

/-- Model of `pna_localize`: the return value, the key and `*direction` afterwards.
The two domain fields are `unsigned short`. -/
def pna_localize (head : pna_dtrie_entry) (key : pna_flowkey) (direction : Fin 2) :
    Int × pna_flowkey × Fin 2 :=
  let key1 := { key with local_domain := pna_dtrie_lookup head key.local_ip % U16 }
  let key2 := { key1 with remote_domain := pna_dtrie_lookup head key1.remote_ip % U16 }
  if key2.local_domain < key2.remote_domain then
    (1, key2, PNA_DIR_OUTBOUND)
  else if key2.local_domain > key2.remote_domain then
    (1, pna_session_swap key2, PNA_DIR_INBOUND)
  else
    if key2.local_domain = MAX_DOMAIN then (0, key2, direction)
    else if key2.local_ip < key2.remote_ip then (1, key2, PNA_DIR_OUTBOUND)
    else (1, pna_session_swap key2, PNA_DIR_INBOUND)

/-! ## Flow tables (`pna.h`, `pna_flowmon.c`) -/

/-- An array of PNA_DIRECTIONS = 2 counters. -/
structure dir_pair where
  out : Nat
  inb : Nat
  deriving DecidableEq, Repr

/-- Array read `a[direction]`. -/
def dir_pair.get (a : dir_pair) (direction : Fin 2) : Nat :=
  if direction = 0 then a.out else a.inb

/-- Array write `a[direction] = v`. -/
def dir_pair.set (a : dir_pair) (direction : Fin 2) (v : Nat) : dir_pair :=
  if direction = 0 then { a with out := v } else { a with inb := v }

/-- The `struct pna_flow_data` of `pna.h`. -/
structure pna_flow_data where
  bytes : dir_pair
  packets : dir_pair
  flags : dir_pair
  timestamp : Nat
  first_tstamp : Nat
  last_tstamp : Nat
  first_dir : Nat
  deriving DecidableEq, Repr

/-- The `struct flow_entry` of `pna.h`. -/
structure flow_entry where
  key : pna_flowkey
  data : pna_flow_data
  deriving DecidableEq, Repr

/-- The static `null_key` of `pna_flowmon.c` (all fields zero). -/
def null_key : pna_flowkey :=
  { l3_protocol := 0, l4_protocol := 0, local_ip := 0, remote_ip := 0,
    local_port := 0, remote_port := 0, local_domain := 0, remote_domain := 0 }

/-- A flow entry after `memset(..., 0, ...)`. -/
def zero_entry : flow_entry :=
  { key := null_key,
    data := { bytes := ⟨0, 0⟩, packets := ⟨0, 0⟩, flags := ⟨0, 0⟩, timestamp := 0,
              first_tstamp := 0, last_tstamp := 0, first_dir := 0 } }

/-- ETH_OVERHEAD of `pna.h`: 12 + 8 + 14 + 4. -/
def ETH_OVERHEAD : Nat := 12 + 8 + 14 + 4

/-- PNA_TABLE_TRIES of `pna.h`. -/
def PNA_TABLE_TRIES : Nat := 32

/-- PNA_FLOW_ENTRIES of `pna.h`: `1 << bits`. -/
def PNA_FLOW_ENTRIES (bits : Nat) : Nat := 1 <<< bits

/-- The `struct flowtab_info` of `pna.h`.  `flowtab` is the array of
`PNA_FLOW_ENTRIES(pna_bits)` entries at `table_base`; `read_mutex` is `true`
while the mutex is locked. -/
structure flowtab_info where
  flowtab : Nat → flow_entry
  read_mutex : Bool
  table_dirty : Int
  table_id : Nat
  first_sec : Nat
  smp_id : Int
  nflows : Nat
  nflows_missed : Nat
  probes : Nat → Nat

/-- The configuration globals of `pna.c`. -/
structure pna_config where
  pna_tables : Nat
  pna_bits : Nat

/-- The globals of `pna_flowmon.c`: the array `flowtab_info` (here `tables`),
`flowtab_idx` and the static `lock_misses` of `flowtab_get`.  `dumps` records
every call of `dump_table` made so far: the `table_id` and the table contents
it was handed. -/
structure flowmon_state where
  tables : Nat → flowtab_info
  flowtab_idx : Nat
  lock_misses : Nat
  dumps : List (Nat × (Nat → flow_entry))

/-- Store into one element of an array. -/
def upd {α : Type} (f : Nat → α) (i : Nat) (v : α) : Nat → α :=
  fun j => if j = i then v else f j

/-- Conversion of a `time_t` (a signed `long`) to `unsigned int`. -/
def to_u32 (t : Int) : Nat := (t % 4294967296).toNat

/-- Model of `flowtab_clean`: zero the table and reset its meta-data. -/
def flowtab_clean (info : flowtab_info) : flowtab_info :=
  { info with
    flowtab := fun _ => zero_entry, table_dirty := 0, first_sec := 0, smp_id := 0,
    nflows := 0, nflows_missed := 0 }

/-- Model of `flowtab_dump` on `flowtab_info[idx]`: hand the table to `dump_table`,
clean it, unlock its mutex. -/
def flowtab_dump (s : flowmon_state) (idx : Nat) : flowmon_state :=
  let info := s.tables idx
  let dumps1 := s.dumps ++ [(info.table_id, info.flowtab)]
  let info1 := flowtab_clean info
  let info2 := { info1 with read_mutex := false }
  { s with tables := upd s.tables idx info2, dumps := dumps1 }

/-- The statement `flowtab_idx = (flowtab_idx + 1) % pna_tables;`. -/
def flowtab_next (cfg : pna_config) (s : flowmon_state) : flowmon_state :=
  { s with flowtab_idx := (s.flowtab_idx + 1) % cfg.pna_tables }

/-- The loop `while (pthread_mutex_trylock(&info->read_mutex) && i < pna_tables)`
of `flowtab_get`.  The first argument is `pna_tables - i`.  Returns the final
`i` and the state (a successful trylock leaves the mutex locked). -/
def flowtab_get_lock (cfg : pna_config) : Nat → Nat → flowmon_state → Nat × flowmon_state
  | n, i, s =>
    let info := s.tables s.flowtab_idx
    if info.read_mutex = false then
      (i, { s with tables := upd s.tables s.flowtab_idx { info with read_mutex := true } })
    else
      match n with
      | 0 => (i, s)
      | m + 1 =>
        flowtab_get_lock cfg m (i + 1) (flowtab_next cfg s)

/-- The test `ten_bound || too_old` of `flowtab_get` for a table whose
`first_sec` is given and a packet of second `tv_sec`.  `tv.tv_sec` is a 64-bit
signed `long`, so the `unsigned int` `first_sec` is converted to `long` in
both the comparison and the subtraction; `%` is C's remainder. -/
def rotation_due (first_sec : Nat) (tv_sec : Int) : Bool :=
  let ten_bound := decide (Int.tmod tv_sec 10 = 0 ∧ tv_sec ≠ (first_sec : Int))
  let too_old := decide (tv_sec - (first_sec : Int) ≥ 10)
  ten_bound || too_old

/-- The part of `flowtab_get` from "check if table is locked" on: the
trylock loop, the `i == pna_tables` exit with NULL, and the marking of a clean
table as dirty. -/
def flowtab_get_claim (cfg : pna_config) (s : flowmon_state) (tv_sec : Int) :
    flowmon_state × Option Nat :=
  let r := flowtab_get_lock cfg cfg.pna_tables 0 s
  if r.1 = cfg.pna_tables then
    let misses := (r.2.lock_misses + 1) % U32
    ({ r.2 with lock_misses := if misses ≥ 1000 then 0 else misses }, none)
  else
    let info := r.2.tables r.2.flowtab_idx
    let info1 := if info.table_dirty = 0 then
        { info with first_sec := to_u32 tv_sec, table_dirty := 1, smp_id := 0 }
      else info
    ({ r.2 with tables := upd r.2.tables r.2.flowtab_idx info1 }, some r.2.flowtab_idx)

/-- Model of `flowtab_get`: the new state and the index of the table returned, or
`none` for NULL. -/
def flowtab_get (cfg : pna_config) (s : flowmon_state) (tv_sec : Int) :
    flowmon_state × Option Nat :=
  let info := s.tables s.flowtab_idx
  if info.table_dirty ≠ 0 ∧ rotation_due info.first_sec tv_sec = true then
    flowtab_get_claim cfg (flowtab_next cfg (flowtab_dump s s.flowtab_idx)) tv_sec
  else if info.table_dirty ≠ 0 then
    (s, some s.flowtab_idx)
  else
    flowtab_get_claim cfg s tv_sec

/-- The static inline `flowkey_match` of `pna_flowmon.c`: it compares the
first two 64-bit words of the two keys, that is bytes 0 to 15, which hold
`l3_protocol`, `l4_protocol`, the padding byte, both addresses and both ports
but not the two domains (bytes 16 to 19).  The padding byte is zero in every
key the program builds (`memset` in `pna_hook`, `flowtab_clean`) and is not
represented. -/
def flowkey_match (key_a key_b : pna_flowkey) : Bool :=
  decide (key_a.l3_protocol = key_b.l3_protocol ∧ key_a.l4_protocol = key_b.l4_protocol ∧
    key_a.local_ip = key_b.local_ip ∧ key_a.remote_ip = key_b.remote_ip ∧
    key_a.local_port = key_b.local_port ∧ key_a.remote_port = key_b.remote_port)

/-- GOLDEN_RATIO_PRIME_32 of `pna_main.c`. -/
def GOLDEN_RATIO_PRIME_32 : Nat := 0x9e370001

/-- Model of `hash_32` of `pna_main.c`. -/
def hash_32 (val bits : Nat) : Nat :=
  let hash := (val * GOLDEN_RATIO_PRIME_32) % U32
  shr32 hash (sub32 32 bits)

/-- The value `hash_0` computed at the start of `flowmon_hook`. -/
def flow_hash_0 (cfg : pna_config) (key : pna_flowkey) : Nat :=
  let hash := (key.local_ip ^^^ key.remote_ip) % U32
  let hash1 := hash ^^^ ((((key.remote_port <<< 16) % U32) ||| key.local_port) % U32)
  hash_32 hash1 cfg.pna_bits

/-- The slot visited by probe `i`:
`(hash_0 + ((i + i * i) >> 1)) & (PNA_FLOW_ENTRIES(pna_bits) - 1)`. -/
def probe_slot (cfg : pna_config) (hash_0 i : Nat) : Nat :=
  ((hash_0 + ((i + i * i) >>> 1)) % U32) &&& (PNA_FLOW_ENTRIES cfg.pna_bits - 1)

/-- The flow data after the update branch of `flowmon_hook`. -/
def flow_update (data : pna_flow_data) (direction : Fin 2) (flags pkt_len : Nat)
    (tv_sec : Int) : pna_flow_data :=
  { data with
    bytes := data.bytes.set direction
      ((data.bytes.get direction + (pkt_len + ETH_OVERHEAD) % U32) % U32),
    packets := data.packets.set direction ((data.packets.get direction + 1) % U32),
    flags := data.flags.set direction (data.flags.get direction ||| flags),
    last_tstamp := to_u32 tv_sec }

/-- The flow data after the insert branch of `flowmon_hook`. -/
def flow_insert (data : pna_flow_data) (direction : Fin 2) (flags pkt_len : Nat)
    (tv_sec : Int) : pna_flow_data :=
  { data with
    bytes := data.bytes.set direction
      ((data.bytes.get direction + (pkt_len + ETH_OVERHEAD) % U32) % U32),
    packets := data.packets.set direction ((data.packets.get direction + 1) % U32),
    flags := data.flags.set direction (data.flags.get direction ||| flags),
    first_tstamp := to_u32 tv_sec,
    last_tstamp := to_u32 tv_sec,
    first_dir := direction.val }

/-- The `for (i = 0; i < PNA_TABLE_TRIES; i++)` loop of `flowmon_hook` on the
table `info`.  The first argument is `PNA_TABLE_TRIES - i`.  The result is
`some 0` or `some 1` when the loop returned from inside, `none` when it ran
to its end, together with the table afterwards. -/
def flowmon_probe (cfg : pna_config) (key : pna_flowkey) (direction : Fin 2)
    (flags pkt_len : Nat) (tv_sec : Int) (hash_0 : Nat) :
    Nat → Nat → flowtab_info → Option Int × flowtab_info
  | 0, _, info => (none, info)
  | n + 1, i, info =>
    let hash := probe_slot cfg hash_0 i
    let info1 := { info with probes := upd info.probes i ((info.probes i + 1) % U32) }
    let flow := info1.flowtab hash
    if flowkey_match flow.key key = true then
      let flow1 := { flow with data := flow_update flow.data direction flags pkt_len tv_sec }
      (some 0, { info1 with flowtab := upd info1.flowtab hash flow1 })
    else if flowkey_match flow.key null_key = true then
      let flow1 : flow_entry :=
        { key := key, data := flow_insert flow.data direction flags pkt_len tv_sec }
      (some 1, { info1 with flowtab := upd info1.flowtab hash flow1,
                            nflows := (info1.nflows + 1) % U32 })
    else
      flowmon_probe cfg key direction flags pkt_len tv_sec hash_0 n (i + 1) info1

/-- Model of `flowmon_hook` (its `pkt` argument is not used by the source): the return
value and the state afterwards. -/
def flowmon_hook (cfg : pna_config) (s : flowmon_state) (key : pna_flowkey)
    (direction : Fin 2) (flags pkt_len : Nat) (tv_sec : Int) : Int × flowmon_state :=
  match flowtab_get cfg s tv_sec with
  | (s1, none) => (-1, s1)
  | (s1, some idx) =>
    let hash_0 := flow_hash_0 cfg key
    match flowmon_probe cfg key direction flags pkt_len tv_sec hash_0 PNA_TABLE_TRIES 0
        (s1.tables idx) with
    | (some ret, info1) => (ret, { s1 with tables := upd s1.tables idx info1 })
    | (none, info1) =>
      let info2 := { info1 with nflows_missed := (info1.nflows_missed + 1) % U32 }
      (-1, { s1 with tables := upd s1.tables idx info2 })

/-- The state after `flowmon_init` (allocation is taken to succeed): every
table zeroed by `flowtab_clean`, `table_id = i`, mutexes initialised unlocked,
`flowtab_idx = 0`. -/
def flowmon_init : flowmon_state :=
  { tables := fun i =>
      { flowtab := fun _ => zero_entry, read_mutex := false, table_dirty := 0, table_id := i,
        first_sec := 0, smp_id := 0, nflows := 0, nflows_missed := 0, probes := fun _ => 0 },
    flowtab_idx := 0,
    lock_misses := 0,
    dumps := [] }

/-! ## Packet decoding (`pna_main.c`)

A packet is the memory at the pointer `pkt`: a function from byte offsets to
bytes.  The decoder advances an offset where the source advances the pointer.
Multi-byte loads follow a little-endian host (x86-64). -/

/-- The byte at an offset of the packet memory. -/
def rd8 (pkt : Nat → Nat) (off : Nat) : Nat := pkt off % 256

/-- Model of `ntohs` of the 16-bit field at an offset. -/
def rd16 (pkt : Nat → Nat) (off : Nat) : Nat := rd8 pkt off * 256 + rd8 pkt (off + 1)

/-- Model of `ntohl` of the 32-bit field at an offset. -/
def rd32 (pkt : Nat → Nat) (off : Nat) : Nat :=
  rd8 pkt off * 16777216 + rd8 pkt (off + 1) * 65536 + rd8 pkt (off + 2) * 256 + rd8 pkt (off + 3)

/-- The 16-bit field at an offset as the host loads it (no byte swap). -/
def raw16 (pkt : Nat → Nat) (off : Nat) : Nat := rd8 pkt off + rd8 pkt (off + 1) * 256

/-- The 32-bit field at an offset as the host loads it (no byte swap). -/
def raw32 (pkt : Nat → Nat) (off : Nat) : Nat :=
  rd8 pkt off + rd8 pkt (off + 1) * 256 + rd8 pkt (off + 2) * 65536 + rd8 pkt (off + 3) * 16777216

def ETHERTYPE_IP : Nat := 0x0800
def ETHERTYPE_VLAN : Nat := 0x8100
def IPPROTO_ICMP : Nat := 1
def IPPROTO_TCP : Nat := 6
def IPPROTO_UDP : Nat := 17
def IPPROTO_GRE : Nat := 47
def IPPROTO_SCTP : Nat := 132
def IP_OFFMASK : Nat := 0x1fff
def IP_MF : Nat := 0x2000
def NET_RX_DROP : Int := -1
def PNA_MAX_CHECKS : Nat := 8
def PNA_MAXFRAGS : Nat := 512

/-- The `struct pna_frag` of `pna_main.c`. -/
structure pna_frag where
  fingerprint : Nat
  src_port : Nat
  dst_port : Nat
  deriving DecidableEq, Repr

/-- The fragment globals of `pna_main.c`. -/
structure frag_state where
  pna_frag_table : Nat → pna_frag
  pna_frag_next_idx : Nat
  pna_frag_packets_missed : Nat
  pna_frag_bytes_missed : Nat

/-- The fragment globals at program start (static storage is zero). -/
def frag_init : frag_state :=
  { pna_frag_table := fun _ => ⟨0, 0, 0⟩, pna_frag_next_idx := 0,
    pna_frag_packets_missed := 0, pna_frag_bytes_missed := 0 }

/-- Model of `pna_frag_hash` of the IP header at offset `iphdr`. -/
def pna_frag_hash (pkt : Nat → Nat) (iphdr : Nat) : Nat :=
  let h0 : Nat := 0
  let h1 := h0 ^^^ hash_32 (raw32 pkt (iphdr + 12)) 32
  let h2 := h1 ^^^ hash_32 (raw32 pkt (iphdr + 16)) 32
  let h3 := h2 ^^^ ((hash_32 (rd8 pkt (iphdr + 9)) 16 <<< 16) % U32)
  h3 ^^^ hash_32 (raw16 pkt (iphdr + 4)) 16

/-- Model of `pna_get_frag`: the index of the first entry with the fingerprint of the
header, or `none` for NULL. -/
def pna_get_frag (fs : frag_state) (pkt : Nat → Nat) (iphdr : Nat) : Option Nat :=
  let fingerprint := pna_frag_hash pkt iphdr
  (List.range PNA_MAXFRAGS).find? (fun i => decide (fingerprint = (fs.pna_frag_table i).fingerprint))

/-- Model of `pna_set_frag`. -/
def pna_set_frag (fs : frag_state) (pkt : Nat → Nat) (iphdr : Nat) (src_port dst_port : Nat) :
    frag_state :=
  match pna_get_frag fs pkt iphdr with
  | some _ => fs
  | none =>
    { fs with
      pna_frag_table := upd fs.pna_frag_table fs.pna_frag_next_idx
        ⟨pna_frag_hash pkt iphdr, src_port, dst_port⟩,
      pna_frag_next_idx := (fs.pna_frag_next_idx + 1) % PNA_MAXFRAGS }

/-- Model of `ip_hook`: `off` is the pointer `pkt` (the L4 header), `iphdr` the IP
header.  Returns the return value, the fragment globals, the key and
`*flags`. -/
def ip_hook (fs : frag_state) (key : pna_flowkey) (pkt_len : Nat) (pkt : Nat → Nat)
    (off iphdr : Nat) (flags : Nat) : Int × frag_state × pna_flowkey × Nat :=
  let frag_off := rd16 pkt (iphdr + 6)
  let offset := frag_off &&& IP_OFFMASK
  let done (fs1 : frag_state) (src_port dst_port flags1 : Nat) :
      Int × frag_state × pna_flowkey × Nat :=
    (0, fs1, { key with local_port := src_port, remote_port := dst_port }, flags1)
  if key.l4_protocol = IPPROTO_TCP then
    if offset ≠ 0 then (NET_RX_DROP, fs, key, flags)
    else done fs (rd16 pkt off) (rd16 pkt (off + 2)) (rd8 pkt (off + 13))
  else if key.l4_protocol = IPPROTO_UDP then
    if offset ≠ 0 then
      match pna_get_frag fs pkt iphdr with
      | none =>
        (NET_RX_DROP,
          { fs with
            pna_frag_packets_missed := (fs.pna_frag_packets_missed + 1) % U32,
            pna_frag_bytes_missed :=
              (fs.pna_frag_bytes_missed + (pkt_len + ETH_OVERHEAD) % U32) % U32 },
          key, flags)
      | some e => done fs (fs.pna_frag_table e).src_port (fs.pna_frag_table e).dst_port flags
    else
      let src_port := rd16 pkt off
      let dst_port := rd16 pkt (off + 2)
      if frag_off &&& IP_MF ≠ 0 then
        done (pna_set_frag fs pkt iphdr src_port dst_port) src_port dst_port flags
      else done fs src_port dst_port flags
  else if key.l4_protocol = IPPROTO_SCTP then
    if offset ≠ 0 then (NET_RX_DROP, fs, key, flags)
    else done fs (rd16 pkt off) (rd16 pkt (off + 2)) flags
  else if key.l4_protocol = IPPROTO_ICMP then
    done fs 0 (((rd8 pkt off <<< 8) + rd8 pkt (off + 1)) % U16) flags
  else (NET_RX_DROP, fs, key, flags)

/-- Model of `ether_hook`: `off` is the pointer `pkt`.  The source recurses once per
GRE header; the first argument bounds the number of nested calls, and `none`
is returned when it is used up.  The bit-fields of `struct pna_grehdr` are
allocated from the least significant bit of the first byte
(`checksum_present` is bit 0, `routing_present` bit 1, `key_present` bit 2,
`sequence_present` bit 3), as GCC does on x86-64. -/
def ether_hook : Nat → frag_state → pna_flowkey → Nat → (Nat → Nat) → Nat → Nat →
    Option (Int × frag_state × pna_flowkey × Nat)
  | 0, _, _, _, _, _, _ => none
  | fuel + 1, fs, key, pkt_remains, pkt, off, flags =>
    if key.l3_protocol = ETHERTYPE_IP then
      if pkt_remains < 20 then some (NET_RX_DROP, fs, key, flags)
      else
        let iphdr := off
        let key1 := { key with
          l4_protocol := rd8 pkt (iphdr + 9),
          local_ip := rd32 pkt (iphdr + 12),
          remote_ip := rd32 pkt (iphdr + 16) }
        let off1 := off + 20
        let remains1 := sub32 pkt_remains 20
        if key1.l4_protocol = IPPROTO_GRE then
          let b0 := rd8 pkt off1
          if (b0 >>> 1) &&& 1 ≠ 0 then some (NET_RX_DROP, fs, key1, flags)
          else
            let pad := (if b0 &&& 1 ≠ 0 then 4 else 0) + (if (b0 >>> 2) &&& 1 ≠ 0 then 4 else 0)
              + (if (b0 >>> 3) &&& 1 ≠ 0 then 4 else 0)
            let key2 := { key1 with l3_protocol := rd16 pkt (off1 + 2) }
            ether_hook fuel fs key2 (sub32 remains1 (4 + pad)) pkt (off1 + 4 + pad) flags
        else
          match ip_hook fs key1 remains1 pkt off1 iphdr flags with
          | (ret, fs1, key2, flags1) =>
            if ret ≠ 0 then some (NET_RX_DROP, fs1, key2, flags1)
            else some (0, fs1, key2, flags1)
    else some (NET_RX_DROP, fs, key, flags)

/-- The VLAN loop of `pna_hook`,
`while (key.l3_protocol == ETHERTYPE_VLAN && check_depth < PNA_MAX_CHECKS)`.
The first argument is `PNA_MAX_CHECKS - check_depth`; then `check_depth`, the
pointer `pkt` as an offset, `pkt_remains` and `key.l3_protocol`, which are
also the results. -/
def vlan_loop (pkt : Nat → Nat) : Nat → Nat → Nat → Nat → Nat → Nat × Nat × Nat × Nat
  | 0, check_depth, off, pkt_remains, l3 => (check_depth, off, pkt_remains, l3)
  | n + 1, check_depth, off, pkt_remains, l3 =>
    if l3 = ETHERTYPE_VLAN then
      vlan_loop pkt n (check_depth + 1) (off + 4) (sub32 pkt_remains 4) (rd16 pkt (off + 4 + 12))
    else (check_depth, off, pkt_remains, l3)

/-- The global `pna_flowmon` of `pna.c`: initialised to 1 and never cleared. -/
def pna_flowmon : Nat := 1

/-- The whole state `pna_hook` works on. -/
structure pna_state where
  pna_dtrie_head : pna_dtrie_entry
  frag : frag_state
  flowmon : flowmon_state

/-- The first part of `pna_hook`, up to and including `pna_localize`: the
fragment globals afterwards and, when the packet was not dropped, the key,
direction and flags that are passed on to `flowmon_hook`. -/
def pna_hook_decode (fuel : Nat) (head : pna_dtrie_entry) (fs : frag_state) (pkt_len : Nat)
    (pkt : Nat → Nat) : Option (frag_state × Option (pna_flowkey × Fin 2 × Nat)) :=
  let key := { null_key with l3_protocol := rd16 pkt 12 }
  match vlan_loop pkt PNA_MAX_CHECKS 0 0 pkt_len key.l3_protocol with
  | (check_depth, off, pkt_remains, l3) =>
    if check_depth = PNA_MAX_CHECKS then some (fs, none)
    else
      match ether_hook fuel fs { key with l3_protocol := l3 } (sub32 pkt_remains 14) pkt
          (off + 14) 0 with
      | none => none
      | some (ret, fs1, key1, flags) =>
        if ret ≠ 0 then some (fs1, none)
        else
          match pna_localize head key1 PNA_DIR_OUTBOUND with
          | (ok, key2, direction) =>
            if ok = 0 then some (fs1, none)
            else some (fs1, some (key2, direction, flags))

/-- Model of `pna_hook`.  Its own return value is always NET_RX_DROP; the first
component of the result is the return value of `flowmon_hook` when that was
called.  `rtmon_hook` is not called (`pna_rtmon` is false). -/
def pna_hook (fuel : Nat) (cfg : pna_config) (st : pna_state) (pkt_len : Nat) (tv_sec : Int)
    (pkt : Nat → Nat) : Option (Option Int × pna_state) :=
  match pna_hook_decode fuel st.pna_dtrie_head st.frag pkt_len pkt with
  | none => none
  | some (fs1, none) => some (none, { st with frag := fs1 })
  | some (fs1, some (key, direction, flags)) =>
    if pna_flowmon = 1 then
      match flowmon_hook cfg st.flowmon key direction flags pkt_len tv_sec with
      | (ret, fm1) => some (some ret, { st with frag := fs1, flowmon := fm1 })
    else some (none, { st with frag := fs1 })

/-! ## Specification-side definitions -/

/-- The CIDR block `pfx/M` contains the address `A`: the two agree on their
high `M` bits (of 32). -/
def cidr_contains (pfx M A : Nat) : Prop := A / 2 ^ (32 - M) = pfx / 2 ^ (32 - M)

instance cidr_contains_decidable (pfx M A : Nat) : Decidable (cidr_contains pfx M A) :=
  Nat.decEq _ _

/-- Every `domain_id` field of the trie holds an `unsigned short` value. -/
def dtrie_typed : pna_dtrie_entry → Bool
  | .null => true
  | .node _ dom c0 c1 => decide (dom < U16) && dtrie_typed c0 && dtrie_typed c1

/-- The trie of the examples: `10.0.0.0/8` with netid 1. -/
def trie_10_8 : pna_dtrie_entry := (pna_dtrie_add pna_dtrie_init 0x0A000000 8 1).2

/-- The trie of the examples with a second, longer entry `10.1.0.0/16` whose
netid is 65537. -/
def trie_10_8_16 : pna_dtrie_entry := (pna_dtrie_add trie_10_8 0x0A010000 16 65537).2

/-- The trie obtained from `head` by calling `pna_dtrie_add` for each
`(prefix, max_bit_pos, netid)` of the list in order; `none` as soon as one of
the calls does not return 0. -/
def dtrie_build : pna_dtrie_entry → List (Nat × Nat × Nat) → Option pna_dtrie_entry
  | head, [] => some head
  | head, e :: rest =>
    if (pna_dtrie_add head e.1 e.2.1 e.2.2).1 = 0 then
      dtrie_build (pna_dtrie_add head e.1 e.2.1 e.2.2).2 rest
    else none

/-- The domain stored at depth `m` on the path of `ip`, in the sub-trie `t`
whose root sits at depth `d`: `some domain_id` when the path reaches a node at
depth `m` whose `isprefix` is set. -/
def dtrie_mark (ip : Nat) : pna_dtrie_entry → Nat → Nat → Option Nat
  | .null, _, _ => none
  | .node isp dom c0 c1, d, m =>
    if m = d then (if isp ≠ 0 then some dom else none)
    else if cur_bit ip d = 0 then dtrie_mark ip c0 (d + 1) m
    else dtrie_mark ip c1 (d + 1) m

/-- The histogram `probes` after the probes numbered `i0` to `i0 + c - 1` have
each executed `info->probes[i]++`. -/
def bump_probes (p : Nat → Nat) (i0 c : Nat) : Nat → Nat :=
  fun j => if i0 ≤ j ∧ j < i0 + c then (p j + 1) % U32 else p j

/-- Probe `j` for `key` in the table `ft` finds a slot that neither holds the
key nor is empty (both tests of the loop body of `flowmon_hook` fail). -/
def probe_miss (cfg : pna_config) (ft : Nat → flow_entry) (key : pna_flowkey) (j : Nat) : Prop :=
  flowkey_match (ft (probe_slot cfg (flow_hash_0 cfg key) j)).key key = false ∧
  flowkey_match (ft (probe_slot cfg (flow_hash_0 cfg key) j)).key null_key = false

instance probe_miss_decidable (cfg : pna_config) (ft : Nat → flow_entry) (key : pna_flowkey)
    (j : Nat) : Decidable (probe_miss cfg ft key j) :=
  instDecidableAnd

/-- The states of the flow-table globals that the program can reach: from
`flowmon_init` by calls of `flowmon_hook` with keys that are not null (in the
sense of `flowkey_match` with `null_key`, as for every key `pna_hook` builds). -/
inductive flowmon_reachable (cfg : pna_config) : flowmon_state → Prop
  | init : flowmon_reachable cfg flowmon_init
  | hook (s : flowmon_state) (key : pna_flowkey) (direction : Fin 2) (flags pkt_len : Nat)
      (tv_sec : Int) :
      flowmon_reachable cfg s → flowkey_match key null_key = false →
      flowmon_reachable cfg (flowmon_hook cfg s key direction flags pkt_len tv_sec).2

/-- The packet of second `tv_sec` makes `flowtab_get` dump the current table:
the table is dirty and `ten_bound || too_old` holds. -/
def rotates (s : flowmon_state) (tv_sec : Int) : Prop :=
  (s.tables s.flowtab_idx).table_dirty ≠ 0 ∧
    rotation_due (s.tables s.flowtab_idx).first_sec tv_sec = true

instance rotates_decidable (s : flowmon_state) (tv_sec : Int) : Decidable (rotates s tv_sec) :=
  instDecidableAnd

/-- The flow entries of the pool once `flowtab_get` has dumped and zeroed the
current table, when the packet of second `tv_sec` makes it do so: the entry of
slot `sl` of table `t`. -/
def flow_base (s : flowmon_state) (tv_sec : Int) (t sl : Nat) : flow_entry :=
  if rotates s tv_sec ∧ t = s.flowtab_idx then zero_entry else (s.tables t).flowtab sl

/-- A table's meta-data and contents with the state of its mutex left out. -/
def unlock_view (info : flowtab_info) : flowtab_info := { info with read_mutex := false }

/-- The slot that probe `i` of `flowmon_hook` visits for `key`. -/
def flow_slot (cfg : pna_config) (key : pna_flowkey) (i : Nat) : Nat :=
  probe_slot cfg (flow_hash_0 cfg key) i

/-- The configuration of the examples: 2 tables of 16 slots (`-f 4`). -/
def cfg_2_4 : pna_config := { pna_tables := 2, pna_bits := 4 }

/-- The key of the flow 10.0.0.5:12345 <-> 8.8.8.8:80 (TCP) as localised under
`trie_10_8`. -/
def key_s1 : pna_flowkey :=
  { l3_protocol := 0x0800, l4_protocol := 6, local_ip := 0x0A000005, remote_ip := 0x08080808,
    local_port := 12345, remote_port := 80, local_domain := 1, remote_domain := 0xFFFF }

/-- The state after the first packet of `key_s1` (outbound, SYN, length 100,
second 1700000000) has been recorded in the initial state. -/
def state_s1 : flowmon_state :=
  (flowmon_hook cfg_2_4 flowmon_init key_s1 0 0x02 100 1700000000).2

/-- What `flowtab_get` does to the table it has just locked: a clean table
gets `first_sec`, `table_dirty = 1` and `smp_id = 0`. -/
def claim_table (info : flowtab_info) (tv_sec : Int) : flowtab_info :=
  if info.table_dirty = 0 then
    { info with read_mutex := true, first_sec := to_u32 tv_sec, table_dirty := 1, smp_id := 0 }
  else { info with read_mutex := true }

/-- The state after `flowtab_get` has locked and claimed the current table. -/
def claim_state (s : flowmon_state) (tv_sec : Int) : flowmon_state :=
  { s with tables := upd s.tables s.flowtab_idx (claim_table (s.tables s.flowtab_idx) tv_sec) }

/-- A table as `flowtab_clean` and `flowtab_dump` leave it: zeroed, not dirty,
its mutex unlocked. -/
def table_clean (info : flowtab_info) : Prop :=
  info.flowtab = (fun _ => zero_entry) ∧ info.table_dirty = 0 ∧ info.read_mutex = false ∧
    info.first_sec = 0 ∧ info.nflows = 0 ∧ info.nflows_missed = 0

/-- The invariant of the flow-table globals: the current index is in range,
`table_id` is the index, a slot whose key is null is entirely zero, every
table but the current one is clean, and the current table is either clean or
dirty with its mutex held by the packet thread. -/
structure flowmon_inv (cfg : pna_config) (s : flowmon_state) : Prop where
  idx_lt : s.flowtab_idx < cfg.pna_tables
  ids : ∀ t, (s.tables t).table_id = t
  empty_zero : ∀ t sl, flowkey_match ((s.tables t).flowtab sl).key null_key = true →
    (s.tables t).flowtab sl = zero_entry
  others_clean : ∀ t, t ≠ s.flowtab_idx → table_clean (s.tables t)
  cur_clean : (s.tables s.flowtab_idx).table_dirty = 0 → table_clean (s.tables s.flowtab_idx)
  cur_locked : (s.tables s.flowtab_idx).table_dirty ≠ 0 →
    (s.tables s.flowtab_idx).read_mutex = true

/-- The table that `flowmon_hook` probes for a packet of second `tv_sec`: the
current table once `flowtab_get` has run (after the rotation when one is
due). -/
def hook_table (cfg : pna_config) (s : flowmon_state) (tv_sec : Int) : flowtab_info :=
  (flowtab_get cfg s tv_sec).1.tables (flowtab_get cfg s tv_sec).1.flowtab_idx

/-- The flow data of the first packet of a flow, as the insert branch of
`flowmon_hook` leaves it in a zeroed slot. -/
def first_packet_data (direction : Fin 2) (flags pkt_len : Nat) (tv_sec : Int) :
    pna_flow_data :=
  { bytes := dir_pair.set ⟨0, 0⟩ direction ((pkt_len + 38) % 4294967296),
    packets := dir_pair.set ⟨0, 0⟩ direction 1,
    flags := dir_pair.set ⟨0, 0⟩ direction flags,
    timestamp := 0,
    first_tstamp := to_u32 tv_sec,
    last_tstamp := to_u32 tv_sec,
    first_dir := direction.val }

/-- The state `s` with table `idx` replaced. -/
def with_table (s : flowmon_state) (idx : Nat) (info : flowtab_info) : flowmon_state :=
  { s with tables := upd s.tables idx info }

/-- A table after `c = 32` probes that all missed: the histogram and
`nflows_missed` are incremented. -/
def table_missed (info : flowtab_info) (c : Nat) : flowtab_info :=
  { info with
    probes := bump_probes info.probes 0 c,
    nflows_missed := (info.nflows_missed + 1) % U32 }

/-- A table after `c` probes the last of which updated the entry of `slot`. -/
def table_updated (info : flowtab_info) (c slot : Nat) (direction : Fin 2)
    (flags pkt_len : Nat) (tv_sec : Int) : flowtab_info :=
  { info with
    probes := bump_probes info.probes 0 c,
    flowtab := upd info.flowtab slot
      { info.flowtab slot with
        data := flow_update (info.flowtab slot).data direction flags pkt_len tv_sec } }

/-- A table after `c` probes the last of which claimed `slot` for `key`. -/
def table_inserted (info : flowtab_info) (c slot : Nat) (key : pna_flowkey)
    (direction : Fin 2) (flags pkt_len : Nat) (tv_sec : Int) : flowtab_info :=
  { info with
    probes := bump_probes info.probes 0 c,
    flowtab := upd info.flowtab slot
      { key := key,
        data := flow_insert (info.flowtab slot).data direction flags pkt_len tv_sec },
    nflows := (info.nflows + 1) % U32 }

/-- A pool state whose tables are dirty, locked and full: slot `sl` of every
table holds a flow with local address `sl + 1`. -/
def state_full : flowmon_state :=
  { tables := fun t =>
      { flowtab := fun sl =>
          { key := { null_key with l3_protocol := 0x0800, l4_protocol := 17, local_ip := sl + 1 },
            data := zero_entry.data },
        read_mutex := true, table_dirty := 1, table_id := t, first_sec := 1001, smp_id := 0,
        nflows := 16, nflows_missed := 0, probes := fun _ => 0 },
    flowtab_idx := 0,
    lock_misses := 0,
    dumps := [] }

/-- A second flow of the examples: 10.0.0.6:5000 <-> 8.8.4.4:53 (UDP). -/
def key_s5b : pna_flowkey :=
  { l3_protocol := 0x0800, l4_protocol := 17, local_ip := 0x0A000006, remote_ip := 0x08080404,
    local_port := 5000, remote_port := 53, local_domain := 1, remote_domain := 0xFFFF }

/-- A third flow of the examples: 10.0.0.7 <-> 10.0.0.9 (ICMP echo). -/
def key_s5c : pna_flowkey :=
  { l3_protocol := 0x0800, l4_protocol := 1, local_ip := 0x0A000007, remote_ip := 0x0A000009,
    local_port := 0, remote_port := 0x0800, local_domain := 1, remote_domain := 1 }

/-- Scenario S5, first part: three flows fed at second 1001 into the initial
state. -/
def state_s5 : flowmon_state :=
  (flowmon_hook cfg_2_4
    (flowmon_hook cfg_2_4
      (flowmon_hook cfg_2_4 flowmon_init key_s1 0 0x02 100 1001).2
      key_s5b 0 0 80 1001).2
    key_s5c 0 0 84 1001).2

/-- The number of the first `n` slots of a table whose key is not null. -/
def live_slots (ft : Nat → flow_entry) (n : Nat) : Nat :=
  ((List.range n).filter (fun sl => !flowkey_match (ft sl).key null_key)).length

/-- A pool of a single table of 16 slots. -/
def cfg_1_4 : pna_config := { pna_tables := 1, pna_bits := 4 }

/-- The single-table pool after one packet of `key_s1` at second 1001. -/
def state_single : flowmon_state :=
  (flowmon_hook cfg_1_4 flowmon_init key_s1 0 0x02 100 1001).2

/-- The packet memory holding the listed bytes (zero beyond them). -/
def pkt_of (l : List Nat) : Nat → Nat := fun i => l.getD i 0

/-- An untagged Ethernet frame carrying the TCP SYN 10.0.0.5:12345 ->
8.8.8.8:80 with IP total length 100 (protocol 6, flags byte 0x02). -/
def frame_s1 : List Nat :=
  [0, 0, 0, 0, 0, 1, 0, 0, 0, 0, 0, 2, 0x08, 0x00,
   0x45, 0, 0, 100, 0, 1, 0, 0, 64, 6, 0, 0, 10, 0, 0, 5, 8, 8, 8, 8,
   0x30, 0x39, 0, 80, 0, 0, 0, 0, 0, 0, 0, 0, 0x50, 0x02, 0, 0, 0, 0, 0, 0]

/-! ## Table dumper (`dump_table.c`, `pna.h`)

The output file is its byte contents together with the file offset of the
descriptor.  `write` is taken to transfer the whole request, as it does on a
regular file when it succeeds. -/

/-- The bytes of an `unsigned short` in memory (little-endian). -/
def le16 (x : Nat) : List Nat := [x % 256, x / 256 % 256]

/-- The bytes of an `unsigned int` in memory (little-endian). -/
def le32 (x : Nat) : List Nat := [x % 256, x / 256 % 256, x / 65536 % 256, x / 16777216 % 256]

/-- PNA_LOG_MAGIC0, the character P. -/
def PNA_LOG_MAGIC0 : Nat := 0x50

/-- PNA_LOG_MAGIC1, the character N. -/
def PNA_LOG_MAGIC1 : Nat := 0x4E

/-- PNA_LOG_MAGIC2, the character A. -/
def PNA_LOG_MAGIC2 : Nat := 0x41

/-- PNA_LOG_VERSION of `pna.h`. -/
def PNA_LOG_VERSION : Nat := 2

/-- The `struct pna_log_hdr` of `pna.h` (16 bytes). -/
structure pna_log_hdr where
  magic0 : Nat
  magic1 : Nat
  magic2 : Nat
  version : Nat
  start_time : Nat
  end_time : Nat
  size : Nat
  deriving DecidableEq, Repr

/-- The `struct pna_log_entry` of `pna.h` (48 bytes). -/
structure pna_log_entry where
  local_ip : Nat
  remote_ip : Nat
  local_port : Nat
  remote_port : Nat
  local_domain : Nat
  remote_domain : Nat
  packets : dir_pair
  bytes : dir_pair
  flags : dir_pair
  first_tstamp : Nat
  last_tstamp : Nat
  l4_protocol : Nat
  first_dir : Nat
  pad0 : Nat
  pad1 : Nat
  deriving DecidableEq, Repr

/-- The 16 bytes of a `struct pna_log_hdr` in memory. -/
def log_hdr_bytes (h : pna_log_hdr) : List Nat :=
  [h.magic0 % 256, h.magic1 % 256, h.magic2 % 256, h.version % 256]
    ++ le32 h.start_time ++ le32 h.end_time ++ le32 h.size

/-- The 48 bytes of a `struct pna_log_entry` in memory. -/
def log_entry_bytes (e : pna_log_entry) : List Nat :=
  le32 e.local_ip ++ le32 e.remote_ip ++ le16 e.local_port ++ le16 e.remote_port
    ++ le16 e.local_domain ++ le16 e.remote_domain
    ++ le32 e.packets.out ++ le32 e.packets.inb ++ le32 e.bytes.out ++ le32 e.bytes.inb
    ++ le16 e.flags.out ++ le16 e.flags.inb ++ le32 e.first_tstamp ++ le32 e.last_tstamp
    ++ [e.l4_protocol % 256, e.first_dir % 256, e.pad0 % 256, e.pad1 % 256]

/-- The `struct pna_log_entry` found in the 48 bytes at offset `off` of a
byte sequence. -/
def log_entry_read (l : List Nat) (off : Nat) : pna_log_entry :=
  let m := pkt_of l
  { local_ip := raw32 m off, remote_ip := raw32 m (off + 4),
    local_port := raw16 m (off + 8), remote_port := raw16 m (off + 10),
    local_domain := raw16 m (off + 12), remote_domain := raw16 m (off + 14),
    packets := ⟨raw32 m (off + 16), raw32 m (off + 20)⟩,
    bytes := ⟨raw32 m (off + 24), raw32 m (off + 28)⟩,
    flags := ⟨raw16 m (off + 32), raw16 m (off + 34)⟩,
    first_tstamp := raw32 m (off + 36), last_tstamp := raw32 m (off + 40),
    l4_protocol := rd8 m (off + 44), first_dir := rd8 m (off + 45),
    pad0 := rd8 m (off + 46), pad1 := rd8 m (off + 47) }

/-- Model of `flowkey_match` of `dump_table.c`: `memcmp` over the whole 20-byte key,
domains included (the padding byte is zero in every key and not
represented). -/
def Dump.flowkey_match (key_a key_b : pna_flowkey) : Bool := decide (key_a = key_b)

/-- BUF_SIZE of `dump_table.c`: 1 MiB. -/
def BUF_SIZE : Nat := 1 * 1024 * 1024

/-- The value of `sizeof(struct flow_entry)`: the 20-byte key followed by the
36 bytes of `struct pna_flow_data`. -/
def sizeof_flow_entry : Nat := 56

/-- The value of `sizeof(struct pna_log_entry)`. -/
def sizeof_log_entry : Nat := 48

/-- The value of `sizeof(struct pna_log_hdr)`. -/
def sizeof_log_hdr : Nat := 16

/-- An open output file: its contents and the offset of the descriptor. -/
structure file_state where
  data : List Nat
  pos : Nat
  deriving DecidableEq, Repr

/-- The file just created by `open(out_file, O_CREAT | O_RDWR)`. -/
def file_created : file_state := { data := [], pos := 0 }

/-- Model of `lseek(fd, offset, SEEK_SET)`. -/
def lseek_set (fd : file_state) (offset : Nat) : file_state := { fd with pos := offset }

/-- Model of `write(fd, buffer, count)` transferring all `count` bytes: the bytes replace
the contents at the file offset, a gap before the offset reads as zeros, and
the offset advances.  A request of zero bytes changes nothing.  The second
component is the return value. -/
def write (fd : file_state) (buffer : List Nat) (count : Nat) : file_state × Nat :=
  if count = 0 then (fd, 0)
  else
    let old := fd.data ++ List.replicate (fd.pos - fd.data.length) 0
    ({ data := old.take fd.pos ++ buffer.take count ++ old.drop (fd.pos + count),
       pos := fd.pos + count }, count)

/-- The `while (buf_idx > 0)` loop of `buf_flush`; the first argument bounds the
number of iterations. -/
def buf_flush_loop : Nat → file_state → List Nat → Nat → file_state × Nat
  | 0, out_fd, _, buf_idx => (out_fd, buf_idx)
  | fuel + 1, out_fd, buffer, buf_idx =>
    if 0 < buf_idx then
      match write out_fd buffer buf_idx with
      | (out_fd1, count) => buf_flush_loop fuel out_fd1 buffer (buf_idx - count)
    else (out_fd, buf_idx)

/-- Model of `buf_flush`: the file and the return value (the remaining `buf_idx`).  Every
`write` transfers at least one byte, so `buf_idx` iterations suffice. -/
def buf_flush (out_fd : file_state) (buffer : List Nat) (buf_idx : Nat) : file_state × Nat :=
  buf_flush_loop buf_idx out_fd buffer buf_idx

/-- The assignments of `dump_table` that copy a flow entry into a log entry. -/
def log_of_flow (flow : flow_entry) : pna_log_entry :=
  { local_ip := flow.key.local_ip, remote_ip := flow.key.remote_ip,
    local_port := flow.key.local_port, remote_port := flow.key.remote_port,
    local_domain := flow.key.local_domain, remote_domain := flow.key.remote_domain,
    packets := flow.data.packets, bytes := flow.data.bytes, flags := flow.data.flags,
    first_tstamp := flow.data.first_tstamp, last_tstamp := flow.data.last_tstamp,
    l4_protocol := flow.key.l4_protocol, first_dir := flow.data.first_dir,
    pad0 := 0, pad1 := 0 }

/-- The `for (flow_idx = 0; flow_idx < f_max_entries; flow_idx++)` loop of
`dump_table`.  The first argument is `f_max_entries - flow_idx`; `buf` holds
the first `buf_idx` bytes of the buffer, so `buf_idx` is its length.  The
results are the file, the buffer and `nflows`. -/
def dump_table_loop (flow_table : Nat → flow_entry) :
    Nat → Nat → file_state → List Nat → Nat → file_state × List Nat × Nat
  | 0, _, fd, buf, nflows => (fd, buf, nflows)
  | n + 1, flow_idx, fd, buf, nflows =>
    let flow := flow_table flow_idx
    if Dump.flowkey_match flow.key null_key = true then
      dump_table_loop flow_table n (flow_idx + 1) fd buf nflows
    else
      let buf1 := buf ++ log_entry_bytes (log_of_flow flow)
      let nflows1 := (nflows + 1) % U32
      if buf1.length + sizeof_log_entry ≥ BUF_SIZE then
        match buf_flush fd buf1 buf1.length with
        | (fd1, buf_idx) =>
          dump_table_loop flow_table n (flow_idx + 1) fd1 (buf1.take buf_idx) nflows1
      else dump_table_loop flow_table n (flow_idx + 1) fd buf1 nflows1

/-- Model of `dump_table`.  `fd` is the result of `open` (`none` when it failed), and
`start_time`, `end_time` are the two results of `time(NULL)`.  The result is
the file when it is closed, or `none` when nothing was opened. -/
def dump_table (table_base : Nat → flow_entry) (fd : Option file_state) (file_size : Nat)
    (start_time end_time : Int) : Option file_state :=
  let f_max_entries := file_size / sizeof_flow_entry
  match fd with
  | none => none
  | some fd0 =>
    let fd1 := lseek_set fd0 sizeof_log_hdr
    match dump_table_loop table_base f_max_entries 0 fd1 [] 0 with
    | (fd2, buf, nflows) =>
      let fd3 := (buf_flush fd2 buf buf.length).1
      let fd4 := lseek_set fd3 0
      let log_header : pna_log_hdr :=
        { magic0 := PNA_LOG_MAGIC0, magic1 := PNA_LOG_MAGIC1, magic2 := PNA_LOG_MAGIC2,
          version := PNA_LOG_VERSION, start_time := to_u32 start_time,
          end_time := to_u32 end_time, size := (nflows * sizeof_log_entry) % U32 }
      some (write fd4 (log_hdr_bytes log_header) sizeof_log_hdr).1

/-- The records of the live entries among the `n` slots from `idx` on, in
increasing slot order: one 48-byte record for each slot whose key is not the
null key. -/
def live_records (table : Nat → flow_entry) : Nat → Nat → List Nat
  | 0, _ => []
  | n + 1, idx =>
    if (table idx).key = null_key then live_records table n (idx + 1)
    else log_entry_bytes (log_of_flow (table idx)) ++ live_records table n (idx + 1)

/-- The live entries among the `n` slots from `idx` on, in increasing slot order. -/
def live_entries (table : Nat → flow_entry) : Nat → Nat → List flow_entry
  | 0, _ => []
  | n + 1, idx =>
    if (table idx).key = null_key then live_entries table n (idx + 1)
    else table idx :: live_entries table n (idx + 1)

/-- The file after the record bytes `F` have been flushed behind the reserved
header: nothing is in the file as long as nothing was flushed. -/
def fd_after (F : List Nat) : file_state :=
  { data := if F = [] then [] else List.replicate 16 0 ++ F, pos := 16 + F.length }

/-- The records found in a record area: one `struct pna_log_entry` for every
48 bytes, `n` of them from offset `off` on. -/
def read_records (l : List Nat) : Nat → Nat → List pna_log_entry
  | 0, _ => []
  | n + 1, off => log_entry_read l off :: read_records l n (off + 48)

/-- The fields of a flow entry lie in the ranges of their C types. -/
def flow_entry_typed (e : flow_entry) : Prop :=
  e.key.local_ip < U32 ∧ e.key.remote_ip < U32 ∧ e.key.local_port < U16 ∧
  e.key.remote_port < U16 ∧ e.key.local_domain < U16 ∧ e.key.remote_domain < U16 ∧
  e.key.l4_protocol < 256 ∧
  e.data.packets.out < U32 ∧ e.data.packets.inb < U32 ∧ e.data.bytes.out < U32 ∧
  e.data.bytes.inb < U32 ∧ e.data.flags.out < U16 ∧ e.data.flags.inb < U16 ∧
  e.data.first_tstamp < U32 ∧ e.data.last_tstamp < U32 ∧ e.data.first_dir < U32

instance flow_entry_typed_decidable (e : flow_entry) : Decidable (flow_entry_typed e) := by
  unfold flow_entry_typed
  infer_instance

/-- The number of the first `n` slots of a table whose key is not the null key
(all eight fields compared). -/
def dump_live_count (table : Nat → flow_entry) (n : Nat) : Nat :=
  ((List.range n).filter (fun i => decide ((table i).key ≠ null_key))).length

/-- The 16-slot table of the pool `cfg_2_4` after the packet of `key_s1`. -/
def table_s1 : Nat → flow_entry := (state_s1.tables 0).flowtab

/-- What a record keeps of a flow entry: the addresses, ports, domains and
`l4_protocol` of the key (not `l3_protocol`), the counters and flags of both
directions, the first and last time stamp, and `first_dir` as an
`unsigned char`. -/
def record_of_flow (e : flow_entry) : pna_log_entry :=
  { local_ip := e.key.local_ip, remote_ip := e.key.remote_ip,
    local_port := e.key.local_port, remote_port := e.key.remote_port,
    local_domain := e.key.local_domain, remote_domain := e.key.remote_domain,
    packets := e.data.packets, bytes := e.data.bytes, flags := e.data.flags,
    first_tstamp := e.data.first_tstamp, last_tstamp := e.data.last_tstamp,
    l4_protocol := e.key.l4_protocol, first_dir := e.data.first_dir % 256,
    pad0 := 0, pad1 := 0 }

/-- A table whose only entry is the flow of `key_s1`. -/
def table_one (e : flow_entry) : Nat → flow_entry := upd (fun _ => zero_entry) 0 e

/-- The entry of `key_s1` after its first packet. -/
def entry_s1 : flow_entry := table_s1 (flow_slot cfg_2_4 key_s1 0)

/-- The entry `entry_s1` with the EtherType of IPv6 as `l3_protocol`. -/
def entry_s1_l3 : flow_entry := { entry_s1 with key := { key_s1 with l3_protocol := 0x86DD } }

/-- The entry `entry_s1` with `first_dir = 256`. -/
def entry_s1_dir : flow_entry := { entry_s1 with data := { entry_s1.data with first_dir := 256 } }

/-! ## Frames and states used in the scenarios -/

/-- The bytes of `k` stacked VLAN tags: EtherType 0x8100 and a tag control word. -/
def vlan_tags : Nat → List Nat
  | 0 => []
  | k + 1 => [0x81, 0x00, 0x00, 0x01] ++ vlan_tags k

/-- An Ethernet frame with `k` VLAN tags put between its addresses and its
EtherType. -/
def vlan_frame (k : Nat) (frame : List Nat) : List Nat :=
  frame.take 12 ++ vlan_tags k ++ frame.drop 12

/-- One GRE encapsulation: a 20-byte IPv4 header with protocol 47
(192.168.0.1 -> 192.168.0.2) and a 4-byte GRE header without checksum, routing,
key or sequence number, carrying protocol 0x0800. -/
def gre_layer : List Nat :=
  [0x45, 0, 0, 0, 0, 0, 0, 0, 64, 47, 0, 0, 192, 168, 0, 1, 192, 168, 0, 2,
   0x00, 0x00, 0x08, 0x00]

/-- The bytes of `k` nested GRE encapsulations. -/
def gre_layers : Nat → List Nat
  | 0 => []
  | k + 1 => gre_layer ++ gre_layers k

/-- An Ethernet frame whose IPv4 packet is wrapped in `k` nested GRE tunnels. -/
def gre_frame (k : Nat) (frame : List Nat) : List Nat :=
  frame.take 14 ++ gre_layers k ++ frame.drop 14

/-- The state of the program after start-up with the trie `10.0.0.0/8 -> 1`. -/
def pna_state_s1 : pna_state := ⟨trie_10_8, frag_init, flowmon_init⟩

/-- The state `pna_hook` leaves behind on a frame (the state itself when the
decoder ran out of its bound on nested calls). -/
def pna_hook_state (fuel : Nat) (cfg : pna_config) (st : pna_state) (pkt_len : Nat)
    (tv_sec : Int) (frame : List Nat) : pna_state :=
  match pna_hook fuel cfg st pkt_len tv_sec (pkt_of frame) with
  | some (_, st1) => st1
  | none => st

/-- Scenario S4, first frame: the head fragment of a UDP datagram
10.0.0.5:9000 -> 8.8.8.8:53, IP total length 1500, id 0x1234, More-Fragments
set, offset 0 (1514 bytes on the wire; the bytes behind the UDP header are
left out). -/
def frame_s4_head : List Nat :=
  [0, 0, 0, 0, 0, 1, 0, 0, 0, 0, 0, 2, 0x08, 0x00,
   0x45, 0, 0x05, 0xDC, 0x12, 0x34, 0x20, 0x00, 64, 17, 0, 0, 10, 0, 0, 5, 8, 8, 8, 8,
   0x23, 0x28, 0, 53, 0x05, 0xC8, 0, 0]

/-- Scenario S4, second frame: the fragment at offset 185 of the same datagram,
IP total length 120, More-Fragments clear (134 bytes on the wire). -/
def frame_s4_frag : List Nat :=
  [0, 0, 0, 0, 0, 1, 0, 0, 0, 0, 0, 2, 0x08, 0x00,
   0x45, 0, 0, 120, 0x12, 0x34, 0x00, 0xB9, 64, 17, 0, 0, 10, 0, 0, 5, 8, 8, 8, 8,
   0xAA, 0xBB, 0xCC, 0xDD]

/-- The head fragment of an earlier UDP datagram 10.0.0.5:1000 -> 8.8.8.8:2000
with the same addresses and IP id 0x1234. -/
def frame_old_head : List Nat :=
  [0, 0, 0, 0, 0, 1, 0, 0, 0, 0, 0, 2, 0x08, 0x00,
   0x45, 0, 0x05, 0xDC, 0x12, 0x34, 0x20, 0x00, 64, 17, 0, 0, 10, 0, 0, 5, 8, 8, 8, 8,
   0x03, 0xE8, 0x07, 0xD0, 0x05, 0xC8, 0, 0]

/-- A lone UDP fragment (offset 185) from 10.55.91.182 to 10.0.0.6 with IP id
0x0001, IP total length 120 (134 bytes on the wire).  The fingerprint
`pna_frag_hash` of its header is zero. -/
def frame_zero_fp : List Nat :=
  [0, 0, 0, 0, 0, 1, 0, 0, 0, 0, 0, 2, 0x08, 0x00,
   0x45, 0, 0, 120, 0x00, 0x01, 0x00, 0xB9, 64, 17, 0, 0, 10, 55, 91, 182, 10, 0, 0, 6,
   0xAA, 0xBB, 0xCC, 0xDD]

/-- The key of the flow 10.0.0.5:9000 <-> 8.8.8.8:53 (UDP) as localised under
`trie_10_8`. -/
def key_s4 : pna_flowkey :=
  { l3_protocol := 0x0800, l4_protocol := 17, local_ip := 0x0A000005, remote_ip := 0x08080808,
    local_port := 9000, remote_port := 53, local_domain := 1, remote_domain := 0xFFFF }

/-- The key `ether_hook` hands to `ip_hook` for the frames of scenario S4. -/
def key_s4_ip : pna_flowkey :=
  { null_key with l3_protocol := 0x0800, l4_protocol := 17, local_ip := 0x0A000005,
                  remote_ip := 0x08080808 }

/-- The state after start-up and the first frame of scenario S4. -/
def state_s4_head : pna_state :=
  pna_hook_state 1 cfg_2_4 pna_state_s1 1514 1700000000 frame_s4_head

/-- The state after both frames of scenario S4. -/
def state_s4 : pna_state :=
  pna_hook_state 1 cfg_2_4 state_s4_head 134 1700000000 frame_s4_frag

/-- The state after start-up and the head fragment `frame_old_head`. -/
def state_old_head : pna_state :=
  pna_hook_state 1 cfg_2_4 pna_state_s1 1514 1700000000 frame_old_head

/-- The number of bytes `ether_hook` skips behind the four bytes of a GRE header
whose first byte is `b0`: four for each of `checksum_present` (bit 0),
`key_present` (bit 2) and `sequence_present` (bit 3). -/
def gre_pad (b0 : Nat) : Nat :=
  (if b0 &&& 1 ≠ 0 then 4 else 0) + (if (b0 >>> 2) &&& 1 ≠ 0 then 4 else 0)
    + (if (b0 >>> 3) &&& 1 ≠ 0 then 4 else 0)

/-- The IPv4 header at `iphdr` is reached from the IPv4 header at `off` by stepping
through GRE encapsulations: each step leaves an IPv4 header with protocol 47
over its 20 bytes, the GRE header and the optional GRE fields. -/
inductive gre_path (pkt : Nat → Nat) : Nat → Nat → Prop
  | here (off : Nat) : gre_path pkt off off
  | gre (off iphdr : Nat) :
      rd8 pkt (off + 9) = IPPROTO_GRE →
      gre_path pkt (off + 20 + 4 + gre_pad (rd8 pkt (off + 20))) iphdr →
      gre_path pkt off iphdr

/-- Scenario S3: an untagged Ethernet frame carrying the ICMP echo request
(type 8, code 0) 10.0.0.5 -> 10.0.0.6 with IP total length 84 (98 bytes on the
wire; the bytes behind the ICMP header are left out). -/
def frame_s3 : List Nat :=
  [0, 0, 0, 0, 0, 1, 0, 0, 0, 0, 0, 2, 0x08, 0x00,
   0x45, 0, 0, 84, 0, 1, 0, 0, 64, 1, 0, 0, 10, 0, 0, 5, 10, 0, 0, 6,
   8, 0, 0, 0, 0, 1, 0, 1]

/-- The state after start-up and the frame of scenario S3. -/
def state_s3 : pna_state := pna_hook_state 1 cfg_2_4 pna_state_s1 98 1700000000 frame_s3

/-- The key `pna_hook` hands to `ether_hook` for an untagged IPv4 frame. -/
def key_ip : pna_flowkey := { null_key with l3_protocol := 0x0800 }

/-- The frame of scenario S1 with its IPv4 packet inside one GRE tunnel whose
header carries a checksum and a key (first byte 0x05, so 8 bytes follow the
4-byte GRE header). -/
def frame_gre_ck : List Nat :=
  frame_s1.take 14 ++
    [0x45, 0, 0, 0, 0, 0, 0, 0, 64, 47, 0, 0, 192, 168, 0, 1, 192, 168, 0, 2,
     0x05, 0x00, 0x08, 0x00, 0xAB, 0xCD, 0, 0, 0, 0, 0, 7] ++ frame_s1.drop 14

/-! ## Reading the networks (`pna_domain_trie.c`)

A C string is the list of its characters (without the terminating NUL).  The
library functions `atoi` and `inet_addr` are parameters of `pna_dtrie_parse`. -/

/-- A character of the delimiter string `"/\n"` that `pna_dtrie_parse` passes to `strtok`. -/
def is_delim (c : Char) : Bool := c = Char.ofNat 47 || c = Char.ofNat 10

/-- One call of `strtok` with the delimiters of `pna_dtrie_parse` on the text that is
left: leading delimiters are skipped, the token runs up to the next
delimiter, and what follows that delimiter is left for the next call.  `none`
is the NULL returned when only delimiters are left. -/
def strtok (s : List Char) : Option (List Char × List Char) :=
  let s1 := s.dropWhile is_delim
  if s1 = [] then none
  else some (s1.takeWhile (fun c => !is_delim c), (s1.dropWhile (fun c => !is_delim c)).drop 1)

/-- Model of `htonl` on a little-endian host: the four bytes of an `unsigned int` reversed. -/
def htonl (x : Nat) : Nat :=
  (x % 256) * 16777216 + (x / 256 % 256) * 65536 + (x / 65536 % 256) * 256 + x / 16777216 % 256

/-- Model of `pna_dtrie_parse(line, netid)` on the trie rooted at `head`: the return value and the
trie afterwards.  `netid` is an `int`, `mask` an `unsigned int`; the third
argument of `pna_dtrie_add` is the `int` converted to `unsigned int`. -/
def pna_dtrie_parse (atoi : List Char → Int) (inet_addr : List Char → Nat)
    (head : pna_dtrie_entry) (line : List Char) (netid : Int) : Int × pna_dtrie_entry :=
  match strtok line with
  | none => (-1, head)
  | some (ipstring, rest1) =>
    match strtok rest1 with
    | none => (-1, head)
    | some (prefix_string, rest2) =>
      let netid1 : Option Int :=
        if netid = -1 then
          match strtok rest2 with
          | none => none
          | some (domain_string, _) => some (atoi domain_string)
        else some netid
      match netid1 with
      | none => (-1, head)
      | some netid2 =>
        let mask := to_u32 (atoi prefix_string)
        if mask = 0 ∨ netid2 = 0 then (-1, head)
        else
          let pfx := htonl (inet_addr ipstring)
          match pna_dtrie_add head pfx mask (to_u32 netid2) with
          | (ret, head1) => if ret ≠ 0 then (ret, head1) else (0, head1)

/-- The fields `pna_dtrie_parse` finds in a line: the address text, the prefix length `M`
(the `unsigned int` that `atoi` gives for the second field) and the netid
(the argument, or what `atoi` gives for the third field when the argument is
-1); `none` when a field is missing. -/
def parse_fields (atoi : List Char → Int) (line : List Char) (netid : Int) :
    Option (List Char × Nat × Int) :=
  match strtok line with
  | none => none
  | some (ipstring, rest1) =>
    match strtok rest1 with
    | none => none
    | some (prefix_string, rest2) =>
      if netid = -1 then
        match strtok rest2 with
        | none => none
        | some (domain_string, _) =>
          some (ipstring, to_u32 (atoi prefix_string), atoi domain_string)
      else some (ipstring, to_u32 (atoi prefix_string), netid)

/-- The value of a run of decimal digits read from the left, starting from `acc`. -/
def digits_value : List Char → Nat → Nat
  | [], acc => acc
  | c :: cs, acc =>
    if 48 ≤ c.toNat ∧ c.toNat ≤ 57 then digits_value cs (acc * 10 + (c.toNat - 48)) else acc

/-- What `atoi` returns for a text that starts with an optional minus sign and
decimal digits whose value fits an `int`. -/
def atoi_digits (s : List Char) : Int :=
  match s with
  | [] => 0
  | c :: cs => if c = Char.ofNat 45 then - (digits_value cs 0 : Int) else (digits_value s 0 : Int)

/-- The texts between the dots of an address. -/
def dot_fields : List Char → List Char → List (List Char)
  | [], cur => [cur.reverse]
  | c :: cs, cur =>
    if c = Char.ofNat 46 then cur.reverse :: dot_fields cs [] else dot_fields cs (c :: cur)

/-- What `inet_addr` returns for a dotted quad of four decimal numbers below 256 (the
address in network byte order as a little-endian host holds it), and
INADDR_NONE for a text of another shape. -/
def inet_addr_quad (s : List Char) : Nat :=
  match (dot_fields s []).map (fun f => digits_value f 0) with
  | [a, b, c, d] =>
    if a < 256 ∧ b < 256 ∧ c < 256 ∧ d < 256 then a + b * 256 + c * 65536 + d * 16777216
    else 0xFFFFFFFF
  | _ => 0xFFFFFFFF

/-- The tries the program can hold after `pna_dtrie_init` and any number of successful
calls of `pna_dtrie_parse`. -/
inductive dtrie_parsed (atoi : List Char → Int) (inet_addr : List Char → Nat) :
    pna_dtrie_entry → Prop
  | init : dtrie_parsed atoi inet_addr pna_dtrie_init
  | parse (head : pna_dtrie_entry) (line : List Char) (netid : Int) :
      dtrie_parsed atoi inet_addr head →
      (pna_dtrie_parse atoi inet_addr head line netid).1 = 0 →
      dtrie_parsed atoi inet_addr (pna_dtrie_parse atoi inet_addr head line netid).2

/-- The mask that keeps the high `M` bits of a 32-bit word. -/
def high_bits_mask (M : Nat) : Nat := 2 ^ 32 - 2 ^ (32 - M)

/-- Every node of the trie that is marked as a prefix carries a domain between 1
and 65535. -/
def dtrie_pos : pna_dtrie_entry → Bool
  | .null => true
  | .node isp dom c0 c1 =>
    (decide (isp = 0) || decide (0 < dom ∧ dom < U16)) && dtrie_pos c0 && dtrie_pos c1

/-- The tries the program can hold after `pna_dtrie_init` and any number of successful
calls of `pna_dtrie_parse` whose netid is not a multiple of 65536. -/
inductive dtrie_parsed_nz (atoi : List Char → Int) (inet_addr : List Char → Nat) :
    pna_dtrie_entry → Prop
  | init : dtrie_parsed_nz atoi inet_addr pna_dtrie_init
  | parse (head : pna_dtrie_entry) (line : List Char) (netid : Int) (ip : List Char) (M : Nat)
      (nid : Int) :
      dtrie_parsed_nz atoi inet_addr head →
      parse_fields atoi line netid = some (ip, M, nid) →
      (pna_dtrie_parse atoi inet_addr head line netid).1 = 0 →
      to_u32 nid % U16 ≠ 0 →
      dtrie_parsed_nz atoi inet_addr (pna_dtrie_parse atoi inet_addr head line netid).2

/-- The trie after the line `10.0.0.0/8/65536` of a networks file. -/
def trie_65536 : pna_dtrie_entry :=
  (pna_dtrie_parse atoi_digits inet_addr_quad pna_dtrie_init "10.0.0.0/8/65536".data (-1)).2

/-! ## The capture callback (`pna.c`) -/

/-- The globals `pkt_hook` works on: the state of the PNA module and the packet and
byte totals `numPkts`, `numBytes` (both `unsigned long long`) of `pna.c`. -/
structure driver_state where
  pna : pna_state
  numPkts : Nat
  numBytes : Nat

/-- Model of `pkt_hook`, the callback libpcap invokes for every frame with the header `h`
(`h_len` is `h->len`, the length of the frame on the wire, `h_ts` the seconds of
`h->ts`) and the captured bytes `p`.  The start time kept for the statistics is
left out.  `none` when the decoder ran out of its bound on nested calls. -/
def pkt_hook (fuel : Nat) (cfg : pna_config) (d : driver_state) (h_len : Nat) (h_ts : Int)
    (p : Nat → Nat) : Option driver_state :=
  if h_len = 0 then some d
  else
    match pna_hook fuel cfg d.pna h_len h_ts p with
    | none => none
    | some (_, st1) =>
      some { pna := st1, numPkts := (d.numPkts + 1) % 2 ^ 64,
             numBytes := (d.numBytes + h_len) % 2 ^ 64 }

/-- The driver after start-up with the trie `10.0.0.0/8 -> 1` and empty tables. -/
def driver_s1 : driver_state := { pna := pna_state_s1, numPkts := 0, numBytes := 0 }

/-- Scenario S2: the untagged Ethernet frame carrying the TCP SYN+ACK
8.8.8.8:80 -> 10.0.0.5:12345 with IP total length 60 (74 bytes on the wire). -/
def frame_s2 : List Nat :=
  [0, 0, 0, 0, 0, 2, 0, 0, 0, 0, 0, 1, 0x08, 0x00,
   0x45, 0, 0, 60, 0, 2, 0, 0, 64, 6, 0, 0, 8, 8, 8, 8, 10, 0, 0, 5,
   0, 80, 0x30, 0x39, 0, 0, 0, 0, 0, 0, 0, 1, 0x50, 0x12, 0, 0, 0, 0, 0, 0]

/-- The flow tables after a run of `pkt_hook` (the initial ones when it did not return). -/
def tables_after (r : Option driver_state) : flowmon_state :=
  match r with
  | some d => d.pna.flowmon
  | none => flowmon_init

/-- The driver after the frame of scenario S1 (114 bytes on the wire) at second
1700000000. -/
def driver_after_s1 : Option driver_state :=
  pkt_hook 1 cfg_2_4 driver_s1 114 1700000000 (pkt_of frame_s1)

/-- The driver after the frames of scenarios S1 and S2 (74 bytes on the wire, second
1700000001). -/
def driver_after_s2 : Option driver_state :=
  match driver_after_s1 with
  | some d => pkt_hook 1 cfg_2_4 d 74 1700000001 (pkt_of frame_s2)
  | none => none

/-! ## Feeding a sequence of packets to `flowmon_hook` -/

/-- The pool and the list of return values after the first `j` packets of a
sequence have been handed to `flowmon_hook`, starting from `flowmon_init`: packet `i`
has key `key i`, direction `dir i`, flags `flags i`, length `len i` and second
`tv i`. -/
def feed (cfg : pna_config) (key : Nat → pna_flowkey) (dir : Nat → Fin 2)
    (flags len : Nat → Nat) (tv : Nat → Int) : Nat → flowmon_state × List Int
  | 0 => (flowmon_init, [])
  | j + 1 =>
    let r := feed cfg key dir flags len tv j
    let h := flowmon_hook cfg r.1 (key j) (dir j) (flags j) (len j) (tv j)
    (h.2, r.2 ++ [h.1])

/-- A pool of 2 tables of 32 slots (`-f 5`). -/
def cfg_2_5 : pna_config := { pna_tables := 2, pna_bits := 5 }

/-- Scenario S6: key number `j` of a family of UDP flows whose two addresses
always differ by the same bits, so that all of them hash to the same slot. -/
def key_s6 (j : Nat) : pna_flowkey :=
  { l3_protocol := 0x0800, l4_protocol := 17, local_ip := 0x0A000001 + j,
    remote_ip := (0x0A000001 + j) ^^^ 0x02080809, local_port := 53, remote_port := 53,
    local_domain := 1, remote_domain := 0xFFFF }

/-- The state of the pool after `j` keys with the hash of `key 0` have been inserted
into table 0 by packets that caused no rotation: key `i` sits in the slot of
probe `i`, every other slot is empty, and the table carries the second of the
first packet. -/
structure feed_inv (cfg : pna_config) (key : Nat → pna_flowkey) (tv0 : Int) (j : Nat)
    (s : flowmon_state) : Prop where
  idx : s.flowtab_idx = 0
  clean : j = 0 → (s.tables 0).table_dirty = 0 ∧ (s.tables 0).read_mutex = false
  dirty : 0 < j → (s.tables 0).table_dirty ≠ 0 ∧ (s.tables 0).first_sec = to_u32 tv0
  keys : ∀ i, i < j → ((s.tables 0).flowtab (flow_slot cfg (key 0) i)).key = key i
  empties : ∀ sl, (∀ i, i < j → sl ≠ flow_slot cfg (key 0) i) →
    flowkey_match ((s.tables 0).flowtab sl).key null_key = true
  nflows : (s.tables 0).nflows = j
  missed : (s.tables 0).nflows_missed = 0

/-! ## Flushing with short writes (`dump_table.c`)

`buf_flush` above is the case in which every `write` transfers its whole request.  Here
the number each call of `write` returns is given from outside. -/

/-- Model of `buf_flush` where call number `k` of `write`, asked for `c` bytes, returns `results k c`
(an `int`: the number of bytes transferred from the start of `buffer`, or a
negative number for an error, which transfers nothing).  The first argument
bounds the number of rounds of the `while (buf_idx > 0)` loop, the second
counts the calls of `write`.  The results are the file and the return value. -/
def buf_flush_short (results : Nat → Int → Int) :
    Nat → Nat → file_state → List Nat → Int → file_state × Int
  | 0, _, out_fd, _, buf_idx => (out_fd, buf_idx)
  | fuel + 1, k, out_fd, buffer, buf_idx =>
    if 0 < buf_idx then
      let count := results k buf_idx
      let out_fd1 := if 0 ≤ count then (write out_fd buffer count.toNat).1 else out_fd
      buf_flush_short results fuel (k + 1) out_fd1 buffer (buf_idx - count)
    else (out_fd, buf_idx)

/-- The results of `write` in a run where the first call transfers one byte and every
later call all it is asked for. -/
def results_one_then_all (k : Nat) (c : Int) : Int := if k = 0 then 1 else c

/-! ## The locks of the table pool (`pna_flowmon.c`) -/

/-- The states of the flow-table globals reached from `flowmon_init` by calls of
`flowmon_hook` with any key, direction, flags, length and timestamp.  The dump
of `flowtab_dump` is part of the call (`flowtab_get` calls it directly), so no
other thread touches the tables between two calls. -/
inductive flowmon_reachable_any (cfg : pna_config) : flowmon_state → Prop
  | init : flowmon_reachable_any cfg flowmon_init
  | hook (s : flowmon_state) (key : pna_flowkey) (direction : Fin 2) (flags pkt_len : Nat)
      (tv_sec : Int) :
      flowmon_reachable_any cfg s →
      flowmon_reachable_any cfg (flowmon_hook cfg s key direction flags pkt_len tv_sec).2

/-- The invariant of the mutexes: the current index is in range, every table but
the current one is unlocked and not dirty, the current table is locked exactly
when it is dirty, and `lock_misses` is still zero. -/
structure lock_inv (cfg : pna_config) (s : flowmon_state) : Prop where
  idx_lt : s.flowtab_idx < cfg.pna_tables
  others_free : ∀ t, t ≠ s.flowtab_idx →
    (s.tables t).read_mutex = false ∧ (s.tables t).table_dirty = 0
  cur_free : (s.tables s.flowtab_idx).table_dirty = 0 →
    (s.tables s.flowtab_idx).read_mutex = false
  cur_locked : (s.tables s.flowtab_idx).table_dirty ≠ 0 →
    (s.tables s.flowtab_idx).read_mutex = true
  misses : s.lock_misses = 0

/-! ## A frame of zero bytes -/

/-- The packet memory of a frame whose every byte is zero. -/
def pkt_zero : Nat → Nat := fun _ => 0

/-! ## The shifts evaluated by `pna_dtrie_lookup` -/

/-- The shift amounts `31 - cur_bit_pos` (an `unsigned int`) that the `while (next_entry)`
loop of `pna_dtrie_lookup` evaluates, in order: one for each node it visits,
computed after `cur_bit_pos++` and before `next_entry` is tested again.  The
arguments are `next_entry` and `cur_bit_pos` on entry to the test. -/
def pna_dtrie_lookup_shifts_loop (ip : Nat) : pna_dtrie_entry → Nat → List Nat
  | .null, _ => []
  | .node _ _ c0 c1, cur_bit_pos =>
      let pos1 := cur_bit_pos + 1
      sub32 31 pos1 ::
        (if cur_bit ip pos1 = 0 then pna_dtrie_lookup_shifts_loop ip c0 pos1
         else pna_dtrie_lookup_shifts_loop ip c1 pos1)

/-- The shift amounts that `pna_dtrie_lookup` evaluates on the trie rooted at `head`: the
one before the loop (`cur_bit_pos = 0`) and one for each node visited below
the root. -/
def pna_dtrie_lookup_shifts (head : pna_dtrie_entry) (ip : Nat) : List Nat :=
  match head with
  | .null => []
  | .node _ _ c0 c1 =>
      sub32 31 0 ::
        (if cur_bit ip 0 = 0 then pna_dtrie_lookup_shifts_loop ip c0 0
         else pna_dtrie_lookup_shifts_loop ip c1 0)

/-- The number of nodes on the longest path of a trie, its root included. -/
def dtrie_height : pna_dtrie_entry → Nat
  | .null => 0
  | .node _ _ c0 c1 => 1 + max (dtrie_height c0) (dtrie_height c1)

/-- The trie with the single host prefix `10.0.0.5/32`, netid 1. -/
def trie_host : pna_dtrie_entry := (pna_dtrie_add pna_dtrie_init 0x0A000005 32 1).2

/-! ## Where `dump_table` puts its records in the buffer -/

/-- The values of `buf_idx` at the statements `log = (struct pna_log_entry*)&buf[buf_idx];`
that the loop of `dump_table` executes, in order: the offset in `buf` of each
record it builds.  The arguments are those of `dump_table_loop`, without
`nflows`. -/
def dump_table_offsets (flow_table : Nat → flow_entry) :
    Nat → Nat → file_state → List Nat → List Nat
  | 0, _, _, _ => []
  | n + 1, flow_idx, fd, buf =>
    let flow := flow_table flow_idx
    if Dump.flowkey_match flow.key null_key = true then
      dump_table_offsets flow_table n (flow_idx + 1) fd buf
    else
      let buf1 := buf ++ log_entry_bytes (log_of_flow flow)
      buf.length ::
        (if buf1.length + sizeof_log_entry ≥ BUF_SIZE then
          match buf_flush fd buf1 buf1.length with
          | (fd1, buf_idx) => dump_table_offsets flow_table n (flow_idx + 1) fd1 (buf1.take buf_idx)
        else dump_table_offsets flow_table n (flow_idx + 1) fd buf1)

/-! ## The bytes of an IPv4 header that the decoder does not read -/

/-- Offset `i` is one of the bytes of the IPv4 header at `hdr` that hold the version
and header length (byte 0), the type of service (1), the total length (2, 3),
the time to live (8) or the header checksum (10, 11). -/
def ip_unread (hdr i : Nat) : Prop :=
  i = hdr ∨ i = hdr + 1 ∨ i = hdr + 2 ∨ i = hdr + 3 ∨ i = hdr + 8 ∨ i = hdr + 10 ∨ i = hdr + 11

instance ip_unread_decidable (hdr i : Nat) : Decidable (ip_unread hdr i) := by
  unfold ip_unread
  infer_instance

/-- The frame of scenario S1 with other values in those bytes of its IPv4 header
(which starts at offset 14): header length 6 words, type of service 0x10,
total length 0xFFFF, time to live 1, checksum 0xBEEF. -/
def frame_s1_ip_bytes : Nat → Nat :=
  upd (upd (upd (upd (upd (upd (upd (pkt_of frame_s1) 14 0x46) 15 0x10) 16 0xFF) 17 0xFF)
    22 1) 24 0xBE) 25 0xEF

/-! ## One slot per flow -/

/-- The invariant of the flow entries of one table: a slot that is empty for
`flowkey_match` holds the null key itself, and every other slot is the slot of
some probe `i < 32` of its own key, all earlier probes of that key meeting
occupied slots with other keys. -/
structure probe_chain (cfg : pna_config) (ft : Nat → flow_entry) : Prop where
  null_exact : ∀ sl, flowkey_match (ft sl).key null_key = true → (ft sl).key = null_key
  chain : ∀ sl, flowkey_match (ft sl).key null_key = false →
    ∃ i, i < 32 ∧ flow_slot cfg (ft sl).key i = sl ∧
      ∀ j, j < i → probe_miss cfg ft (ft sl).key j

/-- The invariant `probe_chain` for every table of the pool and for every table that
was handed to `dump_table`. -/
structure pool_chain (cfg : pna_config) (s : flowmon_state) : Prop where
  tables : ∀ t, probe_chain cfg (s.tables t).flowtab
  dumps : ∀ d, d ∈ s.dumps → probe_chain cfg d.2

/-- Scenario S5, second part: a packet of the first flow at second 1010 makes
`flowtab_get` dump table 0 with its three entries. -/
def state_s5_rotated : flowmon_state :=
  (flowmon_hook cfg_2_4 state_s5 key_s1 0 0x10 100 1010).2

/-! ## Properties -/

/-! ### Bits -/

theorem cur_bit_eq (x pos : Nat) (h : pos ≤ 31) :
    cur_bit x pos = (x.testBit (31 - pos)).toNat := by
  unfold cur_bit shr32 sub32 U32
  have h1 : (31 + 4294967296 - pos % 4294967296) % 4294967296 % 32 = 31 - pos := by omega
  rw [h1, Nat.and_one_is_mod, Nat.toNat_testBit, Nat.shiftRight_eq_div_pow]

theorem cur_bit_lt_two (x pos : Nat) : cur_bit x pos < 2 := by
  unfold cur_bit
  rw [Nat.and_one_is_mod]
  omega

/-! ### Domain trie -/

theorem dtrie_mark_below (ip : Nat) (t : pna_dtrie_entry) :
    ∀ d m, m < d → dtrie_mark ip t d m = none := by
  induction t with
  | null => intro d m _; rfl
  | node isp dom c0 c1 ih0 ih1 =>
    intro d m h
    have hne : m ≠ d := by omega
    simp only [dtrie_mark, hne, if_false]
    split
    · exact ih0 (d + 1) m (by omega)
    · exact ih1 (d + 1) m (by omega)

theorem lookup_loop_no_mark (ip : Nat) (t : pna_dtrie_entry) :
    ∀ pos cur, (∀ m, dtrie_mark ip t (pos + 1) m = none) →
      pna_dtrie_lookup_loop ip t pos cur = cur := by
  induction t with
  | null => intro pos cur _; rfl
  | node isp dom c0 c1 ih0 ih1 =>
    intro pos cur h
    have h0 := h (pos + 1)
    simp only [dtrie_mark, if_true] at h0
    have hisp : ¬ (isp ≠ 0) := by
      intro hc; simp [hc] at h0
    have hch : ∀ m, (if cur_bit ip (pos + 1) = 0 then dtrie_mark ip c0 (pos + 1 + 1) m
        else dtrie_mark ip c1 (pos + 1 + 1) m) = none := by
      intro m
      by_cases hm : m = pos + 1
      · subst hm
        split
        · exact dtrie_mark_below ip c0 _ _ (by omega)
        · exact dtrie_mark_below ip c1 _ _ (by omega)
      · have := h m
        simpa only [dtrie_mark, hm, if_false] using this
    simp only [pna_dtrie_lookup_loop, hisp, if_false]
    by_cases hb : cur_bit ip (pos + 1) = 0
    · simp only [hb, if_true] at hch ⊢
      exact ih0 (pos + 1) cur hch
    · simp only [hb, if_false] at hch ⊢
      exact ih1 (pos + 1) cur hch

theorem lookup_loop_deepest (ip : Nat) (t : pna_dtrie_entry) :
    ∀ pos cur m v, dtrie_mark ip t (pos + 1) m = some v →
      (∀ m1, m < m1 → dtrie_mark ip t (pos + 1) m1 = none) →
      pna_dtrie_lookup_loop ip t pos cur = v := by
  induction t with
  | null => intro pos cur m v h _; simp [dtrie_mark] at h
  | node isp dom c0 c1 ih0 ih1 =>
    intro pos cur m v h hdeep
    by_cases hm : m = pos + 1
    · subst hm
      simp only [dtrie_mark, if_true] at h
      have hisp : isp ≠ 0 := by
        intro hc; simp [hc] at h
      simp only [hisp, ne_eq, not_false_eq_true, if_true, Option.some.injEq] at h
      subst h
      have hch : ∀ m, (if cur_bit ip (pos + 1) = 0 then dtrie_mark ip c0 (pos + 1 + 1) m
          else dtrie_mark ip c1 (pos + 1 + 1) m) = none := by
        intro m
        by_cases hm : m ≤ pos + 1
        · split
          · exact dtrie_mark_below ip c0 _ _ (by omega)
          · exact dtrie_mark_below ip c1 _ _ (by omega)
        · have := hdeep m (by omega)
          have hne : m ≠ pos + 1 := by omega
          simpa only [dtrie_mark, hne, if_false] using this
      simp only [pna_dtrie_lookup_loop, hisp, ne_eq, not_false_eq_true, if_true]
      by_cases hb : cur_bit ip (pos + 1) = 0
      · simp only [hb, if_true] at hch ⊢
        exact lookup_loop_no_mark ip c0 (pos + 1) dom hch
      · simp only [hb, if_false] at hch ⊢
        exact lookup_loop_no_mark ip c1 (pos + 1) dom hch
    · simp only [dtrie_mark, hm, if_false] at h
      have hgt : pos + 1 < m := by
        by_contra hc
        have hlt : m < pos + 1 + 1 := by omega
        by_cases hb : cur_bit ip (pos + 1) = 0
        · simp only [hb, if_true] at h
          rw [dtrie_mark_below ip c0 _ _ hlt] at h; cases h
        · simp only [hb, if_false] at h
          rw [dtrie_mark_below ip c1 _ _ hlt] at h; cases h
      have hch : ∀ m1, m < m1 → (if cur_bit ip (pos + 1) = 0 then dtrie_mark ip c0 (pos + 1 + 1) m1
          else dtrie_mark ip c1 (pos + 1 + 1) m1) = none := by
        intro m1 h1
        have := hdeep m1 h1
        have hne : m1 ≠ pos + 1 := by omega
        simpa only [dtrie_mark, hne, if_false] using this
      simp only [pna_dtrie_lookup_loop]
      by_cases hb : cur_bit ip (pos + 1) = 0
      · simp only [hb, if_true] at h hch ⊢
        exact ih0 (pos + 1) _ m v h hch
      · simp only [hb, if_false] at h hch ⊢
        exact ih1 (pos + 1) _ m v h hch

theorem dtrie_mark_alloc_if_null (ip : Nat) (t : pna_dtrie_entry) (d m : Nat) :
    dtrie_mark ip (alloc_if_null t) d m = dtrie_mark ip t d m := by
  cases t with
  | null =>
    simp only [alloc_if_null, pna_dtrie_entry_alloc, dtrie_mark]
    split
    · simp
    · split <;> rfl
  | node isp dom c0 c1 => rfl

theorem alloc_if_null_ne_null (t : pna_dtrie_entry) : alloc_if_null t ≠ .null := by
  cases t <;> simp [alloc_if_null, pna_dtrie_entry_alloc]

theorem add_loop_ne_null (pfx dom : Nat) :
    ∀ n d t, t ≠ .null → pna_dtrie_add_loop pfx dom n d t ≠ .null := by
  intro n d t ht
  cases t with
  | null => exact absurd rfl ht
  | node isp dm c0 c1 =>
    cases n with
    | zero => simp [pna_dtrie_add_loop, set_prefix]
    | succ n =>
      simp only [pna_dtrie_add_loop]
      split <;> simp

/-- Marks after the loop of `pna_dtrie_add`: on a path that follows the bits
of the prefix from depth `d` to depth `d + n`, the mark at depth `d + n` is the
stored domain. -/
theorem add_loop_mark_hit (ip pfx dom : Nat) :
    ∀ n d t, t ≠ .null → (∀ b, d ≤ b → b < d + n → cur_bit ip b = cur_bit pfx b) →
      dtrie_mark ip (pna_dtrie_add_loop pfx dom n d t) d (d + n) = some (dom % U16) := by
  intro n
  induction n with
  | zero =>
    intro d t ht _
    cases t with
    | null => exact absurd rfl ht
    | node isp dm c0 c1 => simp [pna_dtrie_add_loop, set_prefix, dtrie_mark]
  | succ n ih =>
    intro d t ht hbits
    cases t with
    | null => exact absurd rfl ht
    | node isp dm c0 c1 =>
      have hd := hbits d (Nat.le_refl d) (by omega)
      have hne : d + (n + 1) ≠ d := by omega
      have hrest : ∀ b, d + 1 ≤ b → b < d + 1 + n → cur_bit ip b = cur_bit pfx b :=
        fun b h1 h2 => hbits b (by omega) (by omega)
      have hidx : d + (n + 1) = d + 1 + n := by omega
      simp only [pna_dtrie_add_loop]
      by_cases hb : cur_bit pfx d = 0
      · simp only [hb, if_true, dtrie_mark, hne, if_false, hd]
        rw [hidx]
        exact ih (d + 1) _ (alloc_if_null_ne_null c0) hrest
      · simp only [hb, if_false, dtrie_mark, hne, hd]
        rw [hidx]
        exact ih (d + 1) _ (alloc_if_null_ne_null c1) hrest

/-- Marks after the loop of `pna_dtrie_add`: every mark other than the one at
depth `d + n` on the paths that follow the prefix is left as it was. -/
theorem add_loop_mark_miss (ip pfx dom : Nat) :
    ∀ n d t m, t ≠ .null →
      ¬ (m = d + n ∧ ∀ b, d ≤ b → b < d + n → cur_bit ip b = cur_bit pfx b) →
      dtrie_mark ip (pna_dtrie_add_loop pfx dom n d t) d m = dtrie_mark ip t d m := by
  intro n
  induction n with
  | zero =>
    intro d t m ht hno
    cases t with
    | null => exact absurd rfl ht
    | node isp dm c0 c1 =>
      have hm : m ≠ d := by
        intro hc; apply hno; refine ⟨by omega, ?_⟩
        intro b h1 h2; omega
      simp [pna_dtrie_add_loop, set_prefix, dtrie_mark, hm]
  | succ n ih =>
    intro d t m ht hno
    cases t with
    | null => exact absurd rfl ht
    | node isp dm c0 c1 =>
      simp only [pna_dtrie_add_loop]
      by_cases hm : m = d
      · subst hm
        split <;> simp [dtrie_mark]
      · by_cases hb : cur_bit pfx d = 0
        · simp only [hb, if_true, dtrie_mark, hm, if_false]
          by_cases hi : cur_bit ip d = 0
          · simp only [hi, if_true]
            rw [ih (d + 1) _ m (alloc_if_null_ne_null c0), dtrie_mark_alloc_if_null]
            rintro ⟨h1, h2⟩
            apply hno
            refine ⟨by omega, ?_⟩
            intro b hb1 hb2
            by_cases hbd : b = d
            · subst hbd; rw [hi, hb]
            · exact h2 b (by omega) (by omega)
          · simp only [hi, if_false]
        · simp only [hb, if_false, dtrie_mark, hm]
          by_cases hi : cur_bit ip d = 0
          · simp only [hi, if_true]
          · simp only [hi, if_false]
            rw [ih (d + 1) _ m (alloc_if_null_ne_null c1), dtrie_mark_alloc_if_null]
            rintro ⟨h1, h2⟩
            apply hno
            refine ⟨by omega, ?_⟩
            intro b hb1 hb2
            by_cases hbd : b = d
            · subst hbd
              have := cur_bit_lt_two ip b
              have := cur_bit_lt_two pfx b
              omega
            · exact h2 b (by omega) (by omega)

set_option maxRecDepth 100000 in
theorem dtrie_mask_testBit :
    ∀ M, M < 33 → ∀ pos, pos < M → (dtrie_mask M).testBit (31 - pos) = true := by
  decide

theorem cur_bit_mask (pfx M pos : Nat) (hM : M ≤ 32) (hpos : pos < M) :
    cur_bit (pfx &&& dtrie_mask M) pos = cur_bit pfx pos := by
  rw [cur_bit_eq _ _ (by omega), cur_bit_eq _ _ (by omega), Nat.testBit_and,
    dtrie_mask_testBit M (by omega) pos hpos, Bool.and_true]

theorem cidr_contains_iff_bits (pfx M A : Nat) (hM : M ≤ 32) (hA : A < 2 ^ 32)
    (hp : pfx < 2 ^ 32) :
    cidr_contains pfx M A ↔ ∀ b, b < M → cur_bit A b = cur_bit pfx b := by
  unfold cidr_contains
  rw [← Nat.shiftRight_eq_div_pow, ← Nat.shiftRight_eq_div_pow]
  constructor
  · intro h b hb
    rw [cur_bit_eq _ _ (by omega), cur_bit_eq _ _ (by omega)]
    have h1 := congrArg (fun x => x.testBit (M - 1 - b)) h
    simp only [Nat.testBit_shiftRight] at h1
    have h2 : 32 - M + (M - 1 - b) = 31 - b := by omega
    rw [h2] at h1
    rw [h1]
  · intro h
    apply Nat.eq_of_testBit_eq
    intro j
    rw [Nat.testBit_shiftRight, Nat.testBit_shiftRight]
    by_cases hj : 32 - M + j ≤ 31
    · have hb := h (31 - (32 - M + j)) (by omega)
      rw [cur_bit_eq _ _ (by omega), cur_bit_eq _ _ (by omega)] at hb
      have h2 : 31 - (31 - (32 - M + j)) = 32 - M + j := by omega
      rw [h2] at hb
      cases h3 : A.testBit (32 - M + j) <;> cases h4 : pfx.testBit (32 - M + j) <;>
        simp [h3, h4] at hb ⊢
    · have h5 : (2 : Nat) ^ 32 ≤ 2 ^ (32 - M + j) :=
        Nat.pow_le_pow_right (by decide) (by omega)
      rw [Nat.testBit_lt_two_pow (Nat.lt_of_lt_of_le hA h5),
        Nat.testBit_lt_two_pow (Nat.lt_of_lt_of_le hp h5)]

theorem dtrie_add_fst (t : pna_dtrie_entry) (pfx M netid : Nat) :
    (pna_dtrie_add t pfx M netid).1 = 0 ↔ (0 < M ∧ M ≤ 32) := by
  unfold pna_dtrie_add
  by_cases h : 0 < M ∧ M ≤ 32
  · simp [h]
  · simp [h]

theorem dtrie_add_ne_null (t : pna_dtrie_entry) (pfx M netid : Nat) (ht : t ≠ .null) :
    (pna_dtrie_add t pfx M netid).2 ≠ .null := by
  unfold pna_dtrie_add
  by_cases h : 0 < M ∧ M ≤ 32
  · simp only [h, not_true_eq_false, if_false]
    exact add_loop_ne_null _ _ _ _ _ ht
  · simpa only [h, not_false_eq_true, if_true] using ht

theorem dtrie_add_bits (pfx M b : Nat) (hM : M ≤ 32) (hb : b < M) :
    cur_bit (if pfx &&& dtrie_mask M ≠ pfx then pfx &&& dtrie_mask M else pfx) b
      = cur_bit pfx b := by
  split
  · exact cur_bit_mask pfx M b hM hb
  · rfl

theorem dtrie_add_mark_hit (t : pna_dtrie_entry) (pfx M netid A : Nat) (ht : t ≠ .null)
    (hM : 0 < M ∧ M ≤ 32) (hA : A < 2 ^ 32) (hp : pfx < 2 ^ 32)
    (hc : cidr_contains pfx M A) :
    dtrie_mark A (pna_dtrie_add t pfx M netid).2 0 M = some (netid % U16) := by
  unfold pna_dtrie_add
  simp only [hM, and_self, not_true_eq_false, if_false]
  have h := add_loop_mark_hit A
    (if pfx &&& dtrie_mask M ≠ pfx then pfx &&& dtrie_mask M else pfx) netid M 0 t ht
    (by
      intro b _ hb
      rw [dtrie_add_bits pfx M b hM.2 (by omega)]
      exact (cidr_contains_iff_bits pfx M A hM.2 hA hp).1 hc b (by omega))
  simpa using h

theorem dtrie_add_mark_miss (t : pna_dtrie_entry) (pfx M netid A m : Nat) (ht : t ≠ .null)
    (hA : A < 2 ^ 32) (hp : pfx < 2 ^ 32)
    (hno : ¬ (M = m ∧ cidr_contains pfx M A)) :
    dtrie_mark A (pna_dtrie_add t pfx M netid).2 0 m = dtrie_mark A t 0 m := by
  unfold pna_dtrie_add
  by_cases hM : 0 < M ∧ M ≤ 32
  · simp only [hM, and_self, not_true_eq_false, if_false]
    apply add_loop_mark_miss A _ netid M 0 t m ht
    rintro ⟨h1, h2⟩
    apply hno
    refine ⟨by omega, ?_⟩
    rw [cidr_contains_iff_bits pfx M A hM.2 hA hp]
    intro b hb
    rw [← dtrie_add_bits pfx M b hM.2 hb]
    exact h2 b (by omega) (by omega)
  · simp only [hM, not_false_eq_true, if_true]

theorem dtrie_build_append (P1 P2 : List (Nat × Nat × Nat)) :
    ∀ t t2, dtrie_build t (P1 ++ P2) = some t2 →
      ∃ t1, dtrie_build t P1 = some t1 ∧ dtrie_build t1 P2 = some t2 := by
  induction P1 with
  | nil => intro t t2 h; exact ⟨t, rfl, h⟩
  | cons e P1 ih =>
    intro t t2 h
    simp only [List.cons_append, dtrie_build] at h ⊢
    split at h
    · rename_i h0
      simp only [h0, if_true]
      exact ih _ _ h
    · cases h

theorem dtrie_build_ne_null (P : List (Nat × Nat × Nat)) :
    ∀ t t1, t ≠ .null → dtrie_build t P = some t1 → t1 ≠ .null := by
  induction P with
  | nil =>
    intro t t1 ht h
    simp only [dtrie_build, Option.some.injEq] at h
    subst h
    exact ht
  | cons e P ih =>
    intro t t1 ht h
    simp only [dtrie_build] at h
    split at h
    · exact ih _ t1 (dtrie_add_ne_null t e.1 e.2.1 e.2.2 ht) h
    · cases h

theorem dtrie_build_mark (A m : Nat) (hA : A < 2 ^ 32) (P : List (Nat × Nat × Nat)) :
    ∀ t t1, t ≠ .null → dtrie_build t P = some t1 →
      (∀ e ∈ P, e.1 < 2 ^ 32) →
      (∀ e ∈ P, ¬ (e.2.1 = m ∧ cidr_contains e.1 e.2.1 A)) →
      t1 ≠ .null ∧ dtrie_mark A t1 0 m = dtrie_mark A t 0 m := by
  induction P with
  | nil =>
    intro t t1 ht h _ _
    simp only [dtrie_build, Option.some.injEq] at h
    subst h
    exact ⟨ht, rfl⟩
  | cons e P ih =>
    intro t t1 ht h hP hno
    simp only [dtrie_build] at h
    split at h
    · have h1 := ih _ t1 (dtrie_add_ne_null t e.1 e.2.1 e.2.2 ht) h
        (fun e1 he1 => hP e1 (List.mem_cons_of_mem _ he1))
        (fun e1 he1 => hno e1 (List.mem_cons_of_mem _ he1))
      refine ⟨h1.1, ?_⟩
      rw [h1.2]
      exact dtrie_add_mark_miss t e.1 e.2.1 e.2.2 A m ht hA (hP e (List.mem_cons_self _ _))
        (hno e (List.mem_cons_self _ _))
    · cases h

theorem dtrie_mark_init (A d m : Nat) : dtrie_mark A pna_dtrie_init d m = none := by
  simp only [pna_dtrie_init, pna_dtrie_entry_alloc, dtrie_mark]
  split
  · simp
  · split <;> rfl

theorem lookup_head_none (A : Nat) (t : pna_dtrie_entry)
    (h : ∀ m, 0 < m → dtrie_mark A t 0 m = none) : pna_dtrie_lookup t A = MAX_DOMAIN := by
  cases t with
  | null => rfl
  | node isp dom c0 c1 =>
    have hch : ∀ m, (if cur_bit A 0 = 0 then dtrie_mark A c0 (0 + 1) m
        else dtrie_mark A c1 (0 + 1) m) = none := by
      intro m
      by_cases hm : m = 0
      · subst hm
        split
        · exact dtrie_mark_below A c0 _ _ (by omega)
        · exact dtrie_mark_below A c1 _ _ (by omega)
      · have := h m (by omega)
        simpa only [dtrie_mark, hm, if_false] using this
    simp only [pna_dtrie_lookup]
    by_cases hb : cur_bit A 0 = 0
    · simp only [hb, if_true] at hch ⊢
      exact lookup_loop_no_mark A c0 0 _ hch
    · simp only [hb, if_false] at hch ⊢
      exact lookup_loop_no_mark A c1 0 _ hch

theorem lookup_head_some (A m v : Nat) (t : pna_dtrie_entry) (hm : 0 < m)
    (h : dtrie_mark A t 0 m = some v)
    (hdeep : ∀ m1, m < m1 → dtrie_mark A t 0 m1 = none) : pna_dtrie_lookup t A = v := by
  cases t with
  | null => simp [dtrie_mark] at h
  | node isp dom c0 c1 =>
    have hne : m ≠ 0 := by omega
    simp only [dtrie_mark, hne, if_false] at h
    have hch : ∀ m1, m < m1 → (if cur_bit A 0 = 0 then dtrie_mark A c0 (0 + 1) m1
        else dtrie_mark A c1 (0 + 1) m1) = none := by
      intro m1 h1
      have := hdeep m1 h1
      have hne1 : m1 ≠ 0 := by omega
      simpa only [dtrie_mark, hne1, if_false] using this
    simp only [pna_dtrie_lookup]
    by_cases hb : cur_bit A 0 = 0
    · simp only [hb, if_true] at h hch ⊢
      exact lookup_loop_deepest A c0 0 _ m v h hch
    · simp only [hb, if_false] at h hch ⊢
      exact lookup_loop_deepest A c1 0 _ m v h hch

theorem pna_dtrie_init_ne_null : pna_dtrie_init ≠ .null := by
  simp [pna_dtrie_init, pna_dtrie_entry_alloc]

/-- C1 (amended): in a trie built from the root-only trie by successful
`pna_dtrie_add` calls over the list `P` of (prefix, length, netid) entries,
`pna_dtrie_lookup A` is 0xFFFF when no entry contains `A`, and otherwise the
netid, reduced modulo 2^16 (the width of `domain_id`), of the longest entry
containing `A` (the one added last among entries of that length). -/
theorem C1_lookup_longest_match (P : List (Nat × Nat × Nat)) (t : pna_dtrie_entry) (A : Nat)
    (hbuild : dtrie_build pna_dtrie_init P = some t) (hA : A < 2 ^ 32)
    (hP : ∀ e ∈ P, e.1 < 2 ^ 32) :
    ((∀ e ∈ P, ¬ cidr_contains e.1 e.2.1 A) → pna_dtrie_lookup t A = 0xFFFF) ∧
    (∀ P1 P2 pfx M netid, P = P1 ++ (pfx, M, netid) :: P2 →
      cidr_contains pfx M A →
      (∀ e ∈ P1, cidr_contains e.1 e.2.1 A → e.2.1 ≤ M) →
      (∀ e ∈ P2, cidr_contains e.1 e.2.1 A → e.2.1 < M) →
      (0 < M ∧ M ≤ 32) ∧ pna_dtrie_lookup t A = netid % 65536) := by
  constructor
  · intro hnone
    apply lookup_head_none
    intro m _
    have h := dtrie_build_mark A m hA P _ t pna_dtrie_init_ne_null hbuild hP
      (fun e he hc => hnone e he hc.2)
    rw [h.2, dtrie_mark_init]
  · intro P1 P2 pfx M netid hP12 hc h1 h2
    subst hP12
    obtain ⟨t1, hb1, hb2⟩ := dtrie_build_append P1 _ _ _ hbuild
    have ht1 : t1 ≠ .null := dtrie_build_ne_null P1 _ t1 pna_dtrie_init_ne_null hb1
    simp only [dtrie_build] at hb2
    split at hb2
    swap
    · cases hb2
    rename_i hret
    have hM : 0 < M ∧ M ≤ 32 := (dtrie_add_fst t1 pfx M netid).1 hret
    have hp : pfx < 2 ^ 32 := hP (pfx, M, netid) (by simp)
    refine ⟨hM, ?_⟩
    have hmark := dtrie_build_mark A M hA P2 _ t (dtrie_add_ne_null t1 pfx M netid ht1) hb2
      (fun e he => hP e (by simp [he]))
      (fun e he hc0 => by
        have := h2 e he hc0.2
        omega)
    have hhit := dtrie_add_mark_hit t1 pfx M netid A ht1 hM hA hp hc
    apply lookup_head_some A M _ t hM.1
    · rw [hmark.2]
      exact hhit
    · intro m1 hm1
      have h := dtrie_build_mark A m1 hA _ _ t pna_dtrie_init_ne_null hbuild hP
        (fun e he hc0 => by
          rcases List.mem_append.1 he with he1 | he2
          · have := h1 e he1 hc0.2
            omega
          · rcases List.mem_cons.1 he2 with he3 | he4
            · subst he3
              have := hc0.1
              simp only at this
              omega
            · have := h2 e he4 hc0.2
              omega)
      rw [h.2, dtrie_mark_init]

/-- Witness for C1: with `10.0.0.0/8 -> 1` and `10.1.0.0/16 -> 65537` the
address 10.1.2.3 is looked up as 65537 mod 65536 = 1. -/
theorem C1_lookup_longest_match_witness :
    dtrie_build pna_dtrie_init [(0x0A000000, 8, 1), (0x0A010000, 16, 65537)] = some trie_10_8_16 ∧
    pna_dtrie_lookup trie_10_8_16 0x0A010203 = 65537 % 65536 :=
  ⟨by decide,
   ((C1_lookup_longest_match [(0x0A000000, 8, 1), (0x0A010000, 16, 65537)] trie_10_8_16
      0x0A010203 (by decide) (by decide) (by decide)).2
      [(0x0A000000, 8, 1)] [] 0x0A010000 16 65537 rfl (by decide) (by decide) (by decide)).2⟩

/-- Counterexample to C1 as stated: the trie built by the one successful call
`pna_dtrie_add(10.0.0.0, 8, 65537)` contains 10.0.0.5 in its only prefix, yet
the lookup of 10.0.0.5 returns 1, not the netid 65537. -/
theorem C1_counterexample :
    dtrie_build pna_dtrie_init [(0x0A000000, 8, 65537)]
      = some (pna_dtrie_add pna_dtrie_init 0x0A000000 8 65537).2 ∧
    cidr_contains 0x0A000000 8 0x0A000005 ∧
    pna_dtrie_lookup (pna_dtrie_add pna_dtrie_init 0x0A000000 8 65537).2 0x0A000005 = 1 ∧
    pna_dtrie_lookup (pna_dtrie_add pna_dtrie_init 0x0A000000 8 65537).2 0x0A000005 ≠ 65537 := by
  decide

/-! ### Localisation -/

theorem lookup_loop_typed (ip : Nat) (t : pna_dtrie_entry) :
    ∀ pos cur, dtrie_typed t = true → cur < U16 → pna_dtrie_lookup_loop ip t pos cur < U16 := by
  induction t with
  | null => intro pos cur _ h; exact h
  | node isp dom c0 c1 ih0 ih1 =>
    intro pos cur ht hcur
    simp only [dtrie_typed, Bool.and_eq_true, decide_eq_true_eq] at ht
    have hc : (if isp ≠ 0 then dom else cur) < U16 := by
      split
      · exact ht.1.1
      · exact hcur
    simp only [pna_dtrie_lookup_loop]
    split
    · exact ih0 _ _ ht.1.2 hc
    · exact ih1 _ _ ht.2 hc

theorem lookup_typed (head : pna_dtrie_entry) (ip : Nat) (h : dtrie_typed head = true) :
    pna_dtrie_lookup head ip < U16 := by
  cases head with
  | null => simp [pna_dtrie_lookup, MAX_DOMAIN, U16]
  | node isp dom c0 c1 =>
    simp only [dtrie_typed, Bool.and_eq_true, decide_eq_true_eq] at h
    simp only [pna_dtrie_lookup]
    split
    · exact lookup_loop_typed ip c0 _ _ h.1.2 (by decide)
    · exact lookup_loop_typed ip c1 _ _ h.2 (by decide)

/-- C2 (amended): for every trie and two packets of one conversation whose
two addresses differ, decoded as local=A:pa, remote=B:pb and as local=B:pb,
remote=A:pa with the same protocols, `pna_localize` accepts both or neither,
and when it accepts them the two resulting keys are equal and the two
directions are opposite. -/
theorem C2_localize_symmetric (head : pna_dtrie_entry) (l3 l4 A B pa pb x1 y1 x2 y2 : Nat)
    (d1 d2 : Fin 2) (hAB : A ≠ B) :
    (pna_localize head ⟨l3, l4, A, B, pa, pb, x1, y1⟩ d1).1
      = (pna_localize head ⟨l3, l4, B, A, pb, pa, x2, y2⟩ d2).1 ∧
    ((pna_localize head ⟨l3, l4, A, B, pa, pb, x1, y1⟩ d1).1 = 1 →
      (pna_localize head ⟨l3, l4, A, B, pa, pb, x1, y1⟩ d1).2.1
        = (pna_localize head ⟨l3, l4, B, A, pb, pa, x2, y2⟩ d2).2.1 ∧
      (pna_localize head ⟨l3, l4, A, B, pa, pb, x1, y1⟩ d1).2.2
        ≠ (pna_localize head ⟨l3, l4, B, A, pb, pa, x2, y2⟩ d2).2.2) := by
  simp only [pna_localize, pna_session_swap, PNA_DIR_OUTBOUND, PNA_DIR_INBOUND]
  generalize pna_dtrie_lookup head A % U16 = dA
  generalize pna_dtrie_lookup head B % U16 = dB
  rcases Nat.lt_trichotomy dA dB with h | h | h
  · have h1 : ¬ dB < dA := by omega
    simp [h, h1]
  · subst h
    by_cases hm : dA = MAX_DOMAIN
    · simp [hm]
    · rcases Nat.lt_or_gt_of_ne hAB with h2 | h2
      · have h3 : ¬ B < A := by omega
        simp [hm, h2, h3]
      · have h3 : ¬ A < B := by omega
        simp [hm, h2, h3]
  · have h1 : ¬ dA < dB := by omega
    simp [h, h1]

/-- Witness for C2: the two directions of 10.0.0.5:12345 <-> 8.8.8.8:80 under
the trie `10.0.0.0/8 -> 1`. -/
theorem C2_localize_symmetric_witness :
    (0x0A000005 : Nat) ≠ 0x08080808 ∧
    (pna_localize trie_10_8 ⟨0x0800, 6, 0x0A000005, 0x08080808, 12345, 80, 0, 0⟩ 0).1 = 1 ∧
    (pna_localize trie_10_8 ⟨0x0800, 6, 0x0A000005, 0x08080808, 12345, 80, 0, 0⟩ 0).2.1
      = (pna_localize trie_10_8 ⟨0x0800, 6, 0x08080808, 0x0A000005, 80, 12345, 0, 0⟩ 0).2.1 ∧
    (pna_localize trie_10_8 ⟨0x0800, 6, 0x0A000005, 0x08080808, 12345, 80, 0, 0⟩ 0).2.2
      ≠ (pna_localize trie_10_8 ⟨0x0800, 6, 0x08080808, 0x0A000005, 80, 12345, 0, 0⟩ 0).2.2 :=
  ⟨by decide, by decide,
   (C2_localize_symmetric trie_10_8 0x0800 6 0x0A000005 0x08080808 12345 80 0 0 0 0 0 0
      (by decide)).2 (by decide)⟩

/-- Counterexample to C2 as stated: under the trie `10.0.0.0/8 -> 1` the two
packets 10.0.0.5:1000 -> 10.0.0.5:2000 and 10.0.0.5:2000 -> 10.0.0.5:1000 of
one conversation are both accepted, both get direction inbound, and their
keys differ. -/
theorem C2_counterexample :
    (pna_localize trie_10_8 ⟨0x0800, 6, 0x0A000005, 0x0A000005, 1000, 2000, 0, 0⟩ 0).1 = 1 ∧
    (pna_localize trie_10_8 ⟨0x0800, 6, 0x0A000005, 0x0A000005, 2000, 1000, 0, 0⟩ 0).1 = 1 ∧
    (pna_localize trie_10_8 ⟨0x0800, 6, 0x0A000005, 0x0A000005, 1000, 2000, 0, 0⟩ 0).2.1
      ≠ (pna_localize trie_10_8 ⟨0x0800, 6, 0x0A000005, 0x0A000005, 2000, 1000, 0, 0⟩ 0).2.1 ∧
    (pna_localize trie_10_8 ⟨0x0800, 6, 0x0A000005, 0x0A000005, 1000, 2000, 0, 0⟩ 0).2.2
      = (pna_localize trie_10_8 ⟨0x0800, 6, 0x0A000005, 0x0A000005, 2000, 1000, 0, 0⟩ 0).2.2 := by
  decide

/-- C3 (amended): for every trie and every key that `pna_localize` accepts,
the resulting key has `local_domain < remote_domain`, or equal domains and
`local_ip <= remote_ip`; the addresses are strictly ordered whenever the two
addresses of the input key differ. -/
theorem C3_localize_normalized (head : pna_dtrie_entry) (key : pna_flowkey) (d : Fin 2)
    (hacc : (pna_localize head key d).1 = 1) :
    ((pna_localize head key d).2.1.local_domain < (pna_localize head key d).2.1.remote_domain ∨
      ((pna_localize head key d).2.1.local_domain = (pna_localize head key d).2.1.remote_domain ∧
        (pna_localize head key d).2.1.local_ip ≤ (pna_localize head key d).2.1.remote_ip)) ∧
    (key.local_ip ≠ key.remote_ip →
      ((pna_localize head key d).2.1.local_domain < (pna_localize head key d).2.1.remote_domain ∨
      ((pna_localize head key d).2.1.local_domain = (pna_localize head key d).2.1.remote_domain ∧
        (pna_localize head key d).2.1.local_ip < (pna_localize head key d).2.1.remote_ip))) := by
  revert hacc
  simp only [pna_localize, pna_session_swap, PNA_DIR_OUTBOUND, PNA_DIR_INBOUND]
  generalize pna_dtrie_lookup head key.local_ip % U16 = dA
  generalize pna_dtrie_lookup head key.remote_ip % U16 = dB
  rcases Nat.lt_trichotomy dA dB with h | h | h
  · simp [h]
  · subst h
    by_cases hm : dA = MAX_DOMAIN
    · simp [hm]
    · by_cases h2 : key.local_ip < key.remote_ip
      · simp [hm, h2]
        omega
      · simp [hm, h2]
        omega
  · have h1 : ¬ dA < dB := by omega
    simp [h, h1]

/-- Witness for C3: the key of 8.8.8.8:80 -> 10.0.0.5:12345 is accepted and
normalised under the trie `10.0.0.0/8 -> 1`. -/
theorem C3_localize_normalized_witness :
    (pna_localize trie_10_8 ⟨0x0800, 6, 0x08080808, 0x0A000005, 80, 12345, 0, 0⟩ 0).1 = 1 ∧
    (pna_localize trie_10_8 ⟨0x0800, 6, 0x08080808, 0x0A000005, 80, 12345, 0, 0⟩ 0).2.1.local_domain
      < (pna_localize trie_10_8
          ⟨0x0800, 6, 0x08080808, 0x0A000005, 80, 12345, 0, 0⟩ 0).2.1.remote_domain :=
  ⟨by decide,
   ((C3_localize_normalized trie_10_8 ⟨0x0800, 6, 0x08080808, 0x0A000005, 80, 12345, 0, 0⟩ 0
      (by decide)).1).resolve_right (by decide)⟩

/-- Counterexample to C3 as stated: under the trie `10.0.0.0/8 -> 1` the key
of a packet from 10.0.0.5 to 10.0.0.5 is accepted, and the resulting key has
equal domains and equal addresses, so neither `local_domain < remote_domain`
nor `local_ip < remote_ip`. -/
theorem C3_counterexample :
    (pna_localize trie_10_8 ⟨0x0800, 6, 0x0A000005, 0x0A000005, 1000, 2000, 0, 0⟩ 0).1 = 1 ∧
    ¬ ((pna_localize trie_10_8
          ⟨0x0800, 6, 0x0A000005, 0x0A000005, 1000, 2000, 0, 0⟩ 0).2.1.local_domain
        < (pna_localize trie_10_8
          ⟨0x0800, 6, 0x0A000005, 0x0A000005, 1000, 2000, 0, 0⟩ 0).2.1.remote_domain ∨
      ((pna_localize trie_10_8
          ⟨0x0800, 6, 0x0A000005, 0x0A000005, 1000, 2000, 0, 0⟩ 0).2.1.local_domain
        = (pna_localize trie_10_8
          ⟨0x0800, 6, 0x0A000005, 0x0A000005, 1000, 2000, 0, 0⟩ 0).2.1.remote_domain ∧
       (pna_localize trie_10_8
          ⟨0x0800, 6, 0x0A000005, 0x0A000005, 1000, 2000, 0, 0⟩ 0).2.1.local_ip
        < (pna_localize trie_10_8
          ⟨0x0800, 6, 0x0A000005, 0x0A000005, 1000, 2000, 0, 0⟩ 0).2.1.remote_ip)) := by
  decide

theorem localize_reject_iff (head : pna_dtrie_entry) (key : pna_flowkey) (d : Fin 2) :
    (pna_localize head key d).1 = 0 ↔
      (pna_dtrie_lookup head key.local_ip % U16 = MAX_DOMAIN ∧
        pna_dtrie_lookup head key.remote_ip % U16 = MAX_DOMAIN) := by
  simp only [pna_localize, pna_session_swap, PNA_DIR_OUTBOUND, PNA_DIR_INBOUND]
  generalize pna_dtrie_lookup head key.local_ip % U16 = dA
  generalize pna_dtrie_lookup head key.remote_ip % U16 = dB
  rcases Nat.lt_trichotomy dA dB with h | h | h
  · simp [h]
    omega
  · subst h
    by_cases hm : dA = MAX_DOMAIN
    · simp [hm]
    · by_cases h2 : key.local_ip < key.remote_ip
      · simp [hm, h2]
      · simp [hm, h2]
  · have h1 : ¬ dA < dB := by omega
    simp [h, h1]
    omega

theorem localize_accept_domains (head : pna_dtrie_entry) (key : pna_flowkey) (d : Fin 2)
    (h : (pna_localize head key d).1 ≠ 0) :
    ¬ ((pna_localize head key d).2.1.local_domain = MAX_DOMAIN ∧
       (pna_localize head key d).2.1.remote_domain = MAX_DOMAIN) := by
  revert h
  simp only [pna_localize, pna_session_swap, PNA_DIR_OUTBOUND, PNA_DIR_INBOUND]
  generalize pna_dtrie_lookup head key.local_ip % U16 = dA
  generalize pna_dtrie_lookup head key.remote_ip % U16 = dB
  rcases Nat.lt_trichotomy dA dB with h | h | h
  · simp [h]
    omega
  · subst h
    by_cases hm : dA = MAX_DOMAIN
    · simp [hm]
    · by_cases h2 : key.local_ip < key.remote_ip
      · simp [hm, h2]
      · simp [hm, h2]
  · have h1 : ¬ dA < dB := by omega
    simp [h, h1]
    omega

theorem hook_decode_domains (fuel : Nat) (head : pna_dtrie_entry) (fs : frag_state)
    (pkt_len : Nat) (pkt : Nat → Nat) (fs1 : frag_state) (k : pna_flowkey) (dir : Fin 2)
    (flags : Nat)
    (h : pna_hook_decode fuel head fs pkt_len pkt = some (fs1, some (k, dir, flags))) :
    ¬ (k.local_domain = MAX_DOMAIN ∧ k.remote_domain = MAX_DOMAIN) := by
  unfold pna_hook_decode at h
  simp only at h
  split at h
  · cases h
  · split at h
    · cases h
    · rename_i ret fs2 key1 flags1 _
      split at h
      · cases h
      · split at h
        · cases h
        · rename_i hok
          simp only [Option.some.injEq, Prod.mk.injEq] at h
          obtain ⟨_, hk, _, _⟩ := h
          rw [← hk]
          exact localize_accept_domains head key1 PNA_DIR_OUTBOUND hok

/-- C4: on a trie whose `domain_id` fields are 16-bit, `pna_localize` returns 0
exactly when the lookups of both addresses of the key return 0xFFFF (and
returns 1 otherwise); hence every key that `pna_hook` passes to `flowmon_hook`
has at least one domain other than 0xFFFF. -/
theorem C4_reject_iff_both_unknown (head : pna_dtrie_entry) (hty : dtrie_typed head = true) :
    (∀ key d, ((pna_localize head key d).1 = 0 ↔
        (pna_dtrie_lookup head key.local_ip = 0xFFFF ∧
          pna_dtrie_lookup head key.remote_ip = 0xFFFF)) ∧
      ((pna_localize head key d).1 = 0 ∨ (pna_localize head key d).1 = 1)) ∧
    (∀ fuel cfg st pkt_len tv_sec pkt ret st1, st.pna_dtrie_head = head →
      pna_hook fuel cfg st pkt_len tv_sec pkt = some (some ret, st1) →
      ∃ fs1 k dir flags,
        pna_hook_decode fuel head st.frag pkt_len pkt = some (fs1, some (k, dir, flags)) ∧
        flowmon_hook cfg st.flowmon k dir flags pkt_len tv_sec = (ret, st1.flowmon) ∧
        ¬ (k.local_domain = 0xFFFF ∧ k.remote_domain = 0xFFFF)) := by
  constructor
  · intro key d
    constructor
    · rw [localize_reject_iff]
      have h1 := lookup_typed head key.local_ip hty
      have h2 := lookup_typed head key.remote_ip hty
      rw [Nat.mod_eq_of_lt h1, Nat.mod_eq_of_lt h2]
      rfl
    · simp only [pna_localize]
      split
      · right; rfl
      · split
        · right; rfl
        · split
          · left; rfl
          · split <;> (right; rfl)
  · intro fuel cfg st pkt_len tv_sec pkt ret st1 hhead h
    subst hhead
    unfold pna_hook at h
    split at h
    · cases h
    · simp at h
    · rename_i fs1 key direction flags hdec
      simp only [pna_flowmon, if_true, Option.some.injEq, Prod.mk.injEq] at h
      refine ⟨fs1, key, direction, flags, hdec, ?_, ?_⟩
      · obtain ⟨h1, h2⟩ := h
        rw [← h2]
        rw [← h1]
      · exact hook_decode_domains fuel _ st.frag pkt_len pkt fs1 key direction flags hdec

/-- Witness for C4: the trie `10.0.0.0/8 -> 1` is 16-bit typed; the key
8.8.8.8 -> 9.9.9.9 is rejected, both lookups being 0xFFFF. -/
theorem C4_reject_iff_both_unknown_witness :
    dtrie_typed trie_10_8 = true ∧
    (pna_localize trie_10_8 ⟨0x0800, 6, 0x08080808, 0x09090909, 80, 12345, 0, 0⟩ 0).1 = 0 ∧
    pna_dtrie_lookup trie_10_8 0x08080808 = 0xFFFF ∧
    pna_dtrie_lookup trie_10_8 0x09090909 = 0xFFFF :=
  ⟨by decide, by decide,
   (((C4_reject_iff_both_unknown trie_10_8 (by decide)).1
      ⟨0x0800, 6, 0x08080808, 0x09090909, 80, 12345, 0, 0⟩ 0).1).1 (by decide)⟩


/-! ### Flow tables -/

theorem bump_probes_zero (p : Nat → Nat) (i0 : Nat) : bump_probes p i0 0 = p := by
  funext j
  simp only [bump_probes]
  split
  · omega
  · rfl

theorem bump_probes_succ (p : Nat → Nat) (i0 c : Nat) :
    bump_probes (upd p i0 ((p i0 + 1) % U32)) (i0 + 1) c = bump_probes p i0 (c + 1) := by
  funext j
  simp only [bump_probes, upd]
  by_cases h1 : j = i0
  · subst h1
    have h2 : ¬ (j + 1 ≤ j ∧ j < j + 1 + c) := by omega
    have h3 : j ≤ j ∧ j < j + (c + 1) := by omega
    simp [h2, h3]
  · by_cases h2 : i0 + 1 ≤ j ∧ j < i0 + 1 + c
    · have h3 : i0 ≤ j ∧ j < i0 + (c + 1) := by omega
      simp [h1, h2, h3]
    · have h3 : ¬ (i0 ≤ j ∧ j < i0 + (c + 1)) := by omega
      simp [h1, h2, h3]

/-- What the probe loop of `flowmon_hook` does on any table: it executes some
number `c` of probes, at most the number allowed, all but the last of them
misses, and it either runs to its end, or updates the slot of probe `c - 1`
that holds the key, or claims the empty slot of probe `c - 1`. -/
theorem flowmon_probe_spec (cfg : pna_config) (key : pna_flowkey) (direction : Fin 2)
    (flags pkt_len : Nat) (tv_sec : Int) :
    ∀ n i0 info, ∃ c, c ≤ n ∧
      (∀ j, i0 ≤ j → j + 1 < i0 + c → probe_miss cfg info.flowtab key j) ∧
      ((c = n ∧ (∀ j, i0 ≤ j → j < i0 + n → probe_miss cfg info.flowtab key j) ∧
          flowmon_probe cfg key direction flags pkt_len tv_sec (flow_hash_0 cfg key) n i0 info
            = (none, { info with probes := bump_probes info.probes i0 c })) ∨
       (0 < c ∧
          flowkey_match (info.flowtab (probe_slot cfg (flow_hash_0 cfg key) (i0 + c - 1))).key key
            = true ∧
          flowmon_probe cfg key direction flags pkt_len tv_sec (flow_hash_0 cfg key) n i0 info
            = (some 0, { info with
                probes := bump_probes info.probes i0 c,
                flowtab := upd info.flowtab (probe_slot cfg (flow_hash_0 cfg key) (i0 + c - 1))
                  { info.flowtab (probe_slot cfg (flow_hash_0 cfg key) (i0 + c - 1)) with
                    data := flow_update
                      (info.flowtab (probe_slot cfg (flow_hash_0 cfg key) (i0 + c - 1))).data
                      direction flags pkt_len tv_sec } })) ∨
       (0 < c ∧
          flowkey_match (info.flowtab (probe_slot cfg (flow_hash_0 cfg key) (i0 + c - 1))).key key
            = false ∧
          flowkey_match (info.flowtab (probe_slot cfg (flow_hash_0 cfg key) (i0 + c - 1))).key
            null_key = true ∧
          flowmon_probe cfg key direction flags pkt_len tv_sec (flow_hash_0 cfg key) n i0 info
            = (some 1, { info with
                probes := bump_probes info.probes i0 c,
                flowtab := upd info.flowtab (probe_slot cfg (flow_hash_0 cfg key) (i0 + c - 1))
                  { key := key,
                    data := flow_insert
                      (info.flowtab (probe_slot cfg (flow_hash_0 cfg key) (i0 + c - 1))).data
                      direction flags pkt_len tv_sec },
                nflows := (info.nflows + 1) % U32 }))) := by
  intro n
  induction n with
  | zero =>
    intro i0 info
    refine ⟨0, Nat.le_refl 0, fun j h1 h2 => by omega, Or.inl ⟨rfl, fun j h1 h2 => by omega, ?_⟩⟩
    simp only [flowmon_probe, bump_probes_zero]
  | succ n ih =>
    intro i0 info
    by_cases hk : flowkey_match (info.flowtab (probe_slot cfg (flow_hash_0 cfg key) i0)).key key
        = true
    · refine ⟨1, by omega, fun j h1 h2 => by omega, Or.inr (Or.inl ⟨by omega, ?_, ?_⟩)⟩
      · simpa using hk
      · simp only [flowmon_probe, hk, if_true, Nat.add_sub_cancel]
        rw [← bump_probes_succ, bump_probes_zero]
    · have hk : flowkey_match (info.flowtab (probe_slot cfg (flow_hash_0 cfg key) i0)).key key
          = false := by simpa using hk
      by_cases hn : flowkey_match (info.flowtab (probe_slot cfg (flow_hash_0 cfg key) i0)).key
          null_key = true
      · refine ⟨1, by omega, fun j h1 h2 => by omega, Or.inr (Or.inr ⟨by omega, ?_, ?_, ?_⟩)⟩
        · simpa using hk
        · simpa using hn
        · simp only [flowmon_probe, hk, hn, if_true, Nat.add_sub_cancel]
          rw [← bump_probes_succ, bump_probes_zero]
          simp
      · have hn : flowkey_match (info.flowtab (probe_slot cfg (flow_hash_0 cfg key) i0)).key
            null_key = false := by simpa using hn
        have hmiss0 : probe_miss cfg info.flowtab key i0 := ⟨hk, hn⟩
        obtain ⟨c, hc, hpre, hcase⟩ := ih (i0 + 1)
          { info with probes := upd info.probes i0 ((info.probes i0 + 1) % U32) }
        have hstep : flowmon_probe cfg key direction flags pkt_len tv_sec (flow_hash_0 cfg key)
            (n + 1) i0 info
            = flowmon_probe cfg key direction flags pkt_len tv_sec (flow_hash_0 cfg key)
              n (i0 + 1)
              { info with probes := upd info.probes i0 ((info.probes i0 + 1) % U32) } := by
          simp only [flowmon_probe, hk, hn]
          simp
        have hidx : i0 + (c + 1) - 1 = i0 + 1 + c - 1 := by omega
        refine ⟨c + 1, by omega, ?_, ?_⟩
        · intro j h1 h2
          by_cases hj : j = i0
          · subst hj; exact hmiss0
          · exact hpre j (by omega) (by omega)
        · rcases hcase with ⟨h1, h2, h3⟩ | ⟨h1, h2, h3⟩ | ⟨h1, h2, h3, h4⟩
          · refine Or.inl ⟨by omega, ?_, ?_⟩
            · intro j hj1 hj2
              by_cases hj : j = i0
              · subst hj; exact hmiss0
              · exact h2 j (by omega) (by omega)
            · rw [hstep, h3]
              simp only [bump_probes_succ]
          · refine Or.inr (Or.inl ⟨by omega, ?_, ?_⟩)
            · rw [hidx]; exact h2
            · rw [hstep, h3, hidx]
              simp only [bump_probes_succ]
          · refine Or.inr (Or.inr ⟨by omega, ?_, ?_, ?_⟩)
            · rw [hidx]; exact h2
            · rw [hidx]; exact h3
            · rw [hstep, h4, hidx]
              simp only [bump_probes_succ]

theorem flowtab_get_lock_free (cfg : pna_config) (n i : Nat) (s : flowmon_state)
    (h : (s.tables s.flowtab_idx).read_mutex = false) :
    flowtab_get_lock cfg n i s
      = (i, { s with
              tables := upd s.tables s.flowtab_idx
                          { s.tables s.flowtab_idx with read_mutex := true } }) := by
  unfold flowtab_get_lock
  simp only [h, if_true]

theorem flowtab_get_lock_busy (cfg : pna_config) (n i : Nat) (s : flowmon_state)
    (h : (s.tables s.flowtab_idx).read_mutex = true) :
    flowtab_get_lock cfg (n + 1) i s
      = flowtab_get_lock cfg n (i + 1) (flowtab_next cfg s) := by
  rw [flowtab_get_lock]
  simp [h]

theorem flowtab_get_lock_view (cfg : pna_config) :
    ∀ n i s, (flowtab_get_lock cfg n i s).2.dumps = s.dumps ∧
      (flowtab_get_lock cfg n i s).2.lock_misses = s.lock_misses ∧
      ∀ t, unlock_view ((flowtab_get_lock cfg n i s).2.tables t) = unlock_view (s.tables t) := by
  intro n
  induction n with
  | zero =>
    intro i s
    by_cases h : (s.tables s.flowtab_idx).read_mutex = false
    · rw [flowtab_get_lock_free cfg 0 i s h]
      refine ⟨rfl, rfl, ?_⟩
      intro t
      by_cases ht : t = s.flowtab_idx
      · subst ht; simp [upd, unlock_view]
      · simp [upd, ht]
    · unfold flowtab_get_lock
      simp only [h, if_false]
      exact ⟨rfl, rfl, fun _ => rfl⟩
  | succ n ih =>
    intro i s
    by_cases h : (s.tables s.flowtab_idx).read_mutex = false
    · rw [flowtab_get_lock_free cfg (n + 1) i s h]
      refine ⟨rfl, rfl, ?_⟩
      intro t
      by_cases ht : t = s.flowtab_idx
      · subst ht; simp [upd, unlock_view]
      · simp [upd, ht]
    · rw [flowtab_get_lock_busy cfg n i s (by simpa using h)]
      exact ih (i + 1) _

theorem flowtab_get_claim_view (cfg : pna_config) (s : flowmon_state) (tv_sec : Int) :
    (flowtab_get_claim cfg s tv_sec).1.dumps = s.dumps ∧
    ∀ t, ((flowtab_get_claim cfg s tv_sec).1.tables t).flowtab = (s.tables t).flowtab ∧
      ((flowtab_get_claim cfg s tv_sec).1.tables t).nflows = (s.tables t).nflows ∧
      ((flowtab_get_claim cfg s tv_sec).1.tables t).nflows_missed = (s.tables t).nflows_missed ∧
      ((flowtab_get_claim cfg s tv_sec).1.tables t).probes = (s.tables t).probes ∧
      ((flowtab_get_claim cfg s tv_sec).1.tables t).table_id = (s.tables t).table_id := by
  obtain ⟨hd, _, hv⟩ := flowtab_get_lock_view cfg cfg.pna_tables 0 s
  have hv2 : ∀ t, ((flowtab_get_lock cfg cfg.pna_tables 0 s).2.tables t).flowtab
        = (s.tables t).flowtab ∧
      ((flowtab_get_lock cfg cfg.pna_tables 0 s).2.tables t).nflows = (s.tables t).nflows ∧
      ((flowtab_get_lock cfg cfg.pna_tables 0 s).2.tables t).nflows_missed
        = (s.tables t).nflows_missed ∧
      ((flowtab_get_lock cfg cfg.pna_tables 0 s).2.tables t).probes = (s.tables t).probes ∧
      ((flowtab_get_lock cfg cfg.pna_tables 0 s).2.tables t).table_id = (s.tables t).table_id := by
    intro t
    have h := hv t
    exact ⟨congrArg (fun x => x.flowtab) h, congrArg (fun x => x.nflows) h,
      congrArg (fun x => x.nflows_missed) h, congrArg (fun x => x.probes) h,
      congrArg (fun x => x.table_id) h⟩
  unfold flowtab_get_claim
  by_cases hi : (flowtab_get_lock cfg cfg.pna_tables 0 s).1 = cfg.pna_tables
  · simp only [hi, if_true]
    exact ⟨hd, hv2⟩
  · simp only [hi, if_false]
    refine ⟨hd, ?_⟩
    intro t
    by_cases ht : t = (flowtab_get_lock cfg cfg.pna_tables 0 s).2.flowtab_idx
    · rw [ht]
      simp only [upd, if_true]
      have := hv2 (flowtab_get_lock cfg cfg.pna_tables 0 s).2.flowtab_idx
      split <;> exact this
    · simp only [upd, ht, if_false]
      exact hv2 t

theorem flowtab_get_rot (cfg : pna_config) (s : flowmon_state) (tv_sec : Int)
    (h : rotates s tv_sec) :
    flowtab_get cfg s tv_sec
      = flowtab_get_claim cfg (flowtab_next cfg (flowtab_dump s s.flowtab_idx)) tv_sec := by
  unfold rotates at h
  unfold flowtab_get
  exact if_pos h

theorem flowtab_get_keep (cfg : pna_config) (s : flowmon_state) (tv_sec : Int)
    (hd : (s.tables s.flowtab_idx).table_dirty ≠ 0) (h : ¬ rotates s tv_sec) :
    flowtab_get cfg s tv_sec = (s, some s.flowtab_idx) := by
  unfold rotates at h
  unfold flowtab_get
  exact (if_neg h).trans (if_pos hd)

theorem flowtab_get_clean (cfg : pna_config) (s : flowmon_state) (tv_sec : Int)
    (hd : (s.tables s.flowtab_idx).table_dirty = 0) :
    flowtab_get cfg s tv_sec = flowtab_get_claim cfg s tv_sec := by
  have h : ¬ ((s.tables s.flowtab_idx).table_dirty ≠ 0 ∧
      rotation_due (s.tables s.flowtab_idx).first_sec tv_sec = true) := fun hc => hc.1 hd
  unfold flowtab_get
  exact (if_neg h).trans (if_neg (fun hc => hc hd))

theorem flowtab_get_view (cfg : pna_config) (s : flowmon_state) (tv_sec : Int) :
    (∀ t sl, ((flowtab_get cfg s tv_sec).1.tables t).flowtab sl = flow_base s tv_sec t sl) ∧
    (∀ t, ¬ (rotates s tv_sec ∧ t = s.flowtab_idx) →
      ((flowtab_get cfg s tv_sec).1.tables t).nflows = (s.tables t).nflows ∧
      ((flowtab_get cfg s tv_sec).1.tables t).nflows_missed = (s.tables t).nflows_missed) ∧
    (∀ t, ((flowtab_get cfg s tv_sec).1.tables t).probes = (s.tables t).probes) := by
  by_cases hr : rotates s tv_sec
  · rw [flowtab_get_rot cfg s tv_sec hr]
    obtain ⟨_, hv⟩ := flowtab_get_claim_view cfg
      (flowtab_next cfg (flowtab_dump s s.flowtab_idx)) tv_sec
    refine ⟨?_, ?_, ?_⟩
    · intro t sl
      rw [(hv t).1]
      simp only [flow_base, hr, true_and, flowtab_next, flowtab_dump, flowtab_clean, upd]
      split <;> rfl
    · intro t hno
      have ht : t ≠ s.flowtab_idx := fun h => hno ⟨hr, h⟩
      rw [(hv t).2.1, (hv t).2.2.1]
      simp [flowtab_next, flowtab_dump, upd, ht]
    · intro t
      rw [(hv t).2.2.2.1]
      simp only [flowtab_next, flowtab_dump, flowtab_clean, upd]
      split
      · rename_i h; rw [h]
      · rfl
  · by_cases hd : (s.tables s.flowtab_idx).table_dirty ≠ 0
    · rw [flowtab_get_keep cfg s tv_sec hd hr]
      refine ⟨fun t sl => by simp [flow_base, hr], fun t _ => ⟨rfl, rfl⟩, fun t => rfl⟩
    · rw [flowtab_get_clean cfg s tv_sec (by simpa using hd)]
      obtain ⟨_, hv⟩ := flowtab_get_claim_view cfg s tv_sec
      refine ⟨fun t sl => by rw [(hv t).1]; simp [flow_base, hr],
        fun t _ => ⟨(hv t).2.1, (hv t).2.2.1⟩, fun t => (hv t).2.2.2.1⟩

theorem flowmon_probe_update (cfg : pna_config) (key : pna_flowkey) (direction : Fin 2)
    (flags pkt_len : Nat) (tv_sec : Int) (n i : Nat) (info : flowtab_info) (hi : i < n)
    (hmiss : ∀ j, j < i → probe_miss cfg info.flowtab key j)
    (hhit : flowkey_match (info.flowtab (probe_slot cfg (flow_hash_0 cfg key) i)).key key = true) :
    flowmon_probe cfg key direction flags pkt_len tv_sec (flow_hash_0 cfg key) n 0 info
      = (some 0, { info with
          probes := bump_probes info.probes 0 (i + 1),
          flowtab := upd info.flowtab (probe_slot cfg (flow_hash_0 cfg key) i)
            { info.flowtab (probe_slot cfg (flow_hash_0 cfg key) i) with
              data := flow_update (info.flowtab (probe_slot cfg (flow_hash_0 cfg key) i)).data
                direction flags pkt_len tv_sec } }) := by
  obtain ⟨c, hc, hpre, hcase⟩ :=
    flowmon_probe_spec cfg key direction flags pkt_len tv_sec n 0 info
  rcases hcase with ⟨h1, h2, _⟩ | ⟨h1, h2, h3⟩ | ⟨h1, h2, h3, _⟩
  · have := (h2 i (by omega) (by omega)).1
    rw [hhit] at this; cases this
  · have hci : c = i + 1 := by
      rcases Nat.lt_trichotomy (c - 1) i with h | h | h
      · have := (hmiss (c - 1) h).1
        rw [Nat.zero_add] at h2
        rw [h2] at this; cases this
      · omega
      · have := (hpre i (by omega) (by omega)).1
        rw [hhit] at this; cases this
    subst hci
    simpa using h3
  · exfalso
    rw [Nat.zero_add] at h2 h3
    rcases Nat.lt_trichotomy (c - 1) i with h | h | h
    · have := (hmiss (c - 1) h).2
      rw [h3] at this; cases this
    · rw [h, hhit] at h2; cases h2
    · have := (hpre i (by omega) (by omega)).1
      rw [hhit] at this; cases this

theorem flowmon_probe_insert (cfg : pna_config) (key : pna_flowkey) (direction : Fin 2)
    (flags pkt_len : Nat) (tv_sec : Int) (n i : Nat) (info : flowtab_info) (hi : i < n)
    (hmiss : ∀ j, j < i → probe_miss cfg info.flowtab key j)
    (hk : flowkey_match (info.flowtab (probe_slot cfg (flow_hash_0 cfg key) i)).key key = false)
    (hnull : flowkey_match (info.flowtab (probe_slot cfg (flow_hash_0 cfg key) i)).key null_key
      = true) :
    flowmon_probe cfg key direction flags pkt_len tv_sec (flow_hash_0 cfg key) n 0 info
      = (some 1, { info with
          probes := bump_probes info.probes 0 (i + 1),
          flowtab := upd info.flowtab (probe_slot cfg (flow_hash_0 cfg key) i)
            { key := key,
              data := flow_insert (info.flowtab (probe_slot cfg (flow_hash_0 cfg key) i)).data
                direction flags pkt_len tv_sec },
          nflows := (info.nflows + 1) % U32 }) := by
  obtain ⟨c, hc, hpre, hcase⟩ :=
    flowmon_probe_spec cfg key direction flags pkt_len tv_sec n 0 info
  rcases hcase with ⟨h1, h2, _⟩ | ⟨h1, h2, _⟩ | ⟨h1, h2, h3, h4⟩
  · have := (h2 i (by omega) (by omega)).2
    rw [hnull] at this; cases this
  · exfalso
    rw [Nat.zero_add] at h2
    rcases Nat.lt_trichotomy (c - 1) i with h | h | h
    · have := (hmiss (c - 1) h).1
      rw [h2] at this; cases this
    · rw [h, hk] at h2; cases h2
    · have := (hpre i (by omega) (by omega)).2
      rw [hnull] at this; cases this
  · have hci : c = i + 1 := by
      rcases Nat.lt_trichotomy (c - 1) i with h | h | h
      · have := (hmiss (c - 1) h).2
        rw [Nat.zero_add] at h3
        rw [h3] at this; cases this
      · omega
      · have := (hpre i (by omega) (by omega)).2
        rw [hnull] at this; cases this
    subst hci
    simpa using h4

theorem flowmon_probe_exhaust (cfg : pna_config) (key : pna_flowkey) (direction : Fin 2)
    (flags pkt_len : Nat) (tv_sec : Int) (n : Nat) (info : flowtab_info)
    (hmiss : ∀ j, j < n → probe_miss cfg info.flowtab key j) :
    flowmon_probe cfg key direction flags pkt_len tv_sec (flow_hash_0 cfg key) n 0 info
      = (none, { info with probes := bump_probes info.probes 0 n }) := by
  obtain ⟨c, hc, hpre, hcase⟩ :=
    flowmon_probe_spec cfg key direction flags pkt_len tv_sec n 0 info
  rcases hcase with ⟨h1, _, h3⟩ | ⟨h1, h2, _⟩ | ⟨h1, _, h3, _⟩
  · subst h1; exact h3
  · have := (hmiss (0 + c - 1) (by omega)).1
    rw [h2] at this; cases this
  · have := (hmiss (0 + c - 1) (by omega)).2
    rw [h3] at this; cases this

theorem flowmon_hook_none (cfg : pna_config) (s s1 : flowmon_state) (key : pna_flowkey)
    (direction : Fin 2) (flags pkt_len : Nat) (tv_sec : Int)
    (hget : flowtab_get cfg s tv_sec = (s1, none)) :
    flowmon_hook cfg s key direction flags pkt_len tv_sec = (-1, s1) := by
  unfold flowmon_hook
  rw [hget]

theorem flowmon_hook_some (cfg : pna_config) (s s1 : flowmon_state) (idx : Nat)
    (key : pna_flowkey) (direction : Fin 2) (flags pkt_len : Nat) (tv_sec : Int)
    (ret : Option Int) (info1 : flowtab_info)
    (hget : flowtab_get cfg s tv_sec = (s1, some idx))
    (hprobe : flowmon_probe cfg key direction flags pkt_len tv_sec (flow_hash_0 cfg key)
      PNA_TABLE_TRIES 0 (s1.tables idx) = (ret, info1)) :
    flowmon_hook cfg s key direction flags pkt_len tv_sec
      = match ret with
        | some r => (r, { s1 with tables := upd s1.tables idx info1 })
        | none => (-1, { s1 with
                         tables := upd s1.tables idx
                           { info1 with nflows_missed := (info1.nflows_missed + 1) % U32 } }) := by
  unfold flowmon_hook
  rw [hget]
  simp only [hprobe]
  cases ret <;> rfl

theorem dir_pair_get_set (a : dir_pair) (d : Fin 2) (v : Nat) : (a.set d v).get d = v := by
  unfold dir_pair.get dir_pair.set
  split <;> simp_all

theorem dir_pair_get_set_ne (a : dir_pair) (d d1 : Fin 2) (v : Nat) (h : d1 ≠ d) :
    (a.set d v).get d1 = a.get d1 := by
  unfold dir_pair.get dir_pair.set
  by_cases h0 : d = 0
  · have h1 : d1 ≠ 0 := by rw [← h0]; exact h
    simp [h0, h1]
  · have h1 : d1 = 0 := by omega
    simp [h0, h1]

theorem add_overhead_mod (b pkt_len : Nat) :
    (b + (pkt_len + ETH_OVERHEAD) % U32) % U32 = (b + pkt_len + 38) % 4294967296 := by
  unfold ETH_OVERHEAD U32
  omega

theorem to_u32_cast (t : Int) : ((to_u32 t : Nat) : Int) = t % 4294967296 := by
  unfold to_u32
  exact Int.toNat_of_nonneg (Int.emod_nonneg t (by decide))

/-- C5: when the current table is dirty and no rotation is due for the packet,
and probing for the key first meets slots that neither match nor are empty
and then, at probe `i < 32`, a slot that holds the key, `flowmon_hook` returns
0 and that slot gets `bytes[dir] + len + 38`, `packets[dir] + 1` (32-bit
counters, so modulo 2^32), `flags[dir] | flags` and `last_tstamp = tv_sec` (as
`unsigned int`); its key, `first_tstamp`, `first_dir` and the counters of the
other direction stay, `nflows` stays, and so does every other flow entry. -/
theorem C5_update_existing_flow (cfg : pna_config) (s : flowmon_state) (key : pna_flowkey)
    (direction : Fin 2) (flags pkt_len : Nat) (tv_sec : Int) (i : Nat)
    (hdirty : (s.tables s.flowtab_idx).table_dirty ≠ 0)
    (hnodue : rotation_due (s.tables s.flowtab_idx).first_sec tv_sec = false)
    (hi : i < 32)
    (hmiss : ∀ j, j < i → probe_miss cfg (s.tables s.flowtab_idx).flowtab key j)
    (hhit : flowkey_match ((s.tables s.flowtab_idx).flowtab (flow_slot cfg key i)).key key
      = true) :
    ∃ s2, flowmon_hook cfg s key direction flags pkt_len tv_sec = (0, s2) ∧
      s2.flowtab_idx = s.flowtab_idx ∧
      ((s2.tables s.flowtab_idx).flowtab (flow_slot cfg key i)).key
        = ((s.tables s.flowtab_idx).flowtab (flow_slot cfg key i)).key ∧
      ((s2.tables s.flowtab_idx).flowtab (flow_slot cfg key i)).data.bytes.get direction
        = (((s.tables s.flowtab_idx).flowtab (flow_slot cfg key i)).data.bytes.get direction
            + pkt_len + 38) % 4294967296 ∧
      ((s2.tables s.flowtab_idx).flowtab (flow_slot cfg key i)).data.packets.get direction
        = (((s.tables s.flowtab_idx).flowtab (flow_slot cfg key i)).data.packets.get direction
            + 1) % 4294967296 ∧
      ((s2.tables s.flowtab_idx).flowtab (flow_slot cfg key i)).data.flags.get direction
        = ((s.tables s.flowtab_idx).flowtab (flow_slot cfg key i)).data.flags.get direction
            ||| flags ∧
      ((((s2.tables s.flowtab_idx).flowtab (flow_slot cfg key i)).data.last_tstamp : Nat) : Int)
        = tv_sec % 4294967296 ∧
      ((s2.tables s.flowtab_idx).flowtab (flow_slot cfg key i)).data.first_tstamp
        = ((s.tables s.flowtab_idx).flowtab (flow_slot cfg key i)).data.first_tstamp ∧
      ((s2.tables s.flowtab_idx).flowtab (flow_slot cfg key i)).data.first_dir
        = ((s.tables s.flowtab_idx).flowtab (flow_slot cfg key i)).data.first_dir ∧
      (∀ d, d ≠ direction →
        ((s2.tables s.flowtab_idx).flowtab (flow_slot cfg key i)).data.bytes.get d
          = ((s.tables s.flowtab_idx).flowtab (flow_slot cfg key i)).data.bytes.get d ∧
        ((s2.tables s.flowtab_idx).flowtab (flow_slot cfg key i)).data.packets.get d
          = ((s.tables s.flowtab_idx).flowtab (flow_slot cfg key i)).data.packets.get d ∧
        ((s2.tables s.flowtab_idx).flowtab (flow_slot cfg key i)).data.flags.get d
          = ((s.tables s.flowtab_idx).flowtab (flow_slot cfg key i)).data.flags.get d) ∧
      (∀ t, (s2.tables t).nflows = (s.tables t).nflows ∧
        (s2.tables t).nflows_missed = (s.tables t).nflows_missed) ∧
      (∀ t sl, (t ≠ s.flowtab_idx ∨ sl ≠ flow_slot cfg key i) →
        (s2.tables t).flowtab sl = (s.tables t).flowtab sl) := by
  have hrot : ¬ rotates s tv_sec := by
    intro h; have := h.2; rw [hnodue] at this; cases this
  have hget := flowtab_get_keep cfg s tv_sec hdirty hrot
  have hprobe := flowmon_probe_update cfg key direction flags pkt_len tv_sec PNA_TABLE_TRIES i
    (s.tables s.flowtab_idx) hi hmiss hhit
  have hhook := flowmon_hook_some cfg s s s.flowtab_idx key direction flags pkt_len tv_sec _ _
    hget hprobe
  simp only at hhook
  refine ⟨_, hhook, rfl, ?_, ?_, ?_, ?_, ?_, ?_, ?_, ?_, ?_, ?_⟩
  · simp [upd, flow_slot]
  · simp only [upd, flow_slot, flow_update, dir_pair_get_set, if_true]
    exact add_overhead_mod _ _
  · simp [upd, flow_slot, flow_update, dir_pair_get_set, U32]
  · simp [upd, flow_slot, flow_update, dir_pair_get_set]
  · simp [upd, flow_slot, flow_update, to_u32_cast]
  · simp [upd, flow_slot, flow_update]
  · simp [upd, flow_slot, flow_update]
  · intro d hd
    simp [upd, flow_slot, flow_update, dir_pair_get_set_ne _ _ _ _ hd]
  · intro t
    by_cases ht : t = s.flowtab_idx
    · subst ht; simp [upd]
    · simp [upd, ht]
  · intro t sl h
    by_cases ht : t = s.flowtab_idx
    · subst ht
      have hsl : sl ≠ flow_slot cfg key i := by
        rcases h with h | h
        · exact absurd rfl h
        · exact h
      simp only [upd, if_true]
      unfold flow_slot at hsl
      simp [hsl]
    · simp [upd, ht]

/-- Witness for C5: after the first packet of the flow 10.0.0.5:12345 <->
8.8.8.8:80 at second 1700000000, the reverse packet (inbound, SYN+ACK, length
60) at second 1700000001 finds the flow at probe 0 and leaves 98 inbound
bytes. -/
theorem C5_update_existing_flow_witness :
    (state_s1.tables state_s1.flowtab_idx).table_dirty ≠ 0 ∧
    rotation_due (state_s1.tables state_s1.flowtab_idx).first_sec 1700000001 = false ∧
    flowkey_match ((state_s1.tables state_s1.flowtab_idx).flowtab
      (flow_slot cfg_2_4 key_s1 0)).key key_s1 = true ∧
    ∃ s2, flowmon_hook cfg_2_4 state_s1 key_s1 1 0x12 60 1700000001 = (0, s2) ∧
      ((s2.tables state_s1.flowtab_idx).flowtab (flow_slot cfg_2_4 key_s1 0)).data.bytes.get 1
        = 98 :=
  ⟨by decide, by decide, by decide,
   (C5_update_existing_flow cfg_2_4 state_s1 key_s1 1 0x12 60 1700000001 0 (by decide)
      (by decide) (by decide) (fun j hj => absurd hj (Nat.not_lt_zero j)) (by decide)).imp
      (fun _ h => ⟨h.1, h.2.2.2.1.trans (by decide)⟩)⟩

/-! ### Reachable states of the flow tables -/

theorem flowkey_match_symm (a b : pna_flowkey) : flowkey_match a b = flowkey_match b a := by
  unfold flowkey_match
  apply decide_eq_decide.2
  constructor <;> (rintro ⟨h1, h2, h3, h4, h5, h6⟩; exact ⟨h1.symm, h2.symm, h3.symm, h4.symm, h5.symm, h6.symm⟩)

theorem flowkey_match_trans (a b c : pna_flowkey) (h1 : flowkey_match a b = true)
    (h2 : flowkey_match a c = true) : flowkey_match b c = true := by
  unfold flowkey_match at *
  simp only [decide_eq_true_eq] at *
  obtain ⟨a1, a2, a3, a4, a5, a6⟩ := h1
  obtain ⟨b1, b2, b3, b4, b5, b6⟩ := h2
  exact ⟨a1 ▸ b1, a2 ▸ b2, a3 ▸ b3, a4 ▸ b4, a5 ▸ b5, a6 ▸ b6⟩

theorem upd_same {α : Type} (f : Nat → α) (i : Nat) (v : α) : upd f i v i = v := by
  simp [upd]

theorem upd_other {α : Type} (f : Nat → α) (i j : Nat) (v : α) (h : j ≠ i) :
    upd f i v j = f j := by
  simp [upd, h]

theorem upd_upd {α : Type} (f : Nat → α) (i : Nat) (v w : α) :
    upd (upd f i v) i w = upd f i w := by
  funext j
  simp only [upd]
  split <;> rfl

theorem flowtab_get_claim_free (cfg : pna_config) (s : flowmon_state) (tv_sec : Int)
    (hT : 0 < cfg.pna_tables) (h : (s.tables s.flowtab_idx).read_mutex = false) :
    flowtab_get_claim cfg s tv_sec = (claim_state s tv_sec, some s.flowtab_idx) := by
  unfold flowtab_get_claim
  rw [flowtab_get_lock_free cfg cfg.pna_tables 0 s h]
  have h0 : ¬ (0 = cfg.pna_tables) := by omega
  simp only [h0, if_false, upd_same, upd_upd]
  rfl

theorem claim_table_clean (info : flowtab_info) (tv_sec : Int) (h : info.table_dirty = 0) :
    claim_table info tv_sec
      = { info with read_mutex := true, first_sec := to_u32 tv_sec, table_dirty := 1,
                    smp_id := 0 } := by
  simp [claim_table, h]

theorem claim_inv (cfg : pna_config) (s : flowmon_state) (tv_sec : Int)
    (hidx : s.flowtab_idx < cfg.pna_tables) (hids : ∀ t, (s.tables t).table_id = t)
    (hothers : ∀ t, t ≠ s.flowtab_idx → table_clean (s.tables t))
    (hcur : table_clean (s.tables s.flowtab_idx)) :
    flowmon_inv cfg (claim_state s tv_sec) ∧
    ((claim_state s tv_sec).tables (claim_state s tv_sec).flowtab_idx).table_dirty ≠ 0 := by
  have hc := claim_table_clean (s.tables s.flowtab_idx) tv_sec hcur.2.1
  refine ⟨⟨hidx, ?_, ?_, ?_, ?_, ?_⟩, ?_⟩
  · intro t
    show (upd s.tables s.flowtab_idx _ t).table_id = t
    by_cases ht : t = s.flowtab_idx
    · rw [ht, upd_same, hc]; exact hids _
    · rw [upd_other _ _ _ _ ht]; exact hids t
  · intro t sl _
    show (upd s.tables s.flowtab_idx _ t).flowtab sl = zero_entry
    by_cases ht : t = s.flowtab_idx
    · rw [ht, upd_same, hc]; exact congrFun hcur.1 sl
    · rw [upd_other _ _ _ _ ht]; exact congrFun (hothers t ht).1 sl
  · intro t ht
    have ht1 : t ≠ s.flowtab_idx := ht
    show table_clean (upd s.tables s.flowtab_idx _ t)
    rw [upd_other _ _ _ _ ht1]; exact hothers t ht1
  · intro hd
    exfalso
    have hd1 : (upd s.tables s.flowtab_idx (claim_table (s.tables s.flowtab_idx) tv_sec)
        s.flowtab_idx).table_dirty = 0 := hd
    rw [upd_same, hc] at hd1
    cases hd1
  · intro _
    show (upd s.tables s.flowtab_idx _ s.flowtab_idx).read_mutex = true
    rw [upd_same, hc]
  · show (upd s.tables s.flowtab_idx _ s.flowtab_idx).table_dirty ≠ 0
    rw [upd_same, hc]
    show (1 : Int) ≠ 0
    decide

theorem dump_next_clean (cfg : pna_config) (s : flowmon_state) (hinv : flowmon_inv cfg s) :
    (∀ t, ((flowtab_next cfg (flowtab_dump s s.flowtab_idx)).tables t).table_id = t) ∧
    (∀ t, table_clean ((flowtab_next cfg (flowtab_dump s s.flowtab_idx)).tables t)) := by
  have htab : (flowtab_next cfg (flowtab_dump s s.flowtab_idx)).tables
      = upd s.tables s.flowtab_idx
          { flowtab_clean (s.tables s.flowtab_idx) with read_mutex := false } := rfl
  rw [htab]
  constructor
  · intro t
    by_cases ht : t = s.flowtab_idx
    · rw [ht, upd_same]; exact hinv.ids _
    · rw [upd_other _ _ _ _ ht]; exact hinv.ids t
  · intro t
    by_cases ht : t = s.flowtab_idx
    · rw [ht, upd_same]
      exact ⟨rfl, rfl, rfl, rfl, rfl, rfl⟩
    · rw [upd_other _ _ _ _ ht]; exact hinv.others_clean t ht

/-- The result of `flowtab_get` in a state that satisfies the invariant: it
never returns NULL, and the table it returns is the current one, dirty and
locked, in a state that satisfies the invariant again. -/
theorem flowtab_get_inv (cfg : pna_config) (s : flowmon_state) (tv_sec : Int)
    (hT : 0 < cfg.pna_tables) (hinv : flowmon_inv cfg s) :
    (flowtab_get cfg s tv_sec).2 = some (flowtab_get cfg s tv_sec).1.flowtab_idx ∧
    flowmon_inv cfg (flowtab_get cfg s tv_sec).1 ∧
    ((flowtab_get cfg s tv_sec).1.tables (flowtab_get cfg s tv_sec).1.flowtab_idx).table_dirty
      ≠ 0 := by
  by_cases hr : rotates s tv_sec
  · rw [flowtab_get_rot cfg s tv_sec hr]
    obtain ⟨hids, hcl⟩ := dump_next_clean cfg s hinv
    have hlt : (flowtab_next cfg (flowtab_dump s s.flowtab_idx)).flowtab_idx < cfg.pna_tables :=
      Nat.mod_lt _ hT
    rw [flowtab_get_claim_free cfg _ tv_sec hT (hcl _).2.2.1]
    have h := claim_inv cfg _ tv_sec hlt hids (fun t _ => hcl t) (hcl _)
    exact ⟨rfl, h.1, h.2⟩
  · by_cases hd : (s.tables s.flowtab_idx).table_dirty ≠ 0
    · rw [flowtab_get_keep cfg s tv_sec hd hr]
      exact ⟨rfl, hinv, hd⟩
    · have hd0 : (s.tables s.flowtab_idx).table_dirty = 0 := by simpa using hd
      rw [flowtab_get_clean cfg s tv_sec hd0]
      have hcur := hinv.cur_clean hd0
      rw [flowtab_get_claim_free cfg s tv_sec hT hcur.2.2.1]
      have h := claim_inv cfg s tv_sec hinv.idx_lt hinv.ids hinv.others_clean hcur
      exact ⟨rfl, h.1, h.2⟩

theorem inv_upd_current (cfg : pna_config) (s1 : flowmon_state) (info1 : flowtab_info)
    (hinv : flowmon_inv cfg s1) (hd : (s1.tables s1.flowtab_idx).table_dirty ≠ 0)
    (h1 : info1.table_id = (s1.tables s1.flowtab_idx).table_id)
    (h2 : info1.table_dirty = (s1.tables s1.flowtab_idx).table_dirty)
    (h3 : info1.read_mutex = (s1.tables s1.flowtab_idx).read_mutex)
    (h4 : ∀ sl, flowkey_match (info1.flowtab sl).key null_key = true →
      info1.flowtab sl = zero_entry) :
    flowmon_inv cfg { s1 with tables := upd s1.tables s1.flowtab_idx info1 } := by
  refine ⟨hinv.idx_lt, ?_, ?_, ?_, ?_, ?_⟩
  · intro t
    show (upd s1.tables s1.flowtab_idx info1 t).table_id = t
    by_cases ht : t = s1.flowtab_idx
    · rw [ht, upd_same, h1]; exact hinv.ids _
    · rw [upd_other _ _ _ _ ht]; exact hinv.ids t
  · intro t sl
    show flowkey_match ((upd s1.tables s1.flowtab_idx info1 t).flowtab sl).key null_key = true →
      (upd s1.tables s1.flowtab_idx info1 t).flowtab sl = zero_entry
    by_cases ht : t = s1.flowtab_idx
    · rw [ht, upd_same]; exact h4 sl
    · rw [upd_other _ _ _ _ ht]; exact hinv.empty_zero t sl
  · intro t ht
    have ht1 : t ≠ s1.flowtab_idx := ht
    show table_clean (upd s1.tables s1.flowtab_idx info1 t)
    rw [upd_other _ _ _ _ ht1]; exact hinv.others_clean t ht1
  · intro hc
    exfalso
    have hc1 : (upd s1.tables s1.flowtab_idx info1 s1.flowtab_idx).table_dirty = 0 := hc
    rw [upd_same, h2] at hc1
    exact hd hc1
  · intro _
    show (upd s1.tables s1.flowtab_idx info1 s1.flowtab_idx).read_mutex = true
    rw [upd_same, h3]
    exact hinv.cur_locked hd

/-- The three possible outcomes of `flowmon_hook` once `flowtab_get` has
returned the table `idx` in state `s1`. -/
theorem flowmon_hook_cases (cfg : pna_config) (s s1 : flowmon_state) (idx : Nat)
    (key : pna_flowkey) (direction : Fin 2) (flags pkt_len : Nat) (tv_sec : Int)
    (hget : flowtab_get cfg s tv_sec = (s1, some idx)) :
    ∃ c, c ≤ 32 ∧ (∀ j, j + 1 < c → probe_miss cfg (s1.tables idx).flowtab key j) ∧
      ((c = 32 ∧ (∀ j, j < 32 → probe_miss cfg (s1.tables idx).flowtab key j) ∧
        flowmon_hook cfg s key direction flags pkt_len tv_sec
          = (-1, with_table s1 idx (table_missed (s1.tables idx) c))) ∨
       (0 < c ∧ flowkey_match ((s1.tables idx).flowtab (flow_slot cfg key (c - 1))).key key = true ∧
        flowmon_hook cfg s key direction flags pkt_len tv_sec
          = (0, with_table s1 idx (table_updated (s1.tables idx) c (flow_slot cfg key (c - 1))
                  direction flags pkt_len tv_sec))) ∨
       (0 < c ∧
        flowkey_match ((s1.tables idx).flowtab (flow_slot cfg key (c - 1))).key key = false ∧
        flowkey_match ((s1.tables idx).flowtab (flow_slot cfg key (c - 1))).key null_key = true ∧
        flowmon_hook cfg s key direction flags pkt_len tv_sec
          = (1, with_table s1 idx (table_inserted (s1.tables idx) c (flow_slot cfg key (c - 1))
                  key direction flags pkt_len tv_sec)))) := by
  obtain ⟨c, hc, hpre, hcase⟩ :=
    flowmon_probe_spec cfg key direction flags pkt_len tv_sec PNA_TABLE_TRIES 0 (s1.tables idx)
  refine ⟨c, hc, fun j hj => hpre j (Nat.zero_le j) (by omega), ?_⟩
  rcases hcase with ⟨h1, h2, h3⟩ | ⟨h1, h2, h3⟩ | ⟨h1, h2, h3, h4⟩
  · refine Or.inl ⟨h1, fun j hj => h2 j (Nat.zero_le j) (by simpa [PNA_TABLE_TRIES] using hj), ?_⟩
    rw [flowmon_hook_some cfg s s1 idx key direction flags pkt_len tv_sec _ _ hget h3]
    rfl
  · rw [Nat.zero_add] at h2 h3
    refine Or.inr (Or.inl ⟨h1, h2, ?_⟩)
    rw [flowmon_hook_some cfg s s1 idx key direction flags pkt_len tv_sec _ _ hget h3]
    rfl
  · rw [Nat.zero_add] at h2 h3 h4
    refine Or.inr (Or.inr ⟨h1, h2, h3, ?_⟩)
    rw [flowmon_hook_some cfg s s1 idx key direction flags pkt_len tv_sec _ _ hget h4]
    rfl

theorem flowtab_get_pair (cfg : pna_config) (s : flowmon_state) (tv_sec : Int)
    (hT : 0 < cfg.pna_tables) (hinv : flowmon_inv cfg s) :
    flowtab_get cfg s tv_sec
      = ((flowtab_get cfg s tv_sec).1, some (flowtab_get cfg s tv_sec).1.flowtab_idx) := by
  have h := (flowtab_get_inv cfg s tv_sec hT hinv).1
  exact Prod.ext rfl h

theorem flowmon_hook_inv (cfg : pna_config) (s : flowmon_state) (key : pna_flowkey)
    (direction : Fin 2) (flags pkt_len : Nat) (tv_sec : Int)
    (hT : 0 < cfg.pna_tables) (hinv : flowmon_inv cfg s)
    (hkey : flowkey_match key null_key = false) :
    flowmon_inv cfg (flowmon_hook cfg s key direction flags pkt_len tv_sec).2 := by
  obtain ⟨_, hinv1, hd1⟩ := flowtab_get_inv cfg s tv_sec hT hinv
  have hget := flowtab_get_pair cfg s tv_sec hT hinv
  obtain ⟨c, _, _, hcase⟩ := flowmon_hook_cases cfg s _ _ key direction flags pkt_len tv_sec hget
  rcases hcase with ⟨_, _, h3⟩ | ⟨_, h2, h3⟩ | ⟨_, _, _, h4⟩
  · rw [h3]
    exact inv_upd_current cfg _ _ hinv1 hd1 rfl rfl rfl (fun sl => hinv1.empty_zero _ sl)
  · rw [h3]
    refine inv_upd_current cfg _ _ hinv1 hd1 rfl rfl rfl ?_
    intro sl hsl
    by_cases hs : sl = flow_slot cfg key (c - 1)
    · exfalso
      subst hs
      have hk : flowkey_match ((((flowtab_get cfg s tv_sec).1.tables
          (flowtab_get cfg s tv_sec).1.flowtab_idx).flowtab (flow_slot cfg key (c - 1))).key)
          null_key = true := by
        simpa [table_updated, upd_same] using hsl
      have := flowkey_match_trans _ _ _ h2 hk
      rw [hkey] at this; cases this
    · have hsame : (table_updated ((flowtab_get cfg s tv_sec).1.tables
          (flowtab_get cfg s tv_sec).1.flowtab_idx) c (flow_slot cfg key (c - 1)) direction flags
          pkt_len tv_sec).flowtab sl
          = ((flowtab_get cfg s tv_sec).1.tables
              (flowtab_get cfg s tv_sec).1.flowtab_idx).flowtab sl := by
        simp [table_updated, upd_other _ _ _ _ hs]
      rw [hsame] at hsl ⊢
      exact hinv1.empty_zero _ sl hsl
  · rw [h4]
    refine inv_upd_current cfg _ _ hinv1 hd1 rfl rfl rfl ?_
    intro sl hsl
    by_cases hs : sl = flow_slot cfg key (c - 1)
    · exfalso
      subst hs
      have hk : flowkey_match key null_key = true := by
        simpa [table_inserted, upd_same] using hsl
      rw [hkey] at hk; cases hk
    · have hsame : (table_inserted ((flowtab_get cfg s tv_sec).1.tables
          (flowtab_get cfg s tv_sec).1.flowtab_idx) c (flow_slot cfg key (c - 1)) key direction
          flags pkt_len tv_sec).flowtab sl
          = ((flowtab_get cfg s tv_sec).1.tables
              (flowtab_get cfg s tv_sec).1.flowtab_idx).flowtab sl := by
        simp [table_inserted, upd_other _ _ _ _ hs]
      rw [hsame] at hsl ⊢
      exact hinv1.empty_zero _ sl hsl

theorem flowmon_init_inv (cfg : pna_config) (hT : 0 < cfg.pna_tables) :
    flowmon_inv cfg flowmon_init := by
  refine ⟨hT, fun t => rfl, fun t sl _ => rfl, fun t _ => ?_, fun _ => ?_, fun h => ?_⟩
  · exact ⟨rfl, rfl, rfl, rfl, rfl, rfl⟩
  · exact ⟨rfl, rfl, rfl, rfl, rfl, rfl⟩
  · exact absurd rfl h

theorem flowmon_reachable_inv (cfg : pna_config) (hT : 0 < cfg.pna_tables) (s : flowmon_state)
    (h : flowmon_reachable cfg s) : flowmon_inv cfg s := by
  induction h with
  | init => exact flowmon_init_inv cfg hT
  | hook s key direction flags pkt_len tv_sec _ hkey ih =>
    exact flowmon_hook_inv cfg s key direction flags pkt_len tv_sec hT ih hkey

theorem flow_insert_zero (direction : Fin 2) (flags pkt_len : Nat) (tv_sec : Int) :
    flow_insert zero_entry.data direction flags pkt_len tv_sec
      = first_packet_data direction flags pkt_len tv_sec := by
  unfold flow_insert first_packet_data zero_entry dir_pair.get dir_pair.set ETH_OVERHEAD U32
  by_cases h : direction = 0
  · simp [h]
  · simp [h]

/-- C6: in every state reached from the initial (zeroed) tables by
`flowmon_hook` calls with non-null keys, when probing for a non-null key in
the table the hook works on first meets slots that neither match nor are
empty and then, at probe `i < 32`, an empty slot, `flowmon_hook` returns 1,
that slot holds the key with `bytes[dir] = len + 38` (as a 32-bit counter),
`packets[dir] = 1`, `flags[dir] = flags`, zero counters and flags for the
other direction, `first_tstamp = last_tstamp = tv_sec` (as `unsigned int`) and
`first_dir = dir`, and `nflows` of the table is incremented by 1. -/
theorem C6_insert_new_flow (cfg : pna_config) (hT : 0 < cfg.pna_tables) (s : flowmon_state)
    (hreach : flowmon_reachable cfg s) (key : pna_flowkey)
    (hkey : flowkey_match key null_key = false)
    (direction : Fin 2) (flags pkt_len : Nat) (tv_sec : Int) (i : Nat) (hi : i < 32)
    (hmiss : ∀ j, j < i → probe_miss cfg (hook_table cfg s tv_sec).flowtab key j)
    (hempty : flowkey_match ((hook_table cfg s tv_sec).flowtab (flow_slot cfg key i)).key null_key
      = true) :
    ∃ s2, flowmon_hook cfg s key direction flags pkt_len tv_sec = (1, s2) ∧
      s2.flowtab_idx = (flowtab_get cfg s tv_sec).1.flowtab_idx ∧
      (s2.tables s2.flowtab_idx).flowtab (flow_slot cfg key i)
        = { key := key, data := first_packet_data direction flags pkt_len tv_sec } ∧
      (s2.tables s2.flowtab_idx).nflows = ((hook_table cfg s tv_sec).nflows + 1) % 4294967296 ∧
      (∀ sl, sl ≠ flow_slot cfg key i →
        (s2.tables s2.flowtab_idx).flowtab sl = (hook_table cfg s tv_sec).flowtab sl) ∧
      (¬ rotates s tv_sec →
        (flowtab_get cfg s tv_sec).1.flowtab_idx = s.flowtab_idx ∧
        (hook_table cfg s tv_sec).flowtab = (s.tables s.flowtab_idx).flowtab ∧
        (hook_table cfg s tv_sec).nflows = (s.tables s.flowtab_idx).nflows) := by
  have hinv := flowmon_reachable_inv cfg hT s hreach
  obtain ⟨_, hinv1, _⟩ := flowtab_get_inv cfg s tv_sec hT hinv
  have hget := flowtab_get_pair cfg s tv_sec hT hinv
  have hzero : (hook_table cfg s tv_sec).flowtab (flow_slot cfg key i) = zero_entry :=
    hinv1.empty_zero _ _ hempty
  have hk : flowkey_match ((hook_table cfg s tv_sec).flowtab (flow_slot cfg key i)).key key
      = false := by
    rw [hzero, flowkey_match_symm]
    exact hkey
  have hprobe := flowmon_probe_insert cfg key direction flags pkt_len tv_sec PNA_TABLE_TRIES i
    (hook_table cfg s tv_sec) hi hmiss hk hempty
  have hhook := flowmon_hook_some cfg s _ _ key direction flags pkt_len tv_sec _ _ hget hprobe
  simp only at hhook
  refine ⟨_, hhook, rfl, ?_, ?_, ?_, ?_⟩
  · show (@upd flowtab_info _ _ _ _).flowtab _ = _
    rw [upd_same]
    show @upd flow_entry _ (flow_slot cfg key i) _ (flow_slot cfg key i) = _
    rw [upd_same]
    have hz : (hook_table cfg s tv_sec).flowtab (probe_slot cfg (flow_hash_0 cfg key) i)
        = zero_entry := hzero
    rw [hz, flow_insert_zero]
  · show (@upd flowtab_info _ _ _ _).nflows = _
    rw [upd_same]
    rfl
  · intro sl hsl
    show (@upd flowtab_info _ _ _ _).flowtab _ = _
    rw [upd_same]
    show @upd flow_entry _ (flow_slot cfg key i) _ sl = _
    rw [upd_other _ _ _ _ hsl]
  · intro hr
    have hv := flowtab_get_view cfg s tv_sec
    have hidx : (flowtab_get cfg s tv_sec).1.flowtab_idx = s.flowtab_idx := by
      by_cases hd : (s.tables s.flowtab_idx).table_dirty ≠ 0
      · rw [flowtab_get_keep cfg s tv_sec hd hr]
      · have hd0 : (s.tables s.flowtab_idx).table_dirty = 0 := by simpa using hd
        rw [flowtab_get_clean cfg s tv_sec hd0,
          flowtab_get_claim_free cfg s tv_sec hT (hinv.cur_clean hd0).2.2.1]
        rfl
    refine ⟨hidx, ?_, ?_⟩
    · funext sl
      unfold hook_table
      rw [hidx, hv.1]
      simp [flow_base, hr]
    · unfold hook_table
      rw [hidx]
      exact (hv.2.1 _ (fun h => hr h.1)).1

/-- Witness for C6: the first packet of the flow 10.0.0.5:12345 <->
8.8.8.8:80 (outbound, SYN, length 100, second 1700000000) in the initial
state is inserted at probe 0 with 138 outbound bytes. -/
theorem C6_insert_new_flow_witness :
    0 < cfg_2_4.pna_tables ∧ flowmon_reachable cfg_2_4 flowmon_init ∧
    flowkey_match key_s1 null_key = false ∧
    flowkey_match ((hook_table cfg_2_4 flowmon_init 1700000000).flowtab
      (flow_slot cfg_2_4 key_s1 0)).key null_key = true ∧
    ∃ s2, flowmon_hook cfg_2_4 flowmon_init key_s1 0 0x02 100 1700000000 = (1, s2) ∧
      (s2.tables s2.flowtab_idx).flowtab (flow_slot cfg_2_4 key_s1 0)
        = { key := key_s1,
            data := { bytes := ⟨138, 0⟩, packets := ⟨1, 0⟩, flags := ⟨2, 0⟩, timestamp := 0,
                      first_tstamp := 1700000000, last_tstamp := 1700000000, first_dir := 0 } } :=
  ⟨by decide, flowmon_reachable.init, by decide, by decide,
   (C6_insert_new_flow cfg_2_4 (by decide) flowmon_init flowmon_reachable.init key_s1 (by decide)
      0 0x02 100 1700000000 0 (by decide) (fun j hj => absurd hj (Nat.not_lt_zero j))
      (by decide)).imp
      (fun _ h => ⟨h.1, h.2.2.1.trans (by decide)⟩)⟩

theorem succ_mod_ne (p : Nat) : (p + 1) % 4294967296 ≠ p := by
  omega

/-- C7 (amended): for every pool state and every accepted packet exactly one
flow entry of the pool is mutated by the probe loop: every other entry is
what it was once `flowtab_get` had run, and the one entry gets `len + 38`
added to the byte counter and 1 to the packet counter of the packet's
direction (32-bit counters), the other direction's counters being kept.  When
no rotation is due, `flowtab_get` changes no entry, so exactly one entry of
the pool differs before and after the call; when the packet triggers a
rotation, the entries of the dumped table are zeroed as well. -/
theorem C7_one_entry_mutated (cfg : pna_config) (s : flowmon_state) (key : pna_flowkey)
    (direction : Fin 2) (flags pkt_len : Nat) (tv_sec : Int)
    (hacc : (flowmon_hook cfg s key direction flags pkt_len tv_sec).1 = 0 ∨
      (flowmon_hook cfg s key direction flags pkt_len tv_sec).1 = 1) :
    ∃ idx slot,
      (∀ t sl, (t ≠ idx ∨ sl ≠ slot) →
        ((flowmon_hook cfg s key direction flags pkt_len tv_sec).2.tables t).flowtab sl
          = flow_base s tv_sec t sl) ∧
      ((flowmon_hook cfg s key direction flags pkt_len tv_sec).2.tables idx).flowtab slot
        ≠ flow_base s tv_sec idx slot ∧
      (((flowmon_hook cfg s key direction flags pkt_len tv_sec).2.tables idx).flowtab
          slot).data.bytes.get direction
        = ((flow_base s tv_sec idx slot).data.bytes.get direction + pkt_len + 38)
            % 4294967296 ∧
      (((flowmon_hook cfg s key direction flags pkt_len tv_sec).2.tables idx).flowtab
          slot).data.packets.get direction
        = ((flow_base s tv_sec idx slot).data.packets.get direction + 1) % 4294967296 ∧
      (∀ d, d ≠ direction →
        (((flowmon_hook cfg s key direction flags pkt_len tv_sec).2.tables idx).flowtab
            slot).data.bytes.get d = (flow_base s tv_sec idx slot).data.bytes.get d ∧
        (((flowmon_hook cfg s key direction flags pkt_len tv_sec).2.tables idx).flowtab
            slot).data.packets.get d = (flow_base s tv_sec idx slot).data.packets.get d) ∧
      (¬ rotates s tv_sec → ∀ t sl, flow_base s tv_sec t sl = (s.tables t).flowtab sl) ∧
      (rotates s tv_sec → ∀ t sl, flow_base s tv_sec t sl
        = if t = s.flowtab_idx then zero_entry else (s.tables t).flowtab sl) := by
  have hbase1 : ¬ rotates s tv_sec → ∀ t sl, flow_base s tv_sec t sl = (s.tables t).flowtab sl := by
    intro hr t sl
    simp [flow_base, hr]
  have hbase2 : rotates s tv_sec → ∀ t sl, flow_base s tv_sec t sl
      = if t = s.flowtab_idx then zero_entry else (s.tables t).flowtab sl := by
    intro hr t sl
    simp [flow_base, hr]
  have hv := (flowtab_get_view cfg s tv_sec).1
  rcases hg : flowtab_get cfg s tv_sec with ⟨s1, _ | idx⟩
  · rw [flowmon_hook_none cfg s s1 key direction flags pkt_len tv_sec hg] at hacc
    rcases hacc with h | h <;> cases h
  · rw [hg] at hv
    simp only at hv
    obtain ⟨c, _, _, hcase⟩ := flowmon_hook_cases cfg s s1 idx key direction flags pkt_len tv_sec hg
    rcases hcase with ⟨_, _, h3⟩ | ⟨_, _, h3⟩ | ⟨_, _, _, h3⟩
    · rw [h3] at hacc
      rcases hacc with h | h <;> cases h
    · rw [h3]
      refine ⟨idx, flow_slot cfg key (c - 1), ?_, ?_, ?_, ?_, ?_, hbase1, hbase2⟩
      · intro t sl hne
        rw [← hv t sl]
        show (@upd flowtab_info _ idx _ t).flowtab sl = _
        by_cases ht : t = idx
        · have hsl : sl ≠ flow_slot cfg key (c - 1) := by
            rcases hne with h | h
            · exact absurd ht h
            · exact h
          rw [ht, upd_same]
          show @upd flow_entry _ (flow_slot cfg key (c - 1)) _ sl = _
          rw [upd_other _ _ _ _ hsl]
        · rw [upd_other _ _ _ _ ht]
      · rw [← hv idx]
        show (@upd flowtab_info _ idx _ idx).flowtab _ ≠ _
        rw [upd_same]
        show @upd flow_entry _ (flow_slot cfg key (c - 1)) _ (flow_slot cfg key (c - 1)) ≠ _
        rw [upd_same]
        intro h
        have h1 := congrArg (fun e => e.data.packets.get direction) h
        simp only [flow_update, dir_pair_get_set] at h1
        exact succ_mod_ne _ h1
      · rw [← hv idx]
        show ((@upd flowtab_info _ idx _ idx).flowtab _).data.bytes.get direction = _
        rw [upd_same]
        show (@upd flow_entry _ (flow_slot cfg key (c - 1)) _
          (flow_slot cfg key (c - 1))).data.bytes.get direction = _
        rw [upd_same]
        simp only [flow_update, dir_pair_get_set]
        exact add_overhead_mod _ _
      · rw [← hv idx]
        show ((@upd flowtab_info _ idx _ idx).flowtab _).data.packets.get direction = _
        rw [upd_same]
        show (@upd flow_entry _ (flow_slot cfg key (c - 1)) _
          (flow_slot cfg key (c - 1))).data.packets.get direction = _
        rw [upd_same]
        simp only [flow_update, dir_pair_get_set]
        rfl
      · intro d hd
        rw [← hv idx]
        have e : ((with_table s1 idx (table_updated (s1.tables idx) c (flow_slot cfg key (c - 1))
            direction flags pkt_len tv_sec)).tables idx).flowtab (flow_slot cfg key (c - 1))
            = { (s1.tables idx).flowtab (flow_slot cfg key (c - 1)) with
                data := flow_update ((s1.tables idx).flowtab (flow_slot cfg key (c - 1))).data
                  direction flags pkt_len tv_sec } := by
          show (@upd flowtab_info _ idx _ idx).flowtab _ = _
          rw [upd_same]
          show @upd flow_entry _ (flow_slot cfg key (c - 1)) _ (flow_slot cfg key (c - 1)) = _
          rw [upd_same]
        show (((with_table s1 idx _).tables idx).flowtab _).data.bytes.get d = _ ∧
          (((with_table s1 idx _).tables idx).flowtab _).data.packets.get d = _
        rw [e]
        exact ⟨dir_pair_get_set_ne _ _ _ _ hd, dir_pair_get_set_ne _ _ _ _ hd⟩
    · rw [h3]
      refine ⟨idx, flow_slot cfg key (c - 1), ?_, ?_, ?_, ?_, ?_, hbase1, hbase2⟩
      · intro t sl hne
        rw [← hv t sl]
        show (@upd flowtab_info _ idx _ t).flowtab sl = _
        by_cases ht : t = idx
        · have hsl : sl ≠ flow_slot cfg key (c - 1) := by
            rcases hne with h | h
            · exact absurd ht h
            · exact h
          rw [ht, upd_same]
          show @upd flow_entry _ (flow_slot cfg key (c - 1)) _ sl = _
          rw [upd_other _ _ _ _ hsl]
        · rw [upd_other _ _ _ _ ht]
      · rw [← hv idx]
        show (@upd flowtab_info _ idx _ idx).flowtab _ ≠ _
        rw [upd_same]
        show @upd flow_entry _ (flow_slot cfg key (c - 1)) _ (flow_slot cfg key (c - 1)) ≠ _
        rw [upd_same]
        intro h
        have h1 := congrArg (fun e => e.data.packets.get direction) h
        simp only [flow_insert, dir_pair_get_set] at h1
        exact succ_mod_ne _ h1
      · rw [← hv idx]
        show ((@upd flowtab_info _ idx _ idx).flowtab _).data.bytes.get direction = _
        rw [upd_same]
        show (@upd flow_entry _ (flow_slot cfg key (c - 1)) _
          (flow_slot cfg key (c - 1))).data.bytes.get direction = _
        rw [upd_same]
        simp only [flow_insert, dir_pair_get_set]
        exact add_overhead_mod _ _
      · rw [← hv idx]
        show ((@upd flowtab_info _ idx _ idx).flowtab _).data.packets.get direction = _
        rw [upd_same]
        show (@upd flow_entry _ (flow_slot cfg key (c - 1)) _
          (flow_slot cfg key (c - 1))).data.packets.get direction = _
        rw [upd_same]
        simp only [flow_insert, dir_pair_get_set]
        rfl
      · intro d hd
        rw [← hv idx]
        have e : ((with_table s1 idx (table_inserted (s1.tables idx) c (flow_slot cfg key (c - 1))
            key direction flags pkt_len tv_sec)).tables idx).flowtab (flow_slot cfg key (c - 1))
            = { key := key,
                data := flow_insert ((s1.tables idx).flowtab (flow_slot cfg key (c - 1))).data
                  direction flags pkt_len tv_sec } := by
          show (@upd flowtab_info _ idx _ idx).flowtab _ = _
          rw [upd_same]
          show @upd flow_entry _ (flow_slot cfg key (c - 1)) _ (flow_slot cfg key (c - 1)) = _
          rw [upd_same]
        show (((with_table s1 idx _).tables idx).flowtab _).data.bytes.get d = _ ∧
          (((with_table s1 idx _).tables idx).flowtab _).data.packets.get d = _
        rw [e]
        exact ⟨dir_pair_get_set_ne _ _ _ _ hd, dir_pair_get_set_ne _ _ _ _ hd⟩

/-- Witness for C7: the reverse packet of the flow recorded in `state_s1` is
accepted (updated) and changes one entry. -/
theorem C7_one_entry_mutated_witness :
    (flowmon_hook cfg_2_4 state_s1 key_s1 1 0x12 60 1700000001).1 = 0 ∧
    ∃ idx slot,
      ((flowmon_hook cfg_2_4 state_s1 key_s1 1 0x12 60 1700000001).2.tables idx).flowtab slot
        ≠ flow_base state_s1 1700000001 idx slot :=
  ⟨by decide,
   match C7_one_entry_mutated cfg_2_4 state_s1 key_s1 1 0x12 60 1700000001
      (Or.inl (by decide)) with
   | ⟨idx, slot, h⟩ => ⟨idx, slot, h.2.1⟩⟩

/-- Counterexample to C7 as stated: with the flow of `state_s1` recorded in
table 0 at second 1700000000, its next packet at second 1700000010 is accepted
(inserted), and two flow entries of the pool differ before and after the call:
the flow's slot in table 0, zeroed by the rotation, and the same slot in
table 1, which now holds the flow. -/
theorem C7_counterexample :
    (flowmon_hook cfg_2_4 state_s1 key_s1 0 0x10 100 1700000010).1 = 1 ∧
    ((flowmon_hook cfg_2_4 state_s1 key_s1 0 0x10 100 1700000010).2.tables 0).flowtab
        (flow_slot cfg_2_4 key_s1 0)
      ≠ (state_s1.tables 0).flowtab (flow_slot cfg_2_4 key_s1 0) ∧
    ((flowmon_hook cfg_2_4 state_s1 key_s1 0 0x10 100 1700000010).2.tables 1).flowtab
        (flow_slot cfg_2_4 key_s1 0)
      ≠ (state_s1.tables 1).flowtab (flow_slot cfg_2_4 key_s1 0) := by
  decide

/-- C8: the probe loop of `flowmon_hook` executes some number `c <= 32` of
probes (the histogram `probes` is incremented at the indices below `c` and
nowhere else); and if none of the 32 probed slots of the table it works on
holds the key or is empty, the call returns -1, increments `nflows_missed` of
that table by 1 (a 32-bit counter) and leaves the flow entries and `nflows`
of that table as they were before the call; no flow entry and no `nflows` of
any table is changed by the probe loop, nor by the call as a whole when no
rotation is due. -/
theorem C8_probe_budget (cfg : pna_config) (s s1 : flowmon_state) (idx : Nat)
    (key : pna_flowkey) (direction : Fin 2) (flags pkt_len : Nat) (tv_sec : Int)
    (hget : flowtab_get cfg s tv_sec = (s1, some idx)) :
    (∃ c, c ≤ 32 ∧ ∀ j,
      ((flowmon_hook cfg s key direction flags pkt_len tv_sec).2.tables idx).probes j
        = if j < c then ((s.tables idx).probes j + 1) % 4294967296 else (s.tables idx).probes j) ∧
    ((∀ j, j < 32 → probe_miss cfg (s1.tables idx).flowtab key j) →
      (flowmon_hook cfg s key direction flags pkt_len tv_sec).1 = -1 ∧
      ((flowmon_hook cfg s key direction flags pkt_len tv_sec).2.tables idx).nflows_missed
        = ((s.tables idx).nflows_missed + 1) % 4294967296 ∧
      ((flowmon_hook cfg s key direction flags pkt_len tv_sec).2.tables idx).flowtab
        = (s.tables idx).flowtab ∧
      ((flowmon_hook cfg s key direction flags pkt_len tv_sec).2.tables idx).nflows
        = (s.tables idx).nflows ∧
      (∀ t, ((flowmon_hook cfg s key direction flags pkt_len tv_sec).2.tables t).flowtab
          = (s1.tables t).flowtab ∧
        ((flowmon_hook cfg s key direction flags pkt_len tv_sec).2.tables t).nflows
          = (s1.tables t).nflows) ∧
      (¬ rotates s tv_sec →
        ∀ t, ((flowmon_hook cfg s key direction flags pkt_len tv_sec).2.tables t).flowtab
            = (s.tables t).flowtab ∧
          ((flowmon_hook cfg s key direction flags pkt_len tv_sec).2.tables t).nflows
            = (s.tables t).nflows)) := by
  have hv := flowtab_get_view cfg s tv_sec
  rw [hget] at hv
  simp only at hv
  obtain ⟨hv1, hv2, hv3⟩ := hv
  obtain ⟨c, hc, _, hcase⟩ := flowmon_hook_cases cfg s s1 idx key direction flags pkt_len tv_sec hget
  constructor
  · refine ⟨c, hc, ?_⟩
    intro j
    have hb : bump_probes (s1.tables idx).probes 0 c j
        = if j < c then ((s.tables idx).probes j + 1) % 4294967296 else (s.tables idx).probes j := by
      simp only [bump_probes, hv3, U32, Nat.zero_le, true_and, Nat.zero_add]
    rcases hcase with ⟨_, _, h3⟩ | ⟨_, _, h3⟩ | ⟨_, _, _, h3⟩
    · rw [h3, ← hb]
      show (@upd flowtab_info _ idx _ idx).probes j = _
      rw [upd_same]; rfl
    · rw [h3, ← hb]
      show (@upd flowtab_info _ idx _ idx).probes j = _
      rw [upd_same]; rfl
    · rw [h3, ← hb]
      show (@upd flowtab_info _ idx _ idx).probes j = _
      rw [upd_same]; rfl
  · intro hall
    have hhook : flowmon_hook cfg s key direction flags pkt_len tv_sec
        = (-1, with_table s1 idx (table_missed (s1.tables idx) c)) := by
      rcases hcase with ⟨_, _, h3⟩ | ⟨h1, h2, _⟩ | ⟨h1, _, h3, _⟩
      · exact h3
      · have := (hall (c - 1) (by omega)).1
        exact Bool.noConfusion (this.symm.trans h2)
      · have := (hall (c - 1) (by omega)).2
        exact Bool.noConfusion (this.symm.trans h3)
    have hnorot : ¬ (rotates s tv_sec ∧ idx = s.flowtab_idx) := by
      rintro ⟨hr, hi⟩
      have h0 := (hall 0 (by omega)).2
      have hz : (s1.tables idx).flowtab (probe_slot cfg (flow_hash_0 cfg key) 0) = zero_entry := by
        rw [hv1]
        simp [flow_base, hr, hi]
      rw [hz] at h0
      revert h0
      decide
    have hbase : ∀ sl, (s1.tables idx).flowtab sl = (s.tables idx).flowtab sl := by
      intro sl
      rw [hv1]
      simp only [flow_base, hnorot, if_false]
    have hall_t : ∀ t, ((with_table s1 idx (table_missed (s1.tables idx) c)).tables t).flowtab
          = (s1.tables t).flowtab ∧
        ((with_table s1 idx (table_missed (s1.tables idx) c)).tables t).nflows
          = (s1.tables t).nflows := by
      intro t
      show (@upd flowtab_info _ idx _ t).flowtab = _ ∧ (@upd flowtab_info _ idx _ t).nflows = _
      by_cases ht : t = idx
      · rw [ht, upd_same]; exact ⟨rfl, rfl⟩
      · rw [upd_other _ _ _ _ ht]; exact ⟨rfl, rfl⟩
    rw [hhook]
    refine ⟨rfl, ?_, ?_, ?_, hall_t, ?_⟩
    · show (@upd flowtab_info _ idx _ idx).nflows_missed = _
      rw [upd_same]
      show ((s1.tables idx).nflows_missed + 1) % U32 = _
      rw [(hv2 idx hnorot).2]
      rfl
    · rw [(hall_t idx).1]
      funext sl
      exact hbase sl
    · rw [(hall_t idx).2]
      exact (hv2 idx hnorot).1
    · intro hr t
      rw [(hall_t t).1, (hall_t t).2]
      refine ⟨?_, (hv2 t (fun h => hr h.1)).1⟩
      funext sl
      rw [hv1]
      simp [flow_base, hr]

/-- Witness for C8: in the full pool `state_full` (16 slots per table) a
packet of `key_s1` at second 1001 finds no rotation due, all 32 probes miss,
and the call returns -1. -/
theorem C8_probe_budget_witness :
    flowtab_get cfg_2_4 state_full 1001 = (state_full, some 0) ∧
    (∀ j, j < 32 → probe_miss cfg_2_4 (state_full.tables 0).flowtab key_s1 j) ∧
    (flowmon_hook cfg_2_4 state_full key_s1 0 0x02 100 1001).1 = -1 ∧
    ((flowmon_hook cfg_2_4 state_full key_s1 0 0x02 100 1001).2.tables 0).nflows_missed
      = ((state_full.tables 0).nflows_missed + 1) % 4294967296 :=
  ⟨flowtab_get_keep cfg_2_4 state_full 1001 (by decide) (by decide), by decide,
   ((C8_probe_budget cfg_2_4 state_full state_full 0 key_s1 0 0x02 100 1001
      (flowtab_get_keep cfg_2_4 state_full 1001 (by decide) (by decide))).2 (by decide)).1,
   ((C8_probe_budget cfg_2_4 state_full state_full 0 key_s1 0 0x02 100 1001
      (flowtab_get_keep cfg_2_4 state_full 1001 (by decide) (by decide))).2 (by decide)).2.1⟩

theorem rotation_due_iff (f : Nat) (t : Int) :
    rotation_due f t = true ↔ ((t % 10 = 0 ∧ t ≠ (f : Int)) ∨ t - (f : Int) ≥ 10) := by
  have h : Int.tmod t 10 = 0 ↔ t % 10 = 0 :=
    ⟨fun h => Int.emod_eq_zero_of_dvd (Int.dvd_of_tmod_eq_zero h),
     fun h => Int.tmod_eq_zero_of_dvd (Int.dvd_of_emod_eq_zero h)⟩
  simp only [rotation_due, Bool.or_eq_true, decide_eq_true_eq, h]

/-- C9: for a dirty current table with `first_sec = f` and a packet of second
`t`, `flowtab_get` dumps the table (hands its contents to `dump_table`, zeroes
it and moves the index on round-robin before claiming a table) if and only if
`(t mod 10 = 0 and t != f) or t - f >= 10`; otherwise it returns that same
table and leaves the whole state unchanged.  In particular f=1000, t=1010 and
f=1001, t=1010 dump, and f=1001, t=1005 does not. -/
theorem C9_rotation_condition (cfg : pna_config) (s : flowmon_state) (tv_sec : Int)
    (hdirty : (s.tables s.flowtab_idx).table_dirty ≠ 0) :
    ((flowtab_get cfg s tv_sec).1.dumps
        = s.dumps ++ [((s.tables s.flowtab_idx).table_id, (s.tables s.flowtab_idx).flowtab)] ↔
      ((tv_sec % 10 = 0 ∧ tv_sec ≠ ((s.tables s.flowtab_idx).first_sec : Int)) ∨
        tv_sec - ((s.tables s.flowtab_idx).first_sec : Int) ≥ 10)) ∧
    (((tv_sec % 10 = 0 ∧ tv_sec ≠ ((s.tables s.flowtab_idx).first_sec : Int)) ∨
        tv_sec - ((s.tables s.flowtab_idx).first_sec : Int) ≥ 10) →
      flowtab_get cfg s tv_sec
        = flowtab_get_claim cfg (flowtab_next cfg (flowtab_dump s s.flowtab_idx)) tv_sec ∧
      (∀ sl, ((flowtab_get cfg s tv_sec).1.tables s.flowtab_idx).flowtab sl = zero_entry) ∧
      (0 < cfg.pna_tables →
        ((flowtab_dump s s.flowtab_idx).tables
          ((s.flowtab_idx + 1) % cfg.pna_tables)).read_mutex = false →
        (flowtab_get cfg s tv_sec).2 = some ((s.flowtab_idx + 1) % cfg.pna_tables) ∧
        (flowtab_get cfg s tv_sec).1.flowtab_idx = (s.flowtab_idx + 1) % cfg.pna_tables)) ∧
    (¬ ((tv_sec % 10 = 0 ∧ tv_sec ≠ ((s.tables s.flowtab_idx).first_sec : Int)) ∨
        tv_sec - ((s.tables s.flowtab_idx).first_sec : Int) ≥ 10) →
      flowtab_get cfg s tv_sec = (s, some s.flowtab_idx)) ∧
    rotation_due 1000 1010 = true ∧ rotation_due 1001 1010 = true ∧
    rotation_due 1001 1005 = false := by
  have hrot : rotates s tv_sec ↔
      ((tv_sec % 10 = 0 ∧ tv_sec ≠ ((s.tables s.flowtab_idx).first_sec : Int)) ∨
        tv_sec - ((s.tables s.flowtab_idx).first_sec : Int) ≥ 10) := by
    unfold rotates
    rw [rotation_due_iff]
    exact ⟨fun h => h.2, fun h => ⟨hdirty, h⟩⟩
  have hyes : rotates s tv_sec → (flowtab_get cfg s tv_sec).1.dumps
      = s.dumps ++ [((s.tables s.flowtab_idx).table_id, (s.tables s.flowtab_idx).flowtab)] := by
    intro hr
    rw [flowtab_get_rot cfg s tv_sec hr, (flowtab_get_claim_view cfg _ tv_sec).1]
    rfl
  have hno : ¬ rotates s tv_sec → flowtab_get cfg s tv_sec = (s, some s.flowtab_idx) :=
    fun hr => flowtab_get_keep cfg s tv_sec hdirty hr
  refine ⟨⟨?_, fun h => hyes (hrot.2 h)⟩, ?_, fun h => hno (fun hr => h (hrot.1 hr)),
    by decide, by decide, by decide⟩
  · intro hd
    by_contra hc
    rw [hno (fun hr => hc (hrot.1 hr))] at hd
    have := congrArg List.length hd
    simp at this
  · intro hc
    have hr := hrot.2 hc
    refine ⟨flowtab_get_rot cfg s tv_sec hr, ?_, ?_⟩
    · intro sl
      rw [(flowtab_get_view cfg s tv_sec).1]
      simp [flow_base, hr]
    · intro hT hfree
      rw [flowtab_get_rot cfg s tv_sec hr,
        flowtab_get_claim_free cfg _ tv_sec hT hfree]
      exact ⟨rfl, rfl⟩

/-- Witness for C9: in `state_s1` (table 0 dirty since second 1700000000) a
packet of second 1700000005 gets the same table back, the state unchanged. -/
theorem C9_rotation_condition_witness :
    (state_s1.tables state_s1.flowtab_idx).table_dirty ≠ 0 ∧
    flowtab_get cfg_2_4 state_s1 1700000005 = (state_s1, some state_s1.flowtab_idx) :=
  ⟨by decide,
   (C9_rotation_condition cfg_2_4 state_s1 1700000005 (by decide)).2.2.1 (by decide)⟩

theorem succ_mod_ne_self (i T : Nat) (hT : 2 ≤ T) (hi : i < T) : (i + 1) % T ≠ i := by
  by_cases h : i + 1 < T
  · rw [Nat.mod_eq_of_lt h]; omega
  · have h1 : i + 1 = T := by omega
    rw [h1, Nat.mod_self]; omega

/-- C10: in a pool of `T >= 2` tables (`pna_tables` is 2), in a state reached from
`flowmon_init`, when a packet with a non-null key at second `t` triggers the
rotation of the current table `i`: `dump_table` is handed table `i` with its
entries exactly as they were before the packet; afterwards table `i` is
all-zero with `table_dirty = 0`, `first_sec = 0` and `nflows = 0`; the current
index is `(i + 1) mod T`, a different table; the new current table is dirty
with `first_sec = t` (as `unsigned int`) and holds the packet's flow as its
only entry (`nflows = 1`); every other table is all-zero. -/
theorem C10_rotation_effect (cfg : pna_config) (hT : 2 ≤ cfg.pna_tables) (s : flowmon_state)
    (hreach : flowmon_reachable cfg s) (key : pna_flowkey)
    (hkey : flowkey_match key null_key = false)
    (direction : Fin 2) (flags pkt_len : Nat) (tv_sec : Int) (hrot : rotates s tv_sec) :
    ∃ s2, flowmon_hook cfg s key direction flags pkt_len tv_sec = (1, s2) ∧
      s2.dumps = s.dumps ++ [(s.flowtab_idx, (s.tables s.flowtab_idx).flowtab)] ∧
      (s2.tables s.flowtab_idx).flowtab = (fun _ => zero_entry) ∧
      (s2.tables s.flowtab_idx).table_dirty = 0 ∧
      (s2.tables s.flowtab_idx).first_sec = 0 ∧
      (s2.tables s.flowtab_idx).nflows = 0 ∧
      s2.flowtab_idx = (s.flowtab_idx + 1) % cfg.pna_tables ∧
      s2.flowtab_idx ≠ s.flowtab_idx ∧
      (s2.tables s2.flowtab_idx).table_dirty = 1 ∧
      (((s2.tables s2.flowtab_idx).first_sec : Nat) : Int) = tv_sec % 4294967296 ∧
      (s2.tables s2.flowtab_idx).flowtab
        = upd (fun _ => zero_entry) (flow_slot cfg key 0)
            { key := key, data := first_packet_data direction flags pkt_len tv_sec } ∧
      (s2.tables s2.flowtab_idx).nflows = 1 ∧
      (∀ t, t ≠ s2.flowtab_idx → (s2.tables t).flowtab = (fun _ => zero_entry)) := by
  have hT0 : 0 < cfg.pna_tables := by omega
  have hinv := flowmon_reachable_inv cfg hT0 s hreach
  have hne : (s.flowtab_idx + 1) % cfg.pna_tables ≠ s.flowtab_idx :=
    succ_mod_ne_self _ _ hT hinv.idx_lt
  obtain ⟨_, hcl⟩ := dump_next_clean cfg s hinv
  have hget : flowtab_get cfg s tv_sec
      = (claim_state (flowtab_next cfg (flowtab_dump s s.flowtab_idx)) tv_sec,
         some ((s.flowtab_idx + 1) % cfg.pna_tables)) := by
    rw [flowtab_get_rot cfg s tv_sec hrot, flowtab_get_claim_free cfg _ tv_sec hT0 (hcl _).2.2.1]
    rfl
  have hnext := hinv.others_clean _ hne
  have htab : (claim_state (flowtab_next cfg (flowtab_dump s s.flowtab_idx)) tv_sec).tables
      ((s.flowtab_idx + 1) % cfg.pna_tables)
      = { s.tables ((s.flowtab_idx + 1) % cfg.pna_tables) with
          read_mutex := true, first_sec := to_u32 tv_sec, table_dirty := 1, smp_id := 0 } := by
    show @upd flowtab_info _ ((s.flowtab_idx + 1) % cfg.pna_tables) _
      ((s.flowtab_idx + 1) % cfg.pna_tables) = _
    rw [upd_same]
    show claim_table (@upd flowtab_info _ s.flowtab_idx _
      ((s.flowtab_idx + 1) % cfg.pna_tables)) tv_sec = _
    rw [upd_other _ _ _ _ hne, claim_table_clean _ _ hnext.2.1]
  have hold : (claim_state (flowtab_next cfg (flowtab_dump s s.flowtab_idx)) tv_sec).tables
      s.flowtab_idx
      = { flowtab_clean (s.tables s.flowtab_idx) with read_mutex := false } := by
    show @upd flowtab_info _ ((s.flowtab_idx + 1) % cfg.pna_tables) _ s.flowtab_idx = _
    rw [upd_other _ _ _ _ (Ne.symm hne)]
    show @upd flowtab_info _ s.flowtab_idx _ s.flowtab_idx = _
    rw [upd_same]
  have hother : ∀ t, t ≠ (s.flowtab_idx + 1) % cfg.pna_tables → t ≠ s.flowtab_idx →
      (claim_state (flowtab_next cfg (flowtab_dump s s.flowtab_idx)) tv_sec).tables t
        = s.tables t := by
    intro t h1 h2
    show @upd flowtab_info _ ((s.flowtab_idx + 1) % cfg.pna_tables) _ t = _
    rw [upd_other _ _ _ _ h1]
    show @upd flowtab_info _ s.flowtab_idx _ t = _
    rw [upd_other _ _ _ _ h2]
  have hzero : ((claim_state (flowtab_next cfg (flowtab_dump s s.flowtab_idx)) tv_sec).tables
      ((s.flowtab_idx + 1) % cfg.pna_tables)).flowtab = (fun _ => zero_entry) := by
    rw [htab]; exact hnext.1
  have hk : flowkey_match (((claim_state (flowtab_next cfg (flowtab_dump s s.flowtab_idx))
      tv_sec).tables ((s.flowtab_idx + 1) % cfg.pna_tables)).flowtab
      (probe_slot cfg (flow_hash_0 cfg key) 0)).key key = false := by
    rw [hzero, flowkey_match_symm]; exact hkey
  have hnull : flowkey_match (((claim_state (flowtab_next cfg (flowtab_dump s s.flowtab_idx))
      tv_sec).tables ((s.flowtab_idx + 1) % cfg.pna_tables)).flowtab
      (probe_slot cfg (flow_hash_0 cfg key) 0)).key null_key = true := by
    rw [hzero]; rfl
  have hprobe := flowmon_probe_insert cfg key direction flags pkt_len tv_sec PNA_TABLE_TRIES 0
    _ (by decide) (fun j hj => absurd hj (Nat.not_lt_zero j)) hk hnull
  have hhook := flowmon_hook_some cfg s _ _ key direction flags pkt_len tv_sec _ _ hget hprobe
  simp only at hhook
  refine ⟨_, hhook, ?_, ?_, ?_, ?_, ?_, rfl, hne, ?_, ?_, ?_, ?_, ?_⟩
  · show s.dumps ++ [((s.tables s.flowtab_idx).table_id, (s.tables s.flowtab_idx).flowtab)] = _
    rw [hinv.ids]
  · show (@upd flowtab_info _ ((s.flowtab_idx + 1) % cfg.pna_tables) _ s.flowtab_idx).flowtab = _
    rw [upd_other _ _ _ _ (Ne.symm hne), hold]
    rfl
  · show (@upd flowtab_info _ ((s.flowtab_idx + 1) % cfg.pna_tables) _ s.flowtab_idx).table_dirty
      = _
    rw [upd_other _ _ _ _ (Ne.symm hne), hold]
    rfl
  · show (@upd flowtab_info _ ((s.flowtab_idx + 1) % cfg.pna_tables) _ s.flowtab_idx).first_sec
      = _
    rw [upd_other _ _ _ _ (Ne.symm hne), hold]
    rfl
  · show (@upd flowtab_info _ ((s.flowtab_idx + 1) % cfg.pna_tables) _ s.flowtab_idx).nflows = _
    rw [upd_other _ _ _ _ (Ne.symm hne), hold]
    rfl
  · show (@upd flowtab_info _ ((s.flowtab_idx + 1) % cfg.pna_tables) _
      ((s.flowtab_idx + 1) % cfg.pna_tables)).table_dirty = _
    rw [upd_same]
    show ((claim_state (flowtab_next cfg (flowtab_dump s s.flowtab_idx)) tv_sec).tables
      ((s.flowtab_idx + 1) % cfg.pna_tables)).table_dirty = 1
    rw [htab]
  · show (((@upd flowtab_info _ ((s.flowtab_idx + 1) % cfg.pna_tables) _
      ((s.flowtab_idx + 1) % cfg.pna_tables)).first_sec : Nat) : Int) = _
    rw [upd_same]
    show ((((claim_state (flowtab_next cfg (flowtab_dump s s.flowtab_idx)) tv_sec).tables
      ((s.flowtab_idx + 1) % cfg.pna_tables)).first_sec : Nat) : Int) = _
    rw [htab]
    exact to_u32_cast tv_sec
  · show (@upd flowtab_info _ ((s.flowtab_idx + 1) % cfg.pna_tables) _
      ((s.flowtab_idx + 1) % cfg.pna_tables)).flowtab = _
    rw [upd_same]
    show upd ((claim_state (flowtab_next cfg (flowtab_dump s s.flowtab_idx)) tv_sec).tables
        ((s.flowtab_idx + 1) % cfg.pna_tables)).flowtab (flow_slot cfg key 0)
        { key := key,
          data := flow_insert (((claim_state (flowtab_next cfg (flowtab_dump s s.flowtab_idx))
            tv_sec).tables ((s.flowtab_idx + 1) % cfg.pna_tables)).flowtab
            (flow_slot cfg key 0)).data direction flags pkt_len tv_sec } = _
    rw [hzero, flow_insert_zero]
  · show (@upd flowtab_info _ ((s.flowtab_idx + 1) % cfg.pna_tables) _
      ((s.flowtab_idx + 1) % cfg.pna_tables)).nflows = _
    rw [upd_same]
    show (((claim_state (flowtab_next cfg (flowtab_dump s s.flowtab_idx)) tv_sec).tables
      ((s.flowtab_idx + 1) % cfg.pna_tables)).nflows + 1) % U32 = 1
    rw [htab]
    show ((s.tables ((s.flowtab_idx + 1) % cfg.pna_tables)).nflows + 1) % U32 = 1
    rw [hnext.2.2.2.2.1]
    decide
  · intro t ht
    have ht1 : t ≠ (s.flowtab_idx + 1) % cfg.pna_tables := ht
    show (@upd flowtab_info _ ((s.flowtab_idx + 1) % cfg.pna_tables) _ t).flowtab = _
    rw [upd_other _ _ _ _ ht1]
    by_cases h2 : t = s.flowtab_idx
    · rw [h2, hold]; rfl
    · rw [hother t ht1 h2]
      exact (hinv.others_clean t h2).1

theorem state_s5_reachable : flowmon_reachable cfg_2_4 state_s5 :=
  flowmon_reachable.hook _ key_s5c 0 0 84 1001
    (flowmon_reachable.hook _ key_s5b 0 0 80 1001
      (flowmon_reachable.hook _ key_s1 0 0x02 100 1001 flowmon_reachable.init (by decide))
      (by decide))
    (by decide)

/-- Witness for C10 (scenario S5): three flows fed at second 1001 fill three
slots of table 0; a packet of one of them at second 1010 triggers the
rotation, `dump_table` is handed table 0 with its three live entries, and the
current index becomes 1. -/
theorem C10_rotation_effect_witness :
    2 ≤ cfg_2_4.pna_tables ∧ rotates state_s5 1010 ∧ state_s5.flowtab_idx = 0 ∧
    state_s5.dumps.length = 0 ∧
    live_slots (state_s5.tables 0).flowtab 16 = 3 ∧
    ∃ s2, flowmon_hook cfg_2_4 state_s5 key_s1 0 0x10 100 1010 = (1, s2) ∧
      s2.dumps = state_s5.dumps
        ++ [(state_s5.flowtab_idx, (state_s5.tables state_s5.flowtab_idx).flowtab)] ∧
      s2.flowtab_idx = (state_s5.flowtab_idx + 1) % cfg_2_4.pna_tables :=
  ⟨by decide, by decide, by decide, by decide, by decide,
   (C10_rotation_effect cfg_2_4 (by decide) state_s5 state_s5_reachable key_s1 (by decide)
      0 0x10 100 1010 (by decide)).imp
      (fun _ h => ⟨h.1, h.2.1, h.2.2.2.2.2.2.1⟩)⟩

/-- A pool of a single table: after one packet at second 1001, a packet at
second 1010 triggers the rotation of table 0, which is dumped, zeroed and, as
`(0 + 1) mod 1 = 0`, claimed again at once: afterwards it is the current
table, dirty, with `first_sec = 1010`, `nflows = 1` and the packet's flow in
it. -/
theorem rotation_single_table :
    rotates state_single 1010 ∧ state_single.flowtab_idx = 0 ∧
    (flowmon_hook cfg_1_4 state_single key_s1 0 0x10 100 1010).1 = 1 ∧
    (flowmon_hook cfg_1_4 state_single key_s1 0 0x10 100 1010).2.flowtab_idx = 0 ∧
    ((flowmon_hook cfg_1_4 state_single key_s1 0 0x10 100 1010).2.tables 0).table_dirty = 1 ∧
    ((flowmon_hook cfg_1_4 state_single key_s1 0 0x10 100 1010).2.tables 0).first_sec = 1010 ∧
    ((flowmon_hook cfg_1_4 state_single key_s1 0 0x10 100 1010).2.tables 0).nflows = 1 ∧
    ((flowmon_hook cfg_1_4 state_single key_s1 0 0x10 100 1010).2.tables 0).flowtab
      (flow_slot cfg_1_4 key_s1 0) ≠ zero_entry := by
  decide

/-! ### Every trie the program builds is 16-bit typed -/

theorem alloc_if_null_typed (t : pna_dtrie_entry) (h : dtrie_typed t = true) :
    dtrie_typed (alloc_if_null t) = true := by
  cases t with
  | null => decide
  | node isp dom c0 c1 => exact h

theorem add_loop_typed (pfx dom : Nat) :
    ∀ n d t, dtrie_typed t = true → dtrie_typed (pna_dtrie_add_loop pfx dom n d t) = true := by
  intro n
  induction n with
  | zero =>
    intro d t ht
    cases t with
    | null => rfl
    | node isp dm c0 c1 =>
      simp only [dtrie_typed, Bool.and_eq_true, decide_eq_true_eq] at ht
      simp only [pna_dtrie_add_loop, set_prefix, dtrie_typed, Bool.and_eq_true, decide_eq_true_eq]
      exact ⟨⟨Nat.mod_lt _ (by decide), ht.1.2⟩, ht.2⟩
  | succ n ih =>
    intro d t ht
    cases t with
    | null => rfl
    | node isp dm c0 c1 =>
      simp only [dtrie_typed, Bool.and_eq_true, decide_eq_true_eq] at ht
      simp only [pna_dtrie_add_loop]
      split
      · simp only [dtrie_typed, Bool.and_eq_true, decide_eq_true_eq]
        exact ⟨⟨ht.1.1, ih _ _ (alloc_if_null_typed c0 ht.1.2)⟩, ht.2⟩
      · simp only [dtrie_typed, Bool.and_eq_true, decide_eq_true_eq]
        exact ⟨⟨ht.1.1, ht.1.2⟩, ih _ _ (alloc_if_null_typed c1 ht.2)⟩

theorem dtrie_build_typed (P : List (Nat × Nat × Nat)) :
    ∀ t t1, dtrie_typed t = true → dtrie_build t P = some t1 → dtrie_typed t1 = true := by
  induction P with
  | nil =>
    intro t t1 ht h
    simp only [dtrie_build, Option.some.injEq] at h
    subst h
    exact ht
  | cons e P ih =>
    intro t t1 ht h
    simp only [dtrie_build] at h
    split at h
    · refine ih _ t1 ?_ h
      unfold pna_dtrie_add
      split
      · exact ht
      · exact add_loop_typed _ _ _ _ _ ht
    · cases h

/-! ### The hook on a concrete frame -/

/-- On the frame `frame_s1` (114 bytes on the wire) under the trie
`10.0.0.0/8 -> 1`, `pna_hook` decodes the key `key_s1`, direction outbound and
flags 0x02, and `flowmon_hook` returns 1 (inserted). -/
theorem pna_hook_frame_s1 :
    (pna_hook_decode 1 trie_10_8 frag_init 114 (pkt_of frame_s1)).map (fun r => r.2)
      = some (some (key_s1, 0, 0x02)) ∧
    (pna_hook 1 cfg_2_4 ⟨trie_10_8, frag_init, flowmon_init⟩ 114 1700000000
      (pkt_of frame_s1)).map (fun r => r.1) = some (some 1) := by
  decide

/-! ### The table dumper -/

theorem log_entry_bytes_length (e : pna_log_entry) : (log_entry_bytes e).length = 48 := by
  simp [log_entry_bytes, le32, le16]

theorem log_hdr_bytes_length (h : pna_log_hdr) : (log_hdr_bytes h).length = 16 := by
  simp [log_hdr_bytes, le32]

theorem write_fd_after (F buf : List Nat) (h : buf ≠ []) :
    write (fd_after F) buf buf.length = (fd_after (F ++ buf), buf.length) := by
  have hl : buf.length ≠ 0 := fun h0 => h (List.length_eq_zero.mp h0)
  unfold write
  rw [if_neg hl]
  by_cases hF : F = []
  · subst hF
    simp [fd_after, h]
  · have hlen : (List.replicate 16 0 ++ F).length = 16 + F.length := by
      rw [List.length_append, List.length_replicate]
    have hsub : 16 + F.length - (List.replicate 16 0 ++ F).length = 0 := by rw [hlen]; omega
    simp only [fd_after, hF, if_false, hsub, List.replicate_zero, List.append_nil]
    have ht : List.take (16 + F.length) (List.replicate 16 0 ++ F) = List.replicate 16 0 ++ F :=
      List.take_of_length_le (by rw [hlen])
    have hd : List.drop (16 + (F.length + buf.length)) (List.replicate 16 0 ++ F) = [] :=
      List.drop_of_length_le (by rw [hlen]; omega)
    have hb : List.take buf.length buf = buf := List.take_of_length_le (Nat.le_refl _)
    have hne : ¬ (F ++ buf = []) := by simp [hF]
    simp only [ht, hd, hb, hne, if_false, List.append_nil, List.append_assoc, List.length_append,
      Nat.add_assoc]

theorem buf_flush_loop_zero (fuel : Nat) (fd : file_state) (buffer : List Nat) :
    buf_flush_loop fuel fd buffer 0 = (fd, 0) := by
  cases fuel <;> simp [buf_flush_loop]

theorem buf_flush_fd_after (F buf : List Nat) :
    buf_flush (fd_after F) buf buf.length = (fd_after (F ++ buf), 0) := by
  cases buf with
  | nil => simp [buf_flush, buf_flush_loop]
  | cons a l =>
    have hw := write_fd_after F (a :: l) (by simp)
    simp only [buf_flush, List.length_cons] at hw ⊢
    simp only [buf_flush_loop, Nat.succ_pos, if_true, hw, Nat.sub_self]
    exact buf_flush_loop_zero _ _ _

theorem live_records_length (table : Nat → flow_entry) :
    ∀ n idx, (live_records table n idx).length = 48 * (live_entries table n idx).length := by
  intro n
  induction n with
  | zero => intro idx; rfl
  | succ n ih =>
    intro idx
    simp only [live_records, live_entries]
    split
    · exact ih _
    · simp only [List.length_append, List.length_cons, log_entry_bytes_length, ih]
      omega

theorem live_entries_length_le (table : Nat → flow_entry) :
    ∀ n idx, (live_entries table n idx).length ≤ n := by
  intro n
  induction n with
  | zero => intro idx; exact Nat.le_refl _
  | succ n ih =>
    intro idx
    simp only [live_entries]
    split
    · exact Nat.le_succ_of_le (ih _)
    · simp only [List.length_cons]
      exact Nat.succ_le_succ (ih _)

theorem dump_table_loop_spec (table : Nat → flow_entry) :
    ∀ n idx F buf nflows, ∃ F1 buf1 nflows1,
      dump_table_loop table n idx (fd_after F) buf nflows = (fd_after F1, buf1, nflows1) ∧
      F1 ++ buf1 = F ++ buf ++ live_records table n idx ∧
      nflows1 % U32 = (nflows + (live_entries table n idx).length) % U32 := by
  intro n
  induction n with
  | zero =>
    intro idx F buf nflows
    exact ⟨F, buf, nflows, rfl, by simp [live_records], by simp [live_entries]⟩
  | succ n ih =>
    intro idx F buf nflows
    by_cases hk : (table idx).key = null_key
    · obtain ⟨F1, buf1, nflows1, h1, h2, h3⟩ := ih (idx + 1) F buf nflows
      refine ⟨F1, buf1, nflows1, ?_, ?_, ?_⟩
      · simp only [dump_table_loop, Dump.flowkey_match, hk, decide_True, if_true]
        exact h1
      · simp only [live_records, hk, if_true]
        exact h2
      · simp only [live_entries, hk, if_true]
        exact h3
    · by_cases hf : (buf ++ log_entry_bytes (log_of_flow (table idx))).length + sizeof_log_entry
          ≥ BUF_SIZE
      · obtain ⟨F1, buf1, nflows1, h1, h2, h3⟩ :=
          ih (idx + 1) (F ++ (buf ++ log_entry_bytes (log_of_flow (table idx)))) []
            ((nflows + 1) % U32)
        refine ⟨F1, buf1, nflows1, ?_, ?_, ?_⟩
        · simp only [dump_table_loop, Dump.flowkey_match, hk, decide_False, if_false, hf, if_true,
            buf_flush_fd_after, List.take_zero, Bool.false_eq_true]
          exact h1
        · simp only [live_records, hk, if_false]
          rw [h2]
          simp only [List.append_nil, List.append_assoc]
        · simp only [live_entries, hk, if_false, List.length_cons]
          rw [h3]
          unfold U32
          omega
      · obtain ⟨F1, buf1, nflows1, h1, h2, h3⟩ :=
          ih (idx + 1) F (buf ++ log_entry_bytes (log_of_flow (table idx))) ((nflows + 1) % U32)
        refine ⟨F1, buf1, nflows1, ?_, ?_, ?_⟩
        · simp only [dump_table_loop, Dump.flowkey_match, hk, decide_False, if_false, hf,
            Bool.false_eq_true]
          exact h1
        · simp only [live_records, hk, if_false]
          rw [h2]
          simp only [List.append_assoc]
        · simp only [live_entries, hk, if_false, List.length_cons]
          rw [h3]
          unfold U32
          omega

/-- The file `dump_table` leaves behind: the header followed by the records of
the live entries in slot order. -/
theorem dump_table_file (table : Nat → flow_entry) (file_size : Nat) (start_time end_time : Int) :
    ∃ nflows, nflows % U32 = (live_entries table (file_size / sizeof_flow_entry) 0).length % U32 ∧
      dump_table table (some file_created) file_size start_time end_time =
        some { data := log_hdr_bytes
                  { magic0 := PNA_LOG_MAGIC0, magic1 := PNA_LOG_MAGIC1, magic2 := PNA_LOG_MAGIC2,
                    version := PNA_LOG_VERSION, start_time := to_u32 start_time,
                    end_time := to_u32 end_time, size := (nflows * sizeof_log_entry) % U32 }
                ++ live_records table (file_size / sizeof_flow_entry) 0,
               pos := 16 } := by
  obtain ⟨F1, buf1, nflows1, h1, h2, h3⟩ :=
    dump_table_loop_spec table (file_size / sizeof_flow_entry) 0 [] [] 0
  refine ⟨nflows1, by simpa using h3, ?_⟩
  have h0 : lseek_set file_created sizeof_log_hdr = fd_after [] := rfl
  simp only [dump_table, h0, h1, buf_flush_fd_after, h2, List.nil_append]
  generalize live_records table (file_size / sizeof_flow_entry) 0 = R
  generalize hH : log_hdr_bytes _ = H
  have hH16 : H.length = 16 := by rw [← hH]; exact log_hdr_bytes_length _
  have hne : sizeof_log_hdr ≠ 0 := by decide
  simp only [write, lseek_set, if_neg hne, fd_after, Nat.zero_sub, Nat.zero_add, List.take_zero,
    List.nil_append]
  have ht : List.take sizeof_log_hdr H = H := List.take_of_length_le (by rw [hH16]; decide)
  rw [ht]
  by_cases hR : R = []
  · subst hR
    simp [sizeof_log_hdr]
  · simp only [hR, if_false]
    have : List.drop sizeof_log_hdr
        (List.replicate 16 0 ++ R ++ List.replicate (0 - (List.replicate 16 0 ++ R).length) 0) = R := by
      rw [Nat.zero_sub, List.replicate_zero, List.append_nil]
      exact List.drop_left' (by simp [sizeof_log_hdr])
    simp only [Nat.zero_sub, List.replicate_zero, List.append_nil] at this ⊢
    rw [this]
    rfl

theorem live_entries_length_filter (table : Nat → flow_entry) :
    ∀ n idx, (live_entries table n idx).length =
      ((List.range n).filter (fun i => decide ((table (idx + i)).key ≠ null_key))).length := by
  intro n
  induction n with
  | zero => intro idx; rfl
  | succ n ih =>
    intro idx
    have hfun : ((fun i => decide ((table (idx + i)).key ≠ null_key)) ∘ Nat.succ) =
        (fun i => decide ((table (idx + 1 + i)).key ≠ null_key)) := by
      funext i
      simp only [Function.comp, Nat.succ_eq_add_one]
      rw [Nat.add_assoc, Nat.add_comm 1 i]
    have hih := ih (idx + 1)
    rw [List.range_succ_eq_map, List.filter_cons, List.filter_map, hfun]
    by_cases hk : (table idx).key = null_key
    · simp only [live_entries, hk, if_true, Nat.add_zero, ne_eq, not_true_eq_false, decide_False,
        Bool.false_eq_true, if_false, List.length_map]
      exact hih
    · simp only [live_entries, hk, if_false, Nat.add_zero, ne_eq, not_false_eq_true, decide_True,
        if_true, List.length_cons, List.length_map]
      rw [hih]

theorem live_entries_length_count (table : Nat → flow_entry) (n : Nat) :
    (live_entries table n 0).length = dump_live_count table n := by
  rw [live_entries_length_filter]
  simp only [dump_live_count, Nat.zero_add]

theorem raw32_log_hdr (h : pna_log_hdr) (R : List Nat) :
    raw32 (pkt_of (log_hdr_bytes h ++ R)) 12 = h.size % U32 := by
  simp only [raw32, rd8, pkt_of, log_hdr_bytes, le32, List.getD_cons_succ, List.getD_cons_zero,
    List.cons_append, List.nil_append, U32]
  omega

/-- C11: for every table handed to `dump_table` with a byte size that fits an
`unsigned int`, writing into a freshly created file with every write
transferring its whole request leaves a file of exactly `16 + 48 * n` bytes
that starts with the bytes P, N, A and the version 2 and whose size field (the
`unsigned int` at offset 12) is `48 * n`, where `n` is the number of slots of
the table whose key is not the null key. -/
theorem C11_dump_file_size (table : Nat → flow_entry) (file_size : Nat)
    (hsize : file_size < U32) (start_time end_time : Int) :
    ∃ f, dump_table table (some file_created) file_size start_time end_time = some f ∧
      f.data.length = 16 + 48 * dump_live_count table (file_size / sizeof_flow_entry) ∧
      f.data.take 4 = [0x50, 0x4E, 0x41, 2] ∧
      raw32 (pkt_of f.data) 12 = 48 * dump_live_count table (file_size / sizeof_flow_entry) := by
  obtain ⟨nflows, hn, hf⟩ := dump_table_file table file_size start_time end_time
  rw [live_entries_length_count] at hn
  have hle : dump_live_count table (file_size / sizeof_flow_entry) ≤ file_size / 56 := by
    rw [← live_entries_length_count]
    exact live_entries_length_le _ _ _
  have hdiv : file_size / 56 * 56 ≤ file_size := Nat.div_mul_le_self _ _
  refine ⟨_, hf, ?_, ?_, ?_⟩
  · simp only [List.length_append, log_hdr_bytes_length, live_records_length,
      live_entries_length_count]
  · rfl
  · rw [raw32_log_hdr]
    show (nflows * 48 % U32) % U32 = _
    unfold U32 at hn hsize ⊢
    omega

/-- Witness for C11: the 16-slot table (896 bytes) holding the one flow of
scenario S1 is written as a file of 64 bytes. -/
theorem C11_dump_file_size_witness :
    (896 : Nat) < U32 ∧ dump_live_count table_s1 (896 / sizeof_flow_entry) = 1 ∧
    ∃ f, dump_table table_s1 (some file_created) 896 1700000010 1700000011 = some f ∧
      f.data.length = 16 + 48 * dump_live_count table_s1 (896 / sizeof_flow_entry) ∧
      f.data.take 4 = [0x50, 0x4E, 0x41, 2] ∧
      raw32 (pkt_of f.data) 12 = 48 * dump_live_count table_s1 (896 / sizeof_flow_entry) :=
  ⟨by decide, by decide, C11_dump_file_size table_s1 896 (by decide) 1700000010 1700000011⟩

/-- Counterexample to C12 as stated: the record has no field for `l3_protocol`
and one byte for `first_dir`.  The table holding the flow of scenario S1 and
the table holding the same flow with `l3_protocol = 0x86DD` (a different flow
key) are written as the same file, and so is the table holding the same
flow with `first_dir = 256`: what is read back cannot be the flow key and
`first_dir` the table held in each case. -/
theorem C12_counterexample :
    entry_s1.key ≠ entry_s1_l3.key ∧
    flowkey_match entry_s1.key entry_s1_l3.key = false ∧
    dump_table (table_one entry_s1) (some file_created) 896 0 0
      = dump_table (table_one entry_s1_l3) (some file_created) 896 0 0 ∧
    entry_s1.data.first_dir ≠ entry_s1_dir.data.first_dir ∧
    dump_table (table_one entry_s1) (some file_created) 896 0 0
      = dump_table (table_one entry_s1_dir) (some file_created) 896 0 0 ∧
    (dump_table (table_one entry_s1) (some file_created) 896 0 0).map (fun f => f.data.length)
      = some 64 := by
  decide

theorem pkt_of_append_right (pre l : List Nat) (j : Nat) :
    pkt_of (pre ++ l) (pre.length + j) = pkt_of l j := by
  simp only [pkt_of]
  rw [List.getD_append_right _ _ _ _ (Nat.le_add_right _ _), Nat.add_sub_cancel_left]

theorem log_entry_read_append (pre l : List Nat) (off : Nat) :
    log_entry_read (pre ++ l) (pre.length + off) = log_entry_read l off := by
  simp only [log_entry_read, raw32, raw16, rd8, Nat.add_assoc, pkt_of_append_right]

theorem log_entry_read_record (flow : flow_entry) (h : flow_entry_typed flow) (post : List Nat) :
    log_entry_read (log_entry_bytes (log_of_flow flow) ++ post) 0 = record_of_flow flow := by
  obtain ⟨key, ⟨⟨bo, bi⟩, ⟨po, pi⟩, ⟨fo, fi⟩, ts, fts, lts, fd⟩⟩ := flow
  obtain ⟨h1, h2, h3, h4, h5, h6, h7, h8, h9, h10, h11, h12, h13, h14, h15, h16⟩ := h
  simp only at h1 h2 h3 h4 h5 h6 h7 h8 h9 h10 h11 h12 h13 h14 h15 h16
  unfold U32 at *
  unfold U16 at *
  simp only [log_entry_read, log_entry_bytes, log_of_flow, record_of_flow, le32, le16, raw32,
    raw16, rd8, pkt_of, List.cons_append, List.nil_append, List.append_assoc, List.getD_cons_succ,
    List.getD_cons_zero, Nat.zero_add, Nat.reduceAdd, pna_log_entry.mk.injEq, dir_pair.mk.injEq]
  refine ⟨?_, ?_, ?_, ?_, ?_, ?_, ⟨?_, ?_⟩, ⟨?_, ?_⟩, ⟨?_, ?_⟩, ?_, ?_, ?_, ?_, trivial, trivial⟩ <;>
    omega

theorem read_records_live (table : Nat → flow_entry) :
    ∀ n idx pre, (∀ i, idx ≤ i → i < idx + n → flow_entry_typed (table i)) →
      read_records (pre ++ live_records table n idx) (live_entries table n idx).length pre.length
        = (live_entries table n idx).map record_of_flow := by
  intro n
  induction n with
  | zero => intro idx pre _; rfl
  | succ n ih =>
    intro idx pre ht
    have ht1 : ∀ i, idx + 1 ≤ i → i < idx + 1 + n → flow_entry_typed (table i) :=
      fun i h1 h2 => ht i (by omega) (by omega)
    by_cases hk : (table idx).key = null_key
    · simp only [live_records, live_entries, hk, if_true]
      exact ih (idx + 1) pre ht1
    · simp only [live_records, live_entries, hk, if_false, List.length_cons, read_records,
        List.map_cons]
      have h0 := log_entry_read_append pre
        (log_entry_bytes (log_of_flow (table idx)) ++ live_records table n (idx + 1)) 0
      simp only [Nat.add_zero] at h0
      rw [h0, log_entry_read_record _ (ht idx (Nat.le_refl _) (by omega))]
      have hlen : pre.length + 48 = (pre ++ log_entry_bytes (log_of_flow (table idx))).length := by
        rw [List.length_append, log_entry_bytes_length]
      rw [hlen, ← List.append_assoc, ih (idx + 1) _ ht1]

/-- C12 (amended): for every table whose slots hold values of their C types,
the record area `dump_table` writes behind the 16-byte header of a fresh file
is the concatenation, in increasing slot order, of one 48-byte record per
slot whose key is not the null key, and reading the records back as
`struct pna_log_entry` yields for each such slot, in the same order, the
addresses, ports, domains and `l4_protocol` of its key, its packet and byte
counters and flags of both directions, `first_tstamp`, `last_tstamp` and the
low eight bits of `first_dir`.  The key's `l3_protocol` is not in the record. -/
theorem C12_dump_round_trip (table : Nat → flow_entry) (file_size : Nat)
    (htyped : ∀ i, i < file_size / sizeof_flow_entry → flow_entry_typed (table i))
    (start_time end_time : Int) :
    ∃ f, dump_table table (some file_created) file_size start_time end_time = some f ∧
      f.data.drop 16 = live_records table (file_size / sizeof_flow_entry) 0 ∧
      read_records (f.data.drop 16) (dump_live_count table (file_size / sizeof_flow_entry)) 0
        = (live_entries table (file_size / sizeof_flow_entry) 0).map record_of_flow := by
  obtain ⟨nflows, _, hf⟩ := dump_table_file table file_size start_time end_time
  have hdrop : ∀ (h : pna_log_hdr) (R : List Nat), (log_hdr_bytes h ++ R).drop 16 = R :=
    fun h R => List.drop_left' (log_hdr_bytes_length h)
  refine ⟨_, hf, hdrop _ _, ?_⟩
  show read_records ((log_hdr_bytes _ ++ _).drop 16) _ 0 = _
  rw [hdrop, ← live_entries_length_count]
  have h := read_records_live table (file_size / sizeof_flow_entry) 0 []
    (fun i _ h2 => htyped i (by omega))
  simpa using h

/-- Witness for C12: the 16-slot table after the packet of scenario S1 holds
values of the C types, and the one record written is read back as that flow. -/
theorem C12_dump_round_trip_witness :
    (∀ i, i < 896 / sizeof_flow_entry → flow_entry_typed (table_s1 i)) ∧
    (live_entries table_s1 (896 / sizeof_flow_entry) 0).map record_of_flow
      = [{ local_ip := 0x0A000005, remote_ip := 0x08080808, local_port := 12345,
           remote_port := 80, local_domain := 1, remote_domain := 0xFFFF,
           packets := ⟨1, 0⟩, bytes := ⟨138, 0⟩, flags := ⟨2, 0⟩,
           first_tstamp := 1700000000, last_tstamp := 1700000000, l4_protocol := 6, first_dir := 0,
           pad0 := 0, pad1 := 0 }] ∧
    ∃ f, dump_table table_s1 (some file_created) 896 1700000010 1700000011 = some f ∧
      f.data.drop 16 = live_records table_s1 (896 / sizeof_flow_entry) 0 ∧
      read_records (f.data.drop 16) (dump_live_count table_s1 (896 / sizeof_flow_entry)) 0
        = (live_entries table_s1 (896 / sizeof_flow_entry) 0).map record_of_flow :=
  ⟨by decide, by decide,
    C12_dump_round_trip table_s1 896 (by decide) 1700000010 1700000011⟩

/-! ### Encapsulation depth and short frames -/

/-- C13, the code at the failing input: the frame of scenario S1 behind `k` VLAN
tags is decoded to the key of the untagged frame for every `k` up to 7.  With
8 tags the VLAN loop ends with `check_depth = 8` and the EtherType 0x0800 of
the IPv4 packet in hand, and `pna_hook` drops the frame without calling
`flowmon_hook`; with 9 tags it is dropped too. -/
theorem C13_eight_vlan_tags_dropped :
    (List.range 8).all (fun k => decide
      ((pna_hook_decode 1 trie_10_8 frag_init (114 + 4 * k)
          (pkt_of (vlan_frame k frame_s1))).map (fun r => r.2)
        = some (some (key_s1, 0, 0x02)))) = true ∧
    vlan_loop (pkt_of (vlan_frame 8 frame_s1)) PNA_MAX_CHECKS 0 0 146 ETHERTYPE_VLAN
      = (8, 32, 114, ETHERTYPE_IP) ∧
    (pna_hook_decode 1 trie_10_8 frag_init 146 (pkt_of (vlan_frame 8 frame_s1))).map
      (fun r => r.2) = some none ∧
    (pna_hook 1 cfg_2_4 pna_state_s1 146 1700000000 (pkt_of (vlan_frame 8 frame_s1))).map
      (fun r => r.1) = some none ∧
    (pna_hook_decode 1 trie_10_8 frag_init 150 (pkt_of (vlan_frame 9 frame_s1))).map
      (fun r => r.2) = some none := by
  decide

/-- Whenever the VLAN loop of `pna_hook` makes its 8 rounds, the frame is dropped and the
state is left as it was, whatever EtherType the eighth tag is followed by. -/
theorem eight_vlan_rounds_dropped (fuel : Nat) (cfg : pna_config) (st : pna_state)
    (pkt_len : Nat) (tv_sec : Int) (pkt : Nat → Nat)
    (h : (vlan_loop pkt PNA_MAX_CHECKS 0 0 pkt_len (rd16 pkt 12)).1 = PNA_MAX_CHECKS) :
    pna_hook fuel cfg st pkt_len tv_sec pkt = some (none, st) := by
  simp only [pna_hook, pna_hook_decode]
  generalize vlan_loop pkt PNA_MAX_CHECKS 0 0 pkt_len (rd16 pkt 12) = v at h
  obtain ⟨cd, off, rem, l3⟩ := v
  simp only at h
  simp only [h, if_true]

/-- C14, the code at the failing input: the frame of scenario S1 wrapped in 9
nested GRE tunnels (no VLAN tag) is not dropped.  `ether_hook` calls itself
once per tunnel without counting, the inner packet is decoded to the key of
scenario S1 and `flowmon_hook` inserts the flow.  The same holds behind 7
VLAN tags and 2 tunnels. -/
theorem C14_nine_gre_tunnels_accepted :
    (pna_hook_decode 10 trie_10_8 frag_init 330 (pkt_of (gre_frame 9 frame_s1))).map
      (fun r => r.2) = some (some (key_s1, 0, 0x02)) ∧
    (pna_hook 10 cfg_2_4 pna_state_s1 330 1700000000 (pkt_of (gre_frame 9 frame_s1))).map
      (fun r => r.1) = some (some 1) ∧
    (pna_hook_decode 3 trie_10_8 frag_init 190
        (pkt_of (vlan_frame 7 (gre_frame 2 frame_s1)))).map (fun r => r.2)
      = some (some (key_s1, 0, 0x02)) := by
  decide

/-- C15, the code at the failing input: a frame of 10 bytes in a buffer whose
bytes from offset 12 on are those of the frame of scenario S1.
`pkt_remains` is `unsigned int`, so `10 - 14` is 4294967292 and the test
`pkt_remains < sizeof(struct ip)` does not fire: the headers are read from the
memory behind the frame and the flow is inserted with 10 + 38 bytes. -/
theorem C15_short_frame_accepted :
    sub32 10 14 = 4294967292 ∧
    (pna_hook_decode 1 trie_10_8 frag_init 10 (pkt_of frame_s1)).map (fun r => r.2)
      = some (some (key_s1, 0, 0x02)) ∧
    (pna_hook 1 cfg_2_4 pna_state_s1 10 1700000000 (pkt_of frame_s1)).map (fun r => r.1)
      = some (some 1) ∧
    (pna_hook 1 cfg_2_4 pna_state_s1 10 1700000000 (pkt_of frame_s1)).map
      (fun r => ((r.2.flowmon.tables 0).flowtab (flow_slot cfg_2_4 key_s1 0)).data.bytes.out)
      = some 48 := by
  decide

theorem sub32_of_le (a b : Nat) (ha : a < U32) (hb : b ≤ a) : sub32 a b = a - b := by
  unfold sub32 U32 at *
  omega

theorem vlan_loop_spec (pkt : Nat → Nat) :
    ∀ n cd off rem l3, rem < U32 →
      cd ≤ (vlan_loop pkt n cd off rem l3).1 ∧
      (vlan_loop pkt n cd off rem l3).1 ≤ cd + n ∧
      (vlan_loop pkt n cd off rem l3).2.1 = off + 4 * ((vlan_loop pkt n cd off rem l3).1 - cd) ∧
      (4 * ((vlan_loop pkt n cd off rem l3).1 - cd) ≤ rem →
        (vlan_loop pkt n cd off rem l3).2.2.1
          = rem - 4 * ((vlan_loop pkt n cd off rem l3).1 - cd)) := by
  intro n
  induction n with
  | zero =>
    intro cd off rem l3 _
    simp [vlan_loop]
  | succ n ih =>
    intro cd off rem l3 hrem
    by_cases hl : l3 = ETHERTYPE_VLAN
    · have hs : sub32 rem 4 < U32 := by unfold sub32; exact Nat.mod_lt _ (by decide)
      obtain ⟨h1, h2, h3, h4⟩ := ih (cd + 1) (off + 4) (sub32 rem 4) (rd16 pkt (off + 4 + 12)) hs
      simp only [vlan_loop, hl, if_true]
      generalize vlan_loop pkt n (cd + 1) (off + 4) (sub32 rem 4) (rd16 pkt (off + 4 + 12)) = r
        at h1 h2 h3 h4
      refine ⟨by omega, by omega, by omega, ?_⟩
      intro h5
      have h6 : 4 ≤ rem := by omega
      rw [sub32_of_le rem 4 hrem h6] at h4
      omega
    · simp [vlan_loop, hl]

/-- A frame at least as long as its Ethernet header and VLAN tags with fewer
than 20 bytes behind them is dropped by `pna_hook`, which leaves the whole state
as it was.  The number of tags is the number of rounds of the VLAN loop. -/
theorem short_frame_dropped (fuel : Nat) (cfg : pna_config) (st : pna_state) (pkt_len : Nat)
    (tv_sec : Int) (pkt : Nat → Nat) (hlen : pkt_len < U32)
    (hhdr : 14 + 4 * (vlan_loop pkt PNA_MAX_CHECKS 0 0 pkt_len (rd16 pkt 12)).1 ≤ pkt_len)
    (hshort : pkt_len - 14 - 4 * (vlan_loop pkt PNA_MAX_CHECKS 0 0 pkt_len (rd16 pkt 12)).1 < 20) :
    pna_hook (fuel + 1) cfg st pkt_len tv_sec pkt = some (none, st) := by
  obtain ⟨_, _, _, h4⟩ := vlan_loop_spec pkt PNA_MAX_CHECKS 0 0 pkt_len (rd16 pkt 12) hlen
  generalize hv : vlan_loop pkt PNA_MAX_CHECKS 0 0 pkt_len (rd16 pkt 12) = v at h4 hhdr hshort
  obtain ⟨cd, off, rem, l3⟩ := v
  simp only [Nat.sub_zero] at h4 hhdr hshort
  have hrem : rem = pkt_len - 4 * cd := h4 (by omega)
  have hsub : sub32 rem 14 < 20 := by
    rw [sub32_of_le rem 14 (by omega) (by omega)]
    omega
  simp only [pna_hook, pna_hook_decode, hv]
  by_cases hcd : cd = PNA_MAX_CHECKS
  · simp only [hcd, if_true]
  · simp only [hcd, if_false, ether_hook, hsub, if_true]
    by_cases hl : l3 = ETHERTYPE_IP
    · simp [hl, NET_RX_DROP]
    · simp [hl, NET_RX_DROP]

/-! ### The fragment cache -/

theorem pna_get_frag_none (fs : frag_state) (pkt : Nat → Nat) (iphdr : Nat)
    (h : pna_get_frag fs pkt iphdr = none) (i : Nat) (hi : i < PNA_MAXFRAGS) :
    pna_frag_hash pkt iphdr ≠ (fs.pna_frag_table i).fingerprint := by
  unfold pna_get_frag at h
  have := List.find?_eq_none.mp h i (List.mem_range.mpr hi)
  simpa using this

theorem pna_get_frag_some (fs : frag_state) (pkt : Nat → Nat) (iphdr j : Nat)
    (h : pna_get_frag fs pkt iphdr = some j) :
    j < PNA_MAXFRAGS ∧ pna_frag_hash pkt iphdr = (fs.pna_frag_table j).fingerprint := by
  unfold pna_get_frag at h
  refine ⟨List.mem_range.mp (List.mem_of_find?_eq_some h), ?_⟩
  have := List.find?_some h
  simpa using this

theorem pna_frag_hash_congr (pkt1 pkt2 : Nat → Nat) (iphdr1 iphdr2 : Nat)
    (hsrc : raw32 pkt2 (iphdr2 + 12) = raw32 pkt1 (iphdr1 + 12))
    (hdst : raw32 pkt2 (iphdr2 + 16) = raw32 pkt1 (iphdr1 + 16))
    (hproto : rd8 pkt2 (iphdr2 + 9) = rd8 pkt1 (iphdr1 + 9))
    (hid : raw16 pkt2 (iphdr2 + 4) = raw16 pkt1 (iphdr1 + 4)) :
    pna_frag_hash pkt2 iphdr2 = pna_frag_hash pkt1 iphdr1 := by
  simp only [pna_frag_hash, hsrc, hdst, hproto, hid]

/-- After `pna_set_frag` has stored a fingerprint no entry carried, `pna_get_frag`
finds the stored entry for every header with that fingerprint. -/
theorem pna_get_frag_after_set (fs : frag_state) (pkt1 pkt2 : Nat → Nat)
    (iphdr1 iphdr2 src_port dst_port : Nat)
    (hidx : fs.pna_frag_next_idx < PNA_MAXFRAGS)
    (hfresh : pna_get_frag fs pkt1 iphdr1 = none)
    (hfp : pna_frag_hash pkt2 iphdr2 = pna_frag_hash pkt1 iphdr1) :
    pna_get_frag (pna_set_frag fs pkt1 iphdr1 src_port dst_port) pkt2 iphdr2
      = some fs.pna_frag_next_idx ∧
    (pna_set_frag fs pkt1 iphdr1 src_port dst_port).pna_frag_table fs.pna_frag_next_idx
      = ⟨pna_frag_hash pkt1 iphdr1, src_port, dst_port⟩ := by
  have hset : pna_set_frag fs pkt1 iphdr1 src_port dst_port =
      { fs with
        pna_frag_table := upd fs.pna_frag_table fs.pna_frag_next_idx
          ⟨pna_frag_hash pkt1 iphdr1, src_port, dst_port⟩,
        pna_frag_next_idx := (fs.pna_frag_next_idx + 1) % PNA_MAXFRAGS } := by
    simp only [pna_set_frag, hfresh]
  rw [hset]
  refine ⟨?_, upd_same _ _ _⟩
  cases hg : pna_get_frag _ pkt2 iphdr2 with
  | none =>
    exfalso
    have := pna_get_frag_none _ pkt2 iphdr2 hg fs.pna_frag_next_idx hidx
    simp only [upd_same] at this
    exact this hfp
  | some j =>
    obtain ⟨hj, hjf⟩ := pna_get_frag_some _ pkt2 iphdr2 j hg
    by_cases hji : j = fs.pna_frag_next_idx
    · rw [hji]
    · exfalso
      simp only [upd_other _ _ _ _ hji] at hjf
      exact pna_get_frag_none fs pkt1 iphdr1 hfresh j hj (hfp ▸ hjf)

/-- C16 (amended): for every state of the fragment cache whose cursor is inside
the table and in which no entry carries the fingerprint of the packet, when
`ip_hook` has processed a UDP packet with fragment offset 0 and More-Fragments
set, it decodes a following UDP fragment with offset other than 0 and the same
source, destination, protocol and id to the source and destination port of
the first packet, and leaves the cache as it is. -/
theorem C16_fragment_ports (fs : frag_state) (key1 key2 : pna_flowkey) (len1 len2 : Nat)
    (pkt1 pkt2 : Nat → Nat) (off1 iphdr1 off2 iphdr2 flags1 flags2 : Nat)
    (hidx : fs.pna_frag_next_idx < PNA_MAXFRAGS)
    (hfresh : pna_get_frag fs pkt1 iphdr1 = none)
    (hudp1 : key1.l4_protocol = IPPROTO_UDP) (hudp2 : key2.l4_protocol = IPPROTO_UDP)
    (hhead : rd16 pkt1 (iphdr1 + 6) &&& IP_OFFMASK = 0)
    (hmf : rd16 pkt1 (iphdr1 + 6) &&& IP_MF ≠ 0)
    (hfrag : rd16 pkt2 (iphdr2 + 6) &&& IP_OFFMASK ≠ 0)
    (hsrc : raw32 pkt2 (iphdr2 + 12) = raw32 pkt1 (iphdr1 + 12))
    (hdst : raw32 pkt2 (iphdr2 + 16) = raw32 pkt1 (iphdr1 + 16))
    (hproto : rd8 pkt2 (iphdr2 + 9) = rd8 pkt1 (iphdr1 + 9))
    (hid : raw16 pkt2 (iphdr2 + 4) = raw16 pkt1 (iphdr1 + 4)) :
    ∃ fs1,
      ip_hook fs key1 len1 pkt1 off1 iphdr1 flags1
        = (0, fs1, { key1 with local_port := rd16 pkt1 off1,
                               remote_port := rd16 pkt1 (off1 + 2) }, flags1) ∧
      ip_hook fs1 key2 len2 pkt2 off2 iphdr2 flags2
        = (0, fs1, { key2 with local_port := rd16 pkt1 off1,
                               remote_port := rd16 pkt1 (off1 + 2) }, flags2) := by
  have hfp := pna_frag_hash_congr pkt1 pkt2 iphdr1 iphdr2 hsrc hdst hproto hid
  obtain ⟨hget, hent⟩ := pna_get_frag_after_set fs pkt1 pkt2 iphdr1 iphdr2 (rd16 pkt1 off1)
    (rd16 pkt1 (off1 + 2)) hidx hfresh hfp
  have ht1 : ¬ (key1.l4_protocol = IPPROTO_TCP) := by rw [hudp1]; decide
  have ht2 : ¬ (key2.l4_protocol = IPPROTO_TCP) := by rw [hudp2]; decide
  refine ⟨pna_set_frag fs pkt1 iphdr1 (rd16 pkt1 off1) (rd16 pkt1 (off1 + 2)), ?_, ?_⟩
  · unfold ip_hook
    dsimp only
    rw [if_neg ht1, if_pos hudp1, if_neg (not_not.mpr hhead), if_pos hmf]
  · unfold ip_hook
    dsimp only
    rw [if_neg ht2, if_pos hudp2, if_pos hfrag]
    simp only [hget, hent]

set_option maxRecDepth 100000 in
/-- Witness for C16 (scenario S4): in the cache at start-up the head fragment
with ports 9000 and 53 is new, the fragment at offset 185 is decoded to the
same ports, and after both frames the table holds one entry for the flow with
`packets[0] = 2`. -/
theorem C16_fragment_ports_witness :
    pna_get_frag frag_init (pkt_of frame_s4_head) 14 = none ∧
    (∃ fs1,
      ip_hook frag_init key_s4_ip 1480 (pkt_of frame_s4_head) 34 14 0
        = (0, fs1, { key_s4_ip with local_port := rd16 (pkt_of frame_s4_head) 34,
                                    remote_port := rd16 (pkt_of frame_s4_head) (34 + 2) }, 0) ∧
      ip_hook fs1 key_s4_ip 100 (pkt_of frame_s4_frag) 34 14 0
        = (0, fs1, { key_s4_ip with local_port := rd16 (pkt_of frame_s4_head) 34,
                                    remote_port := rd16 (pkt_of frame_s4_head) (34 + 2) }, 0)) ∧
    rd16 (pkt_of frame_s4_head) 34 = 9000 ∧ rd16 (pkt_of frame_s4_head) (34 + 2) = 53 ∧
    ((state_s4.flowmon.tables 0).flowtab (flow_slot cfg_2_4 key_s4 0)).key = key_s4 ∧
    ((state_s4.flowmon.tables 0).flowtab (flow_slot cfg_2_4 key_s4 0)).data.packets.out = 2 ∧
    (state_s4.flowmon.tables 0).nflows = 1 :=
  ⟨by decide,
   C16_fragment_ports frag_init key_s4_ip key_s4_ip 1480 100 (pkt_of frame_s4_head)
     (pkt_of frame_s4_frag) 34 14 34 14 0 0 (by decide) (by decide) (by decide) (by decide)
     (by decide) (by decide) (by decide) (by decide) (by decide) (by decide) (by decide),
   by decide, by decide, by decide, by decide, by decide⟩

set_option maxRecDepth 100000 in
/-- Counterexample to C16 as stated, in a cache state the program reaches: after
the head fragment of an earlier datagram with the same addresses and id
(ports 1000 and 2000), the head fragment with ports 9000 and 53 is decoded to
9000 and 53, but `pna_set_frag` finds the fingerprint in the cache and stores
nothing, and the fragment that follows is decoded to ports 1000 and 2000. -/
theorem C16_counterexample :
    (pna_hook_decode 1 trie_10_8 state_old_head.frag 1514 (pkt_of frame_s4_head)).map
      (fun r => r.2) = some (some (key_s4, 0, 0)) ∧
    (pna_hook_decode 1 trie_10_8
        (pna_hook_state 1 cfg_2_4 state_old_head 1514 1700000001 frame_s4_head).frag 134
        (pkt_of frame_s4_frag)).map (fun r => r.2)
      = some (some ({ key_s4 with local_port := 1000, remote_port := 2000 }, 0, 0)) := by
  decide

/-- From the cache at start-up, a UDP fragment with offset other than 0 whose
fingerprint is not zero is dropped by `ip_hook`, and the fragment-miss counters
go from 0 to one packet and `pkt_len + 38` bytes. -/
theorem lone_fragment_dropped (key : pna_flowkey) (pkt_len : Nat) (pkt : Nat → Nat)
    (off iphdr flags : Nat) (hudp : key.l4_protocol = IPPROTO_UDP)
    (hfrag : rd16 pkt (iphdr + 6) &&& IP_OFFMASK ≠ 0) (hfp : pna_frag_hash pkt iphdr ≠ 0) :
    ip_hook frag_init key pkt_len pkt off iphdr flags
      = (NET_RX_DROP,
          { frag_init with pna_frag_packets_missed := 1,
                           pna_frag_bytes_missed := (pkt_len + ETH_OVERHEAD) % U32 },
          key, flags) := by
  have hget : pna_get_frag frag_init pkt iphdr = none := by
    unfold pna_get_frag
    rw [List.find?_eq_none]
    intro i _
    simp only [frag_init, decide_eq_true_eq]
    exact hfp
  have ht : ¬ (key.l4_protocol = IPPROTO_TCP) := by rw [hudp]; decide
  unfold ip_hook
  dsimp only
  rw [if_neg ht, if_pos hudp, if_pos hfrag]
  simp only [hget]
  simp [frag_init, U32]

set_option maxRecDepth 100000 in
/-- C17, the code at the failing input: the first packet after start-up is a UDP
fragment at offset 185 from 10.55.91.182 to 10.0.0.6 with IP id 1.  Its
fingerprint is zero, which is also the fingerprint field of every entry of
the never-written fragment table, so `pna_get_frag` returns entry 0: the
fragment is decoded with ports 0 and 0, the fragment-miss counter stays 0 and
`flowmon_hook` inserts a flow. -/
theorem C17_zero_fingerprint_fragment :
    pna_frag_hash (pkt_of frame_zero_fp) 14 = 0 ∧
    pna_get_frag frag_init (pkt_of frame_zero_fp) 14 = some 0 ∧
    (pna_hook_decode 1 trie_10_8 frag_init 134 (pkt_of frame_zero_fp)).map (fun r => r.2)
      = some (some ({ l3_protocol := 0x0800, l4_protocol := 17, local_ip := 0x0A000006,
                      remote_ip := 0x0A375BB6, local_port := 0, remote_port := 0,
                      local_domain := 1, remote_domain := 1 }, 1, 0)) ∧
    (pna_hook_decode 1 trie_10_8 frag_init 134 (pkt_of frame_zero_fp)).map
      (fun r => r.1.pna_frag_packets_missed) = some 0 ∧
    (pna_hook 1 cfg_2_4 pna_state_s1 134 1700000000 (pkt_of frame_zero_fp)).map (fun r => r.1)
      = some (some 1) := by
  decide

/-! ### What the decoder accepts -/

theorem ip_hook_ret (fs : frag_state) (key : pna_flowkey) (pkt_len : Nat) (pkt : Nat → Nat)
    (off iphdr flags : Nat) :
    (ip_hook fs key pkt_len pkt off iphdr flags).1 = 0 ∨
    (ip_hook fs key pkt_len pkt off iphdr flags).1 = NET_RX_DROP := by
  unfold ip_hook
  dsimp only
  cases pna_get_frag fs pkt iphdr <;> (split_ifs <;> simp)

theorem ip_hook_key (fs : frag_state) (key : pna_flowkey) (pkt_len : Nat) (pkt : Nat → Nat)
    (off iphdr flags : Nat) :
    (ip_hook fs key pkt_len pkt off iphdr flags).2.2.1.l3_protocol = key.l3_protocol ∧
    (ip_hook fs key pkt_len pkt off iphdr flags).2.2.1.l4_protocol = key.l4_protocol ∧
    (ip_hook fs key pkt_len pkt off iphdr flags).2.2.1.local_ip = key.local_ip ∧
    (ip_hook fs key pkt_len pkt off iphdr flags).2.2.1.remote_ip = key.remote_ip := by
  unfold ip_hook
  dsimp only
  cases pna_get_frag fs pkt iphdr <;> (split_ifs <;> simp)

theorem ip_hook_accept (fs : frag_state) (key : pna_flowkey) (pkt_len : Nat) (pkt : Nat → Nat)
    (off iphdr flags : Nat) (h : (ip_hook fs key pkt_len pkt off iphdr flags).1 = 0) :
    (key.l4_protocol = IPPROTO_TCP ∨ key.l4_protocol = IPPROTO_UDP ∨
      key.l4_protocol = IPPROTO_SCTP ∨ key.l4_protocol = IPPROTO_ICMP) ∧
    (key.l4_protocol = IPPROTO_TCP ∨ key.l4_protocol = IPPROTO_SCTP →
      rd16 pkt (iphdr + 6) &&& IP_OFFMASK = 0) := by
  unfold ip_hook at h
  dsimp only at h
  by_cases h1 : key.l4_protocol = IPPROTO_TCP
  · rw [if_pos h1] at h
    refine ⟨Or.inl h1, fun _ => ?_⟩
    by_contra hoff
    rw [if_pos hoff] at h
    exact absurd (show NET_RX_DROP = (0 : Int) from h) (by decide)
  · rw [if_neg h1] at h
    by_cases h2 : key.l4_protocol = IPPROTO_UDP
    · refine ⟨Or.inr (Or.inl h2), fun h3 => ?_⟩
      rcases h3 with h3 | h3
      · exact absurd h3 h1
      · rw [h2] at h3; exact absurd h3 (by decide)
    · rw [if_neg h2] at h
      by_cases h3 : key.l4_protocol = IPPROTO_SCTP
      · rw [if_pos h3] at h
        refine ⟨Or.inr (Or.inr (Or.inl h3)), fun _ => ?_⟩
        by_contra hoff
        rw [if_pos hoff] at h
        exact absurd (show NET_RX_DROP = (0 : Int) from h) (by decide)
      · rw [if_neg h3] at h
        by_cases h4 : key.l4_protocol = IPPROTO_ICMP
        · refine ⟨Or.inr (Or.inr (Or.inr h4)), fun h5 => ?_⟩
          rcases h5 with h5 | h5
          · exact absurd h5 h1
          · exact absurd h5 h3
        · rw [if_neg h4] at h
          exact absurd (show NET_RX_DROP = (0 : Int) from h) (by decide)

/-- A key accepted by `ether_hook` has `l3_protocol` 0x0800 and carries the protocol and
addresses of an IPv4 header reached through GRE encapsulations only; the
protocol is TCP, UDP, SCTP or ICMP, and for TCP and SCTP the fragment offset
of that header is 0. -/
theorem ether_hook_accept (pkt : Nat → Nat) :
    ∀ fuel fs key pkt_remains off flags fs1 key1 flags1,
      ether_hook fuel fs key pkt_remains pkt off flags = some (0, fs1, key1, flags1) →
      ∃ iphdr, gre_path pkt off iphdr ∧ key1.l3_protocol = ETHERTYPE_IP ∧
        key1.l4_protocol = rd8 pkt (iphdr + 9) ∧
        key1.local_ip = rd32 pkt (iphdr + 12) ∧ key1.remote_ip = rd32 pkt (iphdr + 16) ∧
        (key1.l4_protocol = IPPROTO_TCP ∨ key1.l4_protocol = IPPROTO_UDP ∨
          key1.l4_protocol = IPPROTO_SCTP ∨ key1.l4_protocol = IPPROTO_ICMP) ∧
        (key1.l4_protocol = IPPROTO_TCP ∨ key1.l4_protocol = IPPROTO_SCTP →
          rd16 pkt (iphdr + 6) &&& IP_OFFMASK = 0) := by
  intro fuel
  induction fuel with
  | zero =>
    intro fs key pkt_remains off flags fs1 key1 flags1 h
    simp [ether_hook] at h
  | succ fuel ih =>
    intro fs key pkt_remains off flags fs1 key1 flags1 h
    simp only [ether_hook] at h
    by_cases hl3 : key.l3_protocol = ETHERTYPE_IP
    · rw [if_pos hl3] at h
      by_cases hrem : pkt_remains < 20
      · rw [if_pos hrem] at h
        simp [NET_RX_DROP] at h
      · rw [if_neg hrem] at h
        by_cases hgre : rd8 pkt (off + 9) = IPPROTO_GRE
        · rw [if_pos hgre] at h
          by_cases hrt : (rd8 pkt (off + 20) >>> 1) &&& 1 ≠ 0
          · rw [if_pos hrt] at h
            simp [NET_RX_DROP] at h
          · rw [if_neg hrt] at h
            obtain ⟨iphdr, hp, hrest⟩ := ih _ _ _ _ _ _ _ _ h
            exact ⟨iphdr, gre_path.gre off iphdr hgre hp, hrest⟩
        · rw [if_neg hgre] at h
          have hk0 : ∃ k : pna_flowkey, k =
              { key with l4_protocol := rd8 pkt (off + 9), local_ip := rd32 pkt (off + 12),
                         remote_ip := rd32 pkt (off + 16) } := ⟨_, rfl⟩
          obtain ⟨key0, hk0⟩ := hk0
          rw [← hk0] at h
          have hk1 : key0.l3_protocol = key.l3_protocol := by rw [hk0]
          have hk2 : key0.l4_protocol = rd8 pkt (off + 9) := by rw [hk0]
          have hk3 : key0.local_ip = rd32 pkt (off + 12) := by rw [hk0]
          have hk4 : key0.remote_ip = rd32 pkt (off + 16) := by rw [hk0]
          have hret := ip_hook_ret fs key0 (sub32 pkt_remains 20) pkt (off + 20) off flags
          have hkey := ip_hook_key fs key0 (sub32 pkt_remains 20) pkt (off + 20) off flags
          have hacc := ip_hook_accept fs key0 (sub32 pkt_remains 20) pkt (off + 20) off flags
          generalize ip_hook fs key0 (sub32 pkt_remains 20) pkt (off + 20) off flags = r
            at h hret hkey hacc
          obtain ⟨ret, fsx, kx, fx⟩ := r
          simp only at hret hkey hacc h
          by_cases hz : ret = 0
          · subst hz
            simp only [ne_eq, not_true_eq_false, if_false, Option.some.injEq, Prod.mk.injEq,
              true_and] at h
            obtain ⟨_, hk, _⟩ := h
            subst hk
            obtain ⟨k1, k2, k3, k4⟩ := hkey
            obtain ⟨a1, a2⟩ := hacc rfl
            refine ⟨off, gre_path.here off, ?_, ?_, ?_, ?_, ?_, ?_⟩
            · rw [k1, hk1]; exact hl3
            · rw [k2, hk2]
            · rw [k3, hk3]
            · rw [k4, hk4]
            · rw [k2]; exact a1
            · rw [k2]; exact a2
          · simp [hz, NET_RX_DROP] at h
    · rw [if_neg hl3] at h
      simp [NET_RX_DROP] at h

theorem vlan_loop_off (pkt : Nat → Nat) :
    ∀ n cd off rem l3,
      cd ≤ (vlan_loop pkt n cd off rem l3).1 ∧
      (vlan_loop pkt n cd off rem l3).1 ≤ cd + n ∧
      (vlan_loop pkt n cd off rem l3).2.1 = off + 4 * ((vlan_loop pkt n cd off rem l3).1 - cd) := by
  intro n
  induction n with
  | zero =>
    intro cd off rem l3
    simp [vlan_loop]
  | succ n ih =>
    intro cd off rem l3
    by_cases hl : l3 = ETHERTYPE_VLAN
    · obtain ⟨h1, h2, h3⟩ := ih (cd + 1) (off + 4) (sub32 rem 4) (rd16 pkt (off + 4 + 12))
      simp only [vlan_loop, hl, if_true]
      generalize vlan_loop pkt n (cd + 1) (off + 4) (sub32 rem 4) (rd16 pkt (off + 4 + 12)) = r
        at h1 h2 h3
      exact ⟨by omega, by omega, by omega⟩
    · simp [vlan_loop, hl]

theorem pna_localize_key (head : pna_dtrie_entry) (key : pna_flowkey) (direction : Fin 2) :
    (pna_localize head key direction).2.1.l3_protocol = key.l3_protocol ∧
    (pna_localize head key direction).2.1.l4_protocol = key.l4_protocol ∧
    (((pna_localize head key direction).2.1.local_ip = key.local_ip ∧
        (pna_localize head key direction).2.1.remote_ip = key.remote_ip) ∨
      ((pna_localize head key direction).2.1.local_ip = key.remote_ip ∧
        (pna_localize head key direction).2.1.remote_ip = key.local_ip)) := by
  unfold pna_localize
  dsimp only
  split_ifs <;> simp [pna_session_swap]

/-- A packet that `pna_hook_decode` passes on has, behind fewer than 8 VLAN tags and
GRE encapsulations only, an IPv4 header with protocol TCP, UDP, SCTP or ICMP
whose protocol and addresses are those of the key; for TCP and SCTP the
fragment offset of that header is 0. -/
theorem pna_hook_decode_accept (fuel : Nat) (head : pna_dtrie_entry) (fs fs1 : frag_state)
    (pkt_len : Nat) (pkt : Nat → Nat) (key : pna_flowkey) (direction : Fin 2) (flags : Nat)
    (h : pna_hook_decode fuel head fs pkt_len pkt = some (fs1, some (key, direction, flags))) :
    ∃ k iphdr, k < PNA_MAX_CHECKS ∧ gre_path pkt (14 + 4 * k) iphdr ∧
      key.l3_protocol = ETHERTYPE_IP ∧ key.l4_protocol = rd8 pkt (iphdr + 9) ∧
      ((key.local_ip = rd32 pkt (iphdr + 12) ∧ key.remote_ip = rd32 pkt (iphdr + 16)) ∨
        (key.local_ip = rd32 pkt (iphdr + 16) ∧ key.remote_ip = rd32 pkt (iphdr + 12))) ∧
      (key.l4_protocol = IPPROTO_TCP ∨ key.l4_protocol = IPPROTO_UDP ∨
        key.l4_protocol = IPPROTO_SCTP ∨ key.l4_protocol = IPPROTO_ICMP) ∧
      (key.l4_protocol = IPPROTO_TCP ∨ key.l4_protocol = IPPROTO_SCTP →
        rd16 pkt (iphdr + 6) &&& IP_OFFMASK = 0) := by
  obtain ⟨_, hv2, hv3⟩ := vlan_loop_off pkt PNA_MAX_CHECKS 0 0 pkt_len (rd16 pkt 12)
  simp only [pna_hook_decode] at h
  generalize vlan_loop pkt PNA_MAX_CHECKS 0 0 pkt_len (rd16 pkt 12) = v at h hv2 hv3
  obtain ⟨cd, off, rem, l3⟩ := v
  simp only [Nat.sub_zero, Nat.zero_add] at h hv2 hv3
  by_cases hcd : cd = PNA_MAX_CHECKS
  · simp [hcd] at h
  · rw [if_neg hcd] at h
    cases he : ether_hook fuel fs { null_key with l3_protocol := l3 } (sub32 rem 14) pkt
        (off + 14) 0 with
    | none => simp [he] at h
    | some r =>
      obtain ⟨ret, fsx, key1, flags1⟩ := r
      simp only [he] at h
      by_cases hret : ret = 0
      · subst hret
        simp only [ne_eq, not_true_eq_false, if_false] at h
        obtain ⟨iphdr, hp, e1, e2, e3, e4, e5, e6⟩ :=
          ether_hook_accept pkt fuel fs _ _ _ _ fsx key1 flags1 he
        obtain ⟨l1, l2, l3x⟩ := pna_localize_key head key1 PNA_DIR_OUTBOUND
        generalize pna_localize head key1 PNA_DIR_OUTBOUND = lz at h l1 l2 l3x
        obtain ⟨ok, key2, dir2⟩ := lz
        simp only at h l1 l2 l3x
        by_cases hok : ok = 0
        · simp [hok] at h
        · simp only [hok, if_false, Option.some.injEq, Prod.mk.injEq] at h
          obtain ⟨_, hk, _, _⟩ := h
          subst hk
          refine ⟨cd, iphdr, lt_of_le_of_ne hv2 hcd, ?_, ?_, ?_, ?_, ?_, ?_⟩
          · have : off + 14 = 14 + 4 * cd := by omega
            rw [← this]; exact hp
          · rw [l1]; exact e1
          · rw [l2]; exact e2
          · rw [← e3, ← e4]; exact l3x
          · rw [l2]; exact e5
          · rw [l2]; exact e6
      · simp [hret] at h

/-- C18: whenever `pna_hook` returns, either the packet was dropped before
`flowmon_hook` and the flow tables are unchanged, or `flowmon_hook` was called
with a key whose `l3_protocol` is 0x0800 and whose protocol and addresses are
those of an IPv4 header that lies behind fewer than 8 VLAN tags and GRE
encapsulations only; that protocol is TCP (6), UDP (17), SCTP (132) or ICMP
(1), and for TCP and SCTP the fragment offset of the header is 0.  Every
packet with another innermost L3 type, another protocol or a fragmented TCP
or SCTP header is therefore dropped with the flow tables unchanged. -/
theorem C18_accept_only_supported (fuel : Nat) (cfg : pna_config) (st st1 : pna_state)
    (pkt_len : Nat) (tv_sec : Int) (pkt : Nat → Nat) (r : Option Int)
    (h : pna_hook fuel cfg st pkt_len tv_sec pkt = some (r, st1)) :
    (r = none ∧ st1.flowmon = st.flowmon) ∨
    ∃ key direction flags k iphdr,
      r = some (flowmon_hook cfg st.flowmon key direction flags pkt_len tv_sec).1 ∧
      st1.flowmon = (flowmon_hook cfg st.flowmon key direction flags pkt_len tv_sec).2 ∧
      k < PNA_MAX_CHECKS ∧ gre_path pkt (14 + 4 * k) iphdr ∧
      key.l3_protocol = ETHERTYPE_IP ∧ key.l4_protocol = rd8 pkt (iphdr + 9) ∧
      ((key.local_ip = rd32 pkt (iphdr + 12) ∧ key.remote_ip = rd32 pkt (iphdr + 16)) ∨
        (key.local_ip = rd32 pkt (iphdr + 16) ∧ key.remote_ip = rd32 pkt (iphdr + 12))) ∧
      (key.l4_protocol = IPPROTO_TCP ∨ key.l4_protocol = IPPROTO_UDP ∨
        key.l4_protocol = IPPROTO_SCTP ∨ key.l4_protocol = IPPROTO_ICMP) ∧
      (key.l4_protocol = IPPROTO_TCP ∨ key.l4_protocol = IPPROTO_SCTP →
        rd16 pkt (iphdr + 6) &&& IP_OFFMASK = 0) := by
  simp only [pna_hook] at h
  cases hd : pna_hook_decode fuel st.pna_dtrie_head st.frag pkt_len pkt with
  | none => simp [hd] at h
  | some d =>
    obtain ⟨fs1, res⟩ := d
    cases res with
    | none =>
      simp only [hd, Option.some.injEq, Prod.mk.injEq] at h
      obtain ⟨h1, h2⟩ := h
      left
      exact ⟨h1.symm, by rw [← h2]⟩
    | some kdf =>
      obtain ⟨key, direction, flags⟩ := kdf
      simp only [hd, pna_flowmon, if_true, Option.some.injEq, Prod.mk.injEq] at h
      obtain ⟨h1, h2⟩ := h
      right
      obtain ⟨k, iphdr, hrest⟩ := pna_hook_decode_accept fuel _ _ fs1 pkt_len pkt key direction
        flags hd
      exact ⟨key, direction, flags, k, iphdr, h1.symm, by rw [← h2], hrest⟩

theorem pna_hook_some_of_map (fuel : Nat) (cfg : pna_config) (st : pna_state) (pkt_len : Nat)
    (tv_sec : Int) (pkt : Nat → Nat) (r : Option Int)
    (h : (pna_hook fuel cfg st pkt_len tv_sec pkt).map (fun x => x.1) = some r) :
    ∃ st1, pna_hook fuel cfg st pkt_len tv_sec pkt = some (r, st1) := by
  cases hp : pna_hook fuel cfg st pkt_len tv_sec pkt with
  | none => simp [hp] at h
  | some x =>
    obtain ⟨r1, st1⟩ := x
    simp only [hp, Option.map_some', Option.some.injEq] at h
    exact ⟨st1, by rw [h]⟩

/-- Witness for C18: on the frame of scenario S1 `pna_hook` returns with fuel 1
and the inserted flow is TCP with fragment offset 0. -/
theorem C18_accept_only_supported_witness :
    ∃ st1, pna_hook 1 cfg_2_4 pna_state_s1 114 1700000000 (pkt_of frame_s1) = some (some 1, st1) ∧
      ((some (1 : Int) = none ∧ st1.flowmon = pna_state_s1.flowmon) ∨
      ∃ key direction flags k iphdr,
        some (1 : Int)
          = some (flowmon_hook cfg_2_4 pna_state_s1.flowmon key direction flags 114 1700000000).1 ∧
        st1.flowmon
          = (flowmon_hook cfg_2_4 pna_state_s1.flowmon key direction flags 114 1700000000).2 ∧
        k < PNA_MAX_CHECKS ∧ gre_path (pkt_of frame_s1) (14 + 4 * k) iphdr ∧
        key.l3_protocol = ETHERTYPE_IP ∧ key.l4_protocol = rd8 (pkt_of frame_s1) (iphdr + 9) ∧
        ((key.local_ip = rd32 (pkt_of frame_s1) (iphdr + 12) ∧
            key.remote_ip = rd32 (pkt_of frame_s1) (iphdr + 16)) ∨
          (key.local_ip = rd32 (pkt_of frame_s1) (iphdr + 16) ∧
            key.remote_ip = rd32 (pkt_of frame_s1) (iphdr + 12))) ∧
        (key.l4_protocol = IPPROTO_TCP ∨ key.l4_protocol = IPPROTO_UDP ∨
          key.l4_protocol = IPPROTO_SCTP ∨ key.l4_protocol = IPPROTO_ICMP) ∧
        (key.l4_protocol = IPPROTO_TCP ∨ key.l4_protocol = IPPROTO_SCTP →
          rd16 (pkt_of frame_s1) (iphdr + 6) &&& IP_OFFMASK = 0)) := by
  obtain ⟨st1, h⟩ := pna_hook_some_of_map 1 cfg_2_4 pna_state_s1 114 1700000000 (pkt_of frame_s1)
    (some 1) (by decide)
  exact ⟨st1, h, C18_accept_only_supported 1 cfg_2_4 pna_state_s1 st1 114 1700000000
    (pkt_of frame_s1) (some 1) h⟩

/-- The result of `ether_hook` does not depend on the bound on nested calls once the
bound suffices. -/
theorem ether_hook_fuel_mono (pkt : Nat → Nat) :
    ∀ fuel fs key pkt_remains off flags r,
      ether_hook fuel fs key pkt_remains pkt off flags = some r →
      ether_hook (fuel + 1) fs key pkt_remains pkt off flags = some r := by
  intro fuel
  induction fuel with
  | zero =>
    intro fs key pkt_remains off flags r h
    simp [ether_hook] at h
  | succ fuel ih =>
    intro fs key pkt_remains off flags r h
    rw [ether_hook] at h ⊢
    by_cases hl3 : key.l3_protocol = ETHERTYPE_IP
    · rw [if_pos hl3] at h ⊢
      by_cases hrem : pkt_remains < 20
      · rw [if_pos hrem] at h ⊢
        exact h
      · rw [if_neg hrem] at h ⊢
        dsimp only at h ⊢
        by_cases hgre : rd8 pkt (off + 9) = IPPROTO_GRE
        · rw [if_pos hgre] at h ⊢
          by_cases hrt : (rd8 pkt (off + 20) >>> 1) &&& 1 ≠ 0
          · rw [if_pos hrt] at h ⊢
            exact h
          · rw [if_neg hrt] at h ⊢
            exact ih _ _ _ _ _ _ h
        · rw [if_neg hgre] at h ⊢
          exact h
    · rw [if_neg hl3] at h ⊢
      exact h

theorem ether_hook_no_gre (fuel : Nat) (fs : frag_state) (key : pna_flowkey)
    (pkt_remains : Nat) (pkt : Nat → Nat) (off flags : Nat)
    (h : rd8 pkt (off + 9) ≠ IPPROTO_GRE) :
    ether_hook (fuel + 1) fs key pkt_remains pkt off flags ≠ none := by
  rw [ether_hook]
  dsimp only
  rw [if_neg h]
  split_ifs <;> simp

/-- A frame whose first IPv4 header is not GRE is decoded without any nested call:
`pna_hook` returns for every bound of at least 1. -/
theorem pna_hook_returns (fuel : Nat) (cfg : pna_config) (st : pna_state) (pkt_len : Nat)
    (tv_sec : Int) (pkt : Nat → Nat)
    (h : rd8 pkt ((vlan_loop pkt PNA_MAX_CHECKS 0 0 pkt_len (rd16 pkt 12)).2.1 + 14 + 9)
      ≠ IPPROTO_GRE) :
    ∃ x, pna_hook (fuel + 1) cfg st pkt_len tv_sec pkt = some x := by
  unfold pna_hook
  cases hd : pna_hook_decode (fuel + 1) st.pna_dtrie_head st.frag pkt_len pkt with
  | some d =>
    obtain ⟨fs1, res⟩ := d
    cases res with
    | none => exact ⟨_, rfl⟩
    | some kdf => exact ⟨_, rfl⟩
  | none =>
    exfalso
    simp only [pna_hook_decode] at hd
    generalize vlan_loop pkt PNA_MAX_CHECKS 0 0 pkt_len (rd16 pkt 12) = v at h hd
    obtain ⟨cd, off, rem, l3⟩ := v
    simp only at h hd
    by_cases hcd : cd = PNA_MAX_CHECKS
    · simp [hcd] at hd
    · rw [if_neg hcd] at hd
      cases he : ether_hook (fuel + 1) st.frag { null_key with l3_protocol := l3 } (sub32 rem 14)
          pkt (off + 14) 0 with
      | none => exact ether_hook_no_gre fuel _ _ _ pkt _ _ h he
      | some r =>
        rw [he] at hd
        dsimp only at hd
        split_ifs at hd

/-! ### ICMP and GRE -/

theorem rd8_lt (pkt : Nat → Nat) (off : Nat) : rd8 pkt off < 256 :=
  Nat.mod_lt _ (by decide)

theorem ip_hook_icmp (fs : frag_state) (key : pna_flowkey) (pkt_len : Nat) (pkt : Nat → Nat)
    (off iphdr flags : Nat) (h : key.l4_protocol = IPPROTO_ICMP) :
    ip_hook fs key pkt_len pkt off iphdr flags
      = (0, fs, { key with local_port := 0,
                           remote_port := rd8 pkt off * 256 + rd8 pkt (off + 1) }, flags) := by
  have h1 := rd8_lt pkt off
  have h2 := rd8_lt pkt (off + 1)
  have hport : ((rd8 pkt off <<< 8) + rd8 pkt (off + 1)) % U16
      = rd8 pkt off * 256 + rd8 pkt (off + 1) := by
    rw [Nat.shiftLeft_eq]
    unfold U16
    omega
  have n1 : ¬ (key.l4_protocol = IPPROTO_TCP) := by rw [h]; decide
  have n2 : ¬ (key.l4_protocol = IPPROTO_UDP) := by rw [h]; decide
  have n3 : ¬ (key.l4_protocol = IPPROTO_SCTP) := by rw [h]; decide
  unfold ip_hook
  dsimp only
  rw [if_neg n1, if_neg n2, if_neg n3, if_pos h, hport]

/-- C19: for every IPv4 packet with protocol 1 (ICMP) that `ether_hook` is given
with at least 20 bytes remaining, the key comes back with the addresses of
the header, source port (`local_port`) 0 and destination port
(`remote_port`) `icmp_type * 256 + icmp_code`, before `pna_localize` is called.
In scenario S3 the tables then hold a single entry, whose key has
`local_ip` 10.0.0.5, `remote_ip` 10.0.0.6, `local_port` 0, `remote_port` 0x0800 and
`l4_protocol` 1. -/
theorem C19_icmp_ports :
    (∀ (fuel : Nat) (fs : frag_state) (key : pna_flowkey) (pkt_remains : Nat) (pkt : Nat → Nat)
        (off flags : Nat),
      key.l3_protocol = ETHERTYPE_IP → 20 ≤ pkt_remains → rd8 pkt (off + 9) = IPPROTO_ICMP →
      ether_hook (fuel + 1) fs key pkt_remains pkt off flags
        = some (0, fs,
            { key with l4_protocol := IPPROTO_ICMP,
                       local_ip := rd32 pkt (off + 12), remote_ip := rd32 pkt (off + 16),
                       local_port := 0,
                       remote_port := rd8 pkt (off + 20) * 256 + rd8 pkt (off + 20 + 1) },
            flags)) ∧
    (pna_hook 1 cfg_2_4 pna_state_s1 98 1700000000 (pkt_of frame_s3)).map (fun r => r.1)
      = some (some 1) ∧
    (live_entries (state_s3.flowmon.tables 0).flowtab 16 0).map (fun e => e.key)
      = [{ l3_protocol := 0x0800, l4_protocol := 1, local_ip := 0x0A000005,
           remote_ip := 0x0A000006, local_port := 0, remote_port := 0x0800,
           local_domain := 1, remote_domain := 1 }] ∧
    live_entries (state_s3.flowmon.tables 1).flowtab 16 0 = [] := by
  refine ⟨?_, by decide, by decide, by decide⟩
  intro fuel fs key pkt_remains pkt off flags hl3 hrem hicmp
  have hg : ¬ (rd8 pkt (off + 9) = IPPROTO_GRE) := by rw [hicmp]; decide
  rw [ether_hook]
  dsimp only
  rw [if_pos hl3, if_neg (Nat.not_lt.mpr hrem), if_neg hg, ip_hook_icmp _ _ _ _ _ _ _ hicmp]
  simp [hicmp]

/-- Witness for C19: the general part applied to the frame of scenario S3. -/
theorem C19_icmp_ports_witness :
    key_ip.l3_protocol = ETHERTYPE_IP ∧ 20 ≤ 84 ∧ rd8 (pkt_of frame_s3) (14 + 9) = IPPROTO_ICMP ∧
    ether_hook (0 + 1) frag_init key_ip 84 (pkt_of frame_s3) 14 0
      = some (0, frag_init,
          { key_ip with l4_protocol := IPPROTO_ICMP,
                        local_ip := rd32 (pkt_of frame_s3) (14 + 12),
                        remote_ip := rd32 (pkt_of frame_s3) (14 + 16),
                        local_port := 0,
                        remote_port := rd8 (pkt_of frame_s3) (14 + 20) * 256
                          + rd8 (pkt_of frame_s3) (14 + 20 + 1) },
          0) ∧
    rd8 (pkt_of frame_s3) (14 + 20) * 256 + rd8 (pkt_of frame_s3) (14 + 20 + 1) = 0x0800 :=
  ⟨by decide, by decide, by decide,
   C19_icmp_ports.1 0 frag_init key_ip 84 (pkt_of frame_s3) 14 0 (by decide) (by decide)
     (by decide),
   by decide⟩

/-- C20: for every IPv4 packet with protocol 47 that `ether_hook` is given with at
least 20 bytes remaining: if `routing_present` (bit 1 of the first GRE byte) is
set the packet is dropped; otherwise `ether_hook` goes on behind the 20-byte IP
header, the 4-byte GRE header and 4 more bytes for each of `checksum_present`,
`key_present` and `sequence_present`, with `l3_protocol` set to the GRE protocol
field; and when an IPv4 header that is not GRE again follows there with at
least 20 bytes remaining, the result is that of `ip_hook` on this inner header
with a key that has the GRE protocol field as `l3_protocol` and the protocol
and addresses of the inner header, so the ports are those `ip_hook` reads from
the inner packet. -/
theorem C20_gre_decapsulation (fuel : Nat) (fs : frag_state) (key : pna_flowkey)
    (pkt_remains : Nat) (pkt : Nat → Nat) (off flags : Nat)
    (hl3 : key.l3_protocol = ETHERTYPE_IP) (hrem : 20 ≤ pkt_remains)
    (hgre : rd8 pkt (off + 9) = IPPROTO_GRE) :
    ((rd8 pkt (off + 20) >>> 1) &&& 1 ≠ 0 →
      ether_hook (fuel + 1) fs key pkt_remains pkt off flags
        = some (NET_RX_DROP, fs,
            { key with l4_protocol := IPPROTO_GRE, local_ip := rd32 pkt (off + 12),
                       remote_ip := rd32 pkt (off + 16) }, flags)) ∧
    ((rd8 pkt (off + 20) >>> 1) &&& 1 = 0 →
      ether_hook (fuel + 1) fs key pkt_remains pkt off flags
        = ether_hook fuel fs
            { key with l3_protocol := rd16 pkt (off + 20 + 2), l4_protocol := IPPROTO_GRE,
                       local_ip := rd32 pkt (off + 12), remote_ip := rd32 pkt (off + 16) }
            (sub32 (sub32 pkt_remains 20) (4 + gre_pad (rd8 pkt (off + 20)))) pkt
            (off + 20 + 4 + gre_pad (rd8 pkt (off + 20))) flags) ∧
    ((rd8 pkt (off + 20) >>> 1) &&& 1 = 0 →
      rd16 pkt (off + 20 + 2) = ETHERTYPE_IP →
      20 ≤ sub32 (sub32 pkt_remains 20) (4 + gre_pad (rd8 pkt (off + 20))) →
      rd8 pkt (off + 20 + 4 + gre_pad (rd8 pkt (off + 20)) + 9) ≠ IPPROTO_GRE →
      ∃ ret fs1 key2 flags1,
        ip_hook fs
            { key with l3_protocol := rd16 pkt (off + 20 + 2),
                       l4_protocol := rd8 pkt (off + 20 + 4 + gre_pad (rd8 pkt (off + 20)) + 9),
                       local_ip := rd32 pkt (off + 20 + 4 + gre_pad (rd8 pkt (off + 20)) + 12),
                       remote_ip := rd32 pkt (off + 20 + 4 + gre_pad (rd8 pkt (off + 20)) + 16) }
            (sub32 (sub32 (sub32 pkt_remains 20) (4 + gre_pad (rd8 pkt (off + 20)))) 20) pkt
            (off + 20 + 4 + gre_pad (rd8 pkt (off + 20)) + 20)
            (off + 20 + 4 + gre_pad (rd8 pkt (off + 20))) flags
          = (ret, fs1, key2, flags1) ∧
        ether_hook (fuel + 2) fs key pkt_remains pkt off flags
          = some (if ret ≠ 0 then NET_RX_DROP else 0, fs1, key2, flags1) ∧
        key2.l3_protocol = rd16 pkt (off + 20 + 2) ∧
        key2.l4_protocol = rd8 pkt (off + 20 + 4 + gre_pad (rd8 pkt (off + 20)) + 9) ∧
        key2.local_ip = rd32 pkt (off + 20 + 4 + gre_pad (rd8 pkt (off + 20)) + 12) ∧
        key2.remote_ip = rd32 pkt (off + 20 + 4 + gre_pad (rd8 pkt (off + 20)) + 16)) := by
  have hstep : ∀ f, (rd8 pkt (off + 20) >>> 1) &&& 1 = 0 →
      ether_hook (f + 1) fs key pkt_remains pkt off flags
        = ether_hook f fs
            { key with l3_protocol := rd16 pkt (off + 20 + 2), l4_protocol := IPPROTO_GRE,
                       local_ip := rd32 pkt (off + 12), remote_ip := rd32 pkt (off + 16) }
            (sub32 (sub32 pkt_remains 20) (4 + gre_pad (rd8 pkt (off + 20)))) pkt
            (off + 20 + 4 + gre_pad (rd8 pkt (off + 20))) flags := by
    intro f hrt
    rw [ether_hook]
    dsimp only
    rw [if_pos hl3, if_neg (Nat.not_lt.mpr hrem), if_pos hgre, if_neg (not_not.mpr hrt), hgre]
    rfl
  refine ⟨?_, hstep fuel, ?_⟩
  · intro hrt
    rw [ether_hook]
    dsimp only
    rw [if_pos hl3, if_neg (Nat.not_lt.mpr hrem), if_pos hgre, if_pos hrt, hgre]
  · intro hrt hin hrem2 hng
    rw [hstep (fuel + 1) hrt]
    rw [ether_hook]
    dsimp only
    rw [if_pos hin, if_neg (Nat.not_lt.mpr hrem2), if_neg hng]
    have hkey := ip_hook_key fs
      { key with l3_protocol := rd16 pkt (off + 20 + 2),
                 l4_protocol := rd8 pkt (off + 20 + 4 + gre_pad (rd8 pkt (off + 20)) + 9),
                 local_ip := rd32 pkt (off + 20 + 4 + gre_pad (rd8 pkt (off + 20)) + 12),
                 remote_ip := rd32 pkt (off + 20 + 4 + gre_pad (rd8 pkt (off + 20)) + 16) }
      (sub32 (sub32 (sub32 pkt_remains 20) (4 + gre_pad (rd8 pkt (off + 20)))) 20) pkt
      (off + 20 + 4 + gre_pad (rd8 pkt (off + 20)) + 20)
      (off + 20 + 4 + gre_pad (rd8 pkt (off + 20))) flags
    generalize ip_hook fs _ _ pkt _ _ flags = r at hkey ⊢
    obtain ⟨ret, fs1, key2, flags1⟩ := r
    refine ⟨ret, fs1, key2, flags1, rfl, ?_, hkey⟩
    dsimp only
    by_cases hz : ret = 0
    · simp [hz]
    · simp [hz]

/-- Witness for C20: the frame of scenario S1 inside one GRE tunnel whose header
carries a checksum and a key.  Twelve bytes are skipped behind the outer IP
header and the inner TCP packet gives the key. -/
theorem C20_gre_decapsulation_witness :
    key_ip.l3_protocol = ETHERTYPE_IP ∧ 20 ≤ 132 ∧
    rd8 (pkt_of frame_gre_ck) (14 + 9) = IPPROTO_GRE ∧
    4 + gre_pad (rd8 (pkt_of frame_gre_ck) (14 + 20)) = 12 ∧
    (∃ ret fs1 key2 flags1,
        ip_hook frag_init
            { key_ip with l3_protocol := rd16 (pkt_of frame_gre_ck) (14 + 20 + 2),
                          l4_protocol := rd8 (pkt_of frame_gre_ck) (14 + 20 + 4 + gre_pad (rd8 (pkt_of frame_gre_ck) (14 + 20)) + 9),
                          local_ip := rd32 (pkt_of frame_gre_ck) (14 + 20 + 4 + gre_pad (rd8 (pkt_of frame_gre_ck) (14 + 20)) + 12),
                          remote_ip := rd32 (pkt_of frame_gre_ck) (14 + 20 + 4 + gre_pad (rd8 (pkt_of frame_gre_ck) (14 + 20)) + 16) }
            (sub32 (sub32 (sub32 132 20) (4 + gre_pad (rd8 (pkt_of frame_gre_ck) (14 + 20)))) 20) (pkt_of frame_gre_ck)
            (14 + 20 + 4 + gre_pad (rd8 (pkt_of frame_gre_ck) (14 + 20)) + 20)
            (14 + 20 + 4 + gre_pad (rd8 (pkt_of frame_gre_ck) (14 + 20))) 0
          = (ret, fs1, key2, flags1) ∧
        ether_hook (0 + 2) frag_init key_ip 132 (pkt_of frame_gre_ck) 14 0
          = some (if ret ≠ 0 then NET_RX_DROP else 0, fs1, key2, flags1) ∧
        key2.l3_protocol = rd16 (pkt_of frame_gre_ck) (14 + 20 + 2) ∧
        key2.l4_protocol = rd8 (pkt_of frame_gre_ck) (14 + 20 + 4 + gre_pad (rd8 (pkt_of frame_gre_ck) (14 + 20)) + 9) ∧
        key2.local_ip = rd32 (pkt_of frame_gre_ck) (14 + 20 + 4 + gre_pad (rd8 (pkt_of frame_gre_ck) (14 + 20)) + 12) ∧
        key2.remote_ip = rd32 (pkt_of frame_gre_ck) (14 + 20 + 4 + gre_pad (rd8 (pkt_of frame_gre_ck) (14 + 20)) + 16)) ∧
    (ether_hook (0 + 2) frag_init key_ip 132 (pkt_of frame_gre_ck) 14 0).map
        (fun r => (r.1, r.2.2))
      = some (0,
          { l3_protocol := 0x0800, l4_protocol := 6, local_ip := 0x0A000005,
            remote_ip := 0x08080808, local_port := 12345, remote_port := 80,
            local_domain := 0, remote_domain := 0 }, 0x02) :=
  ⟨by decide, by decide, by decide, by decide,
   (C20_gre_decapsulation 0 frag_init key_ip 132 (pkt_of frame_gre_ck) 14 0 (by decide)
     (by decide) (by decide)).2.2 (by decide) (by decide) (by decide) (by decide),
   by decide⟩

/-! ### Reading the networks -/

theorem pna_dtrie_add_ok (head : pna_dtrie_entry) (pfx M domain_id : Nat)
    (h : 0 < M ∧ M ≤ 32) :
    (pna_dtrie_add head pfx M domain_id).1 = 0 := by
  unfold pna_dtrie_add
  rw [if_neg (not_not.mpr h)]

theorem pna_dtrie_add_fail (head : pna_dtrie_entry) (pfx M domain_id : Nat)
    (h : ¬ (0 < M ∧ M ≤ 32)) :
    pna_dtrie_add head pfx M domain_id = (-1, head) := by
  unfold pna_dtrie_add
  rw [if_pos h]

/-- What `pna_dtrie_parse` does once its three fields are found. -/
theorem pna_dtrie_parse_fields (atoi : List Char → Int) (inet_addr : List Char → Nat)
    (head : pna_dtrie_entry) (line : List Char) (netid : Int) (ip : List Char) (M : Nat)
    (nid : Int) (h : parse_fields atoi line netid = some (ip, M, nid)) :
    pna_dtrie_parse atoi inet_addr head line netid
      = if M = 0 ∨ nid = 0 then (-1, head)
        else if (pna_dtrie_add head (htonl (inet_addr ip)) M (to_u32 nid)).1 ≠ 0 then
          pna_dtrie_add head (htonl (inet_addr ip)) M (to_u32 nid)
        else (0, (pna_dtrie_add head (htonl (inet_addr ip)) M (to_u32 nid)).2) := by
  unfold parse_fields at h
  unfold pna_dtrie_parse
  cases h1 : strtok line with
  | none => simp [h1] at h
  | some t1 =>
    obtain ⟨ipstring, rest1⟩ := t1
    simp only [h1] at h ⊢
    cases h2 : strtok rest1 with
    | none => simp [h2] at h
    | some t2 =>
      obtain ⟨prefix_string, rest2⟩ := t2
      simp only [h2] at h ⊢
      by_cases hn : netid = -1
      · simp only [hn, if_true] at h ⊢
        cases h3 : strtok rest2 with
        | none => simp [h3] at h
        | some t3 =>
          obtain ⟨domain_string, rest3⟩ := t3
          simp only [h3, Option.some.injEq, Prod.mk.injEq] at h ⊢
          obtain ⟨e1, e2, e3⟩ := h
          subst e1 e2 e3
          rfl
      · simp only [hn, if_false, Option.some.injEq, Prod.mk.injEq] at h ⊢
        obtain ⟨e1, e2, e3⟩ := h
        subst e1 e2 e3
        rfl

theorem pna_dtrie_parse_missing (atoi : List Char → Int) (inet_addr : List Char → Nat)
    (head : pna_dtrie_entry) (line : List Char) (netid : Int)
    (h : parse_fields atoi line netid = none) :
    pna_dtrie_parse atoi inet_addr head line netid = (-1, head) := by
  unfold parse_fields at h
  unfold pna_dtrie_parse
  cases h1 : strtok line with
  | none => rfl
  | some t1 =>
    obtain ⟨ipstring, rest1⟩ := t1
    simp only [h1] at h ⊢
    cases h2 : strtok rest1 with
    | none => rfl
    | some t2 =>
      obtain ⟨prefix_string, rest2⟩ := t2
      simp only [h2] at h ⊢
      by_cases hn : netid = -1
      · simp only [hn, if_true] at h ⊢
        cases h3 : strtok rest2 with
        | none => rfl
        | some t3 => simp [h3] at h
      · simp [hn] at h

/-- C21: when a field is missing `pna_dtrie_parse` returns -1 and leaves the trie as it
was; for a line with an address field, a prefix length `M` and a netid (the
argument, or the third field when the argument is -1) it returns 0 if and
only if `0 < M <= 32` and the netid is not zero, in which case the trie is the
one `pna_dtrie_add` builds, and otherwise it returns -1 and leaves the trie as it
was. -/
theorem C21_parse_succeeds_iff (atoi : List Char → Int) (inet_addr : List Char → Nat)
    (head : pna_dtrie_entry) (line : List Char) (netid : Int) :
    (parse_fields atoi line netid = none →
      pna_dtrie_parse atoi inet_addr head line netid = (-1, head)) ∧
    (∀ ip M nid, parse_fields atoi line netid = some (ip, M, nid) →
      ((pna_dtrie_parse atoi inet_addr head line netid).1 = 0 ↔ (0 < M ∧ M ≤ 32 ∧ nid ≠ 0)) ∧
      ((pna_dtrie_parse atoi inet_addr head line netid).1 ≠ 0 →
        pna_dtrie_parse atoi inet_addr head line netid = (-1, head)) ∧
      ((pna_dtrie_parse atoi inet_addr head line netid).1 = 0 →
        (pna_dtrie_parse atoi inet_addr head line netid).2
          = (pna_dtrie_add head (htonl (inet_addr ip)) M (to_u32 nid)).2)) := by
  have hm1 : ¬ ((-1 : Int) = 0) := by decide
  refine ⟨pna_dtrie_parse_missing atoi inet_addr head line netid, ?_⟩
  intro ip M nid h
  rw [pna_dtrie_parse_fields atoi inet_addr head line netid ip M nid h]
  by_cases h0 : M = 0 ∨ nid = 0
  · rw [if_pos h0]
    refine ⟨⟨fun h1 => absurd h1 hm1, fun h1 => ?_⟩, fun _ => rfl,
      fun h1 => absurd h1 hm1⟩
    rcases h0 with h0 | h0
    · omega
    · exact absurd h0 h1.2.2
  · rw [if_neg h0]
    have hM : M ≠ 0 := fun h => h0 (Or.inl h)
    have hn : nid ≠ 0 := fun h => h0 (Or.inr h)
    by_cases hr : 0 < M ∧ M ≤ 32
    · have hok := pna_dtrie_add_ok head (htonl (inet_addr ip)) M (to_u32 nid) hr
      rw [if_neg (not_not.mpr hok)]
      exact ⟨⟨fun _ => ⟨hr.1, hr.2, hn⟩, fun _ => rfl⟩, fun h1 => absurd rfl h1, fun _ => rfl⟩
    · have hf := pna_dtrie_add_fail head (htonl (inet_addr ip)) M (to_u32 nid) hr
      rw [hf, if_pos hm1]
      exact ⟨⟨fun h1 => absurd h1 hm1, fun h1 => absurd ⟨h1.1, h1.2.1⟩ hr⟩, fun _ => rfl,
        fun h1 => absurd h1 hm1⟩

/-- Witness for C21: the line `10.0.0.0/8/1` is accepted and gives the trie of
the scenarios; with prefix length 0, 33 or -1, netid 0 or a missing netid the
line is refused and the trie stays as it was. -/
theorem C21_parse_succeeds_iff_witness :
    parse_fields atoi_digits "10.0.0.0/8/1".data (-1) = some ("10.0.0.0".data, 8, 1) ∧
    (((pna_dtrie_parse atoi_digits inet_addr_quad pna_dtrie_init "10.0.0.0/8/1".data (-1)).1 = 0
        ↔ (0 < 8 ∧ 8 ≤ 32 ∧ (1 : Int) ≠ 0)) ∧
      ((pna_dtrie_parse atoi_digits inet_addr_quad pna_dtrie_init "10.0.0.0/8/1".data (-1)).1 ≠ 0 →
        pna_dtrie_parse atoi_digits inet_addr_quad pna_dtrie_init "10.0.0.0/8/1".data (-1)
          = (-1, pna_dtrie_init)) ∧
      ((pna_dtrie_parse atoi_digits inet_addr_quad pna_dtrie_init "10.0.0.0/8/1".data (-1)).1 = 0 →
        (pna_dtrie_parse atoi_digits inet_addr_quad pna_dtrie_init "10.0.0.0/8/1".data (-1)).2
          = (pna_dtrie_add pna_dtrie_init (htonl (inet_addr_quad "10.0.0.0".data)) 8
              (to_u32 1)).2)) ∧
    pna_dtrie_parse atoi_digits inet_addr_quad pna_dtrie_init "10.0.0.0/8/1".data (-1)
      = (0, trie_10_8) ∧
    pna_dtrie_parse atoi_digits inet_addr_quad pna_dtrie_init "10.0.0.0/8".data 1
      = (0, trie_10_8) ∧
    pna_dtrie_parse atoi_digits inet_addr_quad trie_10_8 "10.0.0.0/8".data (-1)
      = (-1, trie_10_8) ∧
    pna_dtrie_parse atoi_digits inet_addr_quad trie_10_8 "10.1.0.0/0/3".data (-1)
      = (-1, trie_10_8) ∧
    pna_dtrie_parse atoi_digits inet_addr_quad trie_10_8 "10.1.0.0/33/3".data (-1)
      = (-1, trie_10_8) ∧
    pna_dtrie_parse atoi_digits inet_addr_quad trie_10_8 "10.1.0.0/-1/3".data (-1)
      = (-1, trie_10_8) ∧
    pna_dtrie_parse atoi_digits inet_addr_quad trie_10_8 "10.1.0.0/16/0".data (-1)
      = (-1, trie_10_8) :=
  ⟨by decide,
   (C21_parse_succeeds_iff atoi_digits inet_addr_quad pna_dtrie_init "10.0.0.0/8/1".data
     (-1)).2 "10.0.0.0".data 8 1 (by decide),
   by decide, by decide, by decide, by decide, by decide, by decide, by decide⟩

theorem dtrie_mask_high_bits : ∀ M, M < 33 → 0 < M → dtrie_mask M = high_bits_mask M := by
  decide

/-- The prefix `pna_dtrie_add` walks along is the given prefix with the mask applied. -/
theorem pna_dtrie_add_masked (head : pna_dtrie_entry) (p M netid : Nat) (hM : 0 < M ∧ M ≤ 32) :
    pna_dtrie_add head p M netid
      = (0, pna_dtrie_add_loop (p &&& high_bits_mask M) netid M 0 head) := by
  unfold pna_dtrie_add
  rw [if_neg (not_not.mpr hM)]
  dsimp only
  rw [dtrie_mask_high_bits M (by omega) hM.1]
  by_cases h : p &&& high_bits_mask M ≠ p
  · rw [if_pos h]
  · rw [if_neg h, not_not.mp h]

/-- C22: for every trie, every prefix `p`, every length `M` in 1..32 and every
netid, `pna_dtrie_add` returns 0 and yields the same trie for `p` as for `p` with
only its high `M` bits kept; hence it yields the same trie, and every lookup
the same result, for two prefixes that agree on their high `M` bits. -/
theorem C22_add_masks_prefix (head : pna_dtrie_entry) (p M netid : Nat)
    (hM : 0 < M ∧ M ≤ 32) :
    (pna_dtrie_add head p M netid).1 = 0 ∧
    pna_dtrie_add head p M netid = pna_dtrie_add head (p &&& high_bits_mask M) M netid ∧
    (∀ q, q &&& high_bits_mask M = p &&& high_bits_mask M →
      pna_dtrie_add head q M netid = pna_dtrie_add head p M netid ∧
      ∀ ip, pna_dtrie_lookup (pna_dtrie_add head q M netid).2 ip
        = pna_dtrie_lookup (pna_dtrie_add head p M netid).2 ip) := by
  have h1 := pna_dtrie_add_masked head p M netid hM
  have h2 := pna_dtrie_add_masked head (p &&& high_bits_mask M) M netid hM
  rw [Nat.land_assoc, Nat.and_self] at h2
  refine ⟨by rw [h1], by rw [h1, h2], ?_⟩
  intro q hq
  have h3 := pna_dtrie_add_masked head q M netid hM
  rw [hq] at h3
  refine ⟨by rw [h1, h3], fun ip => by rw [h1, h3]⟩

/-- Witness for C22: 10.1.2.3/8 gives the trie of 10.0.0.0/8. -/
theorem C22_add_masks_prefix_witness :
    (0 < 8 ∧ 8 ≤ 32) ∧ 0x0A010203 &&& high_bits_mask 8 = 0x0A000000 ∧
    ((pna_dtrie_add pna_dtrie_init 0x0A010203 8 1).1 = 0 ∧
    pna_dtrie_add pna_dtrie_init 0x0A010203 8 1
      = pna_dtrie_add pna_dtrie_init (0x0A010203 &&& high_bits_mask 8) 8 1 ∧
    (∀ q, q &&& high_bits_mask 8 = 0x0A010203 &&& high_bits_mask 8 →
      pna_dtrie_add pna_dtrie_init q 8 1 = pna_dtrie_add pna_dtrie_init 0x0A010203 8 1 ∧
      ∀ ip, pna_dtrie_lookup (pna_dtrie_add pna_dtrie_init q 8 1).2 ip
        = pna_dtrie_lookup (pna_dtrie_add pna_dtrie_init 0x0A010203 8 1).2 ip)) ∧
    (pna_dtrie_add pna_dtrie_init 0x0A010203 8 1).2 = trie_10_8 :=
  ⟨by decide, by decide, C22_add_masks_prefix pna_dtrie_init 0x0A010203 8 1 (by decide),
   by decide⟩

theorem set_prefix_twice (n1 n2 : Nat) (t : pna_dtrie_entry) :
    set_prefix n2 ( set_prefix n1 t) = set_prefix n2 t := by
  cases t <;> rfl

theorem alloc_if_null_of_ne (t : pna_dtrie_entry) (h : t ≠ .null) : alloc_if_null t = t := by
  cases t with
  | null => exact absurd rfl h
  | node _ _ _ _ => rfl

theorem add_loop_twice (p n1 n2 : Nat) :
    ∀ n pos t, pna_dtrie_add_loop p n2 n pos (pna_dtrie_add_loop p n1 n pos t)
      = pna_dtrie_add_loop p n2 n pos t := by
  intro n
  induction n with
  | zero =>
    intro pos t
    simp only [pna_dtrie_add_loop]
    exact set_prefix_twice n1 n2 t
  | succ n ih =>
    intro pos t
    cases t with
    | null => rfl
    | node isp dom c0 c1 =>
      by_cases hb : cur_bit p pos = 0
      · simp only [pna_dtrie_add_loop, hb, if_true]
        rw [alloc_if_null_of_ne _ (add_loop_ne_null p n1 n (pos + 1) _ (alloc_if_null_ne_null c0)),
          ih]
      · simp only [pna_dtrie_add_loop, hb, if_false]
        rw [alloc_if_null_of_ne _ (add_loop_ne_null p n1 n (pos + 1) _ (alloc_if_null_ne_null c1)),
          ih]

/-- C23: for every trie, prefix `p`, length `M` in 1..32 and netids `n1`, `n2`,
adding `(p, M, n1)` and then `(p, M, n2)` returns 0 both times and yields the
trie that adding `(p, M, n2)` alone yields, hence the same lookup result for
every address. -/
theorem C23_duplicate_overwrites (head : pna_dtrie_entry) (p M n1 n2 : Nat)
    (hM : 0 < M ∧ M ≤ 32) :
    (pna_dtrie_add head p M n1).1 = 0 ∧
    (pna_dtrie_add (pna_dtrie_add head p M n1).2 p M n2).1 = 0 ∧
    (pna_dtrie_add (pna_dtrie_add head p M n1).2 p M n2).2 = (pna_dtrie_add head p M n2).2 ∧
    ∀ ip, pna_dtrie_lookup (pna_dtrie_add (pna_dtrie_add head p M n1).2 p M n2).2 ip
      = pna_dtrie_lookup (pna_dtrie_add head p M n2).2 ip := by
  have h1 := pna_dtrie_add_masked head p M n1 hM
  have h2 := pna_dtrie_add_masked head p M n2 hM
  have h3 := pna_dtrie_add_masked (pna_dtrie_add head p M n1).2 p M n2 hM
  have h4 : (pna_dtrie_add (pna_dtrie_add head p M n1).2 p M n2).2
      = (pna_dtrie_add head p M n2).2 := by
    rw [h3, h2, h1]
    exact add_loop_twice _ n1 n2 M 0 head
  refine ⟨by rw [h1], by rw [h3], h4, fun ip => by rw [h4]⟩

/-- Witness for C23: 10.0.0.0/8 added with netid 7 and then with netid 1. -/
theorem C23_duplicate_overwrites_witness :
    (0 < 8 ∧ 8 ≤ 32) ∧
    ((pna_dtrie_add pna_dtrie_init 0x0A000000 8 7).1 = 0 ∧
    (pna_dtrie_add (pna_dtrie_add pna_dtrie_init 0x0A000000 8 7).2 0x0A000000 8 1).1 = 0 ∧
    (pna_dtrie_add (pna_dtrie_add pna_dtrie_init 0x0A000000 8 7).2 0x0A000000 8 1).2
      = (pna_dtrie_add pna_dtrie_init 0x0A000000 8 1).2 ∧
    ∀ ip, pna_dtrie_lookup
        (pna_dtrie_add (pna_dtrie_add pna_dtrie_init 0x0A000000 8 7).2 0x0A000000 8 1).2 ip
      = pna_dtrie_lookup (pna_dtrie_add pna_dtrie_init 0x0A000000 8 1).2 ip) ∧
    pna_dtrie_lookup (pna_dtrie_add pna_dtrie_init 0x0A000000 8 7).2 0x0A000005 = 7 ∧
    pna_dtrie_lookup
      (pna_dtrie_add (pna_dtrie_add pna_dtrie_init 0x0A000000 8 7).2 0x0A000000 8 1).2
      0x0A000005 = 1 :=
  ⟨by decide, C23_duplicate_overwrites pna_dtrie_init 0x0A000000 8 7 1 (by decide),
   by decide, by decide⟩

/-! ### The local domain of an accepted key -/

/-- Counterexample to C24 as stated: the line `10.0.0.0/8/65536` is accepted by
`pna_dtrie_parse` (the netid is not zero), the node of 10.0.0.0/8 gets the 16-bit domain 0,
and the frame of scenario S1 is accepted with a key whose `local_domain` is 0. -/
theorem C24_counterexample :
    (pna_dtrie_parse atoi_digits inet_addr_quad pna_dtrie_init "10.0.0.0/8/65536".data (-1)).1 = 0 ∧
    dtrie_parsed atoi_digits inet_addr_quad trie_65536 ∧
    pna_dtrie_lookup trie_65536 0x0A000005 = 0 ∧
    (pna_hook_decode 1 trie_65536 frag_init 114 (pkt_of frame_s1)).map (fun r => r.2)
      = some (some ({ key_s1 with local_domain := 0 }, 0, 0x02)) ∧
    (pna_hook 1 cfg_2_4 ⟨trie_65536, frag_init, flowmon_init⟩ 114 1700000000
      (pkt_of frame_s1)).map (fun r => r.1) = some (some 1) :=
  ⟨by decide, dtrie_parsed.parse _ _ _ dtrie_parsed.init (by decide), by decide, by decide,
   by decide⟩

theorem dtrie_pos_alloc_if_null (t : pna_dtrie_entry) (h : dtrie_pos t = true) :
    dtrie_pos (alloc_if_null t) = true := by
  cases t with
  | null => decide
  | node isp dom c0 c1 => exact h

theorem add_loop_pos (pfx dom : Nat) (hdom : dom % U16 ≠ 0) :
    ∀ n d t, dtrie_pos t = true → dtrie_pos (pna_dtrie_add_loop pfx dom n d t) = true := by
  intro n
  induction n with
  | zero =>
    intro d t ht
    cases t with
    | null => rfl
    | node isp dm c0 c1 =>
      simp only [dtrie_pos, Bool.and_eq_true, Bool.or_eq_true, decide_eq_true_eq] at ht
      simp only [pna_dtrie_add_loop, set_prefix, dtrie_pos, Bool.and_eq_true, Bool.or_eq_true,
        decide_eq_true_eq]
      exact ⟨⟨Or.inr ⟨Nat.pos_of_ne_zero hdom, Nat.mod_lt _ (by decide)⟩, ht.1.2⟩, ht.2⟩
  | succ n ih =>
    intro d t ht
    cases t with
    | null => rfl
    | node isp dm c0 c1 =>
      simp only [dtrie_pos, Bool.and_eq_true, Bool.or_eq_true, decide_eq_true_eq] at ht
      simp only [pna_dtrie_add_loop]
      split
      · simp only [dtrie_pos, Bool.and_eq_true, Bool.or_eq_true, decide_eq_true_eq]
        exact ⟨⟨ht.1.1, ih _ _ (dtrie_pos_alloc_if_null c0 ht.1.2)⟩, ht.2⟩
      · simp only [dtrie_pos, Bool.and_eq_true, Bool.or_eq_true, decide_eq_true_eq]
        exact ⟨⟨ht.1.1, ht.1.2⟩, ih _ _ (dtrie_pos_alloc_if_null c1 ht.2)⟩

theorem dtrie_parsed_nz_pos (atoi : List Char → Int) (inet_addr : List Char → Nat)
    (head : pna_dtrie_entry) (h : dtrie_parsed_nz atoi inet_addr head) :
    dtrie_pos head = true := by
  induction h with
  | init => decide
  | parse head line netid ip M nid _ hf hok hnz ih =>
    have hp := pna_dtrie_parse_fields atoi inet_addr head line netid ip M nid hf
    rw [hp] at hok ⊢
    by_cases h0 : M = 0 ∨ nid = 0
    · rw [if_pos h0] at hok
      exact absurd (show (-1 : Int) = 0 from hok) (by decide)
    · rw [if_neg h0] at hok ⊢
      by_cases h1 : (pna_dtrie_add head (htonl (inet_addr ip)) M (to_u32 nid)).1 ≠ 0
      · rw [if_pos h1] at hok
        exact absurd hok h1
      · rw [if_neg h1]
        have hM := (dtrie_add_fst head (htonl (inet_addr ip)) M (to_u32 nid)).mp (not_not.mp h1)
        rw [pna_dtrie_add_masked head _ M _ hM]
        exact add_loop_pos _ _ hnz _ _ _ ih

theorem lookup_loop_pos (ip : Nat) (t : pna_dtrie_entry) :
    ∀ pos cur, dtrie_pos t = true → 0 < cur → cur < U16 →
      0 < pna_dtrie_lookup_loop ip t pos cur ∧ pna_dtrie_lookup_loop ip t pos cur < U16 := by
  induction t with
  | null =>
    intro pos cur _ h1 h2
    exact ⟨h1, h2⟩
  | node isp dom c0 c1 ih0 ih1 =>
    intro pos cur ht h1 h2
    simp only [dtrie_pos, Bool.and_eq_true, Bool.or_eq_true, decide_eq_true_eq] at ht
    have hc : 0 < (if isp ≠ 0 then dom else cur) ∧ (if isp ≠ 0 then dom else cur) < U16 := by
      by_cases hi : isp = 0
      · simp only [hi, ne_eq, not_true_eq_false, if_false]
        exact ⟨h1, h2⟩
      · simp only [hi, ne_eq, not_false_eq_true, if_true]
        rcases ht.1.1 with h | h
        · exact absurd h hi
        · exact h
    simp only [pna_dtrie_lookup_loop]
    split
    · exact ih0 _ _ ht.1.2 hc.1 hc.2
    · exact ih1 _ _ ht.2 hc.1 hc.2

theorem lookup_pos (head : pna_dtrie_entry) (ip : Nat) (h : dtrie_pos head = true) :
    0 < pna_dtrie_lookup head ip % U16 := by
  have hm : 0 < MAX_DOMAIN ∧ MAX_DOMAIN < U16 := by decide
  have key : 0 < pna_dtrie_lookup head ip ∧ pna_dtrie_lookup head ip < U16 := by
    cases head with
    | null => exact hm
    | node isp dom c0 c1 =>
      simp only [dtrie_pos, Bool.and_eq_true] at h
      simp only [pna_dtrie_lookup]
      split
      · exact lookup_loop_pos ip c0 _ _ h.1.2 hm.1 hm.2
      · exact lookup_loop_pos ip c1 _ _ h.2 hm.1 hm.2
  rw [Nat.mod_eq_of_lt key.2]
  exact key.1

theorem pna_localize_local_domain (head : pna_dtrie_entry) (key : pna_flowkey) (d : Fin 2) :
    (pna_localize head key d).2.1.local_domain = pna_dtrie_lookup head key.local_ip % U16 ∨
    (pna_localize head key d).2.1.local_domain = pna_dtrie_lookup head key.remote_ip % U16 := by
  unfold pna_localize
  dsimp only
  split_ifs <;> simp [pna_session_swap]

/-- The key `pna_hook_decode` passes on is a key as `pna_localize` leaves it. -/
theorem pna_hook_decode_localized (fuel : Nat) (head : pna_dtrie_entry) (fs fs1 : frag_state)
    (pkt_len : Nat) (pkt : Nat → Nat) (key : pna_flowkey) (direction : Fin 2) (flags : Nat)
    (h : pna_hook_decode fuel head fs pkt_len pkt = some (fs1, some (key, direction, flags))) :
    ∃ key1, key = (pna_localize head key1 PNA_DIR_OUTBOUND).2.1 := by
  simp only [pna_hook_decode] at h
  generalize vlan_loop pkt PNA_MAX_CHECKS 0 0 pkt_len (rd16 pkt 12) = v at h
  obtain ⟨cd, off, rem, l3⟩ := v
  simp only at h
  by_cases hcd : cd = PNA_MAX_CHECKS
  · simp [hcd] at h
  · rw [if_neg hcd] at h
    cases he : ether_hook fuel fs { null_key with l3_protocol := l3 } (sub32 rem 14) pkt
        (off + 14) 0 with
    | none => simp [he] at h
    | some r =>
      obtain ⟨ret, fsx, key1, flags1⟩ := r
      simp only [he] at h
      by_cases hret : ret = 0
      · subst hret
        simp only [ne_eq, not_true_eq_false, if_false] at h
        refine ⟨key1, ?_⟩
        generalize pna_localize head key1 PNA_DIR_OUTBOUND = lz at h ⊢
        obtain ⟨ok, key2, dir2⟩ := lz
        simp only at h ⊢
        by_cases hok : ok = 0
        · simp [hok] at h
        · simp only [hok, if_false, Option.some.injEq, Prod.mk.injEq] at h
          exact h.2.1.symm
      · simp [hret] at h

/-- C24 (amended): for every trie built through `pna_dtrie_parse` from netids that are
not multiples of 65536 and every packet that `pna_hook` accepts, the flow key
handed to `flowmon_hook` has `local_domain >= 1`. -/
theorem C24_local_domain_positive (atoi : List Char → Int) (inet_addr : List Char → Nat)
    (head : pna_dtrie_entry) (hbuilt : dtrie_parsed_nz atoi inet_addr head)
    (fuel : Nat) (fs fs1 : frag_state) (pkt_len : Nat) (pkt : Nat → Nat) (key : pna_flowkey)
    (direction : Fin 2) (flags : Nat)
    (h : pna_hook_decode fuel head fs pkt_len pkt = some (fs1, some (key, direction, flags))) :
    1 ≤ key.local_domain := by
  have hpos := dtrie_parsed_nz_pos atoi inet_addr head hbuilt
  obtain ⟨key1, hk⟩ := pna_hook_decode_localized fuel head fs fs1 pkt_len pkt key direction flags h
  rw [hk]
  rcases pna_localize_local_domain head key1 PNA_DIR_OUTBOUND with hl | hl
  · rw [hl]; exact lookup_pos head _ hpos
  · rw [hl]; exact lookup_pos head _ hpos

theorem pna_hook_decode_some_of_map (fuel : Nat) (head : pna_dtrie_entry) (fs : frag_state)
    (pkt_len : Nat) (pkt : Nat → Nat) (x : Option (pna_flowkey × Fin 2 × Nat))
    (h : (pna_hook_decode fuel head fs pkt_len pkt).map (fun r => r.2) = some x) :
    ∃ fs1, pna_hook_decode fuel head fs pkt_len pkt = some (fs1, x) := by
  cases hp : pna_hook_decode fuel head fs pkt_len pkt with
  | none => simp [hp] at h
  | some r =>
    obtain ⟨fs1, y⟩ := r
    simp only [hp, Option.map_some', Option.some.injEq] at h
    exact ⟨fs1, by rw [h]⟩

/-- Witness for C24: the trie of the line `10.0.0.0/8/1` and the frame of scenario
S1, whose key gets `local_domain = 1`. -/
theorem C24_local_domain_positive_witness :
    dtrie_parsed_nz atoi_digits inet_addr_quad
      (pna_dtrie_parse atoi_digits inet_addr_quad pna_dtrie_init "10.0.0.0/8/1".data (-1)).2 ∧
    ∃ fs1, pna_hook_decode 1
        (pna_dtrie_parse atoi_digits inet_addr_quad pna_dtrie_init "10.0.0.0/8/1".data (-1)).2
        frag_init 114 (pkt_of frame_s1) = some (fs1, some (key_s1, 0, 0x02)) ∧
      1 ≤ key_s1.local_domain := by
  have hb : dtrie_parsed_nz atoi_digits inet_addr_quad
      (pna_dtrie_parse atoi_digits inet_addr_quad pna_dtrie_init "10.0.0.0/8/1".data (-1)).2 :=
    dtrie_parsed_nz.parse _ _ _ "10.0.0.0".data 8 1 dtrie_parsed_nz.init (by decide) (by decide)
      (by decide)
  obtain ⟨fs1, h⟩ := pna_hook_decode_some_of_map 1
    (pna_dtrie_parse atoi_digits inet_addr_quad pna_dtrie_init "10.0.0.0/8/1".data (-1)).2
    frag_init 114 (pkt_of frame_s1) (some (key_s1, 0, 0x02)) (by decide)
  exact ⟨hb, fs1, h, C24_local_domain_positive atoi_digits inet_addr_quad _ hb 1 frag_init fs1 114
    (pkt_of frame_s1) key_s1 0 0x02 h⟩

/-! ### Scenarios S1 and S2 through the capture callback -/

/-- C25, the code at the failing input: libpcap hands `pkt_hook` the frame of
scenario S1 with `h->len = 114` (the 100 bytes of the IP packet behind the
14-byte Ethernet header).  The pool then holds exactly one entry, with every
field as scenario S1 expects except `bytes[0]`, which is `114 + 38 = 152`
and not 138: the Ethernet header is counted in `pkt_len` and again in
ETH_OVERHEAD. -/
theorem C25_s1_bytes_out :
    driver_after_s1.isSome = true ∧
    live_entries ((tables_after driver_after_s1).tables 0).flowtab 16 0
      = [{ key := { l3_protocol := 0x0800, l4_protocol := 6, local_ip := 0x0A000005,
                    remote_ip := 0x08080808, local_port := 12345, remote_port := 80,
                    local_domain := 1, remote_domain := 0xFFFF },
           data := { bytes := ⟨152, 0⟩, packets := ⟨1, 0⟩, flags := ⟨0x02, 0⟩, timestamp := 0,
                     first_tstamp := 1700000000, last_tstamp := 1700000000,
                     first_dir := 0 } }] ∧
    live_entries ((tables_after driver_after_s1).tables 1).flowtab 16 0 = [] ∧
    ((tables_after driver_after_s1).tables 0).nflows = 1 := by
  decide

/-- C26, the code at the failing input: after the frame of scenario S1
(`h->len = 114`) the reverse frame of scenario S2 arrives with `h->len = 74`
(IP length 60).  It is merged into the same entry and the pool holds
exactly one entry, with every field as scenario S2 expects except the byte
counters: `bytes[0] = 152` and `bytes[1] = 74 + 38 = 112`, not 138 and 98. -/
theorem C26_s2_bytes :
    driver_after_s2.isSome = true ∧
    live_entries ((tables_after driver_after_s2).tables 0).flowtab 16 0
      = [{ key := { l3_protocol := 0x0800, l4_protocol := 6, local_ip := 0x0A000005,
                    remote_ip := 0x08080808, local_port := 12345, remote_port := 80,
                    local_domain := 1, remote_domain := 0xFFFF },
           data := { bytes := ⟨152, 112⟩, packets := ⟨1, 1⟩, flags := ⟨0x02, 0x12⟩,
                     timestamp := 0, first_tstamp := 1700000000,
                     last_tstamp := 1700000001, first_dir := 0 } }] ∧
    live_entries ((tables_after driver_after_s2).tables 1).flowtab 16 0 = [] ∧
    ((tables_after driver_after_s2).tables 0).nflows = 1 := by
  decide

/-! ### The null key -/

/-- Counterexample to C27 as stated: in the initial state `flowmon_hook` called with
the all-zero key finds the empty slot of its first probe equal to the key,
returns 0 (updated) and adds the packet to the counters of that slot. -/
theorem C27_counterexample :
    (flowmon_hook cfg_2_4 flowmon_init null_key 0 0 100 1001).1 = 0 ∧
    (flowmon_init.tables 0).flowtab (flow_slot cfg_2_4 null_key 0) = zero_entry ∧
    (((flowmon_hook cfg_2_4 flowmon_init null_key 0 0 100 1001).2.tables 0).flowtab
      (flow_slot cfg_2_4 null_key 0)).data
      = { bytes := ⟨138, 0⟩, packets := ⟨1, 0⟩, flags := ⟨0, 0⟩, timestamp := 0,
          first_tstamp := 0, last_tstamp := 1001, first_dir := 0 } := by
  decide

theorem flowmon_probe_null (cfg : pna_config) (direction : Fin 2) (flags pkt_len : Nat)
    (tv_sec : Int) (hash_0 : Nat) :
    ∀ n i info,
      (flowmon_probe cfg null_key direction flags pkt_len tv_sec hash_0 n i info).1 ≠ some 1 ∧
      (∀ sl, ((flowmon_probe cfg null_key direction flags pkt_len tv_sec hash_0 n i info).2.flowtab
          sl).key = (info.flowtab sl).key) ∧
      (flowmon_probe cfg null_key direction flags pkt_len tv_sec hash_0 n i info).2.nflows
        = info.nflows := by
  intro n
  induction n with
  | zero =>
    intro i info
    simp [flowmon_probe]
  | succ n ih =>
    intro i info
    simp only [flowmon_probe]
    by_cases hm : flowkey_match (info.flowtab (probe_slot cfg hash_0 i)).key null_key = true
    · simp only [hm, if_true]
      refine ⟨by simp, ?_, by trivial⟩
      intro sl
      by_cases hsl : sl = probe_slot cfg hash_0 i
      · rw [hsl, upd_same]
      · rw [upd_other _ _ _ _ hsl]
    · simp only [hm, if_false]
      exact ih (i + 1) _

/-- C27 (amended): for every state of the pool, `flowmon_hook` called with the
all-zero key never returns 1 (inserted) and leaves the key of every flow
entry and the `nflows` of every table as `flowtab_get` has left them: the null key
never becomes an entry.  (It returns 0, updated, when a probe meets an empty
slot, and adds the packet to the counters of that slot.) -/
theorem C27_null_key_never_stored (cfg : pna_config) (s : flowmon_state) (direction : Fin 2)
    (flags pkt_len : Nat) (tv_sec : Int) :
    (flowmon_hook cfg s null_key direction flags pkt_len tv_sec).1 ≠ 1 ∧
    (∀ t sl, (((flowmon_hook cfg s null_key direction flags pkt_len tv_sec).2.tables t).flowtab
        sl).key = (flow_base s tv_sec t sl).key) ∧
    (∀ t, ((flowmon_hook cfg s null_key direction flags pkt_len tv_sec).2.tables t).nflows
      = ((flowtab_get cfg s tv_sec).1.tables t).nflows) := by
  have hview := (flowtab_get_view cfg s tv_sec).1
  have hm1 : (-1 : Int) ≠ 1 := by decide
  cases hg : flowtab_get cfg s tv_sec with
  | mk s1 oi =>
    rw [hg] at hview
    simp only at hview
    cases oi with
    | none =>
      rw [flowmon_hook_none cfg s s1 null_key direction flags pkt_len tv_sec hg]
      exact ⟨hm1, fun t sl => by rw [← hview], fun t => rfl⟩
    | some idx =>
      obtain ⟨h1, h2, h3⟩ := flowmon_probe_null cfg direction flags pkt_len tv_sec
        (flow_hash_0 cfg null_key) PNA_TABLE_TRIES 0 (s1.tables idx)
      cases hp : flowmon_probe cfg null_key direction flags pkt_len tv_sec
          (flow_hash_0 cfg null_key) PNA_TABLE_TRIES 0 (s1.tables idx) with
      | mk ret info1 =>
        rw [hp] at h1 h2 h3
        simp only at h1 h2 h3
        rw [flowmon_hook_some cfg s s1 idx null_key direction flags pkt_len tv_sec ret info1 hg hp]
        have hkeys : ∀ (info2 : flowtab_info), info2.flowtab = info1.flowtab →
            ∀ t sl, ((upd s1.tables idx info2 t).flowtab sl).key = (flow_base s tv_sec t sl).key := by
          intro info2 h2' t sl
          by_cases ht : t = idx
          · subst ht
            rw [upd_same, h2', h2, hview]
          · rw [upd_other _ _ _ _ ht, hview]
        have hn : ∀ (info2 : flowtab_info), info2.nflows = info1.nflows →
            ∀ t, (upd s1.tables idx info2 t).nflows = (s1.tables t).nflows := by
          intro info2 h3' t
          by_cases ht : t = idx
          · subst ht
            rw [upd_same, h3', h3]
          · rw [upd_other _ _ _ _ ht]
        cases ret with
        | none => exact ⟨hm1, hkeys _ rfl, hn _ rfl⟩
        | some rv =>
          refine ⟨fun h => h1 ?_, hkeys _ rfl, hn _ rfl⟩
          simp only at h
          rw [h]

/-! ### Scenario S6: the probe budget -/

theorem triangular_mod_32_inj :
    ∀ i, i < 32 → ∀ j, j < 32 →
      ((i + i * i) >>> 1) % 32 = ((j + j * j) >>> 1) % 32 → i = j := by
  decide

/-- In a table of at least 32 slots the 32 probes of a key visit 32 different slots. -/
theorem probe_slot_inj (cfg : pna_config) (hB : 5 ≤ cfg.pna_bits ∧ cfg.pna_bits ≤ 31)
    (hash_0 i j : Nat) (hi : i < 32) (hj : j < 32)
    (h : probe_slot cfg hash_0 i = probe_slot cfg hash_0 j) : i = j := by
  unfold probe_slot PNA_FLOW_ENTRIES at h
  rw [Nat.shiftLeft_eq, Nat.one_mul, Nat.and_pow_two_sub_one_eq_mod,
    Nat.and_pow_two_sub_one_eq_mod] at h
  have hdvd : (32 : Nat) ∣ 2 ^ cfg.pna_bits := by
    have : (2 : Nat) ^ 5 ∣ 2 ^ cfg.pna_bits := Nat.pow_dvd_pow 2 hB.1
    simpa using this
  have hdvd2 : 2 ^ cfg.pna_bits ∣ U32 := by
    have : (2 : Nat) ^ cfg.pna_bits ∣ 2 ^ 32 := Nat.pow_dvd_pow 2 (by omega)
    simpa [U32] using this
  rw [Nat.mod_mod_of_dvd _ hdvd2, Nat.mod_mod_of_dvd _ hdvd2] at h
  have h32 := congrArg (fun x => x % 32) h
  simp only [Nat.mod_mod_of_dvd _ hdvd] at h32
  apply triangular_mod_32_inj i hi j hj
  omega

/-- Under `feed_inv`, `flowtab_get` returns table 0 with its entries and counters as they are, dirty
and carrying the second of the first packet. -/
theorem feed_inv_get (cfg : pna_config) (key : Nat → pna_flowkey) (tv : Nat → Int) (j : Nat)
    (s : flowmon_state) (hT : 0 < cfg.pna_tables) (hinv : feed_inv cfg key (tv 0) j s)
    (hrot : 0 < j → rotation_due (to_u32 (tv 0)) (tv j) = false) :
    ∃ s1, flowtab_get cfg s (tv j) = (s1, some 0) ∧ s1.flowtab_idx = 0 ∧
      (s1.tables 0).flowtab = (s.tables 0).flowtab ∧ (s1.tables 0).nflows = (s.tables 0).nflows ∧
      (s1.tables 0).nflows_missed = (s.tables 0).nflows_missed ∧
      (s1.tables 0).table_dirty ≠ 0 ∧ (s1.tables 0).first_sec = to_u32 (tv 0) := by
  have hidx := hinv.idx
  by_cases hj : j = 0
  · obtain ⟨hd, hl⟩ := hinv.clean hj
    subst hj
    have h1 := flowtab_get_clean cfg s (tv 0) (by rw [hidx]; exact hd)
    have h2 := flowtab_get_claim_free cfg s (tv 0) hT (by rw [hidx]; exact hl)
    refine ⟨claim_state s (tv 0), by rw [h1, h2, hidx], hidx, ?_⟩
    simp [claim_state, hidx, upd_same, claim_table, hd]
  · have hpos : 0 < j := Nat.pos_of_ne_zero hj
    obtain ⟨hd, hf⟩ := hinv.dirty hpos
    have hnr : ¬ rotates s (tv j) := by
      intro h
      have h2 := h.2
      rw [hidx, hf, hrot hpos] at h2
      exact absurd h2 (by decide)
    have h1 := flowtab_get_keep cfg s (tv j) (by rw [hidx]; exact hd) hnr
    exact ⟨s, by rw [h1, hidx], hidx, rfl, rfl, rfl, hd, hf⟩

theorem flowkey_match_null_ne (a k : pna_flowkey) (h1 : flowkey_match a null_key = true)
    (h2 : flowkey_match k null_key = false) : flowkey_match a k = false := by
  cases h : flowkey_match a k with
  | false => rfl
  | true =>
    have := flowkey_match_trans a k null_key h h1
    rw [h2] at this
    exact absurd this (by decide)

/-- One more key of a family of `N` keys is inserted: the packet finds the slots of its
first `j` probes taken by the other keys and the slot of probe `j` empty. -/
theorem feed_inv_insert (cfg : pna_config) (key : Nat → pna_flowkey) (dir : Nat → Fin 2)
    (flags len : Nat → Nat) (tv : Nat → Int) (N j : Nat) (s : flowmon_state)
    (hT : 0 < cfg.pna_tables) (hB : 5 ≤ cfg.pna_bits ∧ cfg.pna_bits ≤ 31) (hj : j < 32)
    (hjN : j < N)
    (hdist : ∀ a b, a < N → b < N → a ≠ b → flowkey_match (key a) (key b) = false)
    (hnn : ∀ a, a < N → flowkey_match (key a) null_key = false)
    (hhash : ∀ a, a < N → flow_hash_0 cfg (key a) = flow_hash_0 cfg (key 0))
    (hrot : ∀ a, 0 < a → a < N → rotation_due (to_u32 (tv 0)) (tv a) = false)
    (hinv : feed_inv cfg key (tv 0) j s) :
    (flowmon_hook cfg s (key j) (dir j) (flags j) (len j) (tv j)).1 = 1 ∧
    feed_inv cfg key (tv 0) (j + 1)
      (flowmon_hook cfg s (key j) (dir j) (flags j) (len j) (tv j)).2 := by
  obtain ⟨s1, hg, hi1, hft, hnf, hnm, hd1, hfs⟩ :=
    feed_inv_get cfg key tv j s hT hinv (fun h => hrot j h (by omega))
  have hslot : ∀ i, probe_slot cfg (flow_hash_0 cfg (key j)) i = flow_slot cfg (key 0) i := by
    intro i
    rw [hhash j (by omega)]
    rfl
  have hmiss : ∀ i, i < j → probe_miss cfg (s1.tables 0).flowtab (key j) i := by
    intro i hi
    unfold probe_miss
    rw [hslot, hft, hinv.keys i hi]
    exact ⟨hdist i j (by omega) (by omega) (by omega), hnn i (by omega)⟩
  have hnull : flowkey_match
      ((s1.tables 0).flowtab (probe_slot cfg (flow_hash_0 cfg (key j)) j)).key null_key = true := by
    rw [hslot, hft]
    apply hinv.empties
    intro i hi heq
    have := probe_slot_inj cfg hB (flow_hash_0 cfg (key 0)) j i hj (by omega) heq
    omega
  have hk : flowkey_match
      ((s1.tables 0).flowtab (probe_slot cfg (flow_hash_0 cfg (key j)) j)).key (key j) = false :=
    flowkey_match_null_ne _ _ hnull (hnn j (by omega))
  have hp := flowmon_probe_insert cfg (key j) (dir j) (flags j) (len j) (tv j) PNA_TABLE_TRIES j
    (s1.tables 0) hj hmiss hk hnull
  rw [flowmon_hook_some cfg s s1 0 (key j) (dir j) (flags j) (len j) (tv j) _ _ hg hp]
  refine ⟨rfl, ?_⟩
  dsimp only
  rw [hslot] at *
  refine ⟨hi1, fun h => absurd h (Nat.succ_ne_zero j), fun _ => ?_, ?_, ?_, ?_, ?_⟩
  · simp only [upd_same]
    exact ⟨hd1, hfs⟩
  · intro i hi
    simp only [upd_same]
    by_cases hij : i = j
    · subst hij
      rw [upd_same]
    · have hne : flow_slot cfg (key 0) i ≠ flow_slot cfg (key 0) j := fun heq =>
        hij (probe_slot_inj cfg hB (flow_hash_0 cfg (key 0)) i j (by omega) hj heq)
      rw [upd_other _ _ _ _ hne, hft]
      exact hinv.keys i (by omega)
  · intro sl hsl
    simp only [upd_same]
    have hne : sl ≠ flow_slot cfg (key 0) j := hsl j (by omega)
    rw [upd_other _ _ _ _ hne, hft]
    exact hinv.empties sl (fun i hi => hsl i (by omega))
  · simp only [upd_same]
    rw [hnf, hinv.nflows]
    unfold U32
    omega
  · simp only [upd_same]
    rw [hnm, hinv.missed]

theorem feed_inv_init (cfg : pna_config) (key : Nat → pna_flowkey) (tv0 : Int) :
    feed_inv cfg key tv0 0 flowmon_init :=
  ⟨rfl, fun _ => ⟨rfl, rfl⟩, fun h => absurd h (Nat.lt_irrefl 0), fun i hi => absurd hi (Nat.not_lt_zero i),
   fun _ _ => rfl, rfl, rfl⟩

/-- The first `j` keys of a family of `N` keys with one hash are all inserted, for
`j` up to 32 and up to `N`. -/
theorem feed_prefix (cfg : pna_config) (key : Nat → pna_flowkey) (dir : Nat → Fin 2)
    (flags len : Nat → Nat) (tv : Nat → Int) (N : Nat)
    (hT : 0 < cfg.pna_tables) (hB : 5 ≤ cfg.pna_bits ∧ cfg.pna_bits ≤ 31)
    (hdist : ∀ a b, a < N → b < N → a ≠ b → flowkey_match (key a) (key b) = false)
    (hnn : ∀ a, a < N → flowkey_match (key a) null_key = false)
    (hhash : ∀ a, a < N → flow_hash_0 cfg (key a) = flow_hash_0 cfg (key 0))
    (hrot : ∀ a, 0 < a → a < N → rotation_due (to_u32 (tv 0)) (tv a) = false) :
    ∀ j, j ≤ 32 → j ≤ N → feed_inv cfg key (tv 0) j (feed cfg key dir flags len tv j).1 ∧
      (feed cfg key dir flags len tv j).2 = List.replicate j 1 := by
  intro j
  induction j with
  | zero => intro _ _; exact ⟨feed_inv_init cfg key (tv 0), rfl⟩
  | succ j ih =>
    intro hj hjN
    obtain ⟨hinv, hres⟩ := ih (by omega) (by omega)
    obtain ⟨h1, h2⟩ := feed_inv_insert cfg key dir flags len tv N j _ hT hB (by omega)
      (by omega) hdist hnn hhash hrot hinv
    refine ⟨h2, ?_⟩
    simp only [feed, hres, h1]
    exact (List.replicate_succ' j (1 : Int)).symm

/-- C28 (amended, tables of at least 32 slots): for every pool with `5 <= B <= 30`
and 33 keys that are pairwise different, not null and all hash to the same
slot, fed into the initial pool by packets that cause no rotation, the first
32 calls of `flowmon_hook` return 1 (inserted) and the 33rd returns -1 (dropped),
after which the table has `nflows = 32` and `nflows_missed = 1`. -/
theorem C28_probe_budget_scenario (cfg : pna_config) (key : Nat → pna_flowkey)
    (dir : Nat → Fin 2) (flags len : Nat → Nat) (tv : Nat → Int)
    (hT : 0 < cfg.pna_tables) (hB : 5 ≤ cfg.pna_bits ∧ cfg.pna_bits ≤ 30)
    (hdist : ∀ a b, a < 33 → b < 33 → a ≠ b → flowkey_match (key a) (key b) = false)
    (hnn : ∀ a, a < 33 → flowkey_match (key a) null_key = false)
    (hhash : ∀ a, a < 33 → flow_hash_0 cfg (key a) = flow_hash_0 cfg (key 0))
    (hrot : ∀ a, 0 < a → a < 33 → rotation_due (to_u32 (tv 0)) (tv a) = false) :
    (feed cfg key dir flags len tv 33).2 = List.replicate 32 1 ++ [-1] ∧
    ((feed cfg key dir flags len tv 33).1.tables 0).nflows = 32 ∧
    ((feed cfg key dir flags len tv 33).1.tables 0).nflows_missed = 1 := by
  obtain ⟨hinv, hres⟩ := feed_prefix cfg key dir flags len tv 33 hT ⟨hB.1, by omega⟩ hdist hnn
    hhash hrot 32 (Nat.le_refl _) (by omega)
  obtain ⟨s1, hg, hi1, hft, hnf, hnm, hd1, hfs⟩ :=
    feed_inv_get cfg key tv 32 _ hT hinv (fun h => hrot 32 h (by omega))
  have hslot : ∀ i, probe_slot cfg (flow_hash_0 cfg (key 32)) i = flow_slot cfg (key 0) i := by
    intro i
    rw [hhash 32 (by omega)]
    rfl
  have hmiss : ∀ i, i < PNA_TABLE_TRIES → probe_miss cfg (s1.tables 0).flowtab (key 32) i := by
    intro i hi
    have hi32 : i < 32 := hi
    unfold probe_miss
    rw [hslot, hft, hinv.keys i hi32]
    exact ⟨hdist i 32 (by omega) (by omega) (by omega), hnn i (by omega)⟩
  have hp := flowmon_probe_exhaust cfg (key 32) (dir 32) (flags 32) (len 32) (tv 32)
    PNA_TABLE_TRIES (s1.tables 0) hmiss
  have hh := flowmon_hook_some cfg _ s1 0 (key 32) (dir 32) (flags 32) (len 32) (tv 32) _ _ hg hp
  dsimp only at hh
  have hfeed : feed cfg key dir flags len tv 33
      = ((flowmon_hook cfg (feed cfg key dir flags len tv 32).1 (key 32) (dir 32) (flags 32)
            (len 32) (tv 32)).2,
         (feed cfg key dir flags len tv 32).2 ++
           [(flowmon_hook cfg (feed cfg key dir flags len tv 32).1 (key 32) (dir 32) (flags 32)
              (len 32) (tv 32)).1]) := rfl
  rw [hfeed, hh, hres]
  refine ⟨rfl, ?_, ?_⟩
  · simp only [upd_same]
    rw [hnf, hinv.nflows]
  · simp only [upd_same]
    rw [hnm, hinv.missed]
    rfl

set_option maxRecDepth 100000 in
/-- Counterexample to C28 as stated: with `B = 4` the table has 16 slots.  Of 33
different keys that hash to the same slot, fed at second 1001, the first 16
are inserted and the other 17 are dropped: `nflows = 16`, `nflows_missed = 17`. -/
theorem C28_counterexample :
    (∀ a, a < 33 → flow_hash_0 cfg_2_4 (key_s6 a) = flow_hash_0 cfg_2_4 (key_s6 0)) ∧
    (feed cfg_2_4 key_s6 (fun _ => 0) (fun _ => 0) (fun _ => 100) (fun _ => 1001) 33).2
      = List.replicate 16 1 ++ List.replicate 17 (-1) ∧
    ((feed cfg_2_4 key_s6 (fun _ => 0) (fun _ => 0) (fun _ => 100) (fun _ => 1001) 33).1.tables
      0).nflows = 16 ∧
    ((feed cfg_2_4 key_s6 (fun _ => 0) (fun _ => 0) (fun _ => 100) (fun _ => 1001) 33).1.tables
      0).nflows_missed = 17 := by
  decide!

set_option maxRecDepth 100000 in
/-- Witness for C28: the 33 keys `key_s6 0` .. `key_s6 32` in a pool with `B = 5`, all
fed at second 1001. -/
theorem C28_probe_budget_scenario_witness :
    (0 < cfg_2_5.pna_tables ∧ 5 ≤ cfg_2_5.pna_bits ∧ cfg_2_5.pna_bits ≤ 30) ∧
    (∀ a, a < 33 → ∀ b, b < 33 → a ≠ b → flowkey_match (key_s6 a) (key_s6 b) = false) ∧
    (∀ a, a < 33 → flowkey_match (key_s6 a) null_key = false) ∧
    (∀ a, a < 33 → flow_hash_0 cfg_2_5 (key_s6 a) = flow_hash_0 cfg_2_5 (key_s6 0)) ∧
    rotation_due (to_u32 1001) 1001 = false ∧
    (feed cfg_2_5 key_s6 (fun _ => 0) (fun _ => 0) (fun _ => 100) (fun _ => 1001) 33).2
      = List.replicate 32 1 ++ [-1] ∧
    ((feed cfg_2_5 key_s6 (fun _ => 0) (fun _ => 0) (fun _ => 100) (fun _ => 1001) 33).1.tables
      0).nflows = 32 ∧
    ((feed cfg_2_5 key_s6 (fun _ => 0) (fun _ => 0) (fun _ => 100) (fun _ => 1001) 33).1.tables
      0).nflows_missed = 1 :=
  have hd : ∀ a, a < 33 → ∀ b, b < 33 → a ≠ b → flowkey_match (key_s6 a) (key_s6 b) = false := by
    decide!
  have hn : ∀ a, a < 33 → flowkey_match (key_s6 a) null_key = false := by decide!
  have hh : ∀ a, a < 33 → flow_hash_0 cfg_2_5 (key_s6 a) = flow_hash_0 cfg_2_5 (key_s6 0) := by
    decide!
  ⟨by decide, hd, hn, hh, by decide,
   C28_probe_budget_scenario cfg_2_5 key_s6 (fun _ => 0) (fun _ => 0) (fun _ => 100)
     (fun _ => 1001) (by decide) (by decide) (fun a b ha hb hab => hd a ha b hb hab) hn hh
     (fun _ _ _ => (by decide : rotation_due (to_u32 1001) 1001 = false))⟩

/-! ### Flushing with short writes -/

theorem write_at_end (fd : file_state) (buffer : List Nat) (c : Nat)
    (hpos : fd.pos = fd.data.length) (hc : 0 < c) :
    write fd buffer c = ({ data := fd.data ++ buffer.take c, pos := fd.pos + c }, c) := by
  unfold write
  rw [if_neg (by omega)]
  have hd : List.drop (fd.data.length + c) fd.data = [] :=
    List.drop_of_length_le (by omega)
  simp only [hpos, Nat.sub_self, List.replicate_zero, List.append_nil, List.take_length, hd]

/-- When every `write` transfers all it is asked for, the model with given results is the
model `buf_flush_loop` used for `dump_table`. -/
theorem buf_flush_short_full (fuel k : Nat) (fd : file_state) (buffer : List Nat) (n : Nat) :
    buf_flush_short (fun _ c => c) fuel k fd buffer (n : Int)
      = ((buf_flush_loop fuel fd buffer n).1, ((buf_flush_loop fuel fd buffer n).2 : Int)) := by
  induction fuel generalizing k fd n with
  | zero => simp [buf_flush_short, buf_flush_loop]
  | succ fuel ih =>
    by_cases hn : 0 < n
    · have hn1 : (0 : Int) < (n : Int) := by exact_mod_cast hn
      have hn2 : (0 : Int) ≤ (n : Int) := by omega
      have hw : (write fd buffer n).2 = n := by
        unfold write
        rw [if_neg (by omega)]
      have h0 := ih (k + 1) (write fd buffer n).1 0
      simp only [Nat.cast_zero] at h0
      simp only [buf_flush_short, buf_flush_loop, if_pos hn1, if_pos hn2, if_pos hn,
        Int.toNat_ofNat, sub_self, hw, Nat.sub_self, h0]
    · have hn0 : n = 0 := by omega
      subst hn0
      simp [buf_flush_short, buf_flush_loop]

/-- With results that are positive and not larger than the request, `buf_flush` returns
0 after at most `n` rounds, and the file has grown by exactly `n` bytes after
its old contents. -/
theorem buf_flush_short_returns (results : Nat → Int → Int)
    (hres : ∀ k c, 0 < c → 1 ≤ results k c ∧ results k c ≤ c)
    (fuel k : Nat) (fd : file_state) (buffer : List Nat) (n : Nat)
    (hfuel : n ≤ fuel) (hn : n ≤ buffer.length) (hpos : fd.pos = fd.data.length) :
    ∃ fd1, buf_flush_short results fuel k fd buffer (n : Int) = (fd1, 0) ∧
      fd1.data.length = fd.data.length + n ∧ fd1.pos = fd1.data.length ∧
      fd1.data.take fd.data.length = fd.data := by
  induction fuel generalizing k fd n with
  | zero =>
    have hn0 : n = 0 := by omega
    subst hn0
    exact ⟨fd, by simp [buf_flush_short], by simp, hpos, by simp⟩
  | succ fuel ih =>
    by_cases h0 : 0 < n
    · have hn1 : (0 : Int) < (n : Int) := by exact_mod_cast h0
      obtain ⟨hr1, hr2⟩ := hres k (n : Int) hn1
      obtain ⟨c, hc⟩ : ∃ c : Nat, results k (n : Int) = (c : Int) :=
        ⟨(results k (n : Int)).toNat, (Int.toNat_of_nonneg (by omega)).symm⟩
      rw [hc] at hr1 hr2
      have hc1 : 1 ≤ c := by exact_mod_cast hr1
      have hc2 : c ≤ n := by exact_mod_cast hr2
      have hsub : ((n : Int) - (c : Int)) = ((n - c : Nat) : Int) := by omega
      have hw := write_at_end fd buffer c hpos (by omega)
      have hlen : (fd.data ++ buffer.take c).length = fd.data.length + c := by
        rw [List.length_append, List.length_take, Nat.min_eq_left (by omega)]
      obtain ⟨fd1, h1, h2, h3, h4⟩ := ih (k + 1)
        { data := fd.data ++ buffer.take c, pos := fd.pos + c } (n - c) (by omega) (by omega)
        (by show fd.pos + c = (fd.data ++ buffer.take c).length; omega)
      refine ⟨fd1, ?_, ?_, h3, ?_⟩
      · simp only [buf_flush_short, if_pos hn1, hc, Int.toNat_ofNat, hw, hsub,
          if_pos (Int.ofNat_nonneg c)]
        exact h1
      · rw [h2]
        show (fd.data ++ buffer.take c).length + (n - c) = fd.data.length + n
        omega
      · have h5 := congrArg (List.take fd.data.length) h4
        rw [List.take_take, Nat.min_eq_left (by
          show fd.data.length ≤ (fd.data ++ buffer.take c).length
          omega)] at h5
        rw [h5]
        show List.take fd.data.length (fd.data ++ buffer.take c) = fd.data
        exact List.take_left _ _
    · have hn0 : n = 0 := by omega
      subst hn0
      exact ⟨fd, by simp [buf_flush_short], by simp, hpos, by simp⟩

/-- C29, the code at the failing input: a buffer of the three bytes 1, 2, 3 is
flushed to an empty file, the first `write` transfers one byte and the second
the two bytes it is asked for.  `buf_flush` returns 0 after two calls and three
bytes have been appended, but they are 1, 1, 2: the second `write` starts at
the beginning of the buffer again, since only `buf_idx` is reduced and the
pointer `buffer` is never advanced.  With writes that transfer in full the file
is 1, 2, 3. -/
theorem C29_short_write_repeats_bytes :
    buf_flush_short results_one_then_all 3 0 file_created [1, 2, 3] 3
      = ({ data := [1, 1, 2], pos := 3 }, 0) ∧
    buf_flush_short (fun _ c => c) 3 0 file_created [1, 2, 3] 3
      = ({ data := [1, 2, 3], pos := 3 }, 0) := by
  decide

/-! ### The locks of the table pool -/

theorem claim_state_lock_inv (cfg : pna_config) (s : flowmon_state) (tv_sec : Int)
    (hidx : s.flowtab_idx < cfg.pna_tables)
    (hothers : ∀ t, t ≠ s.flowtab_idx →
      (s.tables t).read_mutex = false ∧ (s.tables t).table_dirty = 0)
    (hcur : (s.tables s.flowtab_idx).table_dirty = 0) (hmiss : s.lock_misses = 0) :
    lock_inv cfg (claim_state s tv_sec) ∧
    ((claim_state s tv_sec).tables (claim_state s tv_sec).flowtab_idx).read_mutex = true ∧
    ((claim_state s tv_sec).tables (claim_state s tv_sec).flowtab_idx).table_dirty ≠ 0 := by
  have hidx1 : (claim_state s tv_sec).flowtab_idx = s.flowtab_idx := rfl
  have hcurt : (claim_state s tv_sec).tables s.flowtab_idx
      = claim_table (s.tables s.flowtab_idx) tv_sec := by
    simp only [claim_state, upd_same]
  have hm : (claim_table (s.tables s.flowtab_idx) tv_sec).read_mutex = true := by
    rw [claim_table_clean _ _ hcur]
  have hd : (claim_table (s.tables s.flowtab_idx) tv_sec).table_dirty ≠ 0 := by
    rw [claim_table_clean _ _ hcur]
    show (1 : Int) ≠ 0
    decide
  refine ⟨⟨hidx, ?_, ?_, ?_, hmiss⟩, ?_, ?_⟩
  · intro t ht
    rw [hidx1] at ht
    have : (claim_state s tv_sec).tables t = s.tables t := by
      simp only [claim_state]
      exact upd_other _ _ _ _ ht
    rw [this]
    exact hothers t ht
  · intro h0
    rw [hidx1, hcurt] at h0
    exact absurd h0 hd
  · intro _
    rw [hidx1, hcurt]
    exact hm
  · rw [hidx1, hcurt]
    exact hm
  · rw [hidx1, hcurt]
    exact hd

/-- Under the invariant `flowtab_get` returns the current table of the state it leaves,
locked and dirty, and the invariant holds again. -/
theorem flowtab_get_lock_inv (cfg : pna_config) (hT : 0 < cfg.pna_tables) (s : flowmon_state)
    (tv_sec : Int) (h : lock_inv cfg s) :
    (flowtab_get cfg s tv_sec).2 = some (flowtab_get cfg s tv_sec).1.flowtab_idx ∧
    lock_inv cfg (flowtab_get cfg s tv_sec).1 ∧
    ((flowtab_get cfg s tv_sec).1.tables (flowtab_get cfg s tv_sec).1.flowtab_idx).read_mutex
      = true ∧
    ((flowtab_get cfg s tv_sec).1.tables (flowtab_get cfg s tv_sec).1.flowtab_idx).table_dirty
      ≠ 0 := by
  by_cases hr : rotates s tv_sec
  · rw [flowtab_get_rot cfg s tv_sec hr]
    have hs1 : ∃ s1, s1 = flowtab_next cfg (flowtab_dump s s.flowtab_idx) := ⟨_, rfl⟩
    obtain ⟨s1, hs1⟩ := hs1
    rw [← hs1]
    have hidx1 : s1.flowtab_idx = (s.flowtab_idx + 1) % cfg.pna_tables := by
      rw [hs1]; rfl
    have hlt : s1.flowtab_idx < cfg.pna_tables := by
      rw [hidx1]; exact Nat.mod_lt _ hT
    have htab : ∀ t, (s1.tables t).read_mutex = false ∧ (s1.tables t).table_dirty = 0 := by
      intro t
      rw [hs1]
      by_cases ht : t = s.flowtab_idx
      · subst ht
        simp [flowtab_next, flowtab_dump, flowtab_clean, upd]
      · have : (flowtab_next cfg (flowtab_dump s s.flowtab_idx)).tables t = s.tables t := by
          simp [flowtab_next, flowtab_dump, upd, ht]
        rw [this]
        exact h.others_free t ht
    have hmiss : s1.lock_misses = 0 := by
      rw [hs1]; exact h.misses
    rw [flowtab_get_claim_free cfg s1 tv_sec hT (htab _).1]
    obtain ⟨a, b, c⟩ := claim_state_lock_inv cfg s1 tv_sec hlt (fun t _ => htab t)
      (htab _).2 hmiss
    exact ⟨rfl, a, b, c⟩
  · by_cases hd : (s.tables s.flowtab_idx).table_dirty = 0
    · rw [flowtab_get_clean cfg s tv_sec hd,
        flowtab_get_claim_free cfg s tv_sec hT (h.cur_free hd)]
      obtain ⟨a, b, c⟩ := claim_state_lock_inv cfg s tv_sec h.idx_lt h.others_free hd h.misses
      exact ⟨rfl, a, b, c⟩
    · rw [flowtab_get_keep cfg s tv_sec hd hr]
      exact ⟨rfl, h, h.cur_locked hd, hd⟩

theorem flowmon_probe_locks (cfg : pna_config) (key : pna_flowkey) (direction : Fin 2)
    (flags pkt_len : Nat) (tv_sec : Int) (hash_0 : Nat) :
    ∀ n i info,
      (flowmon_probe cfg key direction flags pkt_len tv_sec hash_0 n i info).2.read_mutex
        = info.read_mutex ∧
      (flowmon_probe cfg key direction flags pkt_len tv_sec hash_0 n i info).2.table_dirty
        = info.table_dirty := by
  intro n
  induction n with
  | zero => intro i info; exact ⟨rfl, rfl⟩
  | succ n ih =>
    intro i info
    unfold flowmon_probe
    dsimp only
    split
    · exact ⟨rfl, rfl⟩
    · split
      · exact ⟨rfl, rfl⟩
      · exact ih (i + 1) _

theorem lock_inv_upd (cfg : pna_config) (s : flowmon_state) (info : flowtab_info)
    (h : lock_inv cfg s) (hm : info.read_mutex = (s.tables s.flowtab_idx).read_mutex)
    (hd : info.table_dirty = (s.tables s.flowtab_idx).table_dirty) :
    lock_inv cfg { s with tables := upd s.tables s.flowtab_idx info } := by
  refine ⟨h.idx_lt, ?_, ?_, ?_, h.misses⟩
  · intro t ht
    have ht1 : t ≠ s.flowtab_idx := ht
    show (upd s.tables s.flowtab_idx info t).read_mutex = false ∧
      (upd s.tables s.flowtab_idx info t).table_dirty = 0
    rw [upd_other _ _ _ _ ht1]
    exact h.others_free t ht1
  · show (upd s.tables s.flowtab_idx info s.flowtab_idx).table_dirty = 0 →
      (upd s.tables s.flowtab_idx info s.flowtab_idx).read_mutex = false
    rw [upd_same, hm, hd]
    exact h.cur_free
  · show (upd s.tables s.flowtab_idx info s.flowtab_idx).table_dirty ≠ 0 →
      (upd s.tables s.flowtab_idx info s.flowtab_idx).read_mutex = true
    rw [upd_same, hm, hd]
    exact h.cur_locked

theorem flowmon_hook_lock_inv (cfg : pna_config) (hT : 0 < cfg.pna_tables) (s : flowmon_state)
    (key : pna_flowkey) (direction : Fin 2) (flags pkt_len : Nat) (tv_sec : Int)
    (h : lock_inv cfg s) :
    lock_inv cfg (flowmon_hook cfg s key direction flags pkt_len tv_sec).2 := by
  obtain ⟨hidx, hinv, _, _⟩ := flowtab_get_lock_inv cfg hT s tv_sec h
  have hget : flowtab_get cfg s tv_sec
      = ((flowtab_get cfg s tv_sec).1, some (flowtab_get cfg s tv_sec).1.flowtab_idx) :=
    Prod.ext rfl hidx
  generalize (flowtab_get cfg s tv_sec).1 = s1 at hget hinv
  cases hp : flowmon_probe cfg key direction flags pkt_len tv_sec (flow_hash_0 cfg key)
      PNA_TABLE_TRIES 0 (s1.tables s1.flowtab_idx) with
  | mk ret info1 =>
    have hl := flowmon_probe_locks cfg key direction flags pkt_len tv_sec (flow_hash_0 cfg key)
      PNA_TABLE_TRIES 0 (s1.tables s1.flowtab_idx)
    rw [hp] at hl
    rw [flowmon_hook_some cfg s s1 s1.flowtab_idx key direction flags pkt_len tv_sec ret info1
      hget hp]
    cases ret with
    | some r => exact lock_inv_upd cfg s1 info1 hinv hl.1 hl.2
    | none => exact lock_inv_upd cfg s1 _ hinv hl.1 hl.2

theorem flowmon_init_lock_inv (cfg : pna_config) (hT : 0 < cfg.pna_tables) :
    lock_inv cfg flowmon_init :=
  ⟨hT, fun _ _ => ⟨rfl, rfl⟩, fun _ => rfl, fun h => absurd rfl h, rfl⟩

theorem flowmon_reachable_any_lock_inv (cfg : pna_config) (hT : 0 < cfg.pna_tables)
    (s : flowmon_state) (hs : flowmon_reachable_any cfg s) : lock_inv cfg s := by
  induction hs with
  | init => exact flowmon_init_lock_inv cfg hT
  | hook s key direction flags pkt_len tv_sec _ ih =>
    exact flowmon_hook_lock_inv cfg hT s key direction flags pkt_len tv_sec ih

/-- C30: in every state of the pool reached from `flowmon_init` by calls of
`flowmon_hook` with any arguments, `flowtab_get` at any timestamp returns a
table (never NULL): an index below `pna_tables` whose mutex it holds, and the
counter of lock misses is still zero. -/
theorem C30_table_always_available (cfg : pna_config) (hT : 0 < cfg.pna_tables)
    (s : flowmon_state) (hs : flowmon_reachable_any cfg s) (tv_sec : Int) :
    ∃ idx, (flowtab_get cfg s tv_sec).2 = some idx ∧ idx < cfg.pna_tables ∧
      ((flowtab_get cfg s tv_sec).1.tables idx).read_mutex = true ∧
      (flowtab_get cfg s tv_sec).1.lock_misses = 0 := by
  obtain ⟨h1, h2, h3, _⟩ :=
    flowtab_get_lock_inv cfg hT s tv_sec (flowmon_reachable_any_lock_inv cfg hT s hs)
  exact ⟨_, h1, h2.idx_lt, h3, h2.misses⟩

/-- C30 at the state after the first packet of scenario S1, for a packet ten seconds later
(which makes `flowtab_get` dump table 0 and move on). -/
theorem C30_table_always_available_witness :
    0 < cfg_2_4.pna_tables ∧ flowmon_reachable_any cfg_2_4 state_s1 ∧
    ∃ idx, (flowtab_get cfg_2_4 state_s1 1700000010).2 = some idx ∧ idx < cfg_2_4.pna_tables ∧
      ((flowtab_get cfg_2_4 state_s1 1700000010).1.tables idx).read_mutex = true ∧
      (flowtab_get cfg_2_4 state_s1 1700000010).1.lock_misses = 0 :=
  ⟨by decide, flowmon_reachable_any.hook _ _ _ _ _ _ flowmon_reachable_any.init,
   C30_table_always_available cfg_2_4 (by decide) state_s1
     (flowmon_reachable_any.hook _ _ _ _ _ _ flowmon_reachable_any.init) 1700000010⟩

/-! ### The keys handed to `flowmon_hook` are not null -/

theorem flowkey_match_l3 (k : pna_flowkey) (h : k.l3_protocol = 0x0800) :
    flowkey_match k null_key = false ∧ Dump.flowkey_match k null_key = false ∧ k ≠ null_key := by
  have hne : k ≠ null_key := by
    intro hk
    rw [hk] at h
    exact absurd h (by decide)
  refine ⟨?_, ?_, hne⟩
  · unfold flowkey_match
    have : ¬ (k.l3_protocol = null_key.l3_protocol) := by
      rw [h]; decide
    simp [this]
  · unfold Dump.flowkey_match
    simp [hne]

theorem pna_hook_decode_zero (fuel : Nat) (head : pna_dtrie_entry) (fs : frag_state)
    (pkt_len : Nat) :
    pna_hook_decode (fuel + 1) head fs pkt_len pkt_zero = some (fs, none) := by
  have h12 : rd16 pkt_zero 12 = 0 := by decide
  have hv : vlan_loop pkt_zero PNA_MAX_CHECKS 0 0 pkt_len 0 = (0, 0, pkt_len, 0) := by
    simp [PNA_MAX_CHECKS, vlan_loop, ETHERTYPE_VLAN]
  have hne : ¬ ((0 : Nat) = PNA_MAX_CHECKS) := by decide
  have hl3 : ¬ ((0 : Nat) = ETHERTYPE_IP) := by decide
  have hdrop : (NET_RX_DROP ≠ (0 : Int)) := by decide
  simp only [pna_hook_decode, h12, hv, hne, if_false, ether_hook, hl3, hdrop, ne_eq,
    not_false_eq_true, if_true]

/-- C33: every key that `pna_hook` passes to `flowmon_hook` has `l3_protocol = 0x0800`,
and a key with that `l3_protocol` is not the null key, neither for the
`flowkey_match` of the flow table nor for the `memcmp` of the dumper, whatever
its other seven fields are; a frame of zero bytes of any length is dropped
before `flowmon_hook` and leaves the whole state as it is. -/
theorem C33_accepted_key_not_null (fuel : Nat) (head : pna_dtrie_entry) (fs fs1 : frag_state)
    (pkt_len : Nat) (pkt : Nat → Nat) (key : pna_flowkey) (direction : Fin 2) (flags : Nat)
    (h : pna_hook_decode fuel head fs pkt_len pkt = some (fs1, some (key, direction, flags))) :
    key.l3_protocol = 0x0800 ∧
    (∀ k : pna_flowkey, k.l3_protocol = 0x0800 →
      flowkey_match k null_key = false ∧ Dump.flowkey_match k null_key = false ∧ k ≠ null_key) ∧
    flowkey_match key null_key = false ∧
    (∀ fuel1 head1 fs0 len1,
      pna_hook_decode (fuel1 + 1) head1 fs0 len1 pkt_zero = some (fs0, none)) ∧
    (∀ fuel1 cfg st len1 tv_sec,
      pna_hook (fuel1 + 1) cfg st len1 tv_sec pkt_zero = some (none, st)) := by
  obtain ⟨_, _, _, _, hl3, _⟩ :=
    pna_hook_decode_accept fuel head fs fs1 pkt_len pkt key direction flags h
  have hl3x : key.l3_protocol = 0x0800 := hl3
  refine ⟨hl3x, flowkey_match_l3, (flowkey_match_l3 key hl3x).1, pna_hook_decode_zero, ?_⟩
  intro fuel1 cfg st len1 tv_sec
  unfold pna_hook
  rw [pna_hook_decode_zero]

/-- Witness for C33: the frame of scenario S1 under the trie `10.0.0.0/8 -> 1`. -/
theorem C33_accepted_key_not_null_witness :
    ∃ fs1, pna_hook_decode 1 trie_10_8 frag_init 114 (pkt_of frame_s1)
        = some (fs1, some (key_s1, 0, 0x02)) ∧
      key_s1.l3_protocol = 0x0800 ∧
      (∀ k : pna_flowkey, k.l3_protocol = 0x0800 →
        flowkey_match k null_key = false ∧ Dump.flowkey_match k null_key = false ∧
          k ≠ null_key) ∧
      flowkey_match key_s1 null_key = false ∧
      (∀ fuel1 head1 fs0 len1,
        pna_hook_decode (fuel1 + 1) head1 fs0 len1 pkt_zero = some (fs0, none)) ∧
      (∀ fuel1 cfg st len1 tv_sec,
        pna_hook (fuel1 + 1) cfg st len1 tv_sec pkt_zero = some (none, st)) := by
  obtain ⟨fs1, h⟩ := pna_hook_decode_some_of_map 1 trie_10_8 frag_init 114 (pkt_of frame_s1)
    (some (key_s1, 0, 0x02)) (by decide)
  exact ⟨fs1, h, C33_accepted_key_not_null 1 trie_10_8 frag_init fs1 114 (pkt_of frame_s1)
    key_s1 0 0x02 h⟩

/-! ### The shifts evaluated by `pna_dtrie_lookup` -/

theorem dtrie_height_alloc_if_null (t : pna_dtrie_entry) :
    dtrie_height (alloc_if_null t) ≤ max (dtrie_height t) 1 ∧ alloc_if_null t ≠ .null := by
  cases t with
  | null => exact ⟨by decide, by decide⟩
  | node isp dom c0 c1 => exact ⟨Nat.le_max_left _ _, by simp [alloc_if_null]⟩

theorem add_loop_height (pfx dom : Nat) :
    ∀ n d t, t ≠ .null →
      dtrie_height (pna_dtrie_add_loop pfx dom n d t) ≤ max (dtrie_height t) (n + 1) := by
  intro n
  induction n with
  | zero =>
    intro d t ht
    cases t with
    | null => exact absurd rfl ht
    | node isp dm c0 c1 =>
      simp only [pna_dtrie_add_loop, set_prefix, dtrie_height]
      exact Nat.le_max_left _ _
  | succ n ih =>
    intro d t ht
    cases t with
    | null => exact absurd rfl ht
    | node isp dm c0 c1 =>
      obtain ⟨h0, hn0⟩ := dtrie_height_alloc_if_null c0
      obtain ⟨h1, hn1⟩ := dtrie_height_alloc_if_null c1
      have i0 := ih (d + 1) (alloc_if_null c0) hn0
      have i1 := ih (d + 1) (alloc_if_null c1) hn1
      simp only [pna_dtrie_add_loop]
      split
      · simp only [dtrie_height]
        omega
      · simp only [dtrie_height]
        omega

theorem pna_dtrie_add_height (head : pna_dtrie_entry) (pfx M dom : Nat)
    (hne : head ≠ .null) (hh : dtrie_height head ≤ 33) :
    dtrie_height (pna_dtrie_add head pfx M dom).2 ≤ 33 := by
  unfold pna_dtrie_add
  by_cases hM : 0 < M ∧ M ≤ 32
  · rw [if_neg (not_not.mpr hM)]
    refine Nat.le_trans (add_loop_height _ dom M 0 head hne) ?_
    have hM2 := hM.2
    omega
  · rw [if_pos hM]
    exact hh

/-- Every trie that calls of `pna_dtrie_add` build from the initial head has at most 32
levels below the root. -/
theorem dtrie_build_height (l : List (Nat × Nat × Nat)) :
    ∀ head t, head ≠ .null → dtrie_height head ≤ 33 → dtrie_build head l = some t →
      dtrie_height t ≤ 33 := by
  induction l with
  | nil =>
    intro head t _ hh h
    simp only [dtrie_build, Option.some.injEq] at h
    rw [← h]; exact hh
  | cons e rest ih =>
    intro head t hne hh h
    simp only [dtrie_build] at h
    split at h
    · rename_i h0
      exact ih _ t (dtrie_add_ne_null head e.1 e.2.1 e.2.2 hne)
        (pna_dtrie_add_height head e.1 e.2.1 e.2.2 hne hh) h
    · cases h

theorem lookup_shifts_loop_length (ip : Nat) :
    ∀ t pos, (pna_dtrie_lookup_shifts_loop ip t pos).length ≤ dtrie_height t := by
  intro t
  induction t with
  | null => intro pos; simp [pna_dtrie_lookup_shifts_loop, dtrie_height]
  | node isp dom c0 c1 ih0 ih1 =>
    intro pos
    have h0 := ih0 (pos + 1)
    have h1 := ih1 (pos + 1)
    simp only [pna_dtrie_lookup_shifts_loop, dtrie_height, List.length_cons]
    split <;> omega

theorem lookup_shifts_loop_get (ip : Nat) :
    ∀ t pos k, k < (pna_dtrie_lookup_shifts_loop ip t pos).length →
      (pna_dtrie_lookup_shifts_loop ip t pos).getD k 0 = sub32 31 (pos + 1 + k) := by
  intro t
  induction t with
  | null => intro pos k hk; simp [pna_dtrie_lookup_shifts_loop] at hk
  | node isp dom c0 c1 ih0 ih1 =>
    intro pos k hk
    simp only [pna_dtrie_lookup_shifts_loop, List.length_cons] at hk ⊢
    cases k with
    | zero => simp
    | succ k =>
      have e : pos + 1 + 1 + k = pos + 1 + (k + 1) := by omega
      simp only [List.getD_cons_succ]
      split
      · rename_i hb
        simp only [hb, if_true] at hk
        rw [ih0 (pos + 1) k (by omega), e]
      · rename_i hb
        simp only [hb, if_false] at hk
        rw [ih1 (pos + 1) k (by omega), e]

/-- On a trie of at most 32 levels below the root (every trie `pna_dtrie_add` builds),
`pna_dtrie_lookup` visits at most 32 nodes below the root, evaluation number
`k` (from 0) shifts by `31 - k` as an `unsigned int`, and this lies in 0..31
for every evaluation but the one made after a node at depth 32, where it is
`2^32 - 1`. -/
theorem lookup_shifts_spec (head : pna_dtrie_entry) (ip : Nat) (hh : dtrie_height head ≤ 33) :
    (pna_dtrie_lookup_shifts head ip).length ≤ 33 ∧
    (∀ k, k < (pna_dtrie_lookup_shifts head ip).length →
      (pna_dtrie_lookup_shifts head ip).getD k 0 = sub32 31 k) ∧
    (∀ k, k < 32 → sub32 31 k = 31 - k) ∧ sub32 31 32 = 4294967295 := by
  refine ⟨?_, ?_, ?_, by unfold sub32 U32; rfl⟩
  · cases head with
    | null => exact Nat.zero_le _
    | node isp dom c0 c1 =>
      have h0 := lookup_shifts_loop_length ip c0 0
      have h1 := lookup_shifts_loop_length ip c1 0
      have hh0 : dtrie_height c0 ≤ 32 := by
        have : dtrie_height c0 ≤ max (dtrie_height c0) (dtrie_height c1) := Nat.le_max_left _ _
        simp only [dtrie_height] at hh
        omega
      have hh1 : dtrie_height c1 ≤ 32 := by
        have : dtrie_height c1 ≤ max (dtrie_height c0) (dtrie_height c1) := Nat.le_max_right _ _
        simp only [dtrie_height] at hh
        omega
      simp only [pna_dtrie_lookup_shifts, List.length_cons]
      split <;> omega
  · intro k hk
    cases head with
    | null => exact absurd hk (Nat.not_lt_zero k)
    | node isp dom c0 c1 =>
      simp only [pna_dtrie_lookup_shifts, List.length_cons] at hk ⊢
      cases k with
      | zero => exact List.getD_cons_zero
      | succ k =>
        have e : 0 + 1 + k = k + 1 := by omega
        rw [List.getD_cons_succ]
        split
        · rename_i hb
          rw [if_pos hb] at hk
          rw [lookup_shifts_loop_get ip c0 0 k (by omega), e]
        · rename_i hb
          rw [if_neg hb] at hk
          rw [lookup_shifts_loop_get ip c1 0 k (by omega), e]
  · intro k hk
    unfold sub32 U32
    omega

set_option maxRecDepth 100000 in
/-- C36, the code at the failing input: the trie holds the host prefix
`10.0.0.5/32` (accepted by `pna_dtrie_add`, which returns 0) and the address
looked up is 10.0.0.5.  The lookup terminates with domain 1 after visiting the
32 nodes below the root, and evaluates 33 shifts: by 31, 30, .., 0 and then,
after `cur_bit_pos++` has made `cur_bit_pos` 32 at the leaf, by
`31 - 32 = 4294967295` (as `unsigned int`), which is not in 0..31. -/
theorem C36_host_prefix_shift :
    (pna_dtrie_add pna_dtrie_init 0x0A000005 32 1).1 = 0 ∧
    dtrie_height trie_host = 33 ∧
    pna_dtrie_lookup trie_host 0x0A000005 = 1 ∧
    pna_dtrie_lookup_shifts trie_host 0x0A000005
      = [31, 30, 29, 28, 27, 26, 25, 24, 23, 22, 21, 20, 19, 18, 17, 16, 15, 14, 13, 12, 11, 10,
         9, 8, 7, 6, 5, 4, 3, 2, 1, 0, 4294967295] ∧
    (pna_dtrie_lookup_shifts trie_host 0x0A000005).length = 32 + 1 := by
  decide

/-! ### The records of `dump_table` stay inside the buffer -/

theorem buf_flush_ret (fd : file_state) (buffer : List Nat) (n : Nat) :
    (buf_flush fd buffer n).2 = 0 := by
  cases n with
  | zero => rfl
  | succ n =>
    have hw : (write fd buffer (n + 1)).2 = n + 1 := by
      unfold write
      rw [if_neg (Nat.succ_ne_zero n)]
    simp only [buf_flush, buf_flush_loop, Nat.succ_pos, if_true, hw, Nat.sub_self]
    rw [buf_flush_loop_zero]

theorem range_succ_map (m : Nat) (f : Nat → Nat) :
    (List.range (m + 1)).map f = f 0 :: (List.range m).map (fun k => f (k + 1)) := by
  rw [List.range_succ_eq_map, List.map_cons, List.map_map]
  rfl

/-- With `c < 21845` records in the buffer, the loop of `dump_table` puts the records
of the live entries that follow at the offsets `48 * ((c + k) mod 21845)`. -/
theorem dump_table_offsets_spec (table : Nat → flow_entry) :
    ∀ n idx fd buf c, buf.length = 48 * c → c < 21845 →
      dump_table_offsets table n idx fd buf
        = (List.range (live_entries table n idx).length).map
            (fun k => 48 * ((c + k) % 21845)) := by
  intro n
  induction n with
  | zero =>
    intro idx fd buf c _ _
    simp [dump_table_offsets, live_entries]
  | succ n ih =>
    intro idx fd buf c hlen hc
    by_cases hk : (table idx).key = null_key
    · simp only [dump_table_offsets, live_entries, Dump.flowkey_match, hk, decide_True, if_true]
      exact ih (idx + 1) fd buf c hlen hc
    · have hl1 : (buf ++ log_entry_bytes (log_of_flow (table idx))).length = 48 * c + 48 := by
        rw [List.length_append, log_entry_bytes_length, hlen]
      simp only [dump_table_offsets, live_entries, Dump.flowkey_match, hk, decide_False,
        if_false, List.length_cons, Bool.false_eq_true]
      rw [range_succ_map, hl1, hlen]
      have h0 : 48 * ((c + 0) % 21845) = 48 * c := by
        rw [Nat.add_zero, Nat.mod_eq_of_lt hc]
      rw [h0]
      congr 1
      by_cases hfull : 48 * c + 48 + sizeof_log_entry ≥ BUF_SIZE
      · have hc1 : c = 21844 := by
          unfold sizeof_log_entry BUF_SIZE at hfull
          omega
        rw [if_pos hfull]
        have hr := buf_flush_ret fd (buf ++ log_entry_bytes (log_of_flow (table idx)))
          (48 * c + 48)
        generalize buf_flush fd (buf ++ log_entry_bytes (log_of_flow (table idx)))
          (48 * c + 48) = r at hr
        obtain ⟨fd1, bi⟩ := r
        simp only at hr
        subst hr
        simp only [List.take_zero]
        rw [ih (idx + 1) fd1 [] 0 rfl (by omega)]
        apply List.map_congr_left
        intro k _
        subst hc1
        have : (21844 + (k + 1)) % 21845 = (0 + k) % 21845 := by omega
        rw [this]
      · rw [if_neg hfull]
        have hc1 : c + 1 < 21845 := by
          unfold sizeof_log_entry BUF_SIZE at hfull
          omega
        rw [ih (idx + 1) fd _ (c + 1) (by rw [hl1]; omega) hc1]
        apply List.map_congr_left
        intro k _
        have : c + 1 + k = c + (k + 1) := by omega
        rw [this]

/-- C35: for every table and every number of slots, each record that `dump_table`
builds lies inside the buffer: there is one record for each live entry, record
number `k` (from 0) is put at `buf_idx = 48 * (k mod 21845)`, and every such
index `b` has `b + 48 <= BUF_SIZE`; the buffer is flushed after the record
that ends at 1048560, the last one to fit.  (`buf_flush` returns 0, its writes
being complete.) -/
theorem C35_records_inside_buffer (table : Nat → flow_entry) (file_size : Nat)
    (fd0 : file_state) :
    dump_table_offsets table (file_size / sizeof_flow_entry) 0 (lseek_set fd0 sizeof_log_hdr) []
      = (List.range (live_entries table (file_size / sizeof_flow_entry) 0).length).map
          (fun k => 48 * (k % 21845)) ∧
    (∀ b, b ∈ dump_table_offsets table (file_size / sizeof_flow_entry) 0
        (lseek_set fd0 sizeof_log_hdr) [] → b + sizeof_log_entry ≤ BUF_SIZE) ∧
    (∀ fd buffer n, (buf_flush fd buffer n).2 = 0) := by
  have h := dump_table_offsets_spec table (file_size / sizeof_flow_entry) 0
    (lseek_set fd0 sizeof_log_hdr) [] 0 rfl (by omega)
  have h2 : (fun k => 48 * ((0 + k) % 21845)) = (fun k => 48 * (k % 21845)) := by
    funext k
    rw [Nat.zero_add]
  rw [h2] at h
  refine ⟨h, ?_, buf_flush_ret⟩
  intro b hb
  rw [h] at hb
  obtain ⟨k, _, hk⟩ := List.mem_map.mp hb
  have hm : k % 21845 < 21845 := Nat.mod_lt _ (by omega)
  unfold sizeof_log_entry BUF_SIZE
  omega

/-! ### The 32 probe slots of a hash -/

theorem probe_slot_mod (cfg : pna_config) (hB : cfg.pna_bits ≤ 32) (h i : Nat) :
    probe_slot cfg h i = (h + i * (i + 1) / 2) % 2 ^ cfg.pna_bits := by
  unfold probe_slot PNA_FLOW_ENTRIES
  rw [Nat.shiftLeft_eq, Nat.one_mul, Nat.and_pow_two_sub_one_eq_mod]
  have hdvd2 : 2 ^ cfg.pna_bits ∣ U32 := by
    have : (2 : Nat) ^ cfg.pna_bits ∣ 2 ^ 32 := Nat.pow_dvd_pow 2 hB
    simpa [U32] using this
  rw [Nat.mod_mod_of_dvd _ hdvd2, Nat.shiftRight_eq_div_pow, Nat.pow_one]
  have e : i + i * i = i * (i + 1) := by ring
  rw [e]

theorem flow_hash_0_lt (cfg : pna_config) (hB : 1 ≤ cfg.pna_bits ∧ cfg.pna_bits ≤ 32)
    (key : pna_flowkey) : flow_hash_0 cfg key < 2 ^ cfg.pna_bits := by
  unfold flow_hash_0 hash_32 shr32
  dsimp only
  generalize (((key.local_ip ^^^ key.remote_ip) % U32 ^^^
    ((key.remote_port <<< 16) % U32 ||| key.local_port) % U32) * GOLDEN_RATIO_PRIME_32) = v
  have hs : sub32 32 cfg.pna_bits % 32 = 32 - cfg.pna_bits := by
    unfold sub32 U32
    omega
  rw [hs, Nat.shiftRight_eq_div_pow]
  have hx : v % U32 < 2 ^ 32 := Nat.mod_lt _ (by decide)
  have hp : (2 : Nat) ^ 32 = 2 ^ cfg.pna_bits * 2 ^ (32 - cfg.pna_bits) := by
    rw [← Nat.pow_add]
    congr 1
    omega
  rw [Nat.div_lt_iff_lt_mul (Nat.pow_pos (by decide))]
  rw [← hp]
  exact hx

/-- C34: in a table of `2^B` slots with `5 <= B <= 31`, for every initial hash `h`
(the `hash_0` that `flowmon_hook` computes is below `2^B`), the slot of probe
`i < 32` is `(h + i(i+1)/2) mod 2^B`, it is below `2^B`, and the 32 slots are
pairwise different.  Hence up to 32 keys with one initial hash are all
inserted: fed into the initial pool without a rotation, `n <= 32` pairwise
different non-null keys of one hash each make `flowmon_hook` return 1, and the
table then has `nflows = n`. -/
theorem C34_probe_slots_distinct (cfg : pna_config)
    (hB : 5 ≤ cfg.pna_bits ∧ cfg.pna_bits ≤ 31) (h : Nat) :
    (∀ i, i < 32 → probe_slot cfg h i = (h + i * (i + 1) / 2) % 2 ^ cfg.pna_bits ∧
      probe_slot cfg h i < 2 ^ cfg.pna_bits) ∧
    (∀ i j, i < 32 → j < 32 → probe_slot cfg h i = probe_slot cfg h j → i = j) ∧
    (∀ key, flow_hash_0 cfg key < 2 ^ cfg.pna_bits) ∧
    (∀ (key : Nat → pna_flowkey) (dir : Nat → Fin 2) (flags len : Nat → Nat) (tv : Nat → Int)
      (n : Nat), n ≤ 32 → 0 < cfg.pna_tables →
      (∀ a b, a < n → b < n → a ≠ b → flowkey_match (key a) (key b) = false) →
      (∀ a, a < n → flowkey_match (key a) null_key = false) →
      (∀ a, a < n → flow_hash_0 cfg (key a) = flow_hash_0 cfg (key 0)) →
      (∀ a, 0 < a → a < n → rotation_due (to_u32 (tv 0)) (tv a) = false) →
      (feed cfg key dir flags len tv n).2 = List.replicate n 1 ∧
      ((feed cfg key dir flags len tv n).1.tables 0).nflows = n) := by
  refine ⟨?_, ?_, ?_, ?_⟩
  · intro i _
    rw [probe_slot_mod cfg (by omega) h i]
    exact ⟨rfl, Nat.mod_lt _ (Nat.pow_pos (by decide))⟩
  · intro i j hi hj hij
    exact probe_slot_inj cfg hB h i j hi hj hij
  · intro key
    exact flow_hash_0_lt cfg ⟨by omega, by omega⟩ key
  · intro key dir flags len tv n hn hT hdist hnn hhash hrot
    obtain ⟨hinv, hres⟩ := feed_prefix cfg key dir flags len tv n hT hB hdist hnn hhash hrot n
      hn (Nat.le_refl n)
    exact ⟨hres, hinv.nflows⟩

set_option maxRecDepth 100000 in
/-- Witness for C34: the pool with `B = 5` and the hash 7; the last part applied to the
32 keys `key_s6 0` .. `key_s6 31`, all fed at second 1001. -/
theorem C34_probe_slots_distinct_witness :
    (5 ≤ cfg_2_5.pna_bits ∧ cfg_2_5.pna_bits ≤ 31) ∧
    (∀ i, i < 32 → probe_slot cfg_2_5 7 i = (7 + i * (i + 1) / 2) % 2 ^ cfg_2_5.pna_bits ∧
      probe_slot cfg_2_5 7 i < 2 ^ cfg_2_5.pna_bits) ∧
    (∀ i j, i < 32 → j < 32 → probe_slot cfg_2_5 7 i = probe_slot cfg_2_5 7 j → i = j) ∧
    (∀ key, flow_hash_0 cfg_2_5 key < 2 ^ cfg_2_5.pna_bits) ∧
    (feed cfg_2_5 key_s6 (fun _ => 0) (fun _ => 0) (fun _ => 100) (fun _ => 1001) 32).2
      = List.replicate 32 1 ∧
    ((feed cfg_2_5 key_s6 (fun _ => 0) (fun _ => 0) (fun _ => 100) (fun _ => 1001) 32).1.tables
      0).nflows = 32 :=
  have hd : ∀ a, a < 32 → ∀ b, b < 32 → a ≠ b → flowkey_match (key_s6 a) (key_s6 b) = false := by
    decide!
  have hn : ∀ a, a < 32 → flowkey_match (key_s6 a) null_key = false := by decide!
  have hh : ∀ a, a < 32 → flow_hash_0 cfg_2_5 (key_s6 a) = flow_hash_0 cfg_2_5 (key_s6 0) := by
    decide!
  have hthm := C34_probe_slots_distinct cfg_2_5 (by decide) 7
  ⟨by decide, hthm.1, hthm.2.1, hthm.2.2.1,
   hthm.2.2.2 key_s6 (fun _ => 0) (fun _ => 0) (fun _ => 100) (fun _ => 1001) 32 (by decide)
     (by decide) (fun a b ha hb hab => hd a ha b hb hab) hn hh
     (fun _ _ _ => (by decide : rotation_due (to_u32 1001) 1001 = false))⟩

/-! ### The decoder does not read the header length of an IPv4 header -/

theorem ip_unread_agree (pkt pkt1 : Nat → Nat) (hdr : Nat)
    (hag : ∀ i, pkt i ≠ pkt1 i → ip_unread hdr i) (p : Nat) (hp : ¬ ip_unread hdr p) :
    pkt1 p = pkt p := by
  by_contra h
  exact hp (hag p (fun e => h e.symm))

theorem rd8_congr (pkt pkt1 : Nat → Nat) (p : Nat) (h : pkt1 p = pkt p) :
    rd8 pkt1 p = rd8 pkt p := by
  unfold rd8
  rw [h]

theorem rd16_congr (pkt pkt1 : Nat → Nat) (p : Nat) (h0 : pkt1 p = pkt p)
    (h1 : pkt1 (p + 1) = pkt (p + 1)) : rd16 pkt1 p = rd16 pkt p := by
  unfold rd16 rd8
  rw [h0, h1]

theorem rd32_congr (pkt pkt1 : Nat → Nat) (p : Nat) (h0 : pkt1 p = pkt p)
    (h1 : pkt1 (p + 1) = pkt (p + 1)) (h2 : pkt1 (p + 2) = pkt (p + 2))
    (h3 : pkt1 (p + 3) = pkt (p + 3)) : rd32 pkt1 p = rd32 pkt p := by
  unfold rd32 rd8
  rw [h0, h1, h2, h3]

theorem raw16_congr (pkt pkt1 : Nat → Nat) (p : Nat) (h0 : pkt1 p = pkt p)
    (h1 : pkt1 (p + 1) = pkt (p + 1)) : raw16 pkt1 p = raw16 pkt p := by
  unfold raw16 rd8
  rw [h0, h1]

theorem raw32_congr (pkt pkt1 : Nat → Nat) (p : Nat) (h0 : pkt1 p = pkt p)
    (h1 : pkt1 (p + 1) = pkt (p + 1)) (h2 : pkt1 (p + 2) = pkt (p + 2))
    (h3 : pkt1 (p + 3) = pkt (p + 3)) : raw32 pkt1 p = raw32 pkt p := by
  unfold raw32 rd8
  rw [h0, h1, h2, h3]

/-- The function `ip_hook` reads the IPv4 header at `iphdr` only in its bytes 4 to 7, 9 and
12 to 19, and the packet from byte 20 behind the header on. -/
theorem ip_hook_ext (pkt pkt1 : Nat → Nat) (fs : frag_state) (key : pna_flowkey)
    (pkt_len iphdr flags : Nat)
    (hag : ∀ i, iphdr + 4 ≤ i → i ≠ iphdr + 8 → i ≠ iphdr + 10 → i ≠ iphdr + 11 →
      pkt1 i = pkt i) :
    ip_hook fs key pkt_len pkt1 (iphdr + 20) iphdr flags
      = ip_hook fs key pkt_len pkt (iphdr + 20) iphdr flags := by
  have a : ∀ k, 4 ≤ k → k ≠ 8 → k ≠ 10 → k ≠ 11 → pkt1 (iphdr + k) = pkt (iphdr + k) :=
    fun k h1 h2 h3 h4 => hag _ (by omega) (by omega) (by omega) (by omega)
  have e6 : rd16 pkt1 (iphdr + 6) = rd16 pkt (iphdr + 6) :=
    rd16_congr _ _ _ (a 6 (by omega) (by omega) (by omega) (by omega))
      (a 7 (by omega) (by omega) (by omega) (by omega))
  have p0 : rd16 pkt1 (iphdr + 20) = rd16 pkt (iphdr + 20) :=
    rd16_congr _ _ _ (a 20 (by omega) (by omega) (by omega) (by omega))
      (a 21 (by omega) (by omega) (by omega) (by omega))
  have p2 : rd16 pkt1 (iphdr + 20 + 2) = rd16 pkt (iphdr + 20 + 2) :=
    rd16_congr _ _ _ (a 22 (by omega) (by omega) (by omega) (by omega))
      (a 23 (by omega) (by omega) (by omega) (by omega))
  have p13 : rd8 pkt1 (iphdr + 20 + 13) = rd8 pkt (iphdr + 20 + 13) :=
    rd8_congr _ _ _ (a 33 (by omega) (by omega) (by omega) (by omega))
  have b0 : rd8 pkt1 (iphdr + 20) = rd8 pkt (iphdr + 20) :=
    rd8_congr _ _ _ (a 20 (by omega) (by omega) (by omega) (by omega))
  have b1 : rd8 pkt1 (iphdr + 20 + 1) = rd8 pkt (iphdr + 20 + 1) :=
    rd8_congr _ _ _ (a 21 (by omega) (by omega) (by omega) (by omega))
  have hfh : pna_frag_hash pkt1 iphdr = pna_frag_hash pkt iphdr :=
    pna_frag_hash_congr pkt pkt1 iphdr iphdr
      (raw32_congr _ _ _ (a 12 (by omega) (by omega) (by omega) (by omega))
        (a 13 (by omega) (by omega) (by omega) (by omega))
        (a 14 (by omega) (by omega) (by omega) (by omega))
        (a 15 (by omega) (by omega) (by omega) (by omega)))
      (raw32_congr _ _ _ (a 16 (by omega) (by omega) (by omega) (by omega))
        (a 17 (by omega) (by omega) (by omega) (by omega))
        (a 18 (by omega) (by omega) (by omega) (by omega))
        (a 19 (by omega) (by omega) (by omega) (by omega)))
      (rd8_congr _ _ _ (a 9 (by omega) (by omega) (by omega) (by omega)))
      (raw16_congr _ _ _ (a 4 (by omega) (by omega) (by omega) (by omega))
        (a 5 (by omega) (by omega) (by omega) (by omega)))
  have hgf : pna_get_frag fs pkt1 iphdr = pna_get_frag fs pkt iphdr := by
    unfold pna_get_frag
    rw [hfh]
  have hsf : ∀ s d, pna_set_frag fs pkt1 iphdr s d = pna_set_frag fs pkt iphdr s d := by
    intro s d
    unfold pna_set_frag
    rw [hgf, hfh]
  unfold ip_hook
  dsimp only
  rw [e6, p0, p2, p13, b0, b1, hgf, hsf]

/-- One call of `ether_hook` gives the same result on two packets when the fields it
reads itself agree and the call it makes (`ip_hook`, or itself behind a GRE
header) gives the same result. -/
theorem ether_hook_step (pkt pkt1 : Nat → Nat) (fuel : Nat) (fs : frag_state)
    (key : pna_flowkey) (pkt_remains off flags : Nat)
    (e9 : rd8 pkt1 (off + 9) = rd8 pkt (off + 9))
    (e12 : rd32 pkt1 (off + 12) = rd32 pkt (off + 12))
    (e16 : rd32 pkt1 (off + 16) = rd32 pkt (off + 16))
    (e20 : rd8 pkt1 (off + 20) = rd8 pkt (off + 20))
    (e22 : rd16 pkt1 (off + 20 + 2) = rd16 pkt (off + 20 + 2))
    (hip : rd8 pkt (off + 9) ≠ IPPROTO_GRE → ∀ k r f,
      ip_hook fs k r pkt1 (off + 20) off f = ip_hook fs k r pkt (off + 20) off f)
    (hrec : rd8 pkt (off + 9) = IPPROTO_GRE → ∀ k r f,
      ether_hook fuel fs k r pkt1 (off + 20 + 4 + gre_pad (rd8 pkt (off + 20))) f
        = ether_hook fuel fs k r pkt (off + 20 + 4 + gre_pad (rd8 pkt (off + 20))) f) :
    ether_hook (fuel + 1) fs key pkt_remains pkt1 off flags
      = ether_hook (fuel + 1) fs key pkt_remains pkt off flags := by
  rw [ether_hook, ether_hook]
  by_cases hl3 : key.l3_protocol = ETHERTYPE_IP
  · rw [if_pos hl3, if_pos hl3]
    by_cases hrem : pkt_remains < 20
    · rw [if_pos hrem, if_pos hrem]
    · rw [if_neg hrem, if_neg hrem]
      dsimp only
      rw [e9, e12, e16, e20, e22]
      by_cases hgre : rd8 pkt (off + 9) = IPPROTO_GRE
      · rw [if_pos hgre, if_pos hgre]
        by_cases hrt : (rd8 pkt (off + 20) >>> 1) &&& 1 ≠ 0
        · rw [if_pos hrt, if_pos hrt]
        · rw [if_neg hrt, if_neg hrt]
          exact hrec hgre _ _ _
      · rw [if_neg hgre, if_neg hgre, hip hgre]
  · rw [if_neg hl3, if_neg hl3]

/-- The function `ether_hook` reads the IPv4 header it is given only in its bytes 4 to 7, 9
and 12 to 19, and the packet behind the header. -/
theorem ether_hook_ext (pkt pkt1 : Nat → Nat) :
    ∀ fuel fs key pkt_remains off flags,
      (∀ i, off + 4 ≤ i → i ≠ off + 8 → i ≠ off + 10 → i ≠ off + 11 → pkt1 i = pkt i) →
      ether_hook fuel fs key pkt_remains pkt1 off flags
        = ether_hook fuel fs key pkt_remains pkt off flags := by
  intro fuel
  induction fuel with
  | zero => intro fs key pkt_remains off flags _; rfl
  | succ fuel ih =>
    intro fs key pkt_remains off flags hag
    have a : ∀ k, 4 ≤ k → k ≠ 8 → k ≠ 10 → k ≠ 11 → pkt1 (off + k) = pkt (off + k) :=
      fun k h1 h2 h3 h4 => hag _ (by omega) (by omega) (by omega) (by omega)
    refine ether_hook_step pkt pkt1 fuel fs key pkt_remains off flags
      (rd8_congr _ _ _ (a 9 (by omega) (by omega) (by omega) (by omega)))
      (rd32_congr _ _ _ (a 12 (by omega) (by omega) (by omega) (by omega))
        (a 13 (by omega) (by omega) (by omega) (by omega))
        (a 14 (by omega) (by omega) (by omega) (by omega))
        (a 15 (by omega) (by omega) (by omega) (by omega)))
      (rd32_congr _ _ _ (a 16 (by omega) (by omega) (by omega) (by omega))
        (a 17 (by omega) (by omega) (by omega) (by omega))
        (a 18 (by omega) (by omega) (by omega) (by omega))
        (a 19 (by omega) (by omega) (by omega) (by omega)))
      (rd8_congr _ _ _ (a 20 (by omega) (by omega) (by omega) (by omega)))
      (rd16_congr _ _ _ (a 22 (by omega) (by omega) (by omega) (by omega))
        (a 23 (by omega) (by omega) (by omega) (by omega)))
      (fun _ k r f => ip_hook_ext pkt pkt1 fs k r off f hag)
      (fun _ k r f => ih fs k r _ f
        (fun i h1 h2 h3 h4 => hag i (by omega) (by omega) (by omega) (by omega)))

theorem gre_path_le (pkt : Nat → Nat) (off hdr : Nat) (h : gre_path pkt off hdr) :
    off ≤ hdr := by
  induction h with
  | here off => exact Nat.le_refl off
  | gre off hdr _ _ ih => omega

/-- The result of `ether_hook` on the IPv4 header at `off` is the same for two packets
that differ only in unread bytes of an IPv4 header reached from `off` through
GRE encapsulations. -/
theorem ether_hook_ip_bytes (pkt pkt1 : Nat → Nat) (off hdr : Nat)
    (hp : gre_path pkt off hdr) (hag : ∀ i, pkt i ≠ pkt1 i → ip_unread hdr i) :
    ∀ fuel fs key pkt_remains flags,
      ether_hook fuel fs key pkt_remains pkt1 off flags
        = ether_hook fuel fs key pkt_remains pkt off flags := by
  induction hp with
  | here off =>
    intro fuel fs key pkt_remains flags
    refine ether_hook_ext pkt pkt1 fuel fs key pkt_remains off flags ?_
    intro i h1 h2 h3 h4
    exact ip_unread_agree pkt pkt1 off hag i (by unfold ip_unread; omega)
  | gre off hdr hproto hpath ih =>
    intro fuel fs key pkt_remains flags
    have hle := gre_path_le pkt _ hdr hpath
    have a : ∀ k, k < 24 → pkt1 (off + k) = pkt (off + k) :=
      fun k hk => ip_unread_agree pkt pkt1 hdr hag _ (by unfold ip_unread; omega)
    cases fuel with
    | zero => rfl
    | succ fuel =>
      exact ether_hook_step pkt pkt1 fuel fs key pkt_remains off flags
        (rd8_congr _ _ _ (a 9 (by omega)))
        (rd32_congr _ _ _ (a 12 (by omega)) (a 13 (by omega)) (a 14 (by omega))
          (a 15 (by omega)))
        (rd32_congr _ _ _ (a 16 (by omega)) (a 17 (by omega)) (a 18 (by omega))
          (a 19 (by omega)))
        (rd8_congr _ _ _ (a 20 (by omega)))
        (rd16_congr _ _ _ (a 22 (by omega)) (a 23 (by omega)))
        (fun hne => absurd hproto hne)
        (fun _ k r f => ih hag fuel fs k r f)

/-- The VLAN loop gives the same result on two packets that agree before the header
that follows the tags. -/
theorem vlan_loop_ext (pkt pkt1 : Nat → Nat) (L : Nat) (hag : ∀ i, i < L → pkt1 i = pkt i) :
    ∀ n cd off rem l3, (vlan_loop pkt n cd off rem l3).2.1 + 14 ≤ L →
      vlan_loop pkt1 n cd off rem l3 = vlan_loop pkt n cd off rem l3 := by
  intro n
  induction n with
  | zero => intro cd off rem l3 _; rfl
  | succ n ih =>
    intro cd off rem l3 hL
    by_cases hl : l3 = ETHERTYPE_VLAN
    · simp only [vlan_loop, hl, if_true] at hL ⊢
      obtain ⟨_, _, h3⟩ := vlan_loop_off pkt n (cd + 1) (off + 4) (sub32 rem 4)
        (rd16 pkt (off + 4 + 12))
      have e : rd16 pkt1 (off + 4 + 12) = rd16 pkt (off + 4 + 12) :=
        rd16_congr _ _ _ (hag _ (by omega)) (hag _ (by omega))
      rw [e]
      exact ih _ _ _ _ hL
    · simp only [vlan_loop, hl, if_false]

/-- C32: the decoder does not depend on the version and header-length byte, the type of
service, the total length, the time to live or the checksum of an IPv4
header.  For every header `hdr` on the path of the decoder (the IPv4 header
behind the VLAN tags, or one reached from it through GRE encapsulations) and
every two frames of one length that differ only in those bytes of that header,
`pna_hook` drops both or passes the same key, direction and flags to
`flowmon_hook`, and leaves the same state. -/
theorem C32_ip_header_bytes_ignored (fuel : Nat) (head : pna_dtrie_entry) (fs : frag_state)
    (pkt_len : Nat) (pkt pkt1 : Nat → Nat) (hdr : Nat)
    (hpath : gre_path pkt
      ((vlan_loop pkt PNA_MAX_CHECKS 0 0 pkt_len (rd16 pkt 12)).2.1 + 14) hdr)
    (hag : ∀ i, pkt i ≠ pkt1 i → ip_unread hdr i) :
    pna_hook_decode fuel head fs pkt_len pkt1 = pna_hook_decode fuel head fs pkt_len pkt ∧
    ∀ cfg frag flowmon tv_sec,
      pna_hook fuel cfg ⟨head, frag, flowmon⟩ pkt_len tv_sec pkt1
        = pna_hook fuel cfg ⟨head, frag, flowmon⟩ pkt_len tv_sec pkt := by
  have hle := gre_path_le pkt _ hdr hpath
  have hlow : ∀ i, i < hdr → pkt1 i = pkt i :=
    fun i hi => ip_unread_agree pkt pkt1 hdr hag i (by unfold ip_unread; omega)
  have e12 : rd16 pkt1 12 = rd16 pkt 12 :=
    rd16_congr _ _ _ (hlow _ (by omega)) (hlow _ (by omega))
  have hv : vlan_loop pkt1 PNA_MAX_CHECKS 0 0 pkt_len (rd16 pkt 12)
      = vlan_loop pkt PNA_MAX_CHECKS 0 0 pkt_len (rd16 pkt 12) :=
    vlan_loop_ext pkt pkt1 hdr hlow _ _ _ _ _ hle
  have hdec : ∀ fs0, pna_hook_decode fuel head fs0 pkt_len pkt1
      = pna_hook_decode fuel head fs0 pkt_len pkt := by
    intro fs0
    unfold pna_hook_decode
    simp only [e12, hv]
    generalize vlan_loop pkt PNA_MAX_CHECKS 0 0 pkt_len (rd16 pkt 12) = v at hpath
    obtain ⟨cd, off, rem, l3⟩ := v
    simp only at hpath ⊢
    rw [ether_hook_ip_bytes pkt pkt1 (off + 14) hdr hpath hag]
  refine ⟨hdec fs, ?_⟩
  intro cfg frag flowmon tv_sec
  unfold pna_hook
  simp only [hdec]

/-- Witness for C32: the frame of scenario S1 and the same frame with header length 6,
type of service 0x10, total length 0xFFFF, time to live 1 and checksum 0xBEEF
in its IPv4 header at offset 14; both are decoded to the key of scenario S1. -/
theorem C32_ip_header_bytes_ignored_witness :
    gre_path (pkt_of frame_s1)
      ((vlan_loop (pkt_of frame_s1) PNA_MAX_CHECKS 0 0 114 (rd16 (pkt_of frame_s1) 12)).2.1 + 14)
      14 ∧
    (∀ i, pkt_of frame_s1 i ≠ frame_s1_ip_bytes i → ip_unread 14 i) ∧
    frame_s1_ip_bytes 14 ≠ pkt_of frame_s1 14 ∧
    (pna_hook_decode 1 trie_10_8 frag_init 114 frame_s1_ip_bytes).map (fun r => r.2)
      = some (some (key_s1, 0, 0x02)) ∧
    (pna_hook_decode 1 trie_10_8 frag_init 114 frame_s1_ip_bytes
        = pna_hook_decode 1 trie_10_8 frag_init 114 (pkt_of frame_s1) ∧
      ∀ cfg frag flowmon tv_sec,
        pna_hook 1 cfg ⟨trie_10_8, frag, flowmon⟩ 114 tv_sec frame_s1_ip_bytes
          = pna_hook 1 cfg ⟨trie_10_8, frag, flowmon⟩ 114 tv_sec (pkt_of frame_s1)) := by
  have hv : (vlan_loop (pkt_of frame_s1) PNA_MAX_CHECKS 0 0 114
      (rd16 (pkt_of frame_s1) 12)).2.1 = 0 := by decide
  have hp : gre_path (pkt_of frame_s1)
      ((vlan_loop (pkt_of frame_s1) PNA_MAX_CHECKS 0 0 114 (rd16 (pkt_of frame_s1) 12)).2.1 + 14)
      14 := by
    rw [hv]
    exact gre_path.here 14
  have hag : ∀ i, pkt_of frame_s1 i ≠ frame_s1_ip_bytes i → ip_unread 14 i := by
    intro i h
    by_contra hn
    apply h
    unfold ip_unread at hn
    simp only [not_or] at hn
    obtain ⟨h1, h2, h3, h4, h5, h6, h7⟩ := hn
    simp only [frame_s1_ip_bytes, upd]
    rw [if_neg (by omega), if_neg (by omega), if_neg (by omega), if_neg (by omega),
      if_neg (by omega), if_neg (by omega), if_neg (by omega)]
  exact ⟨hp, hag, by decide, by decide,
    C32_ip_header_bytes_ignored 1 trie_10_8 frag_init 114 (pkt_of frame_s1) frame_s1_ip_bytes 14
      hp hag⟩

/-! ### One slot per flow -/

theorem flowkey_match_congr_left (a b : pna_flowkey) (h : flowkey_match a b = true)
    (x : pna_flowkey) : flowkey_match a x = flowkey_match b x := by
  unfold flowkey_match at *
  simp only [decide_eq_true_eq] at h
  obtain ⟨h1, h2, h3, h4, h5, h6⟩ := h
  rw [h1, h2, h3, h4, h5, h6]

theorem flowkey_match_congr_right (a b : pna_flowkey) (h : flowkey_match a b = true)
    (x : pna_flowkey) : flowkey_match x a = flowkey_match x b := by
  rw [flowkey_match_symm x a, flowkey_match_symm x b]
  exact flowkey_match_congr_left a b h x

theorem flow_hash_0_match (cfg : pna_config) (a b : pna_flowkey)
    (h : flowkey_match a b = true) : flow_hash_0 cfg a = flow_hash_0 cfg b := by
  unfold flowkey_match at h
  simp only [decide_eq_true_eq] at h
  obtain ⟨_, _, h3, h4, h5, h6⟩ := h
  unfold flow_hash_0
  rw [h3, h4, h5, h6]

theorem flow_slot_match (cfg : pna_config) (a b : pna_flowkey)
    (h : flowkey_match a b = true) (i : Nat) : flow_slot cfg a i = flow_slot cfg b i := by
  unfold flow_slot
  rw [flow_hash_0_match cfg a b h]

theorem probe_miss_match (cfg : pna_config) (ft : Nat → flow_entry) (a b : pna_flowkey)
    (h : flowkey_match a b = true) (j : Nat) (hm : probe_miss cfg ft a j) :
    probe_miss cfg ft b j := by
  unfold probe_miss at *
  rw [← flow_hash_0_match cfg a b h, ← flowkey_match_congr_right a b h]
  exact hm

theorem probe_miss_keys (cfg : pna_config) (ft ft1 : Nat → flow_entry)
    (hk : ∀ sl, (ft1 sl).key = (ft sl).key) (k : pna_flowkey) (j : Nat)
    (hm : probe_miss cfg ft k j) : probe_miss cfg ft1 k j := by
  unfold probe_miss at *
  rw [hk]
  exact hm

theorem probe_chain_keys (cfg : pna_config) (ft ft1 : Nat → flow_entry)
    (hk : ∀ sl, (ft1 sl).key = (ft sl).key) (h : probe_chain cfg ft) : probe_chain cfg ft1 := by
  constructor
  · intro sl hsl
    rw [hk] at hsl ⊢
    exact h.null_exact sl hsl
  · intro sl hsl
    rw [hk] at hsl
    obtain ⟨i, hi, hs, hm⟩ := h.chain sl hsl
    refine ⟨i, hi, ?_, ?_⟩
    · rw [hk]; exact hs
    · intro j hj
      rw [hk]
      exact probe_miss_keys cfg ft ft1 hk _ j (hm j hj)

theorem probe_chain_zero (cfg : pna_config) : probe_chain cfg (fun _ => zero_entry) := by
  constructor
  · intro sl _; rfl
  · intro sl hsl
    exact absurd hsl (by decide)

/-- Under the invariant no two slots of a table hold keys that match. -/
theorem probe_chain_unique (cfg : pna_config) (ft : Nat → flow_entry) (h : probe_chain cfg ft)
    (a b : Nat) (ha : flowkey_match (ft a).key null_key = false)
    (hab : flowkey_match (ft a).key (ft b).key = true) : a = b := by
  have hb : flowkey_match (ft b).key null_key = false := by
    rw [← flowkey_match_congr_left _ _ hab]; exact ha
  have hba : flowkey_match (ft b).key (ft a).key = true := by
    rw [flowkey_match_symm]; exact hab
  obtain ⟨ia, _, sa, ma⟩ := h.chain a ha
  obtain ⟨ib, _, sb, mb⟩ := h.chain b hb
  rcases Nat.lt_trichotomy ia ib with hlt | heq | hgt
  · exfalso
    have hm := (mb ia hlt).1
    have hs : probe_slot cfg (flow_hash_0 cfg (ft b).key) ia = a := by
      have := flow_slot_match cfg _ _ hba ia
      unfold flow_slot at this sa
      rw [this]; exact sa
    rw [hs, hab] at hm
    cases hm
  · rw [← sa, ← sb, heq]
    exact flow_slot_match cfg _ _ hab ib
  · exfalso
    have hm := (ma ib hgt).1
    have hs : probe_slot cfg (flow_hash_0 cfg (ft a).key) ib = b := by
      have := flow_slot_match cfg _ _ hab ib
      unfold flow_slot at this sb
      rw [this]; exact sb
    rw [hs, hba] at hm
    cases hm

theorem probe_miss_upd (cfg : pna_config) (ft : Nat → flow_entry) (k : pna_flowkey) (j s0 : Nat)
    (e : flow_entry) (hm : probe_miss cfg ft k j)
    (h0 : flowkey_match (ft s0).key null_key = true) : probe_miss cfg (upd ft s0 e) k j := by
  unfold probe_miss at *
  have hne : probe_slot cfg (flow_hash_0 cfg k) j ≠ s0 := by
    intro heq
    have := hm.2
    rw [heq, h0] at this
    cases this
  rw [upd_other _ _ _ _ hne]
  exact hm

/-- The invariant survives the insert branch of `flowmon_hook`. -/
theorem probe_chain_insert (cfg : pna_config) (ft : Nat → flow_entry) (h : probe_chain cfg ft)
    (key : pna_flowkey) (hkey : flowkey_match key null_key = false) (c : Nat) (hc0 : 0 < c)
    (hc : c ≤ 32) (hmiss : ∀ j, j + 1 < c → probe_miss cfg ft key j)
    (h0 : flowkey_match (ft (flow_slot cfg key (c - 1))).key null_key = true)
    (data : pna_flow_data) :
    probe_chain cfg (upd ft (flow_slot cfg key (c - 1)) { key := key, data := data }) := by
  constructor
  · intro sl hsl
    by_cases hs : sl = flow_slot cfg key (c - 1)
    · rw [hs, upd_same] at hsl
      rw [hkey] at hsl
      cases hsl
    · rw [upd_other _ _ _ _ hs] at hsl ⊢
      exact h.null_exact sl hsl
  · intro sl hsl
    by_cases hs : sl = flow_slot cfg key (c - 1)
    · rw [hs, upd_same]
      refine ⟨c - 1, by omega, rfl, ?_⟩
      intro j hj
      exact probe_miss_upd cfg ft key j _ _ (hmiss j (by omega)) h0
    · rw [upd_other _ _ _ _ hs] at hsl ⊢
      obtain ⟨i, hi, hsi, hm⟩ := h.chain sl hsl
      exact ⟨i, hi, hsi, fun j hj => probe_miss_upd cfg ft _ j _ _ (hm j hj) h0⟩

theorem flowtab_get_dumps (cfg : pna_config) (s : flowmon_state) (tv_sec : Int) :
    (flowtab_get cfg s tv_sec).1.dumps = s.dumps ∨
    (flowtab_get cfg s tv_sec).1.dumps
      = s.dumps ++ [((s.tables s.flowtab_idx).table_id, (s.tables s.flowtab_idx).flowtab)] := by
  by_cases hr : rotates s tv_sec
  · right
    rw [flowtab_get_rot cfg s tv_sec hr, (flowtab_get_claim_view cfg _ tv_sec).1]
    rfl
  · left
    by_cases hd : (s.tables s.flowtab_idx).table_dirty ≠ 0
    · rw [flowtab_get_keep cfg s tv_sec hd hr]
    · rw [flowtab_get_clean cfg s tv_sec (by simpa using hd),
        (flowtab_get_claim_view cfg s tv_sec).1]

theorem flowtab_get_pool_chain (cfg : pna_config) (s : flowmon_state) (tv_sec : Int)
    (h : pool_chain cfg s) : pool_chain cfg (flowtab_get cfg s tv_sec).1 := by
  constructor
  · intro t
    have hv := (flowtab_get_view cfg s tv_sec).1 t
    by_cases hz : rotates s tv_sec ∧ t = s.flowtab_idx
    · have hf : ((flowtab_get cfg s tv_sec).1.tables t).flowtab = fun _ => zero_entry := by
        funext sl
        rw [hv sl]
        unfold flow_base
        rw [if_pos hz]
      rw [hf]
      exact probe_chain_zero cfg
    · have hf : ((flowtab_get cfg s tv_sec).1.tables t).flowtab = (s.tables t).flowtab := by
        funext sl
        rw [hv sl]
        unfold flow_base
        rw [if_neg hz]
      rw [hf]
      exact h.tables t
  · intro d hd
    rcases flowtab_get_dumps cfg s tv_sec with he | he
    · rw [he] at hd
      exact h.dumps d hd
    · rw [he] at hd
      rcases List.mem_append.mp hd with h1 | h1
      · exact h.dumps d h1
      · rw [List.mem_singleton] at h1
        rw [h1]
        exact h.tables _

theorem with_table_pool_chain (cfg : pna_config) (s1 : flowmon_state) (idx : Nat)
    (info : flowtab_info) (h : pool_chain cfg s1) (hi : probe_chain cfg info.flowtab) :
    pool_chain cfg (with_table s1 idx info) := by
  constructor
  · intro t
    show probe_chain cfg (upd s1.tables idx info t).flowtab
    by_cases ht : t = idx
    · rw [ht, upd_same]; exact hi
    · rw [upd_other _ _ _ _ ht]; exact h.tables t
  · intro d hd
    exact h.dumps d hd

theorem flowmon_hook_pool_chain (cfg : pna_config) (s : flowmon_state) (key : pna_flowkey)
    (direction : Fin 2) (flags pkt_len : Nat) (tv_sec : Int)
    (hkey : flowkey_match key null_key = false) (h : pool_chain cfg s) :
    pool_chain cfg (flowmon_hook cfg s key direction flags pkt_len tv_sec).2 := by
  have hg := flowtab_get_pool_chain cfg s tv_sec h
  cases hget : flowtab_get cfg s tv_sec with
  | mk s1 oi =>
    rw [hget] at hg
    simp only at hg
    cases oi with
    | none =>
      rw [flowmon_hook_none cfg s s1 key direction flags pkt_len tv_sec hget]
      exact hg
    | some idx =>
      obtain ⟨c, hc, hpre, hcase⟩ :=
        flowmon_hook_cases cfg s s1 idx key direction flags pkt_len tv_sec hget
      rcases hcase with ⟨_, _, h3⟩ | ⟨_, _, h3⟩ | ⟨h1, _, h2, h3⟩
      · rw [h3]
        exact with_table_pool_chain cfg s1 idx _ hg (hg.tables idx)
      · rw [h3]
        refine with_table_pool_chain cfg s1 idx _ hg ?_
        refine probe_chain_keys cfg (s1.tables idx).flowtab _ ?_ (hg.tables idx)
        intro sl
        show (upd (s1.tables idx).flowtab (flow_slot cfg key (c - 1)) _ sl).key = _
        by_cases hs : sl = flow_slot cfg key (c - 1)
        · rw [hs, upd_same]
        · rw [upd_other _ _ _ _ hs]
      · rw [h3]
        refine with_table_pool_chain cfg s1 idx _ hg ?_
        exact probe_chain_insert cfg (s1.tables idx).flowtab (hg.tables idx) key hkey c h1 hc
          hpre h2 _

theorem flowmon_reachable_pool_chain (cfg : pna_config) (s : flowmon_state)
    (hs : flowmon_reachable cfg s) : pool_chain cfg s := by
  induction hs with
  | init =>
    exact ⟨fun _ => probe_chain_zero cfg, fun d hd => absurd hd (List.not_mem_nil d)⟩
  | hook s key direction flags pkt_len tv_sec _ hkey ih =>
    exact flowmon_hook_pool_chain cfg s key direction flags pkt_len tv_sec hkey ih

theorem live_entries_mem (ft : Nat → flow_entry) :
    ∀ n idx e, e ∈ live_entries ft n idx →
      ∃ sl, idx ≤ sl ∧ e = ft sl ∧ (ft sl).key ≠ null_key := by
  intro n
  induction n with
  | zero => intro idx e he; simp [live_entries] at he
  | succ n ih =>
    intro idx e he
    by_cases hk : (ft idx).key = null_key
    · simp only [live_entries, hk, if_true] at he
      obtain ⟨sl, h1, h2, h3⟩ := ih (idx + 1) e he
      exact ⟨sl, by omega, h2, h3⟩
    · simp only [live_entries, hk, if_false, List.mem_cons] at he
      rcases he with he | he
      · exact ⟨idx, Nat.le_refl _, he, hk⟩
      · obtain ⟨sl, h1, h2, h3⟩ := ih (idx + 1) e he
        exact ⟨sl, by omega, h2, h3⟩

/-- Under the invariant the live entries of a table, which are the entries `dump_table`
writes a record for, have pairwise different keys. -/
theorem live_entries_pairwise (cfg : pna_config) (ft : Nat → flow_entry)
    (h : probe_chain cfg ft) :
    ∀ n idx, (live_entries ft n idx).Pairwise
      (fun e1 e2 => flowkey_match e1.key e2.key = false) := by
  intro n
  induction n with
  | zero => intro idx; exact List.Pairwise.nil
  | succ n ih =>
    intro idx
    by_cases hk : (ft idx).key = null_key
    · simp only [live_entries, hk, if_true]
      exact ih (idx + 1)
    · simp only [live_entries, hk, if_false]
      refine List.Pairwise.cons ?_ (ih (idx + 1))
      intro e he
      obtain ⟨sl, h1, h2, _⟩ := live_entries_mem ft n (idx + 1) e he
      have hnn : flowkey_match (ft idx).key null_key = false := by
        cases hm : flowkey_match (ft idx).key null_key with
        | false => rfl
        | true => exact absurd (h.null_exact idx hm) hk
      cases hm : flowkey_match (ft idx).key e.key with
      | false => rfl
      | true =>
        exfalso
        rw [h2] at hm
        have := probe_chain_unique cfg ft h idx sl hnn hm
        omega

/-- A packet whose key sits in a slot of the table the hook works on updates that slot. -/
theorem flowmon_hook_updates_slot (cfg : pna_config) (hT : 0 < cfg.pna_tables)
    (s : flowmon_state) (hs : flowmon_reachable cfg s) (key : pna_flowkey)
    (direction : Fin 2) (flags pkt_len : Nat) (tv_sec : Int) (sl : Nat)
    (hkey : flowkey_match key null_key = false)
    (hsl : flowkey_match ((hook_table cfg s tv_sec).flowtab sl).key key = true) :
    ∃ c, 0 < c ∧ c ≤ 32 ∧ flow_slot cfg key (c - 1) = sl ∧
      flowmon_hook cfg s key direction flags pkt_len tv_sec
        = (0, with_table (flowtab_get cfg s tv_sec).1 (flowtab_get cfg s tv_sec).1.flowtab_idx
              (table_updated (hook_table cfg s tv_sec) c sl direction flags pkt_len tv_sec)) := by
  have hinv := flowmon_reachable_inv cfg hT s hs
  have hget := flowtab_get_pair cfg s tv_sec hT hinv
  have hpc := (flowtab_get_pool_chain cfg s tv_sec (flowmon_reachable_pool_chain cfg s hs)).tables
    (flowtab_get cfg s tv_sec).1.flowtab_idx
  have hft : ∃ ft, ft = (hook_table cfg s tv_sec).flowtab := ⟨_, rfl⟩
  obtain ⟨ft, hft⟩ := hft
  have hpc1 : probe_chain cfg ft := by rw [hft]; exact hpc
  rw [← hft] at hsl
  have hnn : flowkey_match (ft sl).key null_key = false := by
    rw [flowkey_match_congr_left _ _ hsl]; exact hkey
  obtain ⟨i, hi, hsi, hm⟩ := hpc1.chain sl hnn
  have hsi2 : flow_slot cfg key i = sl := by
    rw [← flow_slot_match cfg _ _ hsl i]; exact hsi
  have hmiss : ∀ j, j < i → probe_miss cfg ft key j :=
    fun j hj => probe_miss_match cfg ft _ _ hsl j (hm j hj)
  subst hsi2
  have hhit : flowkey_match (ft (probe_slot cfg (flow_hash_0 cfg key) i)).key key = true := hsl
  have hp := flowmon_probe_update cfg key direction flags pkt_len tv_sec PNA_TABLE_TRIES i
    (hook_table cfg s tv_sec) hi (by rw [← hft]; exact hmiss) (by rw [← hft]; exact hhit)
  refine ⟨i + 1, by omega, by omega, rfl, ?_⟩
  rw [flowmon_hook_some cfg s (flowtab_get cfg s tv_sec).1 (flowtab_get cfg s tv_sec).1.flowtab_idx
    key direction flags pkt_len tv_sec (some 0) _ hget hp]
  rfl

/-- C31: in every state of the pool reached from the zeroed tables by `flowmon_hook`
calls with non-null keys, no two slots of a table hold matching keys; the live
entries of every table handed to `dump_table`, and of every table of the pool,
which get one record each in the dump file, have pairwise different keys; and
a packet whose (non-null) key sits in slot `sl` of the table the hook works on
makes `flowmon_hook` return 0 and update the data of that slot. -/
theorem C31_one_slot_per_flow (cfg : pna_config) (hT : 0 < cfg.pna_tables) (s : flowmon_state)
    (hs : flowmon_reachable cfg s) :
    (∀ t a b, flowkey_match ((s.tables t).flowtab a).key null_key = false →
      flowkey_match ((s.tables t).flowtab a).key ((s.tables t).flowtab b).key = true → a = b) ∧
    (∀ d, d ∈ s.dumps → ∀ n, (live_entries d.2 n 0).Pairwise
      (fun e1 e2 => flowkey_match e1.key e2.key = false)) ∧
    (∀ t n, (live_entries (s.tables t).flowtab n 0).Pairwise
      (fun e1 e2 => flowkey_match e1.key e2.key = false)) ∧
    (∀ key direction flags pkt_len tv_sec sl, flowkey_match key null_key = false →
      flowkey_match ((hook_table cfg s tv_sec).flowtab sl).key key = true →
      ∃ c, 0 < c ∧ c ≤ 32 ∧ flow_slot cfg key (c - 1) = sl ∧
        flowmon_hook cfg s key direction flags pkt_len tv_sec
          = (0, with_table (flowtab_get cfg s tv_sec).1 (flowtab_get cfg s tv_sec).1.flowtab_idx
                (table_updated (hook_table cfg s tv_sec) c sl direction flags pkt_len
                  tv_sec))) := by
  have hp := flowmon_reachable_pool_chain cfg s hs
  refine ⟨?_, ?_, ?_, ?_⟩
  · intro t a b ha hab
    exact probe_chain_unique cfg _ (hp.tables t) a b ha hab
  · intro d hd n
    exact live_entries_pairwise cfg d.2 (hp.dumps d hd) n 0
  · intro t n
    exact live_entries_pairwise cfg _ (hp.tables t) n 0
  · intro key direction flags pkt_len tv_sec sl hkey hsl
    exact flowmon_hook_updates_slot cfg hT s hs key direction flags pkt_len tv_sec sl hkey hsl

theorem state_s5_rotated_reachable : flowmon_reachable cfg_2_4 state_s5_rotated :=
  flowmon_reachable.hook _ key_s1 0 0x10 100 1010 state_s5_reachable (by decide)

/-- Witness for C31 (scenario S5): the pool after three flows and the rotation at
second 1010; table 0 was handed to `dump_table` with its three entries. -/
theorem C31_one_slot_per_flow_witness :
    0 < cfg_2_4.pna_tables ∧ flowmon_reachable cfg_2_4 state_s5_rotated ∧
    state_s5_rotated.dumps.map (fun d => (live_entries d.2 16 0).length) = [3] ∧
    ((∀ t a b, flowkey_match ((state_s5_rotated.tables t).flowtab a).key null_key = false →
      flowkey_match ((state_s5_rotated.tables t).flowtab a).key
        ((state_s5_rotated.tables t).flowtab b).key = true → a = b) ∧
    (∀ d, d ∈ state_s5_rotated.dumps → ∀ n, (live_entries d.2 n 0).Pairwise
      (fun e1 e2 => flowkey_match e1.key e2.key = false)) ∧
    (∀ t n, (live_entries (state_s5_rotated.tables t).flowtab n 0).Pairwise
      (fun e1 e2 => flowkey_match e1.key e2.key = false)) ∧
    (∀ key direction flags pkt_len tv_sec sl, flowkey_match key null_key = false →
      flowkey_match ((hook_table cfg_2_4 state_s5_rotated tv_sec).flowtab sl).key key = true →
      ∃ c, 0 < c ∧ c ≤ 32 ∧ flow_slot cfg_2_4 key (c - 1) = sl ∧
        flowmon_hook cfg_2_4 state_s5_rotated key direction flags pkt_len tv_sec
          = (0, with_table (flowtab_get cfg_2_4 state_s5_rotated tv_sec).1
                (flowtab_get cfg_2_4 state_s5_rotated tv_sec).1.flowtab_idx
                (table_updated (hook_table cfg_2_4 state_s5_rotated tv_sec) c sl direction
                  flags pkt_len tv_sec)))) :=
  ⟨by decide, state_s5_rotated_reachable, by decide,
   C31_one_slot_per_flow cfg_2_4 (by decide) state_s5_rotated state_s5_rotated_reachable⟩

end PNA
